import Mathlib

/-!
# tsig: mesh and tile-layout generation for display surfaces

A shallow embedding of the shape generators of `shapes/tsigCube.go`,
`shapes/tsigCurve.go` and `shapes/tsigSphereCap.go`.

Conventions of the embedding:

* a `float64` is an element of a linearly ordered field `α` with a floor
  function; arithmetic is exact (no rounding, no NaN, no infinities) and the
  definitions are evaluated at `α = ℚ`; a division by zero has Lean's value 0;
* the rounding of `float64` is modelled apart, in the type `F64`: the
  dimension check, the loop counters and the tile counts of the cube and of
  the curve depend on it, and `halfCubeFence64`, `Cube.Generate64` and
  `Curve.Generate64` are their transcriptions to rounded arithmetic;
* a Go `int` that only counts upwards from a non-negative start is a `ℕ`, any
  other `int` is a `ℤ`; 64-bit wrap-around is not modelled;
* the functions of Go's `math` package that are not field operations
  (`Sin`, `Cos`, `Asin`, `Sqrt`) and the constant `Pi` are parameters,
  collected in `MathLib`;
* an `io.Writer` is a state machine (`Writer`); the text written to the mesh
  sink is kept as a list of structured lines (`ObjLine`) and the JSON document
  written to the layout sink as the value that is encoded (`TPIG`);
* every loop runs under a step budget `fuel`; a run ends in an `Outcome`.
-/

namespace Tsig

/-! ## Numbers -/

section Numeric

variable {α : Type} [LinearOrderedField α] [FloorRing α]

/-- Go's conversion `int(x)` of a float: the fraction is discarded
(truncation toward zero). -/
def int (x : α) : ℤ := if 0 ≤ x then ⌊x⌋ else ⌈x⌉

namespace math

/-- Go's `math.Ceil`. -/
def Ceil (x : α) : α := ((⌈x⌉ : ℤ) : α)

/-- Go's `math.Round`: the nearest integer, halves away from zero. -/
def Round (x : α) : α :=
  if 0 ≤ x then ((⌊x + 1 / 2⌋ : ℤ) : α) else ((⌈x - 1 / 2⌉ : ℤ) : α)

end math

end Numeric

/-- The part of Go's `math` package that is not field arithmetic. -/
structure MathLib (α : Type) where
  Pi : α
  Sin : α → α
  Cos : α → α
  Asin : α → α
  Sqrt : α → α

/-! ## Output data -/

/-- Modelled from the spec: the pixel pair `gridgen.XY` of the external
opentsg-core module, with the fields the generators set. -/
structure XY where
  X : ℤ
  Y : ℤ
deriving DecidableEq, Repr

/-- Modelled from the spec: `gridgen.Positions`, a tile's flat pixel origin
and size. -/
structure Positions where
  Flat : XY
  Size : XY
deriving DecidableEq, Repr

/-- Modelled from the spec: `gridgen.Tilelayout`, one entry of the tile list. -/
structure Tilelayout where
  Layout : Positions
deriving DecidableEq, Repr

/-- The zero value of `gridgen.Tilelayout`, with which `make` fills a slice. -/
def Tilelayout.zero : Tilelayout := ⟨⟨⟨0, 0⟩, ⟨0, 0⟩⟩⟩

/-- Modelled from the spec: `gridgen.XY2D`, the flat bounding box. -/
structure XY2D where
  X0 : ℤ
  X1 : ℤ
  Y0 : ℤ
  Y1 : ℤ
deriving DecidableEq, Repr

/-- Modelled from the spec: `gridgen.Dimensions`. -/
structure Dimensions where
  Flat : XY2D
deriving DecidableEq, Repr

/-- Modelled from the spec: `gridgen.TPIG`, the tile-layout document that is
JSON-encoded into the layout sink. -/
structure TPIG where
  Tilelayout : List Tilelayout
  Dimensions : Dimensions
deriving DecidableEq, Repr

/-- One line of the mesh text: `v x y z`, `vt u v` or
`f a/b c/d e/f g/h`. -/
inductive ObjLine (α : Type) where
  | v (x y z : α)
  | vt (u v : α)
  | f (v1 t1 v2 t2 v3 t3 v4 t4 : ℕ)
deriving DecidableEq, Repr

/-- The face line written for the current `vertexCount`:
`f n/n n+1/n+1 n+2/n+2 n+3/n+3`. -/
def faceLine {α : Type} (vertexCount : ℕ) : ObjLine α :=
  .f vertexCount vertexCount (vertexCount + 1) (vertexCount + 1)
    (vertexCount + 2) (vertexCount + 2) (vertexCount + 3) (vertexCount + 3)

/-- Order of emission: a face line appended to the mesh text, or an entry
stored in the tile list at an index. This log is not part of the output; it
records the interleaving of the two kinds of emission. -/
inductive Emission where
  | face (vertexCount : ℕ)
  | tile (index : ℕ)
deriving DecidableEq, Repr

/-! ## Sinks, errors, outcomes -/

/-- An `io.Writer` for payloads of type `β`: `write` gives the state of the
sink after the call and the error it returned, if any. -/
structure Writer (σ β : Type) where
  write : σ → β → σ × Option String

/-- A sink that stores every payload it is given and never fails. -/
def Writer.recorder (β : Type) : Writer (List β) β where
  write s b := (s ++ [b], none)

/-- Go's `io.Discard`. -/
def Writer.discard (β : Type) : Writer Unit β where
  write _ _ := ((), none)

/-- A sink that stores payloads and fails from its `n`-th call on (counting
from 0); the state is the payloads accepted and the number of calls made. -/
def Writer.failingFrom (β : Type) (n : ℕ) : Writer (List β × ℕ) β where
  write s b := if s.2 < n then ((s.1 ++ [b], s.2 + 1), none)
    else ((s.1, s.2 + 1), some "write failed")

/-- The errors `Generate` returns. -/
inductive GenError (α : Type) where
  /-- The message `tile <tileDim> of <tile> is not an integer multiple of a
  cube <cubeDim> of <cube>`. -/
  | notIntegerMultiple (tileDim cubeDim : String) (tile cube : α)
  /-- The message `error writing to obj <err>`. -/
  | objWrite (err : String)
  /-- The error of `enc.Encode`, returned as it is. -/
  | tsigEncode (err : String)
deriving DecidableEq, Repr

/-- How a run of `Generate` ends. -/
inductive Outcome (α : Type) where
  /-- Returned `nil`. -/
  | ok
  /-- Returned an error. -/
  | error (e : GenError α)
  /-- Run-time panic. -/
  | panic (msg : String)
  /-- The step budget of the model ran out inside a loop. -/
  | outOfFuel
deriving DecidableEq, Repr

/-- A step of a run: the next state, or the state at which the run stopped
together with the reason. -/
abbrev Step (α σ : Type) := Except (Outcome α × σ) σ

/-- A Go `for cond { body }` loop under a step budget. -/
def whileLoop {α σ : Type} (cond : σ → Bool) (body : σ → Step α σ) : ℕ → σ → Step α σ
  | 0, s => if cond s then .error (.outOfFuel, s) else .ok s
  | fuel + 1, s =>
    if cond s then
      match body s with
      | .ok s' => whileLoop cond body fuel s'
      | .error e => .error e
    else .ok s

/-- What `Generate` leaves behind: how it ended, the two sinks, and the
emission log. -/
structure Result (α σo σt : Type) where
  outcome : Outcome α
  wObj : σo
  wTsig : σt
  log : List Emission

/-- The lines of a mesh, given the payloads of the successive writes. -/
def meshLines {α : Type} (writes : List (List (ObjLine α))) : List (ObjLine α) :=
  writes.flatten

/-- Number of `f` lines. -/
def faceCount {α : Type} (ls : List (ObjLine α)) : ℕ :=
  (ls.filter fun l => match l with | .f .. => true | _ => false).length

/-! ## The cube (`shapes/tsigCube.go`) -/

/-- Cube properties. -/
structure Cube (α : Type) where
  TileHeight : α
  TileWidth : α
  CubeWidth : α
  CubeHeight : α
  CubeDepth : α
  Dx : α
  Dy : α

/-- The `plane` record local to `Cube.Generate`. -/
structure Plane (α : Type) where
  iEnd : α
  jEnd : α
  iStep : α
  jStep : α
  iStart : α
  jStart : α
  uStart : α
  vStart : α
  planeConst : α
  plane : String
  inverse : Bool

/-- The variables `Cube.Generate` updates while it sweeps the planes. -/
structure CubeState (α σo : Type) where
  wObj : σo
  tiles : List Tilelayout
  vertexCount : ℕ
  tileCount : ℕ
  tileFace : List (ObjLine α)
  iCount : ℕ
  jCount : ℕ
  i : α
  j : α
  log : List Emission

section CubeModel

variable {α : Type} [LinearOrderedField α] [FloorRing α]

/-- The dimension check of the cube. `none` is Go's `nil`. The quotients are
exact here; the program tests the rounded quotients, see `halfCubeFence64`. -/
def halfCubeFence (tileHeight tileWidth CubeWidth CubeHeight CubeDepth : α) :
    Option (GenError α) :=
  if int (math.Ceil (CubeWidth / tileWidth)) ≠ int (CubeWidth / tileWidth) then
    some (.notIntegerMultiple "width" "width" tileWidth CubeWidth)
  else if int (math.Ceil (CubeHeight / tileHeight)) ≠ int (CubeHeight / tileHeight) then
    some (.notIntegerMultiple "height" "height" tileHeight CubeHeight)
  else if int (math.Ceil (CubeDepth / tileWidth)) ≠ int (CubeDepth / tileWidth) then
    some (.notIntegerMultiple "width" "depth" tileWidth CubeDepth)
  else if int (math.Ceil (CubeDepth / tileHeight)) ≠ int (CubeDepth / tileHeight) then
    some (.notIntegerMultiple "height" "depth" tileHeight CubeHeight)
  else none

namespace Cube

/-- Width of the flat display in pixels. -/
def pixelWidth (c : Cube α) : α := ((c.CubeWidth + c.CubeDepth * 2) / c.TileWidth) * c.Dx

/-- Height of the flat display in pixels. -/
def pixelHeight (c : Cube α) : α := ((c.CubeDepth * 2 + c.CubeHeight) / c.TileHeight) * c.Dy

/-- Tiles of the left and right walls. -/
def leftRight (c : Cube α) : ℤ :=
  int ((c.CubeDepth * 2 / c.TileWidth) * (c.CubeHeight / c.TileHeight))

/-- Tiles of the top and bottom. -/
def topbot (c : Cube α) : ℤ :=
  int ((c.CubeDepth * 2 / c.TileWidth) * (c.CubeWidth / c.TileHeight))

/-- Tiles of the back wall. -/
def back (c : Cube α) : ℤ :=
  int ((c.CubeHeight / c.TileHeight) * (c.CubeWidth / c.TileWidth))

/-- Step of the uv map along u. -/
def uStep (c : Cube α) : α := c.TileWidth / (c.CubeWidth + c.CubeDepth * 2)

/-- Step of the uv map along v. -/
def vStep (c : Cube α) : α := c.TileHeight / (c.CubeDepth * 2 + c.CubeHeight)

/-- The five planes of the cube: left wall, right wall, back wall, top,
bottom. Fields the source leaves out have Go's zero value. -/
def planes (c : Cube α) : List (Plane α) :=
  [ { iEnd := c.CubeDepth, jEnd := c.CubeHeight, iStep := c.TileWidth, jStep := c.TileHeight,
      iStart := 0, jStart := 0, planeConst := 0, plane := "y",
      vStart := (c.CubeDepth / c.TileHeight) * c.vStep, inverse := true,
      uStart := ((c.CubeDepth + c.CubeWidth) / c.TileWidth) * c.uStep },
    { iEnd := c.CubeDepth, jEnd := c.CubeHeight, iStep := c.TileWidth, jStep := c.TileHeight,
      iStart := 0, jStart := 0, planeConst := c.CubeWidth, plane := "y",
      vStart := (c.CubeDepth / c.TileHeight) * c.vStep, inverse := false, uStart := 0 },
    { iEnd := c.CubeWidth, jEnd := c.CubeHeight, iStep := c.TileWidth, jStep := c.TileHeight,
      iStart := 0, jStart := 0, planeConst := c.CubeDepth, plane := "x",
      vStart := (c.CubeDepth / c.TileHeight) * c.vStep, inverse := false,
      uStart := (c.CubeDepth / c.TileWidth) * c.uStep },
    { iEnd := c.CubeDepth, inverse := true, jEnd := c.CubeWidth, iStep := c.TileWidth,
      jStep := c.TileHeight, iStart := 0, jStart := 0, planeConst := c.CubeHeight, plane := "z",
      vStart := ((c.CubeDepth + c.CubeHeight) / c.TileHeight) * c.vStep,
      uStart := (c.CubeDepth / c.TileWidth) * c.uStep },
    { iEnd := c.CubeDepth, jEnd := c.CubeWidth, iStep := c.TileWidth, jStep := c.TileHeight,
      iStart := 0, jStart := 0, planeConst := 0, plane := "z", vStart := 0, inverse := false,
      uStart := (c.CubeDepth / c.TileWidth) * c.uStep } ]

/-- The tile record stored for a face: pixel origin from a uv corner, size
from the pixel density. -/
def tileAt (c : Cube α) (u v : α) : Tilelayout :=
  ⟨⟨⟨int (math.Round (u * c.pixelWidth)), int (math.Round ((1 - v) * c.pixelHeight))⟩,
    ⟨int c.Dx, int c.Dy⟩⟩⟩

/-- The assignment `tiles[tileCount] = t`: a panic when the index is outside
the slice. -/
def setTile {σo : Type} (s : CubeState α σo) (t : Tilelayout) : Step α (CubeState α σo) :=
  if s.tileCount < s.tiles.length then
    .ok { s with tiles := s.tiles.set s.tileCount t, log := s.log ++ [.tile s.tileCount] }
  else .error (.panic "index out of range", s)

/-- End of the body of the `j` loop: the face line, then the counters. -/
def writeFace {σo : Type} (s : CubeState α σo) : CubeState α σo :=
  { s with
    tileFace := s.tileFace ++ [faceLine s.vertexCount]
    log := s.log ++ [.face s.vertexCount]
    vertexCount := s.vertexCount + 4
    jCount := s.jCount + 1
    tileCount := s.tileCount + 1 }

/-- The statements `tileFace += fmt.Sprintf(...)`, several at a time. -/
def addLines {σo : Type} (s : CubeState α σo) (ls : List (ObjLine α)) : CubeState α σo :=
  { s with tileFace := s.tileFace ++ ls }

/-- Body of the `j` loop without its post statement: the `switch` on the
plane, then the face line. `c` is the configuration, `p` the plane being swept. -/
def tileBody {σo : Type} (c : Cube α) (p : Plane α) (s : CubeState α σo) :
    Step α (CubeState α σo) :=
  let uTotal := (p.iEnd - p.iStart) / p.iStep
  let width := uTotal * c.uStep
  let ujTotal := (p.jEnd - p.jStart) / p.jStep
  let ujwidth := ujTotal * c.uStep
  let i := s.i
  let j := s.j
  let iCount : α := (s.iCount : α)
  let jCount : α := (s.jCount : α)
  let iCount1 : α := ((s.iCount + 1 : ℕ) : α)
  let jCount1 : α := ((s.jCount + 1 : ℕ) : α)
  match p.plane with
  | "x" =>
    let s1 := addLines s
      [ .v p.planeConst i j,
        .v p.planeConst (i + p.iStep) j,
        .v p.planeConst (i + p.iStep) (j + p.jStep),
        .v p.planeConst i (j + p.jStep),
        .vt (p.uStart + width - iCount * c.uStep) (p.vStart + jCount * c.vStep),
        .vt (p.uStart + width - iCount1 * c.uStep) (p.vStart + jCount * c.vStep),
        .vt (p.uStart + width - iCount1 * c.uStep) (p.vStart + jCount1 * c.vStep),
        .vt (p.uStart + width - iCount * c.uStep) (p.vStart + jCount1 * c.vStep) ]
    (setTile s1 (c.tileAt (p.uStart + width - iCount1 * c.uStep)
      (p.vStart + jCount1 * c.vStep))).map writeFace
  | "y" =>
    let s1 := addLines s
      [ .v i p.planeConst j,
        .v (i + p.iStep) p.planeConst j,
        .v (i + p.iStep) p.planeConst (j + p.jStep),
        .v i p.planeConst (j + p.jStep) ]
    if p.inverse then
      let s2 := addLines s1
        [ .vt (p.uStart + width - iCount * c.uStep) (p.vStart + jCount * c.vStep),
          .vt (p.uStart + width - iCount1 * c.uStep) (p.vStart + jCount * c.vStep),
          .vt (p.uStart + width - iCount1 * c.uStep) (p.vStart + jCount1 * c.vStep),
          .vt (p.uStart + width - iCount * c.uStep) (p.vStart + jCount1 * c.vStep) ]
      (setTile s2 (c.tileAt (p.uStart + width - iCount1 * c.uStep)
        (p.vStart + jCount1 * c.vStep))).map writeFace
    else
      let s2 := addLines s1
        [ .vt (p.uStart + iCount * c.uStep) (p.vStart + jCount * c.vStep),
          .vt (p.uStart + iCount1 * c.uStep) (p.vStart + jCount * c.vStep),
          .vt (p.uStart + iCount1 * c.uStep) (p.vStart + jCount1 * c.vStep),
          .vt (p.uStart + iCount * c.uStep) (p.vStart + jCount1 * c.vStep) ]
      (setTile s2 (c.tileAt (p.uStart + width - iCount1 * c.uStep)
        (p.vStart + jCount1 * c.vStep))).map writeFace
  | "z" =>
    let s1 := addLines s
      [ .v i (j + p.jStep) p.planeConst,
        .v i j p.planeConst,
        .v (i + p.iStep) j p.planeConst,
        .v (i + p.iStep) (j + p.jStep) p.planeConst ]
    if p.inverse then
      let s2 := addLines s1
        [ .vt (p.uStart + ujwidth - jCount1 * c.uStep) (p.vStart + (uTotal - iCount) * c.vStep),
          .vt (p.uStart + ujwidth - jCount * c.uStep) (p.vStart + (uTotal - iCount) * c.vStep),
          .vt (p.uStart + ujwidth - jCount * c.uStep) (p.vStart + (uTotal - iCount1) * c.vStep),
          .vt (p.uStart + ujwidth - jCount1 * c.uStep)
            (p.vStart + (uTotal - iCount1) * c.vStep) ]
      (setTile s2 (c.tileAt (p.uStart + ujwidth - jCount1 * c.uStep)
        (p.vStart + (uTotal - iCount) * c.vStep))).map writeFace
    else
      let s2 := addLines s1
        [ .vt (p.uStart + ujwidth - jCount1 * c.uStep) (p.vStart + iCount * c.vStep),
          .vt (p.uStart + ujwidth - jCount * c.uStep) (p.vStart + iCount * c.vStep),
          .vt (p.uStart + ujwidth - jCount * c.uStep) (p.vStart + iCount1 * c.vStep),
          .vt (p.uStart + ujwidth - jCount1 * c.uStep) (p.vStart + iCount1 * c.vStep) ]
      (setTile s2 (c.tileAt (p.uStart + ujwidth - jCount1 * c.uStep)
        (p.vStart + iCount1 * c.vStep))).map writeFace
  | _ => .ok s

/-- The loop `for j := p.jStart; j < p.jEnd; j += p.jStep`, entered with
`j` and `jCount` already initialised. The sums `j + p.jStep` are exact here;
the program rounds each of them, see `Cube.jLoop64`. -/
def jLoop {σo : Type} (c : Cube α) (p : Plane α) (fuel : ℕ) (s : CubeState α σo) :
    Step α (CubeState α σo) :=
  whileLoop (fun s => decide (s.j < p.jEnd))
    (fun s => (tileBody c p s).map fun s' => { s' with j := s'.j + p.jStep }) fuel s

/-- The loop `for i := p.iStart; i < p.iEnd; i += p.iStep`, entered with
`i` and `iCount` already initialised. The sums `i + p.iStep` are exact here;
the program rounds each of them, which can add a pass, see `Cube.iLoop64`. -/
def iLoop {σo : Type} (c : Cube α) (p : Plane α) (fuel : ℕ) (s : CubeState α σo) :
    Step α (CubeState α σo) :=
  whileLoop (fun s => decide (s.i < p.iEnd))
    (fun s => (jLoop c p fuel { s with jCount := 0, j := p.jStart }).map fun s' =>
      { s' with iCount := s'.iCount + 1, i := s'.i + p.iStep }) fuel s

/-- Body of `for _, p := range planes`: sweep the plane into a fresh buffer
and write the buffer to the mesh sink. -/
def planeBody {σo : Type} (c : Cube α) (wObj : Writer σo (List (ObjLine α))) (fuel : ℕ)
    (p : Plane α) (s : CubeState α σo) : Step α (CubeState α σo) :=
  match iLoop c p fuel { s with iCount := 0, tileFace := [], i := p.iStart } with
  | .error e => .error e
  | .ok s' =>
    match wObj.write s'.wObj s'.tileFace with
    | (w, none) => .ok { s' with wObj := w }
    | (w, some err) => .error (.error (.objWrite err), { s' with wObj := w })

/-- The loop over the planes. -/
def sweep {σo : Type} (c : Cube α) (wObj : Writer σo (List (ObjLine α))) (fuel : ℕ) :
    List (Plane α) → CubeState α σo → Step α (CubeState α σo)
  | [], s => .ok s
  | p :: ps, s =>
    match planeBody c wObj fuel p s with
    | .error e => .error e
    | .ok s' => sweep c wObj fuel ps s'

/-- Length of the tile list that `Generate` allocates. -/
def tileTotal (c : Cube α) : ℤ := c.leftRight + c.topbot + c.back

/-- The flat bounding box of the layout document. -/
def flatBox (c : Cube α) : XY2D :=
  { X0 := 0, X1 := int c.pixelWidth, Y0 := 0, Y1 := int c.pixelHeight }

/-- The method `Cube.Generate`: generates the mesh and the tile layout of a
cube with no front panel. -/
def Generate {σo σt : Type} (c : Cube α) (wObj : Writer σo (List (ObjLine α)))
    (wTsig : Writer σt TPIG) (fuel : ℕ) (o : σo) (t : σt) : Result α σo σt :=
  match halfCubeFence c.TileHeight c.TileWidth c.CubeWidth c.CubeHeight c.CubeDepth with
  | some err => { outcome := .error err, wObj := o, wTsig := t, log := [] }
  | none =>
    if c.tileTotal < 0 then
      { outcome := .panic "makeslice: len out of range", wObj := o, wTsig := t, log := [] }
    else
      let s0 : CubeState α σo :=
        { wObj := o, tiles := List.replicate c.tileTotal.toNat Tilelayout.zero,
          vertexCount := 1, tileCount := 0, tileFace := [], iCount := 0, jCount := 0,
          i := 0, j := 0, log := [] }
      match sweep c wObj fuel c.planes s0 with
      | .error (out, s) => { outcome := out, wObj := s.wObj, wTsig := t, log := s.log }
      | .ok s =>
        let tsig : TPIG := { Tilelayout := s.tiles, Dimensions := { Flat := c.flatBox } }
        match wTsig.write t tsig with
        | (w, none) => { outcome := .ok, wObj := s.wObj, wTsig := w, log := s.log }
        | (w, some err) =>
          { outcome := .error (.tsigEncode err), wObj := s.wObj, wTsig := w, log := s.log }

end Cube

end CubeModel

/-! ## Coordinate conversions (`shapes/tsigUtils.go`) -/

section Utils

variable {α : Type} [LinearOrderedField α]

/-- PolarToCartesian takes polar coordinates of R, theta (inclination angle)
and phi (azimuth angle) and converts them to cartesian XYZ. -/
def PolarToCartesian (m : MathLib α) (r theta phi : α) : α × α × α :=
  (r * m.Sin theta * m.Cos phi, r * m.Sin theta * m.Sin phi, r * m.Cos theta)

/-- PolarToCylindrical converts polar coordinates to cylindrical coordinates
R, Z, Phi. -/
def PolarToCylindrical (m : MathLib α) (r theta phi : α) : α × α × α :=
  (r * m.Sin theta, r * m.Cos theta, phi)

/-- CylindricalToCartesian converts cylindrical coordinates to cartesian XYZ. -/
def CylindricalToCartesian (m : MathLib α) (r z azimuth : α) : α × α × α :=
  (r * m.Cos azimuth, r * m.Sin azimuth, z)

/-- ThreeDistance calculates the distance between 2 3d points. -/
def ThreeDistance (m : MathLib α) (x1 x2 y1 y2 z1 z2 : α) : α :=
  m.Sqrt ((x1 - x2) ^ 2 + (y1 - y2) ^ 2 + (z1 - z2) ^ 2)

end Utils

/-! ## The curved wall (`shapes/tsigCurve.go`) -/

/-- Curve properties. -/
structure Curve (α : Type) where
  TileHeight : α
  TileWidth : α
  CurveRadius : α
  CurveHeight : α
  AzimuthMaxAngle : α
  Dx : α
  Dy : α

/-- The variables `Curve.Generate` updates. -/
structure CurveState (α σo : Type) where
  wObj : σo
  tiles : List Tilelayout
  vertexCount : ℕ
  tileCount : ℕ
  tileFaces : List (ObjLine α)
  z : α
  azimuth : α
  u : α
  v : α
  log : List Emission

section CurveModel

variable {α : Type} [LinearOrderedField α] [FloorRing α]

namespace Curve

/-- The angle covered by one tile. -/
def azimuthInc (m : MathLib α) (c : Curve α) : α :=
  2 * m.Asin (c.TileWidth / (2 * c.CurveRadius))

/-- Number of tile columns, as the float the source computes. -/
def columns (m : MathLib α) (c : Curve α) : α :=
  math.Ceil (2 * c.AzimuthMaxAngle / c.azimuthInc m)

/-- Number of tile rows, as the float the source computes. -/
def rows (c : Curve α) : α := math.Ceil (c.CurveHeight / c.TileHeight)

/-- Width of the flat display in pixels. -/
def pixelWidth (m : MathLib α) (c : Curve α) : α := c.columns m * c.Dx

/-- Height of the flat display in pixels. -/
def pixelHeight (c : Curve α) : α := c.rows * c.Dy

/-- Length of the tile list that `Generate` allocates. -/
def tileTotal (m : MathLib α) (c : Curve α) : ℤ := int (c.columns m * c.rows)

/-- Width of a tile in the uv map. -/
def uWidth (m : MathLib α) (c : Curve α) : α := 1 / c.columns m

/-- Height of a tile in the uv map. -/
def vheight (c : Curve α) : α := 1 / c.rows

/-- Body of the loop `for azimuth <= c.AzimuthMaxAngle`. -/
def tileBody {σo : Type} (m : MathLib α) (c : Curve α) (s : CurveState α σo) :
    Step α (CurveState α σo) :=
  let azimuthInc := c.azimuthInc m
  let uWidth := c.uWidth m
  let vheight := c.vheight
  let p1 := CylindricalToCartesian m c.CurveRadius s.z s.azimuth
  let p2 := CylindricalToCartesian m c.CurveRadius s.z (s.azimuth + azimuthInc)
  let p3 := CylindricalToCartesian m c.CurveRadius (s.z + c.TileHeight) (s.azimuth + azimuthInc)
  let p4 := CylindricalToCartesian m c.CurveRadius (s.z + c.TileHeight) s.azimuth
  let s1 : CurveState α σo :=
    { s with
      tileFaces := s.tileFaces ++
        [ ObjLine.v p1.1 p1.2.1 p1.2.2, ObjLine.vt s.u s.v,
          ObjLine.v p2.1 p2.2.1 p2.2.2, ObjLine.vt (s.u - uWidth) s.v,
          ObjLine.v p3.1 p3.2.1 p3.2.2, ObjLine.vt (s.u - uWidth) (s.v + vheight),
          ObjLine.v p4.1 p4.2.1 p4.2.2, ObjLine.vt s.u (s.v + vheight),
          faceLine s.vertexCount ]
      log := s.log ++ [.face s.vertexCount]
      azimuth := s.azimuth + azimuthInc
      u := s.u - uWidth
      vertexCount := s.vertexCount + 4 }
  if s1.tileCount < s1.tiles.length then
    .ok { s1 with
      tiles := s1.tiles.set s1.tileCount
        ⟨⟨⟨int (math.Round (s1.u * c.pixelWidth m)),
            int (math.Round ((1 - (s1.v + vheight)) * c.pixelHeight))⟩,
          ⟨int c.Dx, int c.Dy⟩⟩⟩
      log := s1.log ++ [.tile s1.tileCount]
      tileCount := s1.tileCount + 1 }
  else .error (.panic "index out of range", s1)

/-- Body of the loop `for z < c.CurveHeight`: one row of tiles, written to the
mesh sink at its end. -/
def rowBody {σo : Type} (m : MathLib α) (c : Curve α) (wObj : Writer σo (List (ObjLine α)))
    (fuel : ℕ) (s : CurveState α σo) : Step α (CurveState α σo) :=
  match whileLoop (fun s => decide (s.azimuth ≤ c.AzimuthMaxAngle)) (tileBody m c) fuel
      { s with u := 1, tileFaces := [] } with
  | .error e => .error e
  | .ok s' =>
    match wObj.write s'.wObj s'.tileFaces with
    | (w, some err) => .error (.error (.objWrite err), { s' with wObj := w })
    | (w, none) =>
      .ok { s' with
        wObj := w
        v := s'.v + c.vheight
        z := s'.z + c.TileHeight
        azimuth := -c.AzimuthMaxAngle }

/-- The flat bounding box of the layout document. -/
def flatBox (m : MathLib α) (c : Curve α) : XY2D :=
  { X0 := 0, X1 := int (c.pixelWidth m), Y0 := 0, Y1 := int c.pixelHeight }

/-- The method `Curve.Generate`: generates the mesh and the tile layout of a
curved cylindrical wall. The quotient CurveHeight/TileHeight and the sums
`z + c.TileHeight` are exact here; the program rounds them, and the number of
rows allocated can then exceed the number of rows swept, see
`Curve.Generate64`. -/
def Generate {σo σt : Type} (m : MathLib α) (c : Curve α)
    (wObj : Writer σo (List (ObjLine α))) (wTsig : Writer σt TPIG) (fuel : ℕ) (o : σo)
    (t : σt) : Result α σo σt :=
  if c.tileTotal m < 0 then
    { outcome := .panic "makeslice: len out of range", wObj := o, wTsig := t, log := [] }
  else
    let s0 : CurveState α σo :=
      { wObj := o, tiles := List.replicate (c.tileTotal m).toNat Tilelayout.zero,
        vertexCount := 1, tileCount := 0, tileFaces := [], z := 0,
        azimuth := -c.AzimuthMaxAngle, u := 1, v := 0, log := [] }
    match whileLoop (fun s => decide (s.z < c.CurveHeight)) (rowBody m c wObj fuel) fuel s0 with
    | .error (out, s) => { outcome := out, wObj := s.wObj, wTsig := t, log := s.log }
    | .ok s =>
      let tsig : TPIG := { Tilelayout := s.tiles, Dimensions := { Flat := c.flatBox m } }
      match wTsig.write t tsig with
      | (w, none) => { outcome := .ok, wObj := s.wObj, wTsig := w, log := s.log }
      | (w, some err) =>
        { outcome := .error (.tsigEncode err), wObj := s.wObj, wTsig := w, log := s.log }

end Curve

end CurveModel

/-! ## The spherical cap (`shapes/tsigSphereCap.go`) -/

/-- Sphere properties. -/
structure SphereCap (α : Type) where
  TileHeight : α
  TileWidth : α
  Radius : α
  ThetaMaxAngle : α
  AzimuthMaxAngle : α
  Dx : α
  Dy : α

/-- The variables of the pre-scan that finds the overrun. -/
structure ScanState (α : Type) where
  theta : α
  overrun : α
  azimuth : α
  uTop : α

/-- The variables `SphereCap.Generate` updates from one coarse tile to the
next. `uBot` is the variable of that name in the upper half and `uTop` in the
lower half; `cornerAz` is `topLeftAz`, `topRightAz`, `botLeftAz` or
`botRightAz`, whichever the running loop uses. -/
structure SphereState (α σo : Type) where
  wObj : σo
  tiles : List Tilelayout
  vertexCount : ℕ
  theta : α
  azimuth : α
  clockAz : α
  v : α
  u : α
  uBot : α
  radialInc : ℤ
  cornerAz : α
  log : List Emission

/-- The variables of the strip loop `for i := 0; i < shift; i++` inside one
coarse tile. `cur` and `curR` are `bot`, `botR` in the upper half and `top`,
`topR` in the lower half. -/
structure StripState (α : Type) where
  tileFaces : List (ObjLine α)
  tiles : List Tilelayout
  vertexCount : ℕ
  cur : α × α × α
  curR : α × α × α
  log : List Emission

/-- What distinguishes the four copies of the coarse-tile code: the corners,
the four texture coordinates and the tile record of strip `i`, and those of
the last strip. -/
structure TileSpec (α : Type) where
  p1 : α × α × α
  p2 : α × α × α
  p3 : α × α × α
  p4 : α × α × α
  stripUV : ℤ → (α × α) × (α × α) × (α × α) × (α × α)
  stripTile : ℤ → Tilelayout
  lastUV : (α × α) × (α × α) × (α × α) × (α × α)
  lastTile : Tilelayout

section SphereModel

variable {α : Type} [LinearOrderedField α] [FloorRing α]

namespace SphereCap

/-- Inclination covered by one tile. -/
def thetaInc (m : MathLib α) (s : SphereCap α) : α :=
  2 * m.Asin (s.TileHeight / (2 * s.Radius))

/-- Azimuth covered by one tile on the equator; also the numerator of the
per-row increments. -/
def azimuthInc (m : MathLib α) (s : SphereCap α) : α :=
  2 * m.Asin (s.TileWidth / (2 * s.Radius))

/-- The row's azimuth increment at inclination `theta`. -/
def rowInc (m : MathLib α) (s : SphereCap α) (theta : α) : α :=
  s.azimuthInc m / m.Sin theta

/-- Tile width in the uv map before the overrun correction. -/
def uTileWidth0 (m : MathLib α) (s : SphereCap α) : α :=
  1 / (2 * math.Ceil (s.AzimuthMaxAngle / s.azimuthInc m))

/-- Tile height in the uv map. -/
def vTileHeight (m : MathLib α) (s : SphereCap α) : α :=
  1 / (2 * math.Ceil (s.ThetaMaxAngle / s.thetaInc m))

/-- Atlas width in pixels before the overrun correction. -/
def maxX0 (m : MathLib α) (s : SphereCap α) : α :=
  2 * math.Ceil (s.AzimuthMaxAngle / s.azimuthInc m) * s.Dx

/-- Atlas height in pixels. -/
def maxY (m : MathLib α) (s : SphereCap α) : α :=
  2 * math.Ceil (s.ThetaMaxAngle / s.thetaInc m) * s.Dy

/-- The chordal length difference `futDif` between the azimuth increments
`incFar` of the far edge and `incNear` of the near edge of a row, at the
inclination `theta` of the near edge. -/
def futDif (m : MathLib α) (s : SphereCap α) (incFar incNear theta : α) : α :=
  2 * s.Radius * (m.Sin ((incFar - incNear) / 2) * m.Sin theta)

/-- The pixel shift of a row of the upper half (and of the pre-scan):
`int(futDif/(TileWidth/Dx)) / 2`, an integer division. -/
def shiftTop (m : MathLib α) (s : SphereCap α) (theta : α) : ℤ :=
  (int (s.futDif m (s.rowInc m (theta - s.thetaInc m)) (s.rowInc m theta) theta /
    (s.TileWidth / s.Dx))).tdiv 2

/-- The pixel shift of a row of the lower half: `int((futDif/2)/(TileWidth/Dx))`. -/
def shiftBot (m : MathLib α) (s : SphereCap α) (theta : α) : ℤ :=
  let botLeftThet := theta + s.thetaInc m
  int (s.futDif m (s.rowInc m botLeftThet) (s.rowInc m theta) (botLeftThet - s.thetaInc m) / 2 /
    (s.TileWidth / s.Dx))

/-- Body of the outer loop of the pre-scan. -/
def scanRow (m : MathLib α) (s : SphereCap α) (fuel : ℕ) (st : ScanState α) :
    Step α (ScanState α) :=
  let topLeftTheta := st.theta - s.thetaInc m
  let azimuthIncTop := s.rowInc m topLeftTheta
  let shift := s.shiftTop m st.theta
  let ushift : α := (shift : α) * (1 / s.maxX0 m)
  match whileLoop (fun t => decide (t.azimuth < s.AzimuthMaxAngle))
      (fun t => .ok { t with
        azimuth := t.azimuth + azimuthIncTop
        uTop := t.uTop + (s.uTileWidth0 m + ushift * 2) })
      fuel { st with azimuth := 0, uTop := 1 / 2 } with
  | .error e => .error e
  | .ok t =>
    .ok { t with
      overrun := if t.uTop > t.overrun then t.uTop else t.overrun
      theta := t.theta - s.thetaInc m }

/-- The pre-scan: the largest `u` reached in a segment of the cap. -/
def scan (m : MathLib α) (s : SphereCap α) (fuel : ℕ) : Step α (ScanState α) :=
  whileLoop (fun t => decide (t.theta > m.Pi / 2 - s.ThetaMaxAngle)) (scanRow m s fuel) fuel
    { theta := m.Pi / 2, overrun := 1, azimuth := 0, uTop := 1 / 2 }

/-- Pixels added on each side of the atlas for an overrun. -/
def xInc (m : MathLib α) (s : SphereCap α) (overrun : α) : α :=
  if overrun > 1 then math.Round ((overrun - 1) * s.maxX0 m) else 0

/-- Atlas width in pixels after the overrun correction. -/
def maxX (m : MathLib α) (s : SphereCap α) (overrun : α) : α :=
  s.maxX0 m + s.xInc m overrun * 2

/-- Tile width in the uv map after the overrun correction. -/
def uTileWidth (m : MathLib α) (s : SphereCap α) (overrun : α) : α :=
  s.Dx / s.maxX m overrun

/-- The `step` of a coarse tile: pixel rows per strip. -/
def step (s : SphereCap α) (shift : ℤ) : ℤ := int (s.Dy / ((shift + 1 : ℤ) : α))

/-- The vectors `leftVect` and `rightVect`: `(step * (b - a)) / Dy` on each
coordinate. -/
def stripVect (s : SphereCap α) (shift : ℤ) (a b : α × α × α) : α × α × α :=
  (((s.step shift : α) * (b.1 - a.1)) / s.Dy, ((s.step shift : α) * (b.2.1 - a.2.1)) / s.Dy,
    ((s.step shift : α) * (b.2.2 - a.2.2)) / s.Dy)

/-- Body of the strip loop. -/
def stripBody (s : SphereCap α) (shift : ℤ) (q : TileSpec α) (t : StripState α) (i : ℕ) :
    StripState α :=
  let leftVect := s.stripVect shift q.p1 q.p4
  let rightVect := s.stripVect shift q.p2 q.p3
  let next := (t.cur.1 + leftVect.1, t.cur.2.1 + leftVect.2.1, t.cur.2.2 + leftVect.2.2)
  let nextR := (t.curR.1 + rightVect.1, t.curR.2.1 + rightVect.2.1, t.curR.2.2 + rightVect.2.2)
  let uv := q.stripUV i
  { tileFaces := t.tileFaces ++
      [ ObjLine.v t.cur.1 t.cur.2.1 t.cur.2.2, ObjLine.vt uv.1.1 uv.1.2,
        ObjLine.v t.curR.1 t.curR.2.1 t.curR.2.2, ObjLine.vt uv.2.1.1 uv.2.1.2,
        ObjLine.v nextR.1 nextR.2.1 nextR.2.2, ObjLine.vt uv.2.2.1.1 uv.2.2.1.2,
        ObjLine.v next.1 next.2.1 next.2.2, ObjLine.vt uv.2.2.2.1 uv.2.2.2.2,
        faceLine t.vertexCount ]
    tiles := t.tiles ++ [q.stripTile i]
    log := t.log ++ [.face t.vertexCount, .tile t.tiles.length]
    cur := next
    curR := nextR
    vertexCount := t.vertexCount + 4 }

/-- One coarse tile up to its face line: the strip loop and the last strip,
which may be the only one. -/
def tileStrips (s : SphereCap α) (shift : ℤ) (q : TileSpec α) (tiles : List Tilelayout)
    (vertexCount : ℕ) (log : List Emission) : StripState α :=
  let t := (List.range shift.toNat).foldl (stripBody s shift q)
    { tileFaces := [], tiles := tiles, vertexCount := vertexCount, cur := q.p1, curR := q.p2,
      log := log }
  { t with
    tileFaces := t.tileFaces ++
      [ ObjLine.v t.cur.1 t.cur.2.1 t.cur.2.2, ObjLine.vt q.lastUV.1.1 q.lastUV.1.2,
        ObjLine.v t.curR.1 t.curR.2.1 t.curR.2.2, ObjLine.vt q.lastUV.2.1.1 q.lastUV.2.1.2,
        ObjLine.v q.p3.1 q.p3.2.1 q.p3.2.2, ObjLine.vt q.lastUV.2.2.1.1 q.lastUV.2.2.1.2,
        ObjLine.v q.p4.1 q.p4.2.1 q.p4.2.2, ObjLine.vt q.lastUV.2.2.2.1 q.lastUV.2.2.2.2,
        faceLine t.vertexCount ]
    tiles := t.tiles ++ [q.lastTile]
    log := t.log ++ [.tile t.tiles.length, .face t.vertexCount] }

/-- One coarse tile: its strips, then the write of its text to the mesh
sink. The caller updates the loop variables. -/
def emitTile {σo : Type} (s : SphereCap α) (wObj : Writer σo (List (ObjLine α))) (shift : ℤ)
    (q : TileSpec α) (st : SphereState α σo) : Step α (SphereState α σo) :=
  let t := s.tileStrips shift q st.tiles st.vertexCount st.log
  match wObj.write st.wObj t.tileFaces with
  | (w, some err) =>
    .error (.error (.objWrite err),
      { st with wObj := w, tiles := t.tiles, vertexCount := t.vertexCount, log := t.log })
  | (w, none) =>
    .ok { st with wObj := w, tiles := t.tiles, vertexCount := t.vertexCount + 4, log := t.log }

/-- The coarse tile of the first loop of the upper half (azimuth
increasing), at the loop variables `st`. -/
def specTopLeft {σo : Type} (m : MathLib α) (s : SphereCap α) (overrun : α)
    (st : SphereState α σo) : TileSpec α :=
  let thetaInc := s.thetaInc m
  let topLeftThet := st.theta - thetaInc
  let azimuthInc := s.rowInc m st.theta
  let azimuthIncTop := s.rowInc m topLeftThet
  let shift := s.shiftTop m st.theta
  let maxX := s.maxX m overrun
  let maxY := s.maxY m
  let uTileWidth := s.uTileWidth m overrun
  let vTileHeight := s.vTileHeight m
  let vstep : α := (s.step shift : α) / maxY
  let ustep : α := 1 / maxX
  let topLeftAz := st.cornerAz
  let uBot := st.uBot
  let v := st.v
  let offset : ℤ → α := fun i =>
    ((shift - i : ℤ) : α) * ustep + ((st.radialInc * (shift - i) : ℤ) : α) * ustep
  { p1 := PolarToCartesian m s.Radius (topLeftThet + thetaInc) topLeftAz
    p2 := PolarToCartesian m s.Radius (topLeftThet + thetaInc) (topLeftAz + azimuthInc)
    p3 := PolarToCartesian m s.Radius topLeftThet (topLeftAz + azimuthIncTop)
    p4 := PolarToCartesian m s.Radius topLeftThet topLeftAz
    stripUV := fun i =>
      ((1 - (uBot + offset i), v + (i : α) * vstep),
       (1 - (uTileWidth + uBot + offset i), v + (i : α) * vstep),
       (1 - (uTileWidth + uBot + offset i), v + ((i + 1 : ℤ) : α) * vstep),
       (1 - (uBot + offset i), v + ((i + 1 : ℤ) : α) * vstep))
    stripTile := fun i =>
      ⟨⟨⟨int ((1 - (uBot + uTileWidth + offset i)) * maxX),
          int (math.Round ((1 - (v + ((i + 1 : ℤ) : α) * vstep)) * maxY))⟩,
        ⟨int s.Dx, int (maxY * vstep)⟩⟩⟩
    lastUV :=
      ((1 - uBot, v + vstep * (shift : α)),
       (1 - (uTileWidth + uBot), v + vstep * (shift : α)),
       (1 - (uTileWidth + uBot), v + vTileHeight),
       (1 - uBot, v + vTileHeight))
    lastTile :=
      ⟨⟨⟨int ((1 - (uBot + uTileWidth)) * maxX),
          int (math.Round ((1 - (v + vTileHeight)) * maxY))⟩,
        ⟨int s.Dx, int (math.Round (maxY * (vTileHeight - vstep * (shift : α))))⟩⟩⟩ }

/-- The coarse tile of the second loop of the upper half (azimuth
decreasing). -/
def specTopRight {σo : Type} (m : MathLib α) (s : SphereCap α) (overrun : α)
    (st : SphereState α σo) : TileSpec α :=
  let thetaInc := s.thetaInc m
  let topLeftThet := st.theta - thetaInc
  let azimuthInc := s.rowInc m st.theta
  let azimuthIncTop := s.rowInc m topLeftThet
  let shift := s.shiftTop m st.theta
  let maxX := s.maxX m overrun
  let maxY := s.maxY m
  let uTileWidth := s.uTileWidth m overrun
  let vTileHeight := s.vTileHeight m
  let vstep : α := (s.step shift : α) / maxY
  let ustep : α := 1 / maxX
  let topRightAz := st.cornerAz
  let uBot := st.uBot
  let v := st.v
  let stepOffset : ℤ → α := fun i =>
    -((shift - i : ℤ) : α) * ustep - ((st.radialInc * (shift - i) : ℤ) : α) * ustep
  { p1 := PolarToCartesian m s.Radius (topLeftThet + thetaInc) topRightAz
    p2 := PolarToCartesian m s.Radius (topLeftThet + thetaInc) (topRightAz - azimuthInc)
    p3 := PolarToCartesian m s.Radius topLeftThet (topRightAz - azimuthIncTop)
    p4 := PolarToCartesian m s.Radius topLeftThet topRightAz
    stripUV := fun i =>
      ((1 - (uBot + stepOffset i), v + (i : α) * vstep),
       (1 - (-uTileWidth + uBot + stepOffset i), v + (i : α) * vstep),
       (1 - (-uTileWidth + uBot + stepOffset i), v + ((i + 1 : ℤ) : α) * vstep),
       (1 - (uBot + stepOffset i), v + ((i + 1 : ℤ) : α) * vstep))
    stripTile := fun i =>
      ⟨⟨⟨int ((1 - (uBot + stepOffset i)) * maxX),
          int (math.Round ((1 - (v + ((i + 1 : ℤ) : α) * vstep)) * maxY))⟩,
        ⟨int s.Dx, int (maxY * vstep)⟩⟩⟩
    lastUV :=
      ((1 - uBot, v + vstep * (shift : α)),
       (1 - (-uTileWidth + uBot), v + vstep * (shift : α)),
       (1 - (-uTileWidth + uBot), v + vTileHeight),
       (1 - uBot, v + vTileHeight))
    lastTile :=
      ⟨⟨⟨int ((1 - uBot) * maxX), int (math.Round ((1 - (v + vTileHeight)) * maxY))⟩,
        ⟨int s.Dx, int (math.Round (maxY * (vTileHeight - vstep * (shift : α))))⟩⟩⟩ }

/-- The coarse tile of the first loop of the lower half (azimuth
increasing). -/
def specBotLeft {σo : Type} (m : MathLib α) (s : SphereCap α) (overrun : α)
    (st : SphereState α σo) : TileSpec α :=
  let thetaInc := s.thetaInc m
  let botLeftThet := st.theta + thetaInc
  let azimuthInc := s.rowInc m st.theta
  let azimuthIncBot := s.rowInc m botLeftThet
  let shift := s.shiftBot m st.theta
  let maxX := s.maxX m overrun
  let maxY := s.maxY m
  let uTileWidth := s.uTileWidth m overrun
  let vTileHeight := s.vTileHeight m
  let vstep : α := (s.step shift : α) / maxY
  let ustep : α := 1 / maxX
  let botLeftAz := st.cornerAz
  let uTop := st.uBot
  let v := st.v
  let offset : ℤ → α := fun i =>
    ((shift - i : ℤ) : α) * ustep + ((st.radialInc * (shift - i) : ℤ) : α) * ustep
  { p1 := PolarToCartesian m s.Radius (botLeftThet - thetaInc) botLeftAz
    p2 := PolarToCartesian m s.Radius (botLeftThet - thetaInc) (botLeftAz + azimuthInc)
    p3 := PolarToCartesian m s.Radius botLeftThet (botLeftAz + azimuthIncBot)
    p4 := PolarToCartesian m s.Radius botLeftThet botLeftAz
    stripUV := fun i =>
      ((1 - (uTop + offset i), v - (i : α) * vstep),
       (1 - (uTop + uTileWidth + offset i), v - (i : α) * vstep),
       (1 - (uTop + uTileWidth + offset i), v - ((i + 1 : ℤ) : α) * vstep),
       (1 - (uTop + offset i), v - ((i + 1 : ℤ) : α) * vstep))
    stripTile := fun i =>
      ⟨⟨⟨int ((1 - (uTop + uTileWidth + offset i)) * maxX),
          int (math.Round ((1 - (v - (i : α) * vstep)) * maxY))⟩,
        ⟨int s.Dx, int (maxY * vstep)⟩⟩⟩
    lastUV :=
      ((1 - uTop, v - (shift : α) * vstep),
       (1 - (uTop + uTileWidth), v - (shift : α) * vstep),
       (1 - (uTop + uTileWidth), v - vTileHeight),
       (1 - uTop, v - vTileHeight))
    lastTile :=
      ⟨⟨⟨int ((1 - (uTop + uTileWidth)) * maxX),
          int (math.Round ((1 - (v - (shift : α) * vstep)) * maxY))⟩,
        ⟨int s.Dx, int (math.Round (maxY * (vTileHeight - vstep * (shift : α))))⟩⟩⟩ }

/-- The coarse tile of the second loop of the lower half (azimuth
decreasing); its `ustep` is negative. -/
def specBotRight {σo : Type} (m : MathLib α) (s : SphereCap α) (overrun : α)
    (st : SphereState α σo) : TileSpec α :=
  let thetaInc := s.thetaInc m
  let botLeftThet := st.theta + thetaInc
  let azimuthInc := s.rowInc m st.theta
  let azimuthIncTop := s.rowInc m botLeftThet
  let shift := s.shiftBot m st.theta
  let maxX := s.maxX m overrun
  let maxY := s.maxY m
  let uTileWidth := s.uTileWidth m overrun
  let vTileHeight := s.vTileHeight m
  let vstep : α := (s.step shift : α) / maxY
  let ustep : α := -1 / maxX
  let botRightAz := st.cornerAz
  let uTop := st.uBot
  let v := st.v
  let offset : ℤ → α := fun i =>
    ((shift - i : ℤ) : α) * ustep + ((st.radialInc * (shift - i) : ℤ) : α) * ustep
  { p1 := PolarToCartesian m s.Radius (botLeftThet - thetaInc) botRightAz
    p2 := PolarToCartesian m s.Radius (botLeftThet - thetaInc) (botRightAz - azimuthInc)
    p3 := PolarToCartesian m s.Radius botLeftThet (botRightAz - azimuthIncTop)
    p4 := PolarToCartesian m s.Radius botLeftThet botRightAz
    stripUV := fun i =>
      ((1 - (uTop + offset i), v - (i : α) * vstep),
       (1 - (uTop - uTileWidth + offset i), v - (i : α) * vstep),
       (1 - (uTop - uTileWidth + offset i), v - ((i + 1 : ℤ) : α) * vstep),
       (1 - (uTop + offset i), v - ((i + 1 : ℤ) : α) * vstep))
    stripTile := fun i =>
      ⟨⟨⟨int ((1 - (uTop + offset i)) * maxX),
          int (math.Round ((1 - (v - (i : α) * vstep)) * maxY))⟩,
        ⟨int s.Dx, int (maxY * vstep)⟩⟩⟩
    lastUV :=
      ((1 - uTop, v - (shift : α) * vstep),
       (1 - (uTop - uTileWidth), v - (shift : α) * vstep),
       (1 - (uTop - uTileWidth), v - vTileHeight),
       (1 - uTop, v - vTileHeight))
    lastTile :=
      ⟨⟨⟨int ((1 - uTop) * maxX), int (math.Round ((1 - (v - (shift : α) * vstep)) * maxY))⟩,
        ⟨int s.Dx, int (math.Round (maxY * (vTileHeight - vstep * (shift : α))))⟩⟩⟩ }

/-- Body of the first loop of a row, `for azimuth < s.AzimuthMaxAngle` in the
upper half and `for azimuth < s.ThetaMaxAngle` in the lower half: `shift`,
`q` and `inc` are the row's shift, tile and far-edge azimuth increment. -/
def leftBody {σo : Type} (m : MathLib α) (s : SphereCap α)
    (wObj : Writer σo (List (ObjLine α))) (overrun : α) (shift : ℤ)
    (q : SphereState α σo → TileSpec α) (inc : α) (st : SphereState α σo) :
    Step α (SphereState α σo) :=
  (s.emitTile wObj shift (q st) st).map fun t =>
    { t with
      uBot := t.uBot + s.uTileWidth m overrun
      azimuth := t.azimuth + inc
      cornerAz := t.azimuth + inc
      u := t.u + s.uTileWidth m overrun
      radialInc := t.radialInc + 2 }

/-- Body of the second loop of a row, `for clockAz > -s.ThetaMaxAngle`. -/
def rightBody {σo : Type} (m : MathLib α) (s : SphereCap α)
    (wObj : Writer σo (List (ObjLine α))) (overrun : α) (shift : ℤ)
    (q : SphereState α σo → TileSpec α) (inc : α) (st : SphereState α σo) :
    Step α (SphereState α σo) :=
  (s.emitTile wObj shift (q st) st).map fun t =>
    { t with
      clockAz := t.clockAz - inc
      cornerAz := t.clockAz - inc
      u := t.u - s.uTileWidth m overrun
      radialInc := t.radialInc + 2
      uBot := t.uBot - s.uTileWidth m overrun }

/-- Body of the row loop of the upper half, `for theta > (math.Pi/2)-s.ThetaMaxAngle`. -/
def topRow {σo : Type} (m : MathLib α) (s : SphereCap α)
    (wObj : Writer σo (List (ObjLine α))) (overrun : α) (fuel : ℕ) (st : SphereState α σo) :
    Step α (SphereState α σo) :=
  let shift := s.shiftTop m st.theta
  let azimuthIncTop := s.rowInc m (st.theta - s.thetaInc m)
  match whileLoop (fun t => decide (t.azimuth < s.AzimuthMaxAngle))
      (s.leftBody m wObj overrun shift (s.specTopLeft m overrun) azimuthIncTop) fuel
      { st with cornerAz := st.azimuth, u := 1 / 2, uBot := 1 / 2, radialInc := 0 } with
  | .error e => .error e
  | .ok st1 =>
    match whileLoop (fun t => decide (t.clockAz > -s.ThetaMaxAngle))
        (s.rightBody m wObj overrun shift (s.specTopRight m overrun) azimuthIncTop) fuel
        { st1 with cornerAz := st1.clockAz, u := 1 / 2, uBot := 1 / 2, radialInc := 0 } with
    | .error e => .error e
    | .ok st2 =>
      .ok { st2 with
        theta := st2.theta - s.thetaInc m
        azimuth := 0
        clockAz := 0
        v := st2.v + s.vTileHeight m }

/-- Body of the row loop of the lower half, `for theta < (math.Pi/2)+s.ThetaMaxAngle`. -/
def botRow {σo : Type} (m : MathLib α) (s : SphereCap α)
    (wObj : Writer σo (List (ObjLine α))) (overrun : α) (fuel : ℕ) (st : SphereState α σo) :
    Step α (SphereState α σo) :=
  let shift := s.shiftBot m st.theta
  let azimuthIncBot := s.rowInc m (st.theta + s.thetaInc m)
  match whileLoop (fun t => decide (t.azimuth < s.ThetaMaxAngle))
      (s.leftBody m wObj overrun shift (s.specBotLeft m overrun) azimuthIncBot) fuel
      { st with cornerAz := st.azimuth, u := 1 / 2, uBot := 1 / 2, radialInc := 0 } with
  | .error e => .error e
  | .ok st1 =>
    match whileLoop (fun t => decide (t.clockAz > -s.ThetaMaxAngle))
        (s.rightBody m wObj overrun shift (s.specBotRight m overrun) azimuthIncBot) fuel
        { st1 with cornerAz := st1.clockAz, u := 1 / 2, uBot := 1 / 2, radialInc := 0 } with
    | .error e => .error e
    | .ok st2 =>
      .ok { st2 with
        v := st2.v - s.vTileHeight m
        theta := st2.theta + s.thetaInc m
        azimuth := 0
        clockAz := 0 }

/-- The flat bounding box of the layout document. -/
def flatBox (m : MathLib α) (s : SphereCap α) (overrun : α) : XY2D :=
  { X0 := 0, X1 := int (s.maxX m overrun), Y0 := 0, Y1 := int (s.maxY m) }

/-- The loop over the rows of the upper half, from the start of the run. -/
def upperHalf {σo : Type} (m : MathLib α) (s : SphereCap α)
    (wObj : Writer σo (List (ObjLine α))) (overrun : α) (fuel : ℕ) (o : σo) :
    Step α (SphereState α σo) :=
  whileLoop (fun st => decide (st.theta > m.Pi / 2 - s.ThetaMaxAngle))
    (s.topRow m wObj overrun fuel) fuel
    { wObj := o, tiles := [], vertexCount := 1, theta := m.Pi / 2, azimuth := 0,
      clockAz := 0, v := 1 / 2, u := 1 / 2, uBot := 1 / 2, radialInc := 0, cornerAz := 0,
      log := [] }

/-- The loop over the rows of the lower half, entered with `v` and `theta`
reset. -/
def lowerHalf {σo : Type} (m : MathLib α) (s : SphereCap α)
    (wObj : Writer σo (List (ObjLine α))) (overrun : α) (fuel : ℕ) (st : SphereState α σo) :
    Step α (SphereState α σo) :=
  whileLoop (fun st => decide (st.theta < m.Pi / 2 + s.ThetaMaxAngle))
    (s.botRow m wObj overrun fuel) fuel { st with v := 1 / 2, theta := m.Pi / 2 }

/-- The method `SphereCap.Generate`: generates a sphere cap made of tiles,
each row of pixels of a tile being split into a tile of its own. -/
def Generate {σo σt : Type} (m : MathLib α) (s : SphereCap α)
    (wObj : Writer σo (List (ObjLine α))) (wTsig : Writer σt TPIG) (fuel : ℕ) (o : σo)
    (t : σt) : Result α σo σt :=
  match s.scan m fuel with
  | .error (out, _) => { outcome := out, wObj := o, wTsig := t, log := [] }
  | .ok sc =>
    let overrun := sc.overrun
    match s.upperHalf m wObj overrun fuel o with
    | .error (out, st) => { outcome := out, wObj := st.wObj, wTsig := t, log := st.log }
    | .ok st1 =>
      match s.lowerHalf m wObj overrun fuel st1 with
      | .error (out, st) => { outcome := out, wObj := st.wObj, wTsig := t, log := st.log }
      | .ok st2 =>
        let tsig : TPIG :=
          { Tilelayout := st2.tiles, Dimensions := { Flat := s.flatBox m overrun } }
        match wTsig.write t tsig with
        | (w, none) => { outcome := .ok, wObj := st2.wObj, wTsig := w, log := st2.log }
        | (w, some err) =>
          { outcome := .error (.tsigEncode err), wObj := st2.wObj, wTsig := w, log := st2.log }

end SphereCap

end SphereModel

/-! ## float64 arithmetic

The models above compute in an exact ordered field. The program computes in
`float64`, where every sum, difference, product and quotient is rounded to 53
significant bits. This section has the rounded operations, on the finite
values of the normal range (no NaN, no infinity, no subnormal number), and
the transcriptions to them of the parts of `Cube.Generate` and of
`Curve.Generate` that decide the control flow and the tile layout. -/

/-- A finite `float64`, given by the rational number it stands for. -/
structure F64 where
  val : ℚ
deriving DecidableEq, Repr

namespace F64

/-- The product `x * 2 ^ k` for an integer `k`. -/
def scale (x : ℚ) (k : ℤ) : ℚ :=
  if 0 ≤ k then x * ((2 ^ k.toNat : ℕ) : ℚ) else x / ((2 ^ (-k).toNat : ℕ) : ℚ)

/-- The number of halvings that bring `n` below 2, at most `fuel` of them:
the binary logarithm of `n`, rounded down, when `n < 2 ^ fuel`. -/
def log2 : ℕ → ℕ → ℕ
  | 0, _ => 0
  | fuel + 1, n => if n < 2 then 0 else log2 fuel (n / 2) + 1

/-- The binary exponent of a non-zero `x`: the `e` with
`2 ^ e ≤ |x| < 2 ^ (e + 1)`. -/
def exponent (x : ℚ) : ℤ :=
  let e : ℤ := (log2 4096 x.num.natAbs : ℤ) - (log2 4096 x.den : ℤ)
  if (if x < 0 then -x else x) < scale 1 e then e - 1 else e

/-- The integer nearest to `x`, a tie going to the even one. -/
def nearestEven (x : ℚ) : ℤ :=
  if x - (⌊x⌋ : ℤ) < 1 / 2 then ⌊x⌋
  else if 1 / 2 < x - (⌊x⌋ : ℤ) then ⌊x⌋ + 1
  else if ⌊x⌋ % 2 = 0 then ⌊x⌋ else ⌊x⌋ + 1

/-- The rational `x` rounded to the nearest `float64`: 53 significant bits,
a tie going to the even significand. -/
def round (x : ℚ) : ℚ :=
  if x = 0 then 0 else scale (nearestEven (scale x (52 - exponent x)) : ℚ) (exponent x - 52)

/-- The `float64` of a decimal constant or of a decimal field of a
configuration file: the nearest one. -/
def lit (x : ℚ) : F64 := ⟨round x⟩

/-- Go's conversion `float64(n)` of a counter. -/
def ofNat (n : ℕ) : F64 := ⟨round n⟩

/-- Go's conversion `int(x)`. -/
def toInt (x : F64) : ℤ := int x.val

/-- Go's `math.Ceil`; the result is a `float64` below `2 ^ 53`. -/
def Ceil (x : F64) : F64 := ⟨math.Ceil x.val⟩

/-- Go's `math.Round`; the result is a `float64` below `2 ^ 53`. -/
def Round (x : F64) : F64 := ⟨math.Round x.val⟩

end F64

instance (n : ℕ) : OfNat F64 n := ⟨F64.ofNat n⟩

instance : Add F64 := ⟨fun x y => ⟨F64.round (x.val + y.val)⟩⟩

instance : Sub F64 := ⟨fun x y => ⟨F64.round (x.val - y.val)⟩⟩

instance : Mul F64 := ⟨fun x y => ⟨F64.round (x.val * y.val)⟩⟩

instance : Div F64 := ⟨fun x y => ⟨F64.round (x.val / y.val)⟩⟩

instance : Neg F64 := ⟨fun x => ⟨-x.val⟩⟩

instance : LT F64 := ⟨fun x y => x.val < y.val⟩

instance : LE F64 := ⟨fun x y => x.val ≤ y.val⟩

instance (x y : F64) : Decidable (x < y) := inferInstanceAs (Decidable (x.val < y.val))

instance (x y : F64) : Decidable (x ≤ y) := inferInstanceAs (Decidable (x.val ≤ y.val))

/-- The dimension check of the cube on `float64`: each test is made on the
rounded quotient. `none` is Go's `nil`. -/
def halfCubeFence64 (tileHeight tileWidth CubeWidth CubeHeight CubeDepth : F64) :
    Option (GenError F64) :=
  if (CubeWidth / tileWidth).Ceil.toInt ≠ (CubeWidth / tileWidth).toInt then
    some (.notIntegerMultiple "width" "width" tileWidth CubeWidth)
  else if (CubeHeight / tileHeight).Ceil.toInt ≠ (CubeHeight / tileHeight).toInt then
    some (.notIntegerMultiple "height" "height" tileHeight CubeHeight)
  else if (CubeDepth / tileWidth).Ceil.toInt ≠ (CubeDepth / tileWidth).toInt then
    some (.notIntegerMultiple "width" "depth" tileWidth CubeDepth)
  else if (CubeDepth / tileHeight).Ceil.toInt ≠ (CubeDepth / tileHeight).toInt then
    some (.notIntegerMultiple "height" "depth" tileHeight CubeHeight)
  else none

/-- How a run on `float64` with sinks that accept every write ends: the
outcome, the number of `f` lines written, and the layout document if one was
encoded. -/
structure Run64 where
  outcome : Outcome F64
  faces : ℕ
  doc : Option TPIG
deriving DecidableEq, Repr

/-- The variables of `Cube.Generate` that decide its control flow and its
tile list. -/
structure CubeState64 where
  tiles : List Tilelayout
  tileCount : ℕ
  faces : ℕ
  iCount : ℕ
  jCount : ℕ
  i : F64
  j : F64

namespace Cube

/-- Width of the flat display in pixels. -/
def pixelWidth64 (c : Cube F64) : F64 := ((c.CubeWidth + c.CubeDepth * 2) / c.TileWidth) * c.Dx

/-- Height of the flat display in pixels. -/
def pixelHeight64 (c : Cube F64) : F64 :=
  ((c.CubeDepth * 2 + c.CubeHeight) / c.TileHeight) * c.Dy

/-- Tiles of the left and right walls. -/
def leftRight64 (c : Cube F64) : ℤ :=
  ((c.CubeDepth * 2 / c.TileWidth) * (c.CubeHeight / c.TileHeight)).toInt

/-- Tiles of the top and bottom. -/
def topbot64 (c : Cube F64) : ℤ :=
  ((c.CubeDepth * 2 / c.TileWidth) * (c.CubeWidth / c.TileHeight)).toInt

/-- Tiles of the back wall. -/
def back64 (c : Cube F64) : ℤ :=
  ((c.CubeHeight / c.TileHeight) * (c.CubeWidth / c.TileWidth)).toInt

/-- Step of the uv map along u. -/
def uStep64 (c : Cube F64) : F64 := c.TileWidth / (c.CubeWidth + c.CubeDepth * 2)

/-- Step of the uv map along v. -/
def vStep64 (c : Cube F64) : F64 := c.TileHeight / (c.CubeDepth * 2 + c.CubeHeight)

/-- The five planes of the cube: left wall, right wall, back wall, top,
bottom. Fields the source leaves out have Go's zero value. -/
def planes64 (c : Cube F64) : List (Plane F64) :=
  [ { iEnd := c.CubeDepth, jEnd := c.CubeHeight, iStep := c.TileWidth, jStep := c.TileHeight,
      iStart := 0, jStart := 0, planeConst := 0, plane := "y",
      vStart := (c.CubeDepth / c.TileHeight) * c.vStep64, inverse := true,
      uStart := ((c.CubeDepth + c.CubeWidth) / c.TileWidth) * c.uStep64 },
    { iEnd := c.CubeDepth, jEnd := c.CubeHeight, iStep := c.TileWidth, jStep := c.TileHeight,
      iStart := 0, jStart := 0, planeConst := c.CubeWidth, plane := "y",
      vStart := (c.CubeDepth / c.TileHeight) * c.vStep64, inverse := false, uStart := 0 },
    { iEnd := c.CubeWidth, jEnd := c.CubeHeight, iStep := c.TileWidth, jStep := c.TileHeight,
      iStart := 0, jStart := 0, planeConst := c.CubeDepth, plane := "x",
      vStart := (c.CubeDepth / c.TileHeight) * c.vStep64, inverse := false,
      uStart := (c.CubeDepth / c.TileWidth) * c.uStep64 },
    { iEnd := c.CubeDepth, inverse := true, jEnd := c.CubeWidth, iStep := c.TileWidth,
      jStep := c.TileHeight, iStart := 0, jStart := 0, planeConst := c.CubeHeight, plane := "z",
      vStart := ((c.CubeDepth + c.CubeHeight) / c.TileHeight) * c.vStep64,
      uStart := (c.CubeDepth / c.TileWidth) * c.uStep64 },
    { iEnd := c.CubeDepth, jEnd := c.CubeWidth, iStep := c.TileWidth, jStep := c.TileHeight,
      iStart := 0, jStart := 0, planeConst := 0, plane := "z", vStart := 0, inverse := false,
      uStart := (c.CubeDepth / c.TileWidth) * c.uStep64 } ]

/-- The tile record stored for a face: pixel origin from a uv corner, size
from the pixel density. -/
def tileAt64 (c : Cube F64) (u v : F64) : Tilelayout :=
  ⟨⟨⟨(u * c.pixelWidth64).Round.toInt, ((1 - v) * c.pixelHeight64).Round.toInt⟩,
    ⟨c.Dx.toInt, c.Dy.toInt⟩⟩⟩

/-- The assignment `tiles[tileCount] = t`, then the face line and the
counters: a panic when the index is outside the slice. -/
def setTile64 (s : CubeState64) (t : Tilelayout) : Step F64 CubeState64 :=
  if s.tileCount < s.tiles.length then
    .ok { s with
      tiles := s.tiles.set s.tileCount t
      faces := s.faces + 1
      jCount := s.jCount + 1
      tileCount := s.tileCount + 1 }
  else .error (.panic "index out of range", s)

/-- Body of the `j` loop without its post statement, on `float64`: the tile
stored by the `switch` on the plane. The vertex and texture lines of the mesh
text do not influence the run and are left out. -/
def tileBody64 (c : Cube F64) (p : Plane F64) (s : CubeState64) : Step F64 CubeState64 :=
  let uTotal := (p.iEnd - p.iStart) / p.iStep
  let width := uTotal * c.uStep64
  let ujTotal := (p.jEnd - p.jStart) / p.jStep
  let ujwidth := ujTotal * c.uStep64
  let iCount := F64.ofNat s.iCount
  let iCount1 := F64.ofNat (s.iCount + 1)
  let jCount1 := F64.ofNat (s.jCount + 1)
  match p.plane with
  | "x" =>
    setTile64 s (c.tileAt64 (p.uStart + width - iCount1 * c.uStep64)
      (p.vStart + jCount1 * c.vStep64))
  | "y" =>
    if p.inverse then
      setTile64 s (c.tileAt64 (p.uStart + width - iCount1 * c.uStep64)
        (p.vStart + jCount1 * c.vStep64))
    else
      setTile64 s (c.tileAt64 (p.uStart + width - iCount1 * c.uStep64)
        (p.vStart + jCount1 * c.vStep64))
  | "z" =>
    if p.inverse then
      setTile64 s (c.tileAt64 (p.uStart + ujwidth - jCount1 * c.uStep64)
        (p.vStart + (uTotal - iCount) * c.vStep64))
    else
      setTile64 s (c.tileAt64 (p.uStart + ujwidth - jCount1 * c.uStep64)
        (p.vStart + iCount1 * c.vStep64))
  | _ => .ok s

/-- The loop `for j := p.jStart; j < p.jEnd; j += p.jStep` on `float64`. -/
def jLoop64 (c : Cube F64) (p : Plane F64) (fuel : ℕ) (s : CubeState64) : Step F64 CubeState64 :=
  whileLoop (fun s => decide (s.j < p.jEnd))
    (fun s => (tileBody64 c p s).map fun s' => { s' with j := s'.j + p.jStep }) fuel s

/-- The loop `for i := p.iStart; i < p.iEnd; i += p.iStep` on `float64`. -/
def iLoop64 (c : Cube F64) (p : Plane F64) (fuel : ℕ) (s : CubeState64) : Step F64 CubeState64 :=
  whileLoop (fun s => decide (s.i < p.iEnd))
    (fun s => (jLoop64 c p fuel { s with jCount := 0, j := p.jStart }).map fun s' =>
      { s' with iCount := s'.iCount + 1, i := s'.i + p.iStep }) fuel s

/-- The loop over the planes on `float64`; every write to the mesh sink is
accepted. -/
def sweep64 (c : Cube F64) (fuel : ℕ) : List (Plane F64) → CubeState64 → Step F64 CubeState64
  | [], s => .ok s
  | p :: ps, s =>
    match iLoop64 c p fuel { s with iCount := 0, i := p.iStart } with
    | .error e => .error e
    | .ok s' => sweep64 c fuel ps s'

/-- Length of the tile list that `Generate` allocates. -/
def tileTotal64 (c : Cube F64) : ℤ := c.leftRight64 + c.topbot64 + c.back64

/-- The flat bounding box of the layout document. -/
def flatBox64 (c : Cube F64) : XY2D :=
  { X0 := 0, X1 := c.pixelWidth64.toInt, Y0 := 0, Y1 := c.pixelHeight64.toInt }

/-- The method `Cube.Generate` on `float64`, with sinks that accept every
write. -/
def Generate64 (c : Cube F64) (fuel : ℕ) : Run64 :=
  match halfCubeFence64 c.TileHeight c.TileWidth c.CubeWidth c.CubeHeight c.CubeDepth with
  | some err => { outcome := .error err, faces := 0, doc := none }
  | none =>
    if c.tileTotal64 < 0 then
      { outcome := .panic "makeslice: len out of range", faces := 0, doc := none }
    else
      let s0 : CubeState64 :=
        { tiles := List.replicate c.tileTotal64.toNat Tilelayout.zero, tileCount := 0,
          faces := 0, iCount := 0, jCount := 0, i := 0, j := 0 }
      match sweep64 c fuel c.planes64 s0 with
      | .error (out, s) => { outcome := out, faces := s.faces, doc := none }
      | .ok s =>
        { outcome := .ok, faces := s.faces,
          doc := some { Tilelayout := s.tiles, Dimensions := { Flat := c.flatBox64 } } }

end Cube

/-- The variables of `Curve.Generate` that decide its control flow and its
tile list. -/
structure CurveState64 where
  tiles : List Tilelayout
  tileCount : ℕ
  faces : ℕ
  z : F64
  azimuth : F64
  u : F64
  v : F64

namespace Curve

/-- The angle covered by one tile; `asin` is `math.Asin`. -/
def azimuthInc64 (asin : F64 → F64) (c : Curve F64) : F64 :=
  2 * asin (c.TileWidth / (2 * c.CurveRadius))

/-- Number of tile columns, as the float the source computes. -/
def columns64 (asin : F64 → F64) (c : Curve F64) : F64 :=
  (2 * c.AzimuthMaxAngle / c.azimuthInc64 asin).Ceil

/-- Number of tile rows, as the float the source computes. -/
def rows64 (c : Curve F64) : F64 := (c.CurveHeight / c.TileHeight).Ceil

/-- Width of the flat display in pixels. -/
def pixelWidth64 (asin : F64 → F64) (c : Curve F64) : F64 := c.columns64 asin * c.Dx

/-- Height of the flat display in pixels. -/
def pixelHeight64 (c : Curve F64) : F64 := c.rows64 * c.Dy

/-- Length of the tile list that `Generate` allocates. -/
def tileTotal64 (asin : F64 → F64) (c : Curve F64) : ℤ := (c.columns64 asin * c.rows64).toInt

/-- Width of a tile in the uv map. -/
def uWidth64 (asin : F64 → F64) (c : Curve F64) : F64 := 1 / c.columns64 asin

/-- Height of a tile in the uv map. -/
def vheight64 (c : Curve F64) : F64 := 1 / c.rows64

/-- Body of the loop `for azimuth <= c.AzimuthMaxAngle` on `float64`. The
vertex and texture lines of the mesh text do not influence the run and are
left out. -/
def tileBody64 (asin : F64 → F64) (c : Curve F64) (s : CurveState64) : Step F64 CurveState64 :=
  let s1 : CurveState64 :=
    { s with
      faces := s.faces + 1
      azimuth := s.azimuth + c.azimuthInc64 asin
      u := s.u - c.uWidth64 asin }
  if s1.tileCount < s1.tiles.length then
    .ok { s1 with
      tiles := s1.tiles.set s1.tileCount
        ⟨⟨⟨(s1.u * c.pixelWidth64 asin).Round.toInt,
            ((1 - (s1.v + c.vheight64)) * c.pixelHeight64).Round.toInt⟩,
          ⟨c.Dx.toInt, c.Dy.toInt⟩⟩⟩
      tileCount := s1.tileCount + 1 }
  else .error (.panic "index out of range", s1)

/-- Body of the loop `for z < c.CurveHeight` on `float64`: one row of tiles;
the write to the mesh sink is accepted. -/
def rowBody64 (asin : F64 → F64) (c : Curve F64) (fuel : ℕ) (s : CurveState64) :
    Step F64 CurveState64 :=
  match whileLoop (fun s => decide (s.azimuth ≤ c.AzimuthMaxAngle)) (tileBody64 asin c) fuel
      { s with u := 1 } with
  | .error e => .error e
  | .ok s' =>
    .ok { s' with
      v := s'.v + c.vheight64
      z := s'.z + c.TileHeight
      azimuth := -c.AzimuthMaxAngle }

/-- The flat bounding box of the layout document. -/
def flatBox64 (asin : F64 → F64) (c : Curve F64) : XY2D :=
  { X0 := 0, X1 := (c.pixelWidth64 asin).toInt, Y0 := 0, Y1 := c.pixelHeight64.toInt }

/-- The method `Curve.Generate` on `float64`, with sinks that accept every
write; `asin` is `math.Asin`. -/
def Generate64 (asin : F64 → F64) (c : Curve F64) (fuel : ℕ) : Run64 :=
  if c.tileTotal64 asin < 0 then
    { outcome := .panic "makeslice: len out of range", faces := 0, doc := none }
  else
    let s0 : CurveState64 :=
      { tiles := List.replicate (c.tileTotal64 asin).toNat Tilelayout.zero, tileCount := 0,
        faces := 0, z := 0, azimuth := -c.AzimuthMaxAngle, u := 1, v := 0 }
    match whileLoop (fun s => decide (s.z < c.CurveHeight)) (rowBody64 asin c fuel) fuel s0 with
    | .error (out, s) => { outcome := out, faces := s.faces, doc := none }
    | .ok s =>
      { outcome := .ok, faces := s.faces,
        doc := some { Tilelayout := s.tiles, Dimensions := { Flat := c.flatBox64 asin } } }

end Curve

/-! ## Notions used to state the properties -/

/-- The value `q` is an integer. -/
def IsInteger {α : Type} [LinearOrderedField α] (q : α) : Prop := ∃ n : ℤ, (n : α) = q

/-- The outcome is the return of a "not an integer multiple" error. -/
def Outcome.isNotMultiple {α : Type} : Outcome α → Bool
  | .error (.notIntegerMultiple ..) => true
  | _ => false

/-- What can stop the sweep of the cube: a panic, the step budget or a failed
write, never a "not an integer multiple" error and never a normal return. -/
def sweepStop {α : Type} (o : Outcome α) : Prop := o.isNotMultiple = false ∧ o ≠ .ok

/-- A predicate on the end of a step: `P` on the state reached, or `Q` on the
outcome and state at which the run stopped. -/
def Step.Ends {α σ : Type} (P : σ → Prop) (Q : Outcome α → σ → Prop) : Step α σ → Prop
  | .ok s => P s
  | .error (o, s) => Q o s

/-- One step of the numbering check. The state is the number of faces seen
and the numbers of `v` and `vt` lines seen since the last face. A face line is
accepted when exactly four `v` and four `vt` lines precede it and, being the
`k`-th face (from 0), it is `f 4k+1/4k+1 4k+2/4k+2 4k+3/4k+3 4k+4/4k+4`. -/
def scanLine {α : Type} (st : ℕ × ℕ × ℕ) : ObjLine α → Option (ℕ × ℕ × ℕ)
  | .v .. => some (st.1, st.2.1 + 1, st.2.2)
  | .vt .. => some (st.1, st.2.1, st.2.2 + 1)
  | .f v1 t1 v2 t2 v3 t3 v4 t4 =>
    if st.2.1 = 4 ∧ st.2.2 = 4 ∧ v1 = 4 * st.1 + 1 ∧ t1 = 4 * st.1 + 1 ∧
        v2 = 4 * st.1 + 2 ∧ t2 = 4 * st.1 + 2 ∧ v3 = 4 * st.1 + 3 ∧ t3 = 4 * st.1 + 3 ∧
        v4 = 4 * st.1 + 4 ∧ t4 = 4 * st.1 + 4 then
      some (st.1 + 1, 0, 0)
    else none

/-- The numbering check run over the lines of a mesh. -/
def scanFrom {α : Type} : ℕ × ℕ × ℕ → List (ObjLine α) → Option (ℕ × ℕ × ℕ)
  | st, [] => some st
  | st, l :: ls =>
    match scanLine st l with
    | some st' => scanFrom st' ls
    | none => none

/-- The `f` lines of a mesh, in order. -/
def faceLines {α : Type} (ls : List (ObjLine α)) : List (ObjLine α) :=
  ls.filter fun l => match l with | .f .. => true | _ => false

/-- The mesh is numbered without sharing: it is a sequence of blocks, each of
exactly four `v` lines and four `vt` lines followed by one face line, the
`k`-th face (from 0) pairing vertex and texture index `4k+1`, `4k+2`, `4k+3`,
`4k+4`; the indices are 1-based and the mesh ends with a complete block. -/
def WellNumbered {α : Type} (ls : List (ObjLine α)) : Prop :=
  scanFrom (0, 0, 0) ls = some (faceCount ls, 0, 0) ∧
  faceLines ls = (List.range (faceCount ls)).map fun k => faceLine (4 * k + 1)

/-- The emission log pairs tiles with faces: it consists of `k` pairs, the
`i`-th (from 0) being the storing of tile `i` and the writing of the face
with first vertex `4i+1`, in either order, with nothing between them. -/
inductive LockStep : ℕ → List Emission → Prop
  | nil : LockStep 0 []
  | tileFace {k : ℕ} {log : List Emission} :
    LockStep k log → LockStep (k + 1) (log ++ [.tile k, .face (4 * k + 1)])
  | faceTile {k : ℕ} {log : List Emission} :
    LockStep k log → LockStep (k + 1) (log ++ [.face (4 * k + 1), .tile k])

/-- Invariant of the sweep of a plane of the cube, for a recording mesh sink:
what has been written is numbered up to some face `k0`, the buffer continues
the numbering up to face `tileCount`, the next vertex is `4 tileCount + 1`, the
tile list keeps its length `n` and `tileCount` is at most `n`, and the log
pairs tiles and faces. -/
structure CubeInv {α : Type} (n : ℕ) (s : CubeState α (List (List (ObjLine α)))) : Prop where
  numbered : ∃ k0, scanFrom (0, 0, 0) s.wObj.flatten = some (k0, 0, 0) ∧
    scanFrom (k0, 0, 0) s.tileFace = some (s.tileCount, 0, 0)
  vertex : s.vertexCount = 4 * s.tileCount + 1
  inside : s.tileCount ≤ s.tiles.length
  length : s.tiles.length = n
  lock : LockStep s.tileCount s.log

/-- Invariant of the cube between two planes: as `CubeInv`, with everything
written. -/
structure CubeDone {α : Type} (n : ℕ) (s : CubeState α (List (List (ObjLine α)))) : Prop where
  numbered : scanFrom (0, 0, 0) s.wObj.flatten = some (s.tileCount, 0, 0)
  vertex : s.vertexCount = 4 * s.tileCount + 1
  inside : s.tileCount ≤ s.tiles.length
  length : s.tiles.length = n
  lock : LockStep s.tileCount s.log

/-- Invariant of a row of the curve, for a recording mesh sink; it reads as
`CubeInv`. -/
structure CurveInv {α : Type} (n : ℕ) (s : CurveState α (List (List (ObjLine α)))) : Prop where
  numbered : ∃ k0, scanFrom (0, 0, 0) s.wObj.flatten = some (k0, 0, 0) ∧
    scanFrom (k0, 0, 0) s.tileFaces = some (s.tileCount, 0, 0)
  vertex : s.vertexCount = 4 * s.tileCount + 1
  inside : s.tileCount ≤ s.tiles.length
  length : s.tiles.length = n
  lock : LockStep s.tileCount s.log

/-- Invariant of the curve between two rows: everything is written and the
azimuth is back at its start. -/
structure CurveDone {α : Type} [LinearOrderedField α] (c : Curve α) (n : ℕ)
    (s : CurveState α (List (List (ObjLine α)))) : Prop where
  numbered : scanFrom (0, 0, 0) s.wObj.flatten = some (s.tileCount, 0, 0)
  vertex : s.vertexCount = 4 * s.tileCount + 1
  inside : s.tileCount ≤ s.tiles.length
  length : s.tiles.length = n
  lock : LockStep s.tileCount s.log
  azimuth : s.azimuth = -c.AzimuthMaxAngle

/-- Invariant of the sphere cap between two coarse tiles, for a recording
mesh sink: the mesh written is numbered up to as many faces as there are
tiles, and the log pairs them. -/
structure SphereInv {α : Type} (s : SphereState α (List (List (ObjLine α)))) : Prop where
  numbered : scanFrom (0, 0, 0) s.wObj.flatten = some (s.tiles.length, 0, 0)
  vertex : s.vertexCount = 4 * s.tiles.length + 1
  lock : LockStep s.tiles.length s.log

/-- Invariant of the strip loop of a coarse tile that starts after `k0`
faces. -/
structure StripInv {α : Type} (k0 : ℕ) (t : StripState α) : Prop where
  numbered : scanFrom (k0, 0, 0) t.tileFaces = some (t.tiles.length, 0, 0)
  vertex : t.vertexCount = 4 * t.tiles.length + 1
  lock : LockStep t.tiles.length t.log

/-- What holds of the mesh sink wherever a run stops: complete blocks only. -/
def Numbered {α : Type} (writes : List (List (ObjLine α))) : Prop :=
  ∃ k, scanFrom (0, 0, 0) writes.flatten = some (k, 0, 0)

/-- Number of tiles of a plane of the cube: the passes of its `i` loop times
the passes of its `j` loop. -/
def Plane.tileCount {α : Type} [LinearOrderedField α] [FloorRing α] (p : Plane α) : ℕ :=
  ⌈(p.iEnd - p.iStart) / p.iStep⌉.toNat * ⌈(p.jEnd - p.jStart) / p.jStep⌉.toNat

/-- The loops of the plane advance and its `plane` is one the `switch` of the
sweep handles. -/
def Plane.Sweeps {α : Type} [LinearOrderedField α] (p : Plane α) : Prop :=
  0 < p.iStep ∧ 0 < p.jStep ∧ (p.plane = "x" ∨ p.plane = "y" ∨ p.plane = "z")

section CurveGridDefs
variable {α : Type} [LinearOrderedField α] [FloorRing α]
namespace Curve

/-- Passes of the loop `for azimuth <= c.AzimuthMaxAngle` in one row, for a
positive azimuth increment: the tiles of a row. -/
def perRow (m : MathLib α) (c : Curve α) : ℕ :=
  (⌊(c.AzimuthMaxAngle - -c.AzimuthMaxAngle) / c.azimuthInc m⌋ + 1).toNat

/-- The value of `z` in row `r` (from 0). -/
def zAt (c : Curve α) (r : ℕ) : α := (r : α) * c.TileHeight

/-- The value of `azimuth` at tile `k` (from 0) of a row. -/
def azimuthAt (m : MathLib α) (c : Curve α) (k : ℕ) : α :=
  -c.AzimuthMaxAngle + (k : α) * c.azimuthInc m

/-- The value of `u` at tile `k` of a row. -/
def uAt (m : MathLib α) (c : Curve α) (k : ℕ) : α := 1 - (k : α) * c.uWidth m

/-- The value of `v` in row `r`. -/
def vAt (c : Curve α) (r : ℕ) : α := (r : α) * c.vheight

/-- The corners of the quad with first corner at height `z` and azimuth `a`,
in the order the loop body writes them. -/
def quad (m : MathLib α) (c : Curve α) (z a : α) :
    (α × α × α) × (α × α × α) × (α × α × α) × (α × α × α) :=
  (CylindricalToCartesian m c.CurveRadius z a,
   CylindricalToCartesian m c.CurveRadius z (a + c.azimuthInc m),
   CylindricalToCartesian m c.CurveRadius (z + c.TileHeight) (a + c.azimuthInc m),
   CylindricalToCartesian m c.CurveRadius (z + c.TileHeight) a)

/-- The texture coordinates the loop body writes at `u`, `v`, in order. -/
def uvQuad (m : MathLib α) (c : Curve α) (u v : α) : (α × α) × (α × α) × (α × α) × (α × α) :=
  ((u, v), (u - c.uWidth m, v), (u - c.uWidth m, v + c.vheight), (u, v + c.vheight))

/-- The nine lines of a face: corners `q`, texture coordinates `t`, first
vertex number `n`. -/
def blockLines (q : (α × α × α) × (α × α × α) × (α × α × α) × (α × α × α))
    (t : (α × α) × (α × α) × (α × α) × (α × α)) (n : ℕ) : List (ObjLine α) :=
  [ ObjLine.v q.1.1 q.1.2.1 q.1.2.2, ObjLine.vt t.1.1 t.1.2,
    ObjLine.v q.2.1.1 q.2.1.2.1 q.2.1.2.2, ObjLine.vt t.2.1.1 t.2.1.2,
    ObjLine.v q.2.2.1.1 q.2.2.1.2.1 q.2.2.1.2.2, ObjLine.vt t.2.2.1.1 t.2.2.1.2,
    ObjLine.v q.2.2.2.1 q.2.2.2.2.1 q.2.2.2.2.2, ObjLine.vt t.2.2.2.1 t.2.2.2.2,
    faceLine n ]

/-- The text of tile `k` of row `r`. -/
def block (m : MathLib α) (c : Curve α) (r k : ℕ) : List (ObjLine α) :=
  blockLines (c.quad m (c.zAt r) (c.azimuthAt m k)) (c.uvQuad m (c.uAt m k) (c.vAt r))
    (4 * (r * c.perRow m + k) + 1)

/-- The tile-list entry of tile `k` of row `r`. -/
def tileAt (m : MathLib α) (c : Curve α) (r k : ℕ) : Tilelayout :=
  ⟨⟨⟨int (math.Round ((c.uAt m k - c.uWidth m) * c.pixelWidth m)),
      int (math.Round ((1 - (c.vAt r + c.vheight)) * c.pixelHeight))⟩,
    ⟨int c.Dx, int c.Dy⟩⟩⟩

/-- The text of row `r`: one write to the mesh sink. -/
def rowLines (m : MathLib α) (c : Curve α) (r : ℕ) : List (ObjLine α) :=
  (List.range (c.perRow m)).flatMap (c.block m r)

/-- The tile-list entries of row `r`. -/
def rowTiles (m : MathLib α) (c : Curve α) (r : ℕ) : List Tilelayout :=
  (List.range (c.perRow m)).map (c.tileAt m r)

end Curve

/-- Invariant of the azimuth loop of row `r` of the curve before tile `k`,
for a recording mesh sink: the loop variables have their closed forms, the
rows before `r` are written, the buffer holds the first `k` tiles of the row
and the tile list starts with all the tiles so far. -/
structure CurveCell (m : MathLib α) (c : Curve α) (r k : ℕ)
    (s : CurveState α (List (List (ObjLine α)))) : Prop where
  z : s.z = c.zAt r
  v : s.v = c.vAt r
  azimuth : s.azimuth = c.azimuthAt m k
  u : s.u = c.uAt m k
  wObj : s.wObj = (List.range r).map (c.rowLines m)
  tileFaces : s.tileFaces = (List.range k).flatMap (c.block m r)
  tileCount : s.tileCount = r * c.perRow m + k
  vertexCount : s.vertexCount = 4 * (r * c.perRow m + k) + 1
  tiles : s.tiles.take (r * c.perRow m + k) =
    (List.range r).flatMap (c.rowTiles m) ++ (List.range k).map (c.tileAt m r)
  length : s.tiles.length = (c.tileTotal m).toNat
  inside : r * c.perRow m + k ≤ (c.tileTotal m).toNat

/-- Invariant of the curve between two rows, before row `r`. -/
structure CurveRow (m : MathLib α) (c : Curve α) (r : ℕ)
    (s : CurveState α (List (List (ObjLine α)))) : Prop where
  cell : CurveCell m c r 0 { s with u := 1, tileFaces := [] }
  entered : ∀ i < r, c.zAt i < c.CurveHeight

/-- What a run of the curve that stops early has written: some rows, whole. -/
def CurveStopped (m : MathLib α) (c : Curve α) (w : List (List (ObjLine α))) : Prop :=
  ∃ r, w = (List.range r).map (c.rowLines m) ∧ (∀ i < r, c.zAt i < c.CurveHeight) ∧
    r * c.perRow m ≤ (c.tileTotal m).toNat

end CurveGridDefs

/-- Modelled from the spec: the regular grid of `rows` rows of `n` tiles of
`dx` by `dy` pixels, row by row in emission order; the tile of row `r` and
column `k` (from 0) has its origin at `((n - 1 - k) dx, (rows - 1 - r) dy)`. -/
def regularGrid (n rows dx dy : ℕ) : List Tilelayout :=
  (List.range rows).flatMap fun (r : ℕ) => (List.range n).map fun (k : ℕ) =>
    ⟨⟨⟨((n : ℤ) - 1 - k) * dx, ((rows : ℤ) - 1 - r) * dy⟩, ⟨dx, dy⟩⟩⟩

/-- The pixel `(x, y)` lies in the rectangle of the tile. -/
def Tilelayout.Covers (t : Tilelayout) (x y : ℤ) : Prop :=
  t.Layout.Flat.X ≤ x ∧ x < t.Layout.Flat.X + t.Layout.Size.X ∧
  t.Layout.Flat.Y ≤ y ∧ y < t.Layout.Flat.Y + t.Layout.Size.Y

/-- The lengths of the four edges of a quad, by `ThreeDistance`: the two edges
along the azimuth (first to second corner, fourth to third) and the two edges
along the height (first to fourth corner, second to third). -/
def quadEdges {α : Type} [LinearOrderedField α] (m : MathLib α)
    (q : (α × α × α) × (α × α × α) × (α × α × α) × (α × α × α)) : α × α × α × α :=
  (ThreeDistance m q.1.1 q.2.1.1 q.1.2.1 q.2.1.2.1 q.1.2.2 q.2.1.2.2,
   ThreeDistance m q.2.2.2.1 q.2.2.1.1 q.2.2.2.2.1 q.2.2.1.2.1 q.2.2.2.2.2 q.2.2.1.2.2,
   ThreeDistance m q.1.1 q.2.2.2.1 q.1.2.1 q.2.2.2.2.1 q.1.2.2 q.2.2.2.2.2,
   ThreeDistance m q.2.1.1 q.2.2.1.1 q.2.1.2.1 q.2.2.1.2.1 q.2.1.2.2 q.2.2.1.2.2)

/-- Modelled from the spec: the point `a + i * (step / Dy) * (b - a)` of the
segment from `a` to `b`, the corner the specification gives strip `i` of a
coarse tile of the sphere cap. -/
def SphereCap.stripCorner {α : Type} [LinearOrderedField α] [FloorRing α] (s : SphereCap α)
    (shift : ℤ) (a b : α × α × α) (i : ℕ) : α × α × α :=
  (a.1 + (i : α) * ((s.step shift : α) / s.Dy) * (b.1 - a.1),
    a.2.1 + (i : α) * ((s.step shift : α) / s.Dy) * (b.2.1 - a.2.1),
    a.2.2 + (i : α) * ((s.step shift : α) / s.Dy) * (b.2.2 - a.2.2))

/-- The step `r` with the state seen through `g`. -/
def Step.mapState {α σ σ' : Type} (g : σ → σ') : Step α σ → Step α σ'
  | .ok s => .ok (g s)
  | .error (o, s) => .error (o, g s)

/-- The sink `w2` follows the sink `w1` through `g`: a write to `w2` at the
image of a state of `w1` returns the error `w1` returns and leaves the image
of the state `w1` is left in. -/
def Writer.Follows {σ1 σ2 β : Type} (w2 : Writer σ2 β) (w1 : Writer σ1 β) (g : σ1 → σ2) : Prop :=
  ∀ s b, w2.write (g s) b = (g (w1.write s b).1, (w1.write s b).2)

/-- The result `r` with the mesh sink seen through `g`. -/
def Result.mapObj {α σ1 σ2 σt : Type} (g : σ1 → σ2) (r : Result α σ1 σt) : Result α σ2 σt :=
  { outcome := r.outcome, wObj := g r.wObj, wTsig := r.wTsig, log := r.log }

/-- The variables of the cube with the mesh sink seen through `g`. -/
def CubeState.mapObj {α σ1 σ2 : Type} (g : σ1 → σ2) (s : CubeState α σ1) : CubeState α σ2 :=
  { wObj := g s.wObj, tiles := s.tiles, vertexCount := s.vertexCount, tileCount := s.tileCount,
    tileFace := s.tileFace, iCount := s.iCount, jCount := s.jCount, i := s.i, j := s.j,
    log := s.log }

/-- The variables of the curve with the mesh sink seen through `g`. -/
def CurveState.mapObj {α σ1 σ2 : Type} (g : σ1 → σ2) (s : CurveState α σ1) : CurveState α σ2 :=
  { wObj := g s.wObj, tiles := s.tiles, vertexCount := s.vertexCount, tileCount := s.tileCount,
    tileFaces := s.tileFaces, z := s.z, azimuth := s.azimuth, u := s.u, v := s.v, log := s.log }

/-- The variables of the sphere cap with the mesh sink seen through `g`. -/
def SphereState.mapObj {α σ1 σ2 : Type} (g : σ1 → σ2) (s : SphereState α σ1) :
    SphereState α σ2 :=
  { wObj := g s.wObj, tiles := s.tiles, vertexCount := s.vertexCount, theta := s.theta,
    azimuth := s.azimuth, clockAz := s.clockAz, v := s.v, u := s.u, uBot := s.uBot,
    radialInc := s.radialInc, cornerAz := s.cornerAz, log := s.log }

/-- The sink `w` with a record of its calls: the state also holds, call by
call, the error each write returned (`none` for an accepted write). -/
def Writer.logged {σ β : Type} (w : Writer σ β) : Writer (σ × List (Option String)) β where
  write s b := (((w.write s.1 b).1, s.2 ++ [(w.write s.1 b).2]), (w.write s.1 b).2)

/-- Every call of the record was accepted. -/
def AllAccepted (calls : List (Option String)) : Prop := ∀ c ∈ calls, c = none

/-- The run stopped on a run-time panic or on the step budget. -/
def Outcome.isCrash {α : Type} : Outcome α → Bool
  | .panic _ => true
  | .outOfFuel => true
  | _ => false

/-- How a loop of `Generate` stops early, given the record of the calls on
the mesh sink: on a panic or on the step budget with every call accepted, or
with the error of the last call, the only one that failed. -/
def MeshStop {α : Type} (o : Outcome α) (calls : List (Option String)) : Prop :=
  (AllAccepted calls ∧ o.isCrash = true) ∨
  ∃ pre err, calls = pre ++ [some err] ∧ AllAccepted pre ∧ o = .error (.objWrite err)

/-- A run aborts at the first failed write to the mesh sink: either every
call on the mesh sink was accepted, or the last call is the only one that
failed, its error is returned as an "error writing to obj" error, and the
layout sink is as it was before the run, `layout0`. -/
def FailureAborts {α σo σt : Type} (r : Result α (σo × List (Option String)) σt)
    (layout0 : σt) : Prop :=
  AllAccepted r.wObj.2 ∨
  ∃ pre err, r.wObj.2 = pre ++ [some err] ∧ AllAccepted pre ∧
    r.outcome = .error (.objWrite err) ∧ r.wTsig = layout0

/-- Every error the run returned is the error of a failed call on one of
its sinks: an "error writing to obj" error carries an error found in the
record of the calls on the mesh sink, and an encoding error is one the layout
sink returns at its state before the run, `layout0`. In particular the run
returned no error of its own making, such as a configuration error. -/
def ErrorsFromSinks {α σo σt : Type} (r : Result α (σo × List (Option String)) σt)
    (wTsig : Writer σt TPIG) (layout0 : σt) : Prop :=
  ∀ e, r.outcome = .error e →
    (∃ err, e = .objWrite err ∧ some err ∈ r.wObj.2) ∨
    (∃ err doc, e = .tsigEncode err ∧ (wTsig.write layout0 doc).2 = some err)

/-- The record of the calls with every entry replaced by an accepted call. -/
def cleared {σ : Type} (s : σ × List (Option String)) : σ × List (Option String) :=
  (s.1, s.2.map fun _ => none)

/-! ## Concrete configurations -/

/-- The configuration of the specification's example: unit tiles, a 2 by 2 by
1 cube, 10 pixels per tile. -/
def exampleCube : Cube ℚ :=
  { TileHeight := 1, TileWidth := 1, CubeWidth := 2, CubeHeight := 2, CubeDepth := 1,
    Dx := 10, Dy := 10 }

/-- A cube whose width 2 is not a multiple of its tile width 1.5; the other
ratios are integers. -/
def oddWidthCube : Cube ℚ :=
  { TileHeight := 1, TileWidth := 3 / 2, CubeWidth := 2, CubeHeight := 2, CubeDepth := 3,
    Dx := 10, Dy := 10 }

/-- A cube whose width 1 is not a multiple of its tile height 2, a ratio the
dimension check does not test. -/
def skewCube : Cube ℚ :=
  { TileHeight := 2, TileWidth := 1, CubeWidth := 1, CubeHeight := 2, CubeDepth := 2,
    Dx := 10, Dy := 10 }

/-- A cube with tiles twice as high as wide; every ratio of an extent to a
tile pitch is an integer. -/
def tallTileCube : Cube ℚ :=
  { TileHeight := 2, TileWidth := 1, CubeWidth := 2, CubeHeight := 2, CubeDepth := 2,
    Dx := 10, Dy := 10 }

/-- A cube of unit tiles that is deeper (2) than it is wide (1). -/
def deepCube : Cube ℚ :=
  { TileHeight := 1, TileWidth := 1, CubeWidth := 1, CubeHeight := 1, CubeDepth := 2,
    Dx := 10, Dy := 10 }

/-- A cube of unit tiles whose three extents are -1. -/
def negativeCube : Cube ℚ :=
  { TileHeight := 1, TileWidth := 1, CubeWidth := -1, CubeHeight := -1, CubeDepth := -1,
    Dx := 10, Dy := 10 }

/-- A rational stand-in for the functions of Go's `math` package: the Taylor
polynomials of sine, cosine and arcsine at 0 and 22/7 for pi. `Sqrt` is not
used by the generators. -/
def taylorMath : MathLib ℚ where
  Pi := 22 / 7
  Sin x := x - x ^ 3 / 6 + x ^ 5 / 120
  Cos x := 1 - x ^ 2 / 2 + x ^ 4 / 24
  Asin x := x + x ^ 3 / 6
  Sqrt x := x

/-- A curved wall of radius 2 and height 2 with unit tiles, half a radian to
each side. -/
def exampleCurve : Curve ℚ :=
  { TileHeight := 1, TileWidth := 1, CurveRadius := 2, CurveHeight := 2,
    AzimuthMaxAngle := 1 / 2, Dx := 8, Dy := 8 }

/-- A cap of radius 2 with unit tiles, one radian of inclination and half a
radian of azimuth; its second row is split into strips. -/
def exampleCap : SphereCap ℚ :=
  { TileHeight := 1, TileWidth := 1, Radius := 2, ThetaMaxAngle := 1,
    AzimuthMaxAngle := 1 / 2, Dx := 8, Dy := 8 }

/-- `Cube.Generate` run with two empty recording sinks. -/
def Cube.record {α : Type} [LinearOrderedField α] [FloorRing α] (c : Cube α) (fuel : ℕ) :
    Result α (List (List (ObjLine α))) (List TPIG) :=
  c.Generate (Writer.recorder _) (Writer.recorder _) fuel [] []

/-- The texture coordinates of a mesh, in the order of its `vt` lines. -/
def texCoords {α : Type} (ls : List (ObjLine α)) : List (α × α) :=
  ls.filterMap fun l => match l with
    | .vt u v => some (u, v)
    | _ => none

/-- The vertices of a mesh, in the order of its `v` lines. -/
def vertices {α : Type} (ls : List (ObjLine α)) : List (α × α × α) :=
  ls.filterMap fun l => match l with
    | .v x y z => some (x, y, z)
    | _ => none

/-- The four texture coordinates written for face `i` (counting from 0). -/
def faceTexCoords {α : Type} (ls : List (ObjLine α)) (i : ℕ) : List (α × α) :=
  ((texCoords ls).drop (4 * i)).take 4

/-- The pixel origin the specification gives the tile of a face: the uv quad
of the face scaled by the atlas size, `X = round(uMin * pixelWidth)` and
`Y = round((1 - vMax) * pixelHeight)`, with `uMin` the smallest `u` and `vMax`
the largest `v` of the quad. -/
def uvOrigin {α : Type} [LinearOrderedField α] [FloorRing α] (pixelWidth pixelHeight : α)
    (quad : List (α × α)) : Option XY :=
  match (quad.map Prod.fst).min?, (quad.map Prod.snd).max? with
  | some uMin, some vMax =>
    some ⟨int (math.Round (uMin * pixelWidth)), int (math.Round ((1 - vMax) * pixelHeight))⟩
  | _, _ => none

/-- A curved wall of radius 2 and height 1 with unit tiles and no azimuth to
either side. -/
def zeroAngleCurve : Curve ℚ :=
  { TileHeight := 1, TileWidth := 1, CurveRadius := 2, CurveHeight := 1,
    AzimuthMaxAngle := 0, Dx := 8, Dy := 8 }

/-- A curved wall of radius 2 and height 1 with unit tiles whose azimuth to
each side is one azimuth increment of `taylorMath`, 97/192: two tiles fit
exactly. -/
def wholeTilesCurve : Curve ℚ :=
  { TileHeight := 1, TileWidth := 1, CurveRadius := 2, CurveHeight := 1,
    AzimuthMaxAngle := 97 / 192, Dx := 8, Dy := 8 }

/-- A curved wall of radius 2 with unit tiles whose height 3/2 and azimuth
1/2 to each side are not whole numbers of tiles. -/
def overhangCurve : Curve ℚ :=
  { TileHeight := 1, TileWidth := 1, CurveRadius := 2, CurveHeight := 3 / 2,
    AzimuthMaxAngle := 1 / 2, Dx := 8, Dy := 8 }

/-- Cuts a list into consecutive groups of the given sizes. -/
def splitBy {β : Type} : List ℕ → List β → List (List β)
  | [], _ => []
  | n :: ns, xs => xs.take n :: splitBy ns (xs.drop n)

/-- The tile entries of a layout grouped by coarse angular step: every coarse
step of the sphere cap is one write to the mesh sink, and holds one tile per
face of that write. -/
def coarseSteps {α : Type} (writes : List (List (ObjLine α))) (tiles : List Tilelayout) :
    List (List Tilelayout) :=
  splitBy (writes.map faceCount) tiles

/-- On which side a coarse tile of the sphere cap lies, read off the text
written for it: whether its second vertex, the near corner moved along the
azimuth, has a positive `y`, and whether its last vertex, the far corner at
the start azimuth, has a positive `z`. -/
def sideOf {α : Type} [LinearOrderedField α] (lines : List (ObjLine α)) : Option (Bool × Bool) :=
  match (vertices lines)[1]?, (vertices lines).getLast? with
  | some p, some q => some (decide (0 < p.2.1), decide (0 < q.2.2))
  | _, _ => none

/-- A rational sine: the argument is reduced to `[-pi/2, pi/2]` with the given
value of pi, the Taylor polynomial of degree 11 is taken and the result is
rounded to a multiple of `2^-40`. -/
def fineSin (pi x : ℚ) : ℚ :=
  let r := x - 2 * pi * ((⌊x / (2 * pi) + 1 / 2⌋ : ℤ) : ℚ)
  let y := if r > pi / 2 then pi - r else if r < -(pi / 2) then -pi - r else r
  let p := y - y ^ 3 / 6 + y ^ 5 / 120 - y ^ 7 / 5040 + y ^ 9 / 362880 - y ^ 11 / 39916800
  ((⌊p * 2 ^ 40 + 1 / 2⌋ : ℤ) : ℚ) / 2 ^ 40

/-- A rational stand-in for Go's `math` package that is accurate to about
seven digits: 355/113 for pi, `fineSin` for the sine and, shifted by pi/2, the
cosine, and the power series of the arcsine up to degree 11, rounded to a
multiple of `2^-40` (for arguments up to 1/2). `Sqrt` is not used by the
generators. -/
def fineMath : MathLib ℚ where
  Pi := 355 / 113
  Sin x := fineSin (355 / 113) x
  Cos x := fineSin (355 / 113) (x + 355 / 226)
  Asin x :=
    let p := x + x ^ 3 / 6 + 3 * x ^ 5 / 40 + 5 * x ^ 7 / 112 + 35 * x ^ 9 / 1152 +
      63 * x ^ 11 / 2816
    ((⌊p * 2 ^ 40 + 1 / 2⌋ : ℤ) : ℚ) / 2 ^ 40
  Sqrt x := x

/-- A cap of radius 2 with unit tiles, 1.1 radians of inclination and half a
radian of azimuth; its third row reaches to 0.055 radians from the pole. -/
def poleCap : SphereCap ℚ :=
  { TileHeight := 1, TileWidth := 1, Radius := 2, ThetaMaxAngle := 11 / 10,
    AzimuthMaxAngle := 1 / 2, Dx := 8, Dy := 8 }

/-- A cap of radius 2 with unit tiles and one radian of inclination and of
azimuth; its second row is split into strips and has two coarse steps in
every quadrant. -/
def evenCap : SphereCap ℚ :=
  { TileHeight := 1, TileWidth := 1, Radius := 2, ThetaMaxAngle := 1,
    AzimuthMaxAngle := 1, Dx := 8, Dy := 8 }

/-- `SphereCap.Generate` run with `fineMath`, two empty recording sinks and a
step budget of 8. -/
def SphereCap.record (s : SphereCap ℚ) : Result ℚ (List (List (ObjLine ℚ))) (List TPIG) :=
  s.Generate fineMath (Writer.recorder _) (Writer.recorder TPIG) 8 [] []

/-- A cap of radius 2 with unit tiles, 1.55 radians of inclination and half a
radian of azimuth: its fourth row starts 0.055 radians from the pole, and the
far edge of that row lies beyond the pole. -/
def endlessCap : SphereCap ℚ :=
  { TileHeight := 1, TileWidth := 1, Radius := 2, ThetaMaxAngle := 31 / 20,
    AzimuthMaxAngle := 1 / 2, Dx := 8, Dy := 8 }

/-- The loop variables of the example cap at the start of its second row. -/
def secondRowStart : SphereState ℚ (List (List (ObjLine ℚ))) :=
  { wObj := [], tiles := [], vertexCount := 1,
    theta := fineMath.Pi / 2 - exampleCap.thetaInc fineMath, azimuth := 0, clockAz := 0,
    v := 1 / 2 + exampleCap.vTileHeight fineMath, u := 1 / 2, uBot := 1 / 2, radialInc := 0,
    cornerAz := 0, log := [] }

/-- A curved wall whose tiles, 5 wide, are wider than the diameter 4 of the
cylinder: TileWidth/(2 CurveRadius) is 5/4. -/
def oversizeCurve : Curve ℚ :=
  { TileHeight := 1, TileWidth := 5, CurveRadius := 2, CurveHeight := 2,
    AzimuthMaxAngle := 1 / 2, Dx := 8, Dy := 8 }

/-- A cap whose tiles, 5 wide, are wider than the diameter 4 of the sphere:
TileWidth/(2 Radius) is 5/4. -/
def oversizeCap : SphereCap ℚ :=
  { TileHeight := 1, TileWidth := 5, Radius := 2, ThetaMaxAngle := 1,
    AzimuthMaxAngle := 1 / 2, Dx := 8, Dy := 8 }

/-- A cube of 0.1 tiles, 0.3 wide, 0.1 high and 0.1 deep: three tiles fit
its width. -/
def threeTenthsCube64 : Cube F64 :=
  { TileHeight := F64.lit (1 / 10), TileWidth := F64.lit (1 / 10), CubeWidth := F64.lit (3 / 10),
    CubeHeight := F64.lit (1 / 10), CubeDepth := F64.lit (1 / 10), Dx := 10, Dy := 10 }

/-- A cube of 0.1 tiles, 0.5 wide, 0.1 high and 0.1 deep. -/
def fiveTenthsCube64 : Cube F64 :=
  { TileHeight := F64.lit (1 / 10), TileWidth := F64.lit (1 / 10), CubeWidth := F64.lit (1 / 2),
    CubeHeight := F64.lit (1 / 10), CubeDepth := F64.lit (1 / 10), Dx := 10, Dy := 10 }

/-- A cube of 0.1 tiles, 0.1 wide, 0.2 high and 0.5 deep, 10 pixels per
tile. -/
def tallCube64 : Cube F64 :=
  { TileHeight := F64.lit (1 / 10), TileWidth := F64.lit (1 / 10), CubeWidth := F64.lit (1 / 10),
    CubeHeight := F64.lit (2 / 10), CubeDepth := F64.lit (1 / 2), Dx := 10, Dy := 10 }

/-- The cube `tallCube64` with its decimal fields taken as exact numbers. -/
def tallCubeExact : Cube ℚ :=
  { TileHeight := 1 / 10, TileWidth := 1 / 10, CubeWidth := 1 / 10, CubeHeight := 2 / 10,
    CubeDepth := 1 / 2, Dx := 10, Dy := 10 }

/-- A cube of 0.1 tiles, 0.1 wide, 0.1 high and 0.8 deep. -/
def eightTenthsCube64 : Cube F64 :=
  { TileHeight := F64.lit (1 / 10), TileWidth := F64.lit (1 / 10), CubeWidth := F64.lit (1 / 10),
    CubeHeight := F64.lit (1 / 10), CubeDepth := F64.lit (8 / 10), Dx := 10, Dy := 10 }

/-- The arcsine at the one argument the curve `lowCurve64` needs:
`math.Asin(0.25)` is the `float64` 0.25268025514207865, that is
`0x1.02be9ce0b87cdp-2`. -/
def asinQuarter (_ : F64) : F64 := ⟨4551882811606989 / 18014398509481984⟩

/-- A curved wall of radius 2, 0.27 high, with tiles 1 wide and 0.09 high,
half a radian to each side, 8 pixels per tile: three rows of two tiles. -/
def lowCurve64 : Curve F64 :=
  { TileHeight := F64.lit (9 / 100), TileWidth := 1, CurveRadius := 2,
    CurveHeight := F64.lit (27 / 100), AzimuthMaxAngle := F64.lit (1 / 2), Dx := 8, Dy := 8 }

/-! ## Theorems -/

set_option linter.unusedSectionVars false

section NumericLemmas

variable {α : Type} [LinearOrderedField α] [FloorRing α]

theorem int_intCast (n : ℤ) : int (n : α) = n := by
  unfold int
  split <;> simp

theorem int_of_nonneg {x : α} (h : 0 ≤ x) : int x = ⌊x⌋ := by
  unfold int
  simp [h]

theorem int_ceil (x : α) : int (math.Ceil x) = ⌈x⌉ := by
  unfold math.Ceil
  exact int_intCast _

theorem ceil_eq_floor_iff (x : α) : ⌈x⌉ = ⌊x⌋ ↔ IsInteger x := by
  constructor
  · intro h
    refine ⟨⌊x⌋, le_antisymm (Int.floor_le x) ?_⟩
    rw [← h]
    exact Int.le_ceil x
  · rintro ⟨n, rfl⟩
    simp

/-- The test of `halfCubeFence` on a non-negative ratio passes exactly when
the ratio is an integer. -/
theorem fence_test_iff {x : α} (h : 0 ≤ x) : int (math.Ceil x) = int x ↔ IsInteger x := by
  rw [int_ceil, int_of_nonneg h, ceil_eq_floor_iff]

end NumericLemmas

section LoopLemmas

variable {α σ : Type}

/-- Hoare rule for `whileLoop`: an invariant `P` of the body holds when the
loop ends, and `Q` holds wherever the run stops early. -/
theorem whileLoop_ends (cond : σ → Bool) (body : σ → Step α σ) (P : σ → Prop)
    (Q : Outcome α → σ → Prop) (hfuel : ∀ s, P s → Q .outOfFuel s)
    (hbody : ∀ s, P s → cond s = true → Step.Ends P Q (body s)) :
    ∀ (fuel : ℕ) (s : σ), P s → Step.Ends P Q (whileLoop cond body fuel s) := by
  intro fuel
  induction fuel with
  | zero =>
    intro s hs
    unfold whileLoop
    by_cases hc : cond s = true
    · simpa [hc, Step.Ends] using hfuel s hs
    · simpa [hc, Step.Ends] using hs
  | succ n ih =>
    intro s hs
    unfold whileLoop
    by_cases hc : cond s = true
    · have hb := hbody s hs hc
      simp only [hc, if_true]
      cases hbs : body s with
      | ok s' =>
        rw [hbs] at hb
        exact ih s' hb
      | error e =>
        rw [hbs] at hb
        exact hb
    · simpa [hc, Step.Ends] using hs

/-- A loop that ends has run its body as often as `rem` says, when `rem` is 0
where the condition fails and drops by one with each pass; a counter that
grows by `c` with each pass has grown by `c * rem`. `I` is an invariant the
passes may rely on. -/
theorem whileLoop_count (cond : σ → Bool) (body : σ → Step α σ) (I : σ → Prop)
    (cnt rem : σ → ℕ) (c : ℕ) (hstop : ∀ s, cond s = false → rem s = 0)
    (hbody : ∀ s s', I s → cond s = true → body s = .ok s' →
      I s' ∧ rem s = rem s' + 1 ∧ cnt s' = cnt s + c) :
    ∀ (fuel : ℕ) (s s' : σ), I s → whileLoop cond body fuel s = .ok s' →
      I s' ∧ cnt s' = cnt s + c * rem s := by
  intro fuel
  induction fuel with
  | zero =>
    intro s s' hI h
    unfold whileLoop at h
    by_cases hc : cond s = true
    · simp [hc] at h
    · simp only [hc] at h
      have hs : s' = s := by simpa using h.symm
      subst hs
      simp [hstop s' (by simpa using hc), hI]
  | succ n ih =>
    intro s s' hI h
    unfold whileLoop at h
    by_cases hc : cond s = true
    · simp only [hc, if_true] at h
      cases hbs : body s with
      | ok s1 =>
        rw [hbs] at h
        obtain ⟨hI1, hr, hcnt⟩ := hbody s s1 hI hc hbs
        obtain ⟨hI', hfin⟩ := ih s1 s' hI1 h
        refine ⟨hI', ?_⟩
        rw [hfin, hcnt, hr]
        ring
      | error e =>
        rw [hbs] at h
        cases h
    · simp only [hc] at h
      have hs : s' = s := by simpa using h.symm
      subst hs
      simp [hstop s' (by simpa using hc), hI]

/-- Passes left in a loop `for x < stop` that adds `step > 0` to `x`. -/
theorem ceil_passes_zero {β : Type} [LinearOrderedField β] [FloorRing β] {x stop step : β}
    (hstep : 0 < step) (h : ¬ x < stop) : ⌈(stop - x) / step⌉.toNat = 0 := by
  have h1 : (stop - x) / step ≤ 0 :=
    div_nonpos_of_nonpos_of_nonneg (by linarith [not_lt.mp h]) hstep.le
  have h2 : ⌈(stop - x) / step⌉ ≤ 0 := Int.ceil_le.mpr (by simpa using h1)
  omega

theorem ceil_passes_succ {β : Type} [LinearOrderedField β] [FloorRing β] {x stop step : β}
    (hstep : 0 < step) (h : x < stop) :
    ⌈(stop - x) / step⌉.toNat = ⌈(stop - (x + step)) / step⌉.toNat + 1 := by
  have h1 : 0 < (stop - x) / step := div_pos (by linarith) hstep
  have h2 : 0 < ⌈(stop - x) / step⌉ := Int.ceil_pos.mpr h1
  have h3 : (stop - (x + step)) / step = (stop - x) / step - 1 := by
    field_simp
    ring
  rw [h3, Int.ceil_sub_one]
  omega

/-- Passes left in a loop `for x <= stop` that adds `step > 0` to `x`. -/
theorem floor_passes_zero {β : Type} [LinearOrderedField β] [FloorRing β] {x stop step : β}
    (hstep : 0 < step) (h : ¬ x ≤ stop) : (⌊(stop - x) / step⌋ + 1).toNat = 0 := by
  have h1 : (stop - x) / step < 0 := div_neg_of_neg_of_pos (by linarith [not_le.mp h]) hstep
  have h2 : ⌊(stop - x) / step⌋ < 0 := Int.floor_lt.mpr (by simpa using h1)
  omega

theorem floor_passes_succ {β : Type} [LinearOrderedField β] [FloorRing β] {x stop step : β}
    (hstep : 0 < step) (h : x ≤ stop) :
    (⌊(stop - x) / step⌋ + 1).toNat = (⌊(stop - (x + step)) / step⌋ + 1).toNat + 1 := by
  have h1 : 0 ≤ (stop - x) / step := div_nonneg (by linarith) hstep.le
  have h2 : 0 ≤ ⌊(stop - x) / step⌋ := Int.floor_nonneg.mpr h1
  have h3 : (stop - (x + step)) / step = (stop - x) / step - 1 := by
    field_simp
    ring
  rw [h3, Int.floor_sub_one]
  omega

/-- A loop whose body cannot stop early under the invariant `J`, and whose
passes left `rem` drop by one with each pass, ends normally once the step
budget covers `rem`. -/
theorem whileLoop_total (cond : σ → Bool) (body : σ → Step α σ) (J : σ → Prop) (rem : σ → ℕ)
    (hbody : ∀ s, J s → cond s = true → ∃ s', body s = .ok s' ∧ J s' ∧ rem s = rem s' + 1) :
    ∀ (fuel : ℕ) (s : σ), J s → rem s ≤ fuel →
      ∃ s', whileLoop cond body fuel s = .ok s' ∧ J s' := by
  intro fuel
  induction fuel with
  | zero =>
    intro s hJ hrem
    unfold whileLoop
    by_cases hc : cond s = true
    · obtain ⟨s', _, _, hr⟩ := hbody s hJ hc
      omega
    · exact ⟨s, by simp [hc], hJ⟩
  | succ n ih =>
    intro s hJ hrem
    unfold whileLoop
    by_cases hc : cond s = true
    · obtain ⟨s', hb, hJ', hr⟩ := hbody s hJ hc
      obtain ⟨s'', hw, hJ''⟩ := ih s' hJ' (by omega)
      exact ⟨s'', by simp [hc, hb, hw], hJ''⟩
    · exact ⟨s, by simp [hc], hJ⟩

theorem Step.map_eq_ok {f : σ → σ} {r : Step α σ} {s' : σ} (h : r.map f = .ok s') :
    ∃ s1, r = .ok s1 ∧ s' = f s1 := by
  cases r with
  | ok s1 =>
    simp only [Except.map, Except.ok.injEq] at h
    exact ⟨s1, rfl, h.symm⟩
  | error e => simp [Except.map] at h

end LoopLemmas

section MeshLemmas

variable {α : Type}

theorem scanFrom_append (st : ℕ × ℕ × ℕ) (a b : List (ObjLine α)) :
    scanFrom st (a ++ b) = (scanFrom st a).bind fun st' => scanFrom st' b := by
  induction a generalizing st with
  | nil => simp [scanFrom]
  | cons l ls ih =>
    simp only [List.cons_append, scanFrom]
    cases scanLine st l with
    | none => simp
    | some st' => simpa using ih st'

theorem faceCount_append (a b : List (ObjLine α)) :
    faceCount (a ++ b) = faceCount a + faceCount b := by
  simp [faceCount]

/-- A block of four `v` lines and four `vt` lines in the order of the cube,
closed by the face line of the next vertex, passes the check. -/
theorem scanFrom_cubeBlock (k : ℕ) (a1 a2 a3 a4 : α × α × α) (b1 b2 b3 b4 : α × α) :
    scanFrom (k, 0, 0)
      ([ObjLine.v a1.1 a1.2.1 a1.2.2, ObjLine.v a2.1 a2.2.1 a2.2.2,
        ObjLine.v a3.1 a3.2.1 a3.2.2, ObjLine.v a4.1 a4.2.1 a4.2.2,
        ObjLine.vt b1.1 b1.2, ObjLine.vt b2.1 b2.2, ObjLine.vt b3.1 b3.2,
        ObjLine.vt b4.1 b4.2] ++ [faceLine (4 * k + 1)]) = some (k + 1, 0, 0) := by
  simp [scanFrom, scanLine, faceLine]

/-- A block with `v` and `vt` lines alternating, as the curve and the sphere
cap write it, passes the check. -/
theorem scanFrom_mixedBlock (k : ℕ) (a1 a2 a3 a4 : α × α × α) (b1 b2 b3 b4 : α × α) :
    scanFrom (k, 0, 0)
      [ObjLine.v a1.1 a1.2.1 a1.2.2, ObjLine.vt b1.1 b1.2,
        ObjLine.v a2.1 a2.2.1 a2.2.2, ObjLine.vt b2.1 b2.2,
        ObjLine.v a3.1 a3.2.1 a3.2.2, ObjLine.vt b3.1 b3.2,
        ObjLine.v a4.1 a4.2.1 a4.2.2, ObjLine.vt b4.1 b4.2,
        faceLine (4 * k + 1)] = some (k + 1, 0, 0) := by
  simp [scanFrom, scanLine, faceLine]

/-- The check counts the faces and fixes what they are. -/
theorem scanFrom_faces (ls : List (ObjLine α)) :
    ∀ st st' : ℕ × ℕ × ℕ, scanFrom st ls = some st' →
      st'.1 = st.1 + faceCount ls ∧
      faceLines ls = (List.range' st.1 (faceCount ls)).map fun k => faceLine (4 * k + 1) := by
  induction ls with
  | nil =>
    intro st st' h
    simp only [scanFrom, Option.some.injEq] at h
    subst h
    simp [faceCount, faceLines]
  | cons l ls ih =>
    intro st st' h
    simp only [scanFrom] at h
    cases hl : scanLine st l with
    | none => simp [hl] at h
    | some st1 =>
      rw [hl] at h
      obtain ⟨h1, h2⟩ := ih st1 st' h
      cases l with
      | v x y z =>
        simp only [scanLine, Option.some.injEq] at hl
        subst hl
        simpa [faceCount, faceLines] using ⟨h1, h2⟩
      | vt u v =>
        simp only [scanLine, Option.some.injEq] at hl
        subst hl
        simpa [faceCount, faceLines] using ⟨h1, h2⟩
      | f v1 t1 v2 t2 v3 t3 v4 t4 =>
        simp only [scanLine] at hl
        split_ifs at hl with hc
        simp only [Option.some.injEq] at hl
        subst hl
        obtain ⟨_, _, e1, e2, e3, e4, e5, e6, e7, e8⟩ := hc
        subst e1 e2 e3 e4 e5 e6 e7 e8
        have hfc : faceCount (ObjLine.f (4 * st.1 + 1) (4 * st.1 + 1) (4 * st.1 + 2)
            (4 * st.1 + 2) (4 * st.1 + 3) (4 * st.1 + 3) (4 * st.1 + 4) (4 * st.1 + 4) :: ls) =
            faceCount ls + 1 := by
          simp [faceCount]
        refine ⟨by rw [h1, hfc]; simp only []; omega, ?_⟩
        rw [hfc, List.range'_succ]
        simp only [faceLines] at h2 ⊢
        simp only [List.filter_cons_of_pos, List.map_cons, h2]
        simp [faceLine, Nat.add_assoc]

/-- A mesh that passes the check from the start to a complete block is
numbered without sharing. -/
theorem wellNumbered_of_scan (ls : List (ObjLine α)) (k : ℕ)
    (h : scanFrom (0, 0, 0) ls = some (k, 0, 0)) : WellNumbered ls := by
  obtain ⟨h1, h2⟩ := scanFrom_faces ls _ _ h
  simp only [zero_add] at h1
  refine ⟨by rw [h, h1], ?_⟩
  rw [h2, List.range_eq_range']

end MeshLemmas

section CubeLemmas

variable {α : Type} [LinearOrderedField α] [FloorRing α]

/-- The dimension check passes exactly when its four tests pass. -/
theorem halfCubeFence_eq_none_iff (th tw w h d : α) :
    halfCubeFence th tw w h d = none ↔
      int (math.Ceil (w / tw)) = int (w / tw) ∧ int (math.Ceil (h / th)) = int (h / th) ∧
      int (math.Ceil (d / tw)) = int (d / tw) ∧ int (math.Ceil (d / th)) = int (d / th) := by
  unfold halfCubeFence
  by_cases h1 : int (math.Ceil (w / tw)) = int (w / tw) <;>
  by_cases h2 : int (math.Ceil (h / th)) = int (h / th) <;>
  by_cases h3 : int (math.Ceil (d / tw)) = int (d / tw) <;>
  by_cases h4 : int (math.Ceil (d / th)) = int (d / th) <;>
  simp [h1, h2, h3, h4]

/-- Every error of the dimension check is a "not an integer multiple" error. -/
theorem halfCubeFence_isNotMultiple (th tw w h d : α) (e : GenError α)
    (he : halfCubeFence th tw w h d = some e) :
    (Outcome.error e).isNotMultiple = true := by
  unfold halfCubeFence at he
  split_ifs at he <;> simp at he <;> subst he <;> rfl

theorem Cube.addLines_addLines {σo : Type} (s : CubeState α σo) (a b : List (ObjLine α)) :
    Cube.addLines (Cube.addLines s a) b = Cube.addLines s (a ++ b) := by
  simp [Cube.addLines, List.append_assoc]

/-- The body of the `j` loop either skips the tile (a plane that is none of
`x`, `y`, `z`) or appends four `v` lines and four `vt` lines, stores a tile
and writes the face. -/
theorem Cube.tileBody_cases {σo : Type} (c : Cube α) (p : Plane α) (s : CubeState α σo) :
    (p.plane ≠ "x" ∧ p.plane ≠ "y" ∧ p.plane ≠ "z" ∧ Cube.tileBody c p s = .ok s) ∨
    ((p.plane = "x" ∨ p.plane = "y" ∨ p.plane = "z") ∧
      ∃ (a1 a2 a3 a4 : α × α × α) (b1 b2 b3 b4 : α × α) (t : Tilelayout),
        Cube.tileBody c p s = (Cube.setTile (Cube.addLines s
          [ObjLine.v a1.1 a1.2.1 a1.2.2, ObjLine.v a2.1 a2.2.1 a2.2.2,
           ObjLine.v a3.1 a3.2.1 a3.2.2, ObjLine.v a4.1 a4.2.1 a4.2.2,
           ObjLine.vt b1.1 b1.2, ObjLine.vt b2.1 b2.2, ObjLine.vt b3.1 b3.2,
           ObjLine.vt b4.1 b4.2]) t).map Cube.writeFace) := by
  unfold Cube.tileBody
  simp only [Cube.addLines_addLines, List.cons_append, List.nil_append]
  split
  · right
    exact ⟨Or.inl (by assumption), (_, _, _), (_, _, _), (_, _, _), (_, _, _), (_, _), (_, _),
      (_, _), (_, _), _, rfl⟩
  · right
    refine ⟨Or.inr (Or.inl (by assumption)), ?_⟩
    split
    · exact ⟨(_, _, _), (_, _, _), (_, _, _), (_, _, _), (_, _), (_, _), (_, _), (_, _), _, rfl⟩
    · exact ⟨(_, _, _), (_, _, _), (_, _, _), (_, _, _), (_, _), (_, _), (_, _), (_, _), _, rfl⟩
  · right
    refine ⟨Or.inr (Or.inr (by assumption)), ?_⟩
    split
    · exact ⟨(_, _, _), (_, _, _), (_, _, _), (_, _, _), (_, _), (_, _), (_, _), (_, _), _, rfl⟩
    · exact ⟨(_, _, _), (_, _, _), (_, _, _), (_, _, _), (_, _), (_, _), (_, _), (_, _), _, rfl⟩
  · left
    exact ⟨by assumption, by assumption, by assumption, rfl⟩

/-- The two ways the storing of a tile and the writing of its face end: the
index is inside the slice and every counter moves on, or it is not and the
run panics. -/
theorem Cube.quadStep {σo : Type} (s : CubeState α σo) (ls : List (ObjLine α))
    (t : Tilelayout) :
    (s.tileCount < s.tiles.length ∧
      (Cube.setTile (Cube.addLines s ls) t).map Cube.writeFace = .ok
        { s with
          tileFace := s.tileFace ++ ls ++ [faceLine s.vertexCount]
          tiles := s.tiles.set s.tileCount t
          log := s.log ++ [.tile s.tileCount, .face s.vertexCount]
          vertexCount := s.vertexCount + 4
          jCount := s.jCount + 1
          tileCount := s.tileCount + 1 }) ∨
    (¬ s.tileCount < s.tiles.length ∧
      (Cube.setTile (Cube.addLines s ls) t).map Cube.writeFace =
        .error (.panic "index out of range", Cube.addLines s ls)) := by
  by_cases h : s.tileCount < s.tiles.length
  · left
    refine ⟨h, ?_⟩
    simp [Cube.setTile, Cube.addLines, Cube.writeFace, h, Except.map]
  · right
    refine ⟨h, ?_⟩
    simp [Cube.setTile, Cube.addLines, h, Except.map]

theorem Cube.tileBody_stop {σo : Type} (c : Cube α) (p : Plane α) (s : CubeState α σo) :
    Step.Ends (fun _ => True) (fun o _ => sweepStop o) (Cube.tileBody c p s) := by
  rcases Cube.tileBody_cases c p s with ⟨_, _, _, h⟩ | ⟨_, a1, a2, a3, a4, b1, b2, b3, b4, t, h⟩
  · rw [h]
    trivial
  · rw [h]
    rcases Cube.quadStep s _ t with ⟨_, h'⟩ | ⟨_, h'⟩
    · rw [h']
      trivial
    · rw [h']
      exact ⟨rfl, by simp⟩

theorem Step.Ends_map {σ : Type} (P : σ → Prop) (Q : Outcome α → σ → Prop) (f : σ → σ)
    (r : Step α σ) (h : Step.Ends (fun s => P (f s)) Q r) : Step.Ends P Q (r.map f) := by
  cases r with
  | ok s => exact h
  | error e => exact h

theorem Cube.jLoop_stop {σo : Type} (c : Cube α) (p : Plane α) (fuel : ℕ)
    (s : CubeState α σo) :
    Step.Ends (fun _ => True) (fun o _ => sweepStop o) (Cube.jLoop c p fuel s) := by
  unfold Cube.jLoop
  refine whileLoop_ends _ _ _ _ (fun _ _ => ⟨rfl, by simp⟩) ?_ fuel s trivial
  intro s _ _
  exact Step.Ends_map _ _ _ _ (Cube.tileBody_stop c p s)

theorem Cube.iLoop_stop {σo : Type} (c : Cube α) (p : Plane α) (fuel : ℕ)
    (s : CubeState α σo) :
    Step.Ends (fun _ => True) (fun o _ => sweepStop o) (Cube.iLoop c p fuel s) := by
  unfold Cube.iLoop
  refine whileLoop_ends _ _ _ _ (fun _ _ => ⟨rfl, by simp⟩) ?_ fuel s trivial
  intro s _ _
  exact Step.Ends_map _ _ _ _ (Cube.jLoop_stop c p fuel _)

theorem Cube.planeBody_stop {σo : Type} (c : Cube α) (wObj : Writer σo (List (ObjLine α)))
    (fuel : ℕ) (p : Plane α) (s : CubeState α σo) :
    Step.Ends (fun _ => True) (fun o _ => sweepStop o) (Cube.planeBody c wObj fuel p s) := by
  unfold Cube.planeBody
  have h := Cube.iLoop_stop c p fuel { s with iCount := 0, tileFace := [], i := p.iStart }
  cases hi : Cube.iLoop c p fuel { s with iCount := 0, tileFace := [], i := p.iStart } with
  | error e =>
    rw [hi] at h
    exact h
  | ok s' =>
    simp only []
    cases hw : wObj.write s'.wObj s'.tileFace with
    | mk w e =>
      cases e with
      | none => trivial
      | some err => exact ⟨rfl, by simp⟩

theorem Cube.sweep_stop {σo : Type} (c : Cube α) (wObj : Writer σo (List (ObjLine α)))
    (fuel : ℕ) (ps : List (Plane α)) (s : CubeState α σo) :
    Step.Ends (fun _ => True) (fun o _ => sweepStop o) (Cube.sweep c wObj fuel ps s) := by
  induction ps generalizing s with
  | nil => trivial
  | cons p ps ih =>
    unfold Cube.sweep
    have h := Cube.planeBody_stop c wObj fuel p s
    cases hp : Cube.planeBody c wObj fuel p s with
    | error e =>
      rw [hp] at h
      exact h
    | ok s' => exact ih s'

/-- When the dimension check fails, `Generate` returns its error and leaves
both sinks as they were. -/
theorem Cube.Generate_of_fence_some {σo σt : Type} (c : Cube α)
    (wObj : Writer σo (List (ObjLine α))) (wTsig : Writer σt TPIG) (fuel : ℕ) (o : σo) (t : σt)
    (e : GenError α)
    (he : halfCubeFence c.TileHeight c.TileWidth c.CubeWidth c.CubeHeight c.CubeDepth = some e) :
    c.Generate wObj wTsig fuel o t = { outcome := .error e, wObj := o, wTsig := t, log := [] } := by
  unfold Cube.Generate
  rw [he]

/-- When the dimension check passes, `Generate` does not return a "not an
integer multiple" error. -/
theorem Cube.Generate_of_fence_none {σo σt : Type} (c : Cube α)
    (wObj : Writer σo (List (ObjLine α))) (wTsig : Writer σt TPIG) (fuel : ℕ) (o : σo) (t : σt)
    (he : halfCubeFence c.TileHeight c.TileWidth c.CubeWidth c.CubeHeight c.CubeDepth = none) :
    (c.Generate wObj wTsig fuel o t).outcome.isNotMultiple = false := by
  unfold Cube.Generate
  rw [he]
  simp only []
  split
  · rfl
  · have h := Cube.sweep_stop c wObj fuel c.planes
      { wObj := o, tiles := List.replicate c.tileTotal.toNat Tilelayout.zero,
        vertexCount := 1, tileCount := 0, tileFace := [], iCount := 0, jCount := 0,
        i := 0, j := 0, log := [] }
    split
    · next out s hs =>
      rw [hs] at h
      exact h.1
    · next s hs =>
      split <;> rfl

/-- A run of `Generate` that returns `nil` has passed the dimension check,
allocated the tile list, swept the planes to the end and written one layout
document. -/
theorem Cube.Generate_ok {σo : Type} (c : Cube α) (wObj : Writer σo (List (ObjLine α)))
    (fuel : ℕ) (o : σo)
    (h : (c.Generate wObj (Writer.recorder TPIG) fuel o []).outcome = .ok) :
    halfCubeFence c.TileHeight c.TileWidth c.CubeWidth c.CubeHeight c.CubeDepth = none ∧
    0 ≤ c.tileTotal ∧
    ∃ s : CubeState α σo,
      Cube.sweep c wObj fuel c.planes
        { wObj := o, tiles := List.replicate c.tileTotal.toNat Tilelayout.zero,
          vertexCount := 1, tileCount := 0, tileFace := [], iCount := 0, jCount := 0,
          i := 0, j := 0, log := [] } = .ok s ∧
      c.Generate wObj (Writer.recorder TPIG) fuel o [] =
        { outcome := .ok, wObj := s.wObj,
          wTsig := [{ Tilelayout := s.tiles, Dimensions := { Flat := c.flatBox } }],
          log := s.log } := by
  unfold Cube.Generate at h ⊢
  cases he : halfCubeFence c.TileHeight c.TileWidth c.CubeWidth c.CubeHeight c.CubeDepth with
  | some e =>
    rw [he] at h
    simp at h
  | none =>
    rw [he] at h
    simp only [] at h ⊢
    by_cases hneg : c.tileTotal < 0
    · simp [hneg] at h
    · simp only [hneg, if_false] at h ⊢
      refine ⟨trivial, not_lt.mp hneg, ?_⟩
      have hstop := Cube.sweep_stop c wObj fuel c.planes
        { wObj := o, tiles := List.replicate c.tileTotal.toNat Tilelayout.zero,
          vertexCount := 1, tileCount := 0, tileFace := [], iCount := 0, jCount := 0,
          i := 0, j := 0, log := [] }
      cases hs : Cube.sweep c wObj fuel c.planes
        { wObj := o, tiles := List.replicate c.tileTotal.toNat Tilelayout.zero,
          vertexCount := 1, tileCount := 0, tileFace := [], iCount := 0, jCount := 0,
          i := 0, j := 0, log := [] } with
      | error e =>
        rw [hs] at h hstop
        obtain ⟨out, s'⟩ := e
        exact absurd h hstop.2
      | ok s =>
        exact ⟨s, rfl, by simp [Writer.recorder]⟩

theorem Cube.tileBody_inv (n : ℕ) (c : Cube α) (p : Plane α)
    (s : CubeState α (List (List (ObjLine α)))) (h : CubeInv n s) :
    Step.Ends (CubeInv n) (fun _ s' => Numbered s'.wObj) (Cube.tileBody c p s) := by
  rcases Cube.tileBody_cases c p s with ⟨_, _, _, hb⟩ | ⟨_, a1, a2, a3, a4, b1, b2, b3, b4, t, hb⟩
  · rw [hb]
    exact h
  · rw [hb]
    rcases Cube.quadStep s _ t with ⟨hlt, h'⟩ | ⟨_, h'⟩
    · rw [h']
      obtain ⟨k0, hw, hbuf⟩ := h.numbered
      refine ⟨⟨k0, hw, ?_⟩, ?_, ?_, ?_, ?_⟩
      · show scanFrom (k0, 0, 0) (s.tileFace ++ _ ++ [faceLine s.vertexCount]) = _
        rw [List.append_assoc, scanFrom_append, hbuf, h.vertex]
        exact scanFrom_cubeBlock s.tileCount a1 a2 a3 a4 b1 b2 b3 b4
      · show s.vertexCount + 4 = 4 * (s.tileCount + 1) + 1
        rw [h.vertex]
        ring
      · show s.tileCount + 1 ≤ (s.tiles.set s.tileCount t).length
        rw [List.length_set]
        exact hlt
      · show (s.tiles.set s.tileCount t).length = n
        rw [List.length_set]
        exact h.length
      · show LockStep (s.tileCount + 1) (s.log ++ [.tile s.tileCount, .face s.vertexCount])
        rw [h.vertex]
        exact LockStep.tileFace h.lock
    · rw [h']
      obtain ⟨k0, hw, _⟩ := h.numbered
      exact ⟨k0, hw⟩

theorem Cube.jLoop_inv (n : ℕ) (c : Cube α) (p : Plane α) (fuel : ℕ)
    (s : CubeState α (List (List (ObjLine α)))) (h : CubeInv n s) :
    Step.Ends (CubeInv n) (fun _ s' => Numbered s'.wObj) (Cube.jLoop c p fuel s) := by
  unfold Cube.jLoop
  refine whileLoop_ends _ _ _ _ ?_ ?_ fuel s h
  · intro s hs
    obtain ⟨k0, hw, _⟩ := hs.numbered
    exact ⟨k0, hw⟩
  · intro s hs _
    refine Step.Ends_map _ _ _ _ ?_
    have hb := Cube.tileBody_inv n c p s hs
    cases hr : Cube.tileBody c p s with
    | ok s' =>
      rw [hr] at hb
      exact ⟨hb.numbered, hb.vertex, hb.inside, hb.length, hb.lock⟩
    | error e =>
      rw [hr] at hb
      exact hb

theorem Cube.iLoop_inv (n : ℕ) (c : Cube α) (p : Plane α) (fuel : ℕ)
    (s : CubeState α (List (List (ObjLine α)))) (h : CubeInv n s) :
    Step.Ends (CubeInv n) (fun _ s' => Numbered s'.wObj) (Cube.iLoop c p fuel s) := by
  unfold Cube.iLoop
  refine whileLoop_ends _ _ _ _ ?_ ?_ fuel s h
  · intro s hs
    obtain ⟨k0, hw, _⟩ := hs.numbered
    exact ⟨k0, hw⟩
  · intro s hs _
    refine Step.Ends_map _ _ _ _ ?_
    have hb := Cube.jLoop_inv n c p fuel { s with jCount := 0, j := p.jStart }
      ⟨hs.numbered, hs.vertex, hs.inside, hs.length, hs.lock⟩
    cases hr : Cube.jLoop c p fuel { s with jCount := 0, j := p.jStart } with
    | ok s' =>
      rw [hr] at hb
      exact ⟨hb.numbered, hb.vertex, hb.inside, hb.length, hb.lock⟩
    | error e =>
      rw [hr] at hb
      exact hb

theorem Cube.planeBody_inv (n : ℕ) (c : Cube α) (fuel : ℕ) (p : Plane α)
    (s : CubeState α (List (List (ObjLine α)))) (h : CubeDone n s) :
    Step.Ends (CubeDone n) (fun _ s' => Numbered s'.wObj)
      (Cube.planeBody c (Writer.recorder _) fuel p s) := by
  unfold Cube.planeBody
  have hb := Cube.iLoop_inv n c p fuel { s with iCount := 0, tileFace := [], i := p.iStart }
    ⟨⟨s.tileCount, h.numbered, rfl⟩, h.vertex, h.inside, h.length, h.lock⟩
  cases hr : Cube.iLoop c p fuel { s with iCount := 0, tileFace := [], i := p.iStart } with
  | error e =>
    rw [hr] at hb
    exact hb
  | ok s' =>
    rw [hr] at hb
    obtain ⟨k0, hw, hbuf⟩ := hb.numbered
    refine ⟨?_, hb.vertex, hb.inside, hb.length, hb.lock⟩
    show scanFrom (0, 0, 0) (s'.wObj ++ [s'.tileFace]).flatten = _
    rw [List.flatten_append, scanFrom_append, hw]
    simpa using hbuf

theorem Cube.sweep_inv (n : ℕ) (c : Cube α) (fuel : ℕ) (ps : List (Plane α))
    (s : CubeState α (List (List (ObjLine α)))) (h : CubeDone n s) :
    Step.Ends (CubeDone n) (fun _ s' => Numbered s'.wObj)
      (Cube.sweep c (Writer.recorder _) fuel ps s) := by
  induction ps generalizing s with
  | nil => exact h
  | cons p ps ih =>
    unfold Cube.sweep
    have hb := Cube.planeBody_inv n c fuel p s h
    cases hp : Cube.planeBody c (Writer.recorder _) fuel p s with
    | error e =>
      rw [hp] at hb
      exact hb
    | ok s' =>
      rw [hp] at hb
      exact ih s' hb

/-- The start of the sweep satisfies the invariant. -/
theorem Cube.start_done (n : ℕ) :
    CubeDone (α := α) n
      { wObj := [], tiles := List.replicate n Tilelayout.zero, vertexCount := 1, tileCount := 0,
        tileFace := [], iCount := 0, jCount := 0, i := 0, j := 0, log := [] } :=
  ⟨rfl, rfl, Nat.zero_le _, List.length_replicate _ _, LockStep.nil⟩

/-- The mesh sink after `Generate` is the one the call was given or the one
the sweep of the planes has left. -/
theorem Cube.Generate_wObj {σo σt : Type} (c : Cube α) (wObj : Writer σo (List (ObjLine α)))
    (wTsig : Writer σt TPIG) (fuel : ℕ) (o : σo) (t : σt) :
    (c.Generate wObj wTsig fuel o t).wObj = o ∨
    (∃ out s, Cube.sweep c wObj fuel c.planes
        { wObj := o, tiles := List.replicate c.tileTotal.toNat Tilelayout.zero,
          vertexCount := 1, tileCount := 0, tileFace := [], iCount := 0, jCount := 0,
          i := 0, j := 0, log := [] } = .error (out, s) ∧
      (c.Generate wObj wTsig fuel o t).wObj = s.wObj) ∨
    (∃ s, Cube.sweep c wObj fuel c.planes
        { wObj := o, tiles := List.replicate c.tileTotal.toNat Tilelayout.zero,
          vertexCount := 1, tileCount := 0, tileFace := [], iCount := 0, jCount := 0,
          i := 0, j := 0, log := [] } = .ok s ∧
      (c.Generate wObj wTsig fuel o t).wObj = s.wObj) := by
  unfold Cube.Generate
  cases he : halfCubeFence c.TileHeight c.TileWidth c.CubeWidth c.CubeHeight c.CubeDepth with
  | some e => exact Or.inl rfl
  | none =>
    by_cases hneg : c.tileTotal < 0
    · simp only [hneg, if_true]
      exact Or.inl trivial
    · simp only [hneg, if_false]
      cases hs : Cube.sweep c wObj fuel c.planes
        { wObj := o, tiles := List.replicate c.tileTotal.toNat Tilelayout.zero,
          vertexCount := 1, tileCount := 0, tileFace := [], iCount := 0, jCount := 0,
          i := 0, j := 0, log := [] } with
      | error e =>
        obtain ⟨out, s⟩ := e
        exact Or.inr (Or.inl ⟨out, s, rfl, rfl⟩)
      | ok s =>
        refine Or.inr (Or.inr ⟨s, rfl, ?_⟩)
        simp only []
        rcases hw : wTsig.write t { Tilelayout := s.tiles, Dimensions := { Flat := c.flatBox } }
          with ⟨w, _ | err⟩ <;> rfl

/-- Whatever the configuration and however the run ends, the mesh a recording
sink has received from `Cube.Generate` consists of complete blocks. -/
theorem Cube.Generate_numbered {σt : Type} (c : Cube α) (wTsig : Writer σt TPIG) (fuel : ℕ)
    (t : σt) : Numbered (c.Generate (Writer.recorder _) wTsig fuel [] t).wObj := by
  have h := Cube.sweep_inv c.tileTotal.toNat c fuel c.planes _
    (Cube.start_done c.tileTotal.toNat)
  rcases Cube.Generate_wObj c (Writer.recorder _) wTsig fuel [] t with
    h0 | ⟨out, s, hs, h1⟩ | ⟨s, hs, h1⟩
  · rw [h0]
    exact ⟨0, rfl⟩
  · rw [h1]
    rw [hs] at h
    exact h
  · rw [h1]
    rw [hs] at h
    exact ⟨_, h.numbered⟩

/-- A tile body that ends normally leaves `i` and `j` as they are, and on a
plane the `switch` handles it has stored one tile. -/
theorem Cube.tileBody_ok {σo : Type} (c : Cube α) (p : Plane α) (s s' : CubeState α σo)
    (h : Cube.tileBody c p s = .ok s') :
    s'.i = s.i ∧ s'.j = s.j ∧
    ((p.plane = "x" ∨ p.plane = "y" ∨ p.plane = "z") → s'.tileCount = s.tileCount + 1) := by
  rcases Cube.tileBody_cases c p s with ⟨h1, h2, h3, hb⟩ | ⟨_, a1, a2, a3, a4, b1, b2, b3, b4, t, hb⟩
  · rw [hb] at h
    cases h
    refine ⟨rfl, rfl, ?_⟩
    rintro (hx | hx | hx)
    · exact absurd hx h1
    · exact absurd hx h2
    · exact absurd hx h3
  · rw [hb] at h
    rcases Cube.quadStep s _ t with ⟨_, h'⟩ | ⟨_, h'⟩
    · rw [h'] at h
      cases h
      exact ⟨rfl, rfl, fun _ => rfl⟩
    · rw [h'] at h
      cases h

theorem Cube.jLoop_count {σo : Type} (c : Cube α) (p : Plane α) (hp : p.Sweeps) (fuel : ℕ)
    (s s' : CubeState α σo) (h : Cube.jLoop c p fuel s = .ok s') :
    s'.i = s.i ∧ s'.tileCount = s.tileCount + ⌈(p.jEnd - s.j) / p.jStep⌉.toNat := by
  unfold Cube.jLoop at h
  have key := whileLoop_count (fun t : CubeState α σo => decide (t.j < p.jEnd))
    (fun t => (Cube.tileBody c p t).map fun t' => { t' with j := t'.j + p.jStep })
    (fun t => t.i = s.i) (fun t => t.tileCount) (fun t => ⌈(p.jEnd - t.j) / p.jStep⌉.toNat) 1
    (fun t ht => ceil_passes_zero hp.2.1 (by simpa using ht)) ?_ fuel s s' rfl h
  · simpa using key
  · intro t t' hI hc hb
    obtain ⟨t1, ht1, rfl⟩ := Step.map_eq_ok hb
    obtain ⟨hi, hj, hcnt⟩ := Cube.tileBody_ok c p t t1 ht1
    refine ⟨by simpa [hi] using hI, ?_, hcnt hp.2.2⟩
    simp only [hj]
    exact ceil_passes_succ hp.2.1 (by simpa using hc)

theorem Cube.iLoop_count {σo : Type} (c : Cube α) (p : Plane α) (hp : p.Sweeps) (fuel : ℕ)
    (s s' : CubeState α σo) (h : Cube.iLoop c p fuel s = .ok s') :
    s'.tileCount = s.tileCount +
      ⌈(p.jEnd - p.jStart) / p.jStep⌉.toNat * ⌈(p.iEnd - s.i) / p.iStep⌉.toNat := by
  unfold Cube.iLoop at h
  have key := whileLoop_count (fun t : CubeState α σo => decide (t.i < p.iEnd))
    (fun t => (Cube.jLoop c p fuel { t with jCount := 0, j := p.jStart }).map fun t' =>
      { t' with iCount := t'.iCount + 1, i := t'.i + p.iStep })
    (fun _ => True) (fun t => t.tileCount) (fun t => ⌈(p.iEnd - t.i) / p.iStep⌉.toNat)
    ⌈(p.jEnd - p.jStart) / p.jStep⌉.toNat
    (fun t ht => ceil_passes_zero hp.1 (by simpa using ht)) ?_ fuel s s' trivial h
  · exact key.2
  · intro t t' _ hc hb
    obtain ⟨t1, ht1, rfl⟩ := Step.map_eq_ok hb
    obtain ⟨hi, hcnt⟩ := Cube.jLoop_count c p hp fuel _ t1 ht1
    refine ⟨trivial, ?_, hcnt⟩
    simp only [hi]
    exact ceil_passes_succ hp.1 (by simpa using hc)

theorem Cube.planeBody_count {σo : Type} (c : Cube α) (wObj : Writer σo (List (ObjLine α)))
    (p : Plane α) (hp : p.Sweeps) (fuel : ℕ) (s s' : CubeState α σo)
    (h : Cube.planeBody c wObj fuel p s = .ok s') :
    s'.tileCount = s.tileCount + p.tileCount := by
  unfold Cube.planeBody at h
  cases hi : Cube.iLoop c p fuel { s with iCount := 0, tileFace := [], i := p.iStart } with
  | error e => simp [hi] at h
  | ok s1 =>
    rw [hi] at h
    have hc := Cube.iLoop_count c p hp fuel _ s1 hi
    simp only [] at h
    rcases hw : wObj.write s1.wObj s1.tileFace with ⟨w, _ | err⟩
    · rw [hw] at h
      simp only [Except.ok.injEq] at h
      subst h
      simp only [hc, Plane.tileCount]
      ring
    · rw [hw] at h
      cases h

theorem Cube.sweep_count {σo : Type} (c : Cube α) (wObj : Writer σo (List (ObjLine α)))
    (fuel : ℕ) (ps : List (Plane α)) (hps : ∀ p ∈ ps, p.Sweeps) (s s' : CubeState α σo)
    (h : Cube.sweep c wObj fuel ps s = .ok s') :
    s'.tileCount = s.tileCount + (ps.map Plane.tileCount).sum := by
  induction ps generalizing s with
  | nil =>
    simp only [Cube.sweep, Except.ok.injEq] at h
    subst h
    simp
  | cons p ps ih =>
    unfold Cube.sweep at h
    cases hp : Cube.planeBody c wObj fuel p s with
    | error e => simp [hp] at h
    | ok s1 =>
      rw [hp] at h
      have h1 := Cube.planeBody_count c wObj p (hps p (List.mem_cons_self _ _)) fuel s s1 hp
      have h2 := ih (fun q hq => hps q (List.mem_cons_of_mem _ hq)) s1 h
      rw [h2, h1, List.map_cons, List.sum_cons]
      ring

theorem Cube.planes_sweep (c : Cube α) (hTW : 0 < c.TileWidth) (hTH : 0 < c.TileHeight) :
    ∀ p ∈ c.planes, p.Sweeps := by
  intro p hp
  simp only [Cube.planes, List.mem_cons, List.mem_singleton, List.not_mem_nil, or_false] at hp
  rcases hp with rfl | rfl | rfl | rfl | rfl
  · exact ⟨hTW, hTH, Or.inr (Or.inl rfl)⟩
  · exact ⟨hTW, hTH, Or.inr (Or.inl rfl)⟩
  · exact ⟨hTW, hTH, Or.inl rfl⟩
  · exact ⟨hTW, hTH, Or.inr (Or.inr rfl)⟩
  · exact ⟨hTW, hTH, Or.inr (Or.inr rfl)⟩

/-- For positive pitches and extents that pass the dimension check, the
planes hold at least as many tiles as the tile list has entries. -/
theorem Cube.tileTotal_le_planes (c : Cube α) (hTW : 0 < c.TileWidth) (hTH : 0 < c.TileHeight)
    (hW : 0 < c.CubeWidth) (hH : 0 < c.CubeHeight) (hD : 0 < c.CubeDepth)
    (hf : halfCubeFence c.TileHeight c.TileWidth c.CubeWidth c.CubeHeight c.CubeDepth = none) :
    c.tileTotal ≤ ((c.planes.map Plane.tileCount).sum : ℕ) := by
  obtain ⟨h1, h2, h3, _⟩ := (halfCubeFence_eq_none_iff _ _ _ _ _).mp hf
  rw [fence_test_iff (div_pos hW hTW).le] at h1
  rw [fence_test_iff (div_pos hH hTH).le] at h2
  rw [fence_test_iff (div_pos hD hTW).le] at h3
  obtain ⟨w, hw⟩ := h1
  obtain ⟨h, hh⟩ := h2
  obtain ⟨d, hd⟩ := h3
  have hwpos : 0 < w := by
    have := div_pos hW hTW
    rw [← hw] at this
    exact_mod_cast this
  have hhpos : 0 < h := by
    have := div_pos hH hTH
    rw [← hh] at this
    exact_mod_cast this
  have hdpos : 0 < d := by
    have := div_pos hD hTW
    rw [← hd] at this
    exact_mod_cast this
  have hepos : 0 < ⌈c.CubeWidth / c.TileHeight⌉ := Int.ceil_pos.mpr (div_pos hW hTH)
  have hsum : (((c.planes.map Plane.tileCount).sum : ℕ) : ℤ) =
      d * h + d * h + w * h + d * ⌈c.CubeWidth / c.TileHeight⌉ +
        d * ⌈c.CubeWidth / c.TileHeight⌉ := by
    simp only [Cube.planes, Plane.tileCount, List.map_cons, List.map_nil, List.sum_cons,
      List.sum_nil, sub_zero, ← hw, ← hh, ← hd, Int.ceil_intCast]
    push_cast [Int.toNat_of_nonneg hwpos.le, Int.toNat_of_nonneg hhpos.le,
      Int.toNat_of_nonneg hdpos.le, Int.toNat_of_nonneg hepos.le]
    ring
  have hLR : c.leftRight = 2 * d * h := by
    unfold Cube.leftRight
    rw [show (c.CubeDepth * 2 / c.TileWidth) * (c.CubeHeight / c.TileHeight) =
      ((2 * d * h : ℤ) : α) by push_cast; rw [hd, hh]; ring]
    exact int_intCast _
  have hB : c.back = h * w := by
    unfold Cube.back
    rw [show (c.CubeHeight / c.TileHeight) * (c.CubeWidth / c.TileWidth) =
      ((h * w : ℤ) : α) by push_cast; rw [hh, hw]]
    exact int_intCast _
  have hTB : c.topbot ≤ 2 * d * ⌈c.CubeWidth / c.TileHeight⌉ := by
    unfold Cube.topbot
    have hx : 0 < c.CubeWidth / c.TileHeight := div_pos hW hTH
    have hd' : (0 : α) < d := by exact_mod_cast hdpos
    have hy : (c.CubeDepth * 2 / c.TileWidth) * (c.CubeWidth / c.TileHeight) =
        2 * (d : α) * (c.CubeWidth / c.TileHeight) := by
      rw [hd]
      ring
    rw [hy, int_of_nonneg (by positivity)]
    apply Int.le_of_lt_add_one
    rw [Int.floor_lt]
    push_cast
    have hle : c.CubeWidth / c.TileHeight ≤ (⌈c.CubeWidth / c.TileHeight⌉ : α) := Int.le_ceil _
    nlinarith
  rw [hsum]
  unfold Cube.tileTotal
  rw [hLR, hB]
  nlinarith

theorem Cube.tileBody_total {σo : Type} (c : Cube α) (p : Plane α) (hp : p.Sweeps)
    (s : CubeState α σo) (h : s.tileCount < s.tiles.length) :
    ∃ s', Cube.tileBody c p s = .ok s' ∧ s'.tiles.length = s.tiles.length ∧
      s'.tileCount = s.tileCount + 1 ∧ s'.j = s.j ∧ s'.i = s.i := by
  rcases Cube.tileBody_cases c p s with ⟨h1, h2, h3, _⟩ | ⟨_, a1, a2, a3, a4, b1, b2, b3, b4, t, hb⟩
  · rcases hp.2.2 with hx | hx | hx
    · exact absurd hx h1
    · exact absurd hx h2
    · exact absurd hx h3
  · rw [hb]
    rcases Cube.quadStep s _ t with ⟨_, h'⟩ | ⟨hn, _⟩
    · rw [h']
      exact ⟨_, rfl, List.length_set _ _ _, rfl, rfl, rfl⟩
    · exact absurd h hn

theorem Cube.jLoop_total {σo : Type} (c : Cube α) (p : Plane α) (hp : p.Sweeps) (n fuel : ℕ)
    (s : CubeState α σo)
    (hroom : s.tileCount + ⌈(p.jEnd - s.j) / p.jStep⌉.toNat ≤ n) (hlen : s.tiles.length = n)
    (hfuel : ⌈(p.jEnd - s.j) / p.jStep⌉.toNat ≤ fuel) :
    ∃ s', Cube.jLoop c p fuel s = .ok s' ∧ s'.tiles.length = n := by
  unfold Cube.jLoop
  have hbody : ∀ t : CubeState α σo,
      (t.tileCount + ⌈(p.jEnd - t.j) / p.jStep⌉.toNat ≤ n ∧ t.tiles.length = n) →
      decide (t.j < p.jEnd) = true →
      ∃ t', ((Cube.tileBody c p t).map fun t' => { t' with j := t'.j + p.jStep }) = .ok t' ∧
        (t'.tileCount + ⌈(p.jEnd - t'.j) / p.jStep⌉.toNat ≤ n ∧ t'.tiles.length = n) ∧
        ⌈(p.jEnd - t.j) / p.jStep⌉.toNat = ⌈(p.jEnd - t'.j) / p.jStep⌉.toNat + 1 := by
    intro t hJ hc
    have hstep := ceil_passes_succ hp.2.1 (show t.j < p.jEnd by simpa using hc)
    obtain ⟨t1, hb, h1, h2, h3, _⟩ := Cube.tileBody_total c p hp t (by omega)
    refine ⟨{ t1 with j := t1.j + p.jStep }, by rw [hb]; rfl, ⟨?_, by simpa [h1] using hJ.2⟩, ?_⟩
    · simp only [h2, h3]
      omega
    · simpa only [h3] using hstep
  obtain ⟨s', hs', hJ⟩ := whileLoop_total (fun t : CubeState α σo => decide (t.j < p.jEnd))
    (fun t => (Cube.tileBody c p t).map fun t' => { t' with j := t'.j + p.jStep })
    (fun t => t.tileCount + ⌈(p.jEnd - t.j) / p.jStep⌉.toNat ≤ n ∧ t.tiles.length = n)
    (fun t => ⌈(p.jEnd - t.j) / p.jStep⌉.toNat) hbody fuel s ⟨hroom, hlen⟩ hfuel
  exact ⟨s', hs', hJ.2⟩

theorem Cube.iLoop_total {σo : Type} (c : Cube α) (p : Plane α) (hp : p.Sweeps) (n fuel : ℕ)
    (s : CubeState α σo)
    (hroom : s.tileCount +
      ⌈(p.jEnd - p.jStart) / p.jStep⌉.toNat * ⌈(p.iEnd - s.i) / p.iStep⌉.toNat ≤ n)
    (hlen : s.tiles.length = n) (hfi : ⌈(p.iEnd - s.i) / p.iStep⌉.toNat ≤ fuel)
    (hfj : ⌈(p.jEnd - p.jStart) / p.jStep⌉.toNat ≤ fuel) :
    ∃ s', Cube.iLoop c p fuel s = .ok s' ∧ s'.tiles.length = n := by
  unfold Cube.iLoop
  have hbody : ∀ t : CubeState α σo,
      (t.tileCount +
        ⌈(p.jEnd - p.jStart) / p.jStep⌉.toNat * ⌈(p.iEnd - t.i) / p.iStep⌉.toNat ≤ n ∧
        t.tiles.length = n) →
      decide (t.i < p.iEnd) = true →
      ∃ t', ((Cube.jLoop c p fuel { t with jCount := 0, j := p.jStart }).map fun t' =>
          { t' with iCount := t'.iCount + 1, i := t'.i + p.iStep }) = .ok t' ∧
        (t'.tileCount +
          ⌈(p.jEnd - p.jStart) / p.jStep⌉.toNat * ⌈(p.iEnd - t'.i) / p.iStep⌉.toNat ≤ n ∧
          t'.tiles.length = n) ∧
        ⌈(p.iEnd - t.i) / p.iStep⌉.toNat = ⌈(p.iEnd - t'.i) / p.iStep⌉.toNat + 1 := by
    intro t hJ hc
    have hstep := ceil_passes_succ hp.1 (show t.i < p.iEnd by simpa using hc)
    have hmul : ⌈(p.jEnd - p.jStart) / p.jStep⌉.toNat * ⌈(p.iEnd - t.i) / p.iStep⌉.toNat =
        ⌈(p.jEnd - p.jStart) / p.jStep⌉.toNat *
          ⌈(p.iEnd - (t.i + p.iStep)) / p.iStep⌉.toNat +
        ⌈(p.jEnd - p.jStart) / p.jStep⌉.toNat := by
      rw [hstep]
      ring
    obtain ⟨t1, hb, hl1⟩ := Cube.jLoop_total c p hp n fuel { t with jCount := 0, j := p.jStart }
      (by have := hJ.1; simp only []; omega) hJ.2 hfj
    obtain ⟨hi, hcnt⟩ := Cube.jLoop_count c p hp fuel _ t1 hb
    refine ⟨{ t1 with iCount := t1.iCount + 1, i := t1.i + p.iStep }, by rw [hb]; rfl,
      ⟨?_, hl1⟩, ?_⟩
    · simp only [hi, hcnt]
      have := hJ.1
      omega
    · simpa only [hi] using hstep
  obtain ⟨s', hs', hJ⟩ := whileLoop_total (fun t : CubeState α σo => decide (t.i < p.iEnd))
    (fun t => (Cube.jLoop c p fuel { t with jCount := 0, j := p.jStart }).map fun t' =>
      { t' with iCount := t'.iCount + 1, i := t'.i + p.iStep })
    (fun t => t.tileCount +
      ⌈(p.jEnd - p.jStart) / p.jStep⌉.toNat * ⌈(p.iEnd - t.i) / p.iStep⌉.toNat ≤ n ∧
      t.tiles.length = n)
    (fun t => ⌈(p.iEnd - t.i) / p.iStep⌉.toNat) hbody fuel s ⟨hroom, hlen⟩ hfi
  exact ⟨s', hs', hJ.2⟩

theorem Cube.planeBody_total (c : Cube α) (p : Plane α) (hp : p.Sweeps) (n fuel : ℕ)
    (s : CubeState α (List (List (ObjLine α)))) (hroom : s.tileCount + p.tileCount ≤ n)
    (hlen : s.tiles.length = n) (hfi : ⌈(p.iEnd - p.iStart) / p.iStep⌉.toNat ≤ fuel)
    (hfj : ⌈(p.jEnd - p.jStart) / p.jStep⌉.toNat ≤ fuel) :
    ∃ s', Cube.planeBody c (Writer.recorder _) fuel p s = .ok s' ∧ s'.tiles.length = n := by
  unfold Cube.planeBody
  obtain ⟨s1, hs1, hl1⟩ := Cube.iLoop_total c p hp n fuel
    { s with iCount := 0, tileFace := [], i := p.iStart }
    (by simp only [Plane.tileCount] at hroom; simp only []; rw [Nat.mul_comm]; exact hroom)
    hlen hfi hfj
  rw [hs1]
  exact ⟨_, rfl, hl1⟩

theorem Cube.sweep_total (c : Cube α) (n fuel : ℕ) (ps : List (Plane α))
    (hps : ∀ p ∈ ps, p.Sweeps ∧ ⌈(p.iEnd - p.iStart) / p.iStep⌉.toNat ≤ fuel ∧
      ⌈(p.jEnd - p.jStart) / p.jStep⌉.toNat ≤ fuel)
    (s : CubeState α (List (List (ObjLine α))))
    (hroom : s.tileCount + (ps.map Plane.tileCount).sum ≤ n) (hlen : s.tiles.length = n) :
    ∃ s', Cube.sweep c (Writer.recorder _) fuel ps s = .ok s' := by
  induction ps generalizing s with
  | nil => exact ⟨s, rfl⟩
  | cons p ps ih =>
    unfold Cube.sweep
    obtain ⟨hp, hfi, hfj⟩ := hps p (List.mem_cons_self _ _)
    simp only [List.map_cons, List.sum_cons] at hroom
    obtain ⟨s1, hs1, hl1⟩ := Cube.planeBody_total c p hp n fuel s (by omega) hlen hfi hfj
    have hc := Cube.planeBody_count c (Writer.recorder _) p hp fuel s s1 hs1
    rw [hs1]
    exact ih (fun q hq => hps q (List.mem_cons_of_mem _ hq)) s1 (by omega) hl1

/-- For positive pitches and extents whose five ratios (the four of the
dimension check and CubeWidth/TileHeight) are integers no larger than the
step budget, `Cube.Generate` with recording sinks returns without error. -/
theorem Cube.Generate_total (c : Cube α) (fuel : ℕ) (hTW : 0 < c.TileWidth)
    (hTH : 0 < c.TileHeight) (hW : 0 < c.CubeWidth) (hH : 0 < c.CubeHeight)
    (hD : 0 < c.CubeDepth) (iW : IsInteger (c.CubeWidth / c.TileWidth))
    (iH : IsInteger (c.CubeHeight / c.TileHeight)) (iD : IsInteger (c.CubeDepth / c.TileWidth))
    (iD' : IsInteger (c.CubeDepth / c.TileHeight)) (iW' : IsInteger (c.CubeWidth / c.TileHeight))
    (fW : c.CubeWidth / c.TileWidth ≤ fuel) (fH : c.CubeHeight / c.TileHeight ≤ fuel)
    (fD : c.CubeDepth / c.TileWidth ≤ fuel) (fW' : c.CubeWidth / c.TileHeight ≤ fuel) :
    (c.Generate (Writer.recorder _) (Writer.recorder TPIG) fuel [] []).outcome = .ok := by
  have hf : halfCubeFence c.TileHeight c.TileWidth c.CubeWidth c.CubeHeight c.CubeDepth = none := by
    rw [halfCubeFence_eq_none_iff, fence_test_iff (div_pos hW hTW).le,
      fence_test_iff (div_pos hH hTH).le, fence_test_iff (div_pos hD hTW).le,
      fence_test_iff (div_pos hD hTH).le]
    exact ⟨iW, iH, iD, iD'⟩
  obtain ⟨w, hw⟩ := iW
  obtain ⟨h, hh⟩ := iH
  obtain ⟨d, hd⟩ := iD
  obtain ⟨e, he⟩ := iW'
  have hwpos : 0 < w := by
    have := div_pos hW hTW
    rw [← hw] at this
    exact_mod_cast this
  have hhpos : 0 < h := by
    have := div_pos hH hTH
    rw [← hh] at this
    exact_mod_cast this
  have hdpos : 0 < d := by
    have := div_pos hD hTW
    rw [← hd] at this
    exact_mod_cast this
  have hepos : 0 < e := by
    have := div_pos hW hTH
    rw [← he] at this
    exact_mod_cast this
  have hsum : (((c.planes.map Plane.tileCount).sum : ℕ) : ℤ) =
      d * h + d * h + w * h + d * e + d * e := by
    simp only [Cube.planes, Plane.tileCount, List.map_cons, List.map_nil, List.sum_cons,
      List.sum_nil, sub_zero, ← hw, ← hh, ← hd, ← he, Int.ceil_intCast]
    push_cast [Int.toNat_of_nonneg hwpos.le, Int.toNat_of_nonneg hhpos.le,
      Int.toNat_of_nonneg hdpos.le, Int.toNat_of_nonneg hepos.le]
    ring
  have htot : c.tileTotal = d * h + d * h + w * h + d * e + d * e := by
    unfold Cube.tileTotal Cube.leftRight Cube.topbot Cube.back
    rw [show (c.CubeDepth * 2 / c.TileWidth) * (c.CubeHeight / c.TileHeight) =
        ((2 * d * h : ℤ) : α) by push_cast; rw [hd, hh]; ring,
      show (c.CubeDepth * 2 / c.TileWidth) * (c.CubeWidth / c.TileHeight) =
        ((2 * d * e : ℤ) : α) by push_cast; rw [hd, he]; ring,
      show (c.CubeHeight / c.TileHeight) * (c.CubeWidth / c.TileWidth) =
        ((h * w : ℤ) : α) by push_cast; rw [hh, hw],
      int_intCast, int_intCast, int_intCast]
    ring
  have hnat : (c.planes.map Plane.tileCount).sum = c.tileTotal.toNat := by
    have h1 : c.tileTotal = (((c.planes.map Plane.tileCount).sum : ℕ) : ℤ) := by
      rw [hsum, htot]
    rw [h1, Int.toNat_natCast]
  have hnonneg : ¬ c.tileTotal < 0 := by
    rw [htot]
    have h1 := mul_pos hdpos hhpos
    have h2 := mul_pos hwpos hhpos
    have h3 := mul_pos hdpos hepos
    omega
  have hfw : w.toNat ≤ fuel := by
    rw [← hw] at fW
    have : w ≤ (fuel : ℤ) := by exact_mod_cast fW
    omega
  have hfh : h.toNat ≤ fuel := by
    rw [← hh] at fH
    have : h ≤ (fuel : ℤ) := by exact_mod_cast fH
    omega
  have hfd : d.toNat ≤ fuel := by
    rw [← hd] at fD
    have : d ≤ (fuel : ℤ) := by exact_mod_cast fD
    omega
  have hfe : e.toNat ≤ fuel := by
    rw [← he] at fW'
    have : e ≤ (fuel : ℤ) := by exact_mod_cast fW'
    omega
  have hps : ∀ p ∈ c.planes, p.Sweeps ∧ ⌈(p.iEnd - p.iStart) / p.iStep⌉.toNat ≤ fuel ∧
      ⌈(p.jEnd - p.jStart) / p.jStep⌉.toNat ≤ fuel := by
    intro p hp
    refine ⟨Cube.planes_sweep c hTW hTH p hp, ?_⟩
    simp only [Cube.planes, List.mem_cons, List.mem_singleton, List.not_mem_nil, or_false] at hp
    rcases hp with rfl | rfl | rfl | rfl | rfl <;>
      simp only [sub_zero, ← hw, ← hh, ← hd, ← he, Int.ceil_intCast] <;>
      exact ⟨by assumption, by assumption⟩
  obtain ⟨s, hs⟩ := Cube.sweep_total c c.tileTotal.toNat fuel c.planes hps
    { wObj := [], tiles := List.replicate c.tileTotal.toNat Tilelayout.zero,
      vertexCount := 1, tileCount := 0, tileFace := [], iCount := 0, jCount := 0,
      i := 0, j := 0, log := [] }
    (by simp only [zero_add]; exact hnat.le) (List.length_replicate _ _)
  unfold Cube.Generate
  rw [hf]
  simp only [hnonneg, if_false, hs]
  rfl

end CubeLemmas

section CurveLemmas

variable {α : Type} [LinearOrderedField α] [FloorRing α]

/-- The two ways the body of the azimuth loop ends: the tile index is inside
the slice and a block, a tile and the counters are added, or it is not and the
run panics with the mesh sink untouched. -/
theorem Curve.azimuthBody_cases {σo : Type} (m : MathLib α) (c : Curve α) (s : CurveState α σo) :
    (s.tileCount < s.tiles.length ∧
      ∃ (a1 a2 a3 a4 : α × α × α) (b1 b2 b3 b4 : α × α) (t : Tilelayout),
        Curve.tileBody m c s = .ok
          { s with
            tileFaces := s.tileFaces ++
              [ObjLine.v a1.1 a1.2.1 a1.2.2, ObjLine.vt b1.1 b1.2,
                ObjLine.v a2.1 a2.2.1 a2.2.2, ObjLine.vt b2.1 b2.2,
                ObjLine.v a3.1 a3.2.1 a3.2.2, ObjLine.vt b3.1 b3.2,
                ObjLine.v a4.1 a4.2.1 a4.2.2, ObjLine.vt b4.1 b4.2,
                faceLine s.vertexCount]
            log := s.log ++ [.face s.vertexCount] ++ [.tile s.tileCount]
            azimuth := s.azimuth + c.azimuthInc m
            u := s.u - c.uWidth m
            vertexCount := s.vertexCount + 4
            tiles := s.tiles.set s.tileCount t
            tileCount := s.tileCount + 1 }) ∨
    (¬ s.tileCount < s.tiles.length ∧
      ∃ s1 : CurveState α σo, Curve.tileBody m c s = .error (.panic "index out of range", s1) ∧
        s1.wObj = s.wObj) := by
  unfold Curve.tileBody
  by_cases h : s.tileCount < s.tiles.length
  · left
    refine ⟨h, ?_⟩
    simp only [h, if_true]
    exact ⟨(_, _, _), (_, _, _), (_, _, _), (_, _, _), (_, _), (_, _), (_, _), (_, _), _, rfl⟩
  · right
    refine ⟨h, ?_⟩
    simp only [h, if_false]
    exact ⟨_, rfl, rfl⟩

theorem Curve.azimuthBody_inv (n : ℕ) (m : MathLib α) (c : Curve α)
    (s : CurveState α (List (List (ObjLine α)))) (h : CurveInv n s) :
    Step.Ends (CurveInv n) (fun o s' => o ≠ .ok ∧ Numbered s'.wObj) (Curve.tileBody m c s) := by
  rcases Curve.azimuthBody_cases m c s with
    ⟨hlt, a1, a2, a3, a4, b1, b2, b3, b4, t, hb⟩ | ⟨_, s1, hb, hw⟩
  · rw [hb]
    obtain ⟨k0, hw, hbuf⟩ := h.numbered
    refine ⟨⟨k0, hw, ?_⟩, ?_, ?_, ?_, ?_⟩
    · show scanFrom (k0, 0, 0) (s.tileFaces ++ _) = _
      rw [scanFrom_append, hbuf, h.vertex]
      exact scanFrom_mixedBlock s.tileCount a1 a2 a3 a4 b1 b2 b3 b4
    · show s.vertexCount + 4 = 4 * (s.tileCount + 1) + 1
      rw [h.vertex]
      ring
    · show s.tileCount + 1 ≤ (s.tiles.set s.tileCount t).length
      rw [List.length_set]
      exact hlt
    · show (s.tiles.set s.tileCount t).length = n
      rw [List.length_set]
      exact h.length
    · show LockStep (s.tileCount + 1) (s.log ++ [.face s.vertexCount] ++ [.tile s.tileCount])
      rw [h.vertex, List.append_assoc]
      exact LockStep.faceTile h.lock
  · rw [hb]
    obtain ⟨k0, hw0, _⟩ := h.numbered
    exact ⟨by simp, k0, by rw [hw]; exact hw0⟩

theorem Curve.rowBody_inv (n : ℕ) (m : MathLib α) (c : Curve α) (fuel : ℕ)
    (s : CurveState α (List (List (ObjLine α)))) (h : CurveDone c n s) :
    Step.Ends (CurveDone c n) (fun o s' => o ≠ .ok ∧ Numbered s'.wObj)
      (Curve.rowBody m c (Writer.recorder _) fuel s) := by
  unfold Curve.rowBody
  have hb := whileLoop_ends (fun s : CurveState α (List (List (ObjLine α))) =>
      decide (s.azimuth ≤ c.AzimuthMaxAngle)) (Curve.tileBody m c) (CurveInv n)
    (fun o s' => o ≠ .ok ∧ Numbered s'.wObj)
    (fun s hs => by obtain ⟨k0, hw, _⟩ := hs.numbered; exact ⟨by simp, k0, hw⟩)
    (fun s hs _ => Curve.azimuthBody_inv n m c s hs) fuel { s with u := 1, tileFaces := [] }
    ⟨⟨s.tileCount, h.numbered, rfl⟩, h.vertex, h.inside, h.length, h.lock⟩
  cases hr : whileLoop (fun s : CurveState α (List (List (ObjLine α))) =>
      decide (s.azimuth ≤ c.AzimuthMaxAngle)) (Curve.tileBody m c) fuel
      { s with u := 1, tileFaces := [] } with
  | error e =>
    rw [hr] at hb
    exact hb
  | ok s' =>
    rw [hr] at hb
    obtain ⟨k0, hw, hbuf⟩ := hb.numbered
    refine ⟨?_, hb.vertex, hb.inside, hb.length, hb.lock, rfl⟩
    show scanFrom (0, 0, 0) (s'.wObj ++ [s'.tileFaces]).flatten = _
    rw [List.flatten_append, scanFrom_append, hw]
    simpa using hbuf

/-- The mesh sink after `Generate` is the one the call was given or the one
the loop over the rows has left. -/
theorem Curve.Generate_cases {σo σt : Type} (m : MathLib α) (c : Curve α)
    (wObj : Writer σo (List (ObjLine α))) (wTsig : Writer σt TPIG) (fuel : ℕ) (o : σo)
    (t : σt) :
    (c.tileTotal m < 0 ∧ c.Generate m wObj wTsig fuel o t =
      { outcome := .panic "makeslice: len out of range", wObj := o, wTsig := t, log := [] }) ∨
    (0 ≤ c.tileTotal m ∧ ∃ out s,
      whileLoop (fun s : CurveState α σo => decide (s.z < c.CurveHeight))
        (Curve.rowBody m c wObj fuel) fuel
        { wObj := o, tiles := List.replicate (c.tileTotal m).toNat Tilelayout.zero,
          vertexCount := 1, tileCount := 0, tileFaces := [], z := 0,
          azimuth := -c.AzimuthMaxAngle, u := 1, v := 0, log := [] } = .error (out, s) ∧
      c.Generate m wObj wTsig fuel o t =
        { outcome := out, wObj := s.wObj, wTsig := t, log := s.log }) ∨
    (0 ≤ c.tileTotal m ∧ ∃ s,
      whileLoop (fun s : CurveState α σo => decide (s.z < c.CurveHeight))
        (Curve.rowBody m c wObj fuel) fuel
        { wObj := o, tiles := List.replicate (c.tileTotal m).toNat Tilelayout.zero,
          vertexCount := 1, tileCount := 0, tileFaces := [], z := 0,
          azimuth := -c.AzimuthMaxAngle, u := 1, v := 0, log := [] } = .ok s ∧
      (c.Generate m wObj wTsig fuel o t).wObj = s.wObj ∧
      (c.Generate m wObj wTsig fuel o t).log = s.log ∧
      ((c.Generate m wObj wTsig fuel o t).outcome = .ok →
        (wTsig.write t { Tilelayout := s.tiles, Dimensions := { Flat := c.flatBox m } }).2 = none ∧
        (c.Generate m wObj wTsig fuel o t).wTsig =
          (wTsig.write t { Tilelayout := s.tiles, Dimensions := { Flat := c.flatBox m } }).1)) := by
  unfold Curve.Generate
  by_cases hneg : c.tileTotal m < 0
  · left
    simp only [hneg, if_true]
    exact ⟨trivial, trivial⟩
  · right
    simp only [hneg, if_false]
    cases hs : whileLoop (fun s : CurveState α σo => decide (s.z < c.CurveHeight))
        (Curve.rowBody m c wObj fuel) fuel
        { wObj := o, tiles := List.replicate (c.tileTotal m).toNat Tilelayout.zero,
          vertexCount := 1, tileCount := 0, tileFaces := [], z := 0,
          azimuth := -c.AzimuthMaxAngle, u := 1, v := 0, log := [] } with
    | error e =>
      obtain ⟨out, s⟩ := e
      exact Or.inl ⟨not_lt.mp hneg, out, s, rfl, rfl⟩
    | ok s =>
      refine Or.inr ⟨not_lt.mp hneg, s, rfl, ?_⟩
      simp only []
      rcases hw : wTsig.write t { Tilelayout := s.tiles, Dimensions := { Flat := c.flatBox m } }
        with ⟨w, _ | err⟩
      · exact ⟨rfl, rfl, fun _ => ⟨rfl, rfl⟩⟩
      · refine ⟨rfl, rfl, fun h => ?_⟩
        simp at h

theorem Curve.rows_inv (m : MathLib α) (c : Curve α) (fuel : ℕ) :
    Step.Ends (CurveDone c (c.tileTotal m).toNat) (fun o s' => o ≠ .ok ∧ Numbered s'.wObj)
      (whileLoop (fun s : CurveState α (List (List (ObjLine α))) =>
          decide (s.z < c.CurveHeight)) (Curve.rowBody m c (Writer.recorder _) fuel) fuel
        { wObj := [], tiles := List.replicate (c.tileTotal m).toNat Tilelayout.zero,
          vertexCount := 1, tileCount := 0, tileFaces := [], z := 0,
          azimuth := -c.AzimuthMaxAngle, u := 1, v := 0, log := [] }) :=
  whileLoop_ends _ _ _ _ (fun _ hs => ⟨by simp, _, hs.numbered⟩)
    (fun s hs _ => Curve.rowBody_inv _ m c fuel s hs) fuel _
    ⟨rfl, rfl, Nat.zero_le _, List.length_replicate _ _, LockStep.nil, rfl⟩

/-- Whatever the configuration and however the run ends, the mesh a recording
sink has received from `Curve.Generate` consists of complete blocks. -/
theorem Curve.Generate_rows_numbered {σt : Type} (m : MathLib α) (c : Curve α)
    (wTsig : Writer σt TPIG) (fuel : ℕ) (t : σt) :
    Numbered (c.Generate m (Writer.recorder _) wTsig fuel [] t).wObj := by
  have h := Curve.rows_inv m c fuel
  rcases Curve.Generate_cases m c (Writer.recorder _) wTsig fuel [] t with
    ⟨_, h0⟩ | ⟨_, out, s, hs, h1⟩ | ⟨_, s, hs, h1, _⟩
  · rw [h0]
    exact ⟨0, rfl⟩
  · rw [h1]
    rw [hs] at h
    exact h.2
  · rw [h1]
    rw [hs] at h
    exact ⟨_, h.numbered⟩

theorem Curve.azimuthLoop_count {σo : Type} (m : MathLib α) (c : Curve α)
    (hinc : 0 < c.azimuthInc m) (fuel : ℕ) (s s' : CurveState α σo)
    (h : whileLoop (fun s : CurveState α σo => decide (s.azimuth ≤ c.AzimuthMaxAngle))
      (Curve.tileBody m c) fuel s = .ok s') :
    s'.z = s.z ∧ s'.tileCount = s.tileCount +
      (⌊(c.AzimuthMaxAngle - s.azimuth) / c.azimuthInc m⌋ + 1).toNat := by
  have key := whileLoop_count _ (Curve.tileBody m c) (fun t => t.z = s.z)
    (fun t => t.tileCount)
    (fun t => (⌊(c.AzimuthMaxAngle - t.azimuth) / c.azimuthInc m⌋ + 1).toNat) 1
    (fun t ht => floor_passes_zero hinc (by simpa using ht)) ?_ fuel s s' rfl h
  · simpa using key
  · intro t t' hI hc hb
    rcases Curve.azimuthBody_cases m c t with
      ⟨_, a1, a2, a3, a4, b1, b2, b3, b4, tl, hb'⟩ | ⟨_, s1, hb', _⟩
    · rw [hb'] at hb
      cases hb
      exact ⟨hI, floor_passes_succ hinc (by simpa using hc), rfl⟩
    · rw [hb'] at hb
      cases hb

theorem Curve.rowBody_count {σo : Type} (m : MathLib α) (c : Curve α)
    (wObj : Writer σo (List (ObjLine α))) (hinc : 0 < c.azimuthInc m) (fuel : ℕ)
    (s s' : CurveState α σo) (haz : s.azimuth = -c.AzimuthMaxAngle)
    (h : Curve.rowBody m c wObj fuel s = .ok s') :
    s'.azimuth = -c.AzimuthMaxAngle ∧ s'.z = s.z + c.TileHeight ∧
    s'.tileCount = s.tileCount +
      (⌊(c.AzimuthMaxAngle - -c.AzimuthMaxAngle) / c.azimuthInc m⌋ + 1).toNat := by
  unfold Curve.rowBody at h
  cases hr : whileLoop (fun s : CurveState α σo => decide (s.azimuth ≤ c.AzimuthMaxAngle))
      (Curve.tileBody m c) fuel { s with u := 1, tileFaces := [] } with
  | error e => simp [hr] at h
  | ok s1 =>
    rw [hr] at h
    obtain ⟨hz, hc⟩ := Curve.azimuthLoop_count m c hinc fuel _ s1 hr
    simp only [] at h
    rcases hw : wObj.write s1.wObj s1.tileFaces with ⟨w, _ | err⟩
    · rw [hw] at h
      simp only [Except.ok.injEq] at h
      subst h
      simp only [haz] at hc
      exact ⟨rfl, by simp only [hz], hc⟩
    · rw [hw] at h
      cases h

/-- When the loop over the rows ends, it has stored a tile for every pass of
the azimuth loop in every row. -/
theorem Curve.rows_count {σo : Type} (m : MathLib α) (c : Curve α)
    (wObj : Writer σo (List (ObjLine α))) (hinc : 0 < c.azimuthInc m) (hTH : 0 < c.TileHeight)
    (fuel : ℕ) (s s' : CurveState α σo) (haz : s.azimuth = -c.AzimuthMaxAngle)
    (h : whileLoop (fun s : CurveState α σo => decide (s.z < c.CurveHeight))
      (Curve.rowBody m c wObj fuel) fuel s = .ok s') :
    s'.tileCount = s.tileCount +
      (⌊(c.AzimuthMaxAngle - -c.AzimuthMaxAngle) / c.azimuthInc m⌋ + 1).toNat *
        ⌈(c.CurveHeight - s.z) / c.TileHeight⌉.toNat := by
  have key := whileLoop_count _ (Curve.rowBody m c wObj fuel)
    (fun t => t.azimuth = -c.AzimuthMaxAngle) (fun t => t.tileCount)
    (fun t => ⌈(c.CurveHeight - t.z) / c.TileHeight⌉.toNat)
    (⌊(c.AzimuthMaxAngle - -c.AzimuthMaxAngle) / c.azimuthInc m⌋ + 1).toNat
    (fun t ht => ceil_passes_zero hTH (by simpa using ht)) ?_ fuel s s' haz h
  · exact key.2
  · intro t t' hI hc hb
    obtain ⟨h1, h2, h3⟩ := Curve.rowBody_count m c wObj hinc fuel t t' hI hb
    refine ⟨h1, ?_, h3⟩
    simp only [h2]
    exact ceil_passes_succ hTH (by simpa using hc)

/-- For a positive tile height, curve height and azimuth increment, the rows
hold at least as many tiles as the tile list has entries. -/
theorem Curve.tileTotal_le (m : MathLib α) (c : Curve α)
    (hTH : 0 < c.TileHeight) (hH : 0 < c.CurveHeight) :
    c.tileTotal m ≤
      (((⌊(c.AzimuthMaxAngle - -c.AzimuthMaxAngle) / c.azimuthInc m⌋ + 1).toNat *
        ⌈(c.CurveHeight - 0) / c.TileHeight⌉.toNat : ℕ) : ℤ) := by
  have hr : 0 < ⌈c.CurveHeight / c.TileHeight⌉ := Int.ceil_pos.mpr (div_pos hH hTH)
  have hx : (c.AzimuthMaxAngle - -c.AzimuthMaxAngle) / c.azimuthInc m =
      2 * c.AzimuthMaxAngle / c.azimuthInc m := by ring
  have hn : ⌈2 * c.AzimuthMaxAngle / c.azimuthInc m⌉ ≤
      ⌊2 * c.AzimuthMaxAngle / c.azimuthInc m⌋ + 1 := Int.ceil_le_floor_add_one _
  have htot : c.tileTotal m =
      ⌈2 * c.AzimuthMaxAngle / c.azimuthInc m⌉ * ⌈c.CurveHeight / c.TileHeight⌉ := by
    unfold Curve.tileTotal Curve.columns Curve.rows math.Ceil
    rw [← Int.cast_mul]
    exact int_intCast _
  have hcol : ⌊2 * c.AzimuthMaxAngle / c.azimuthInc m⌋ + 1 ≤
      (((⌊2 * c.AzimuthMaxAngle / c.azimuthInc m⌋ + 1).toNat : ℕ) : ℤ) := Int.self_le_toNat _
  rw [htot, hx, sub_zero]
  push_cast [Int.toNat_of_nonneg hr.le]
  nlinarith

end CurveLemmas

section SphereLemmas

variable {α : Type} [LinearOrderedField α] [FloorRing α]

theorem SphereCap.stripBody_inv (s : SphereCap α) (shift : ℤ) (q : TileSpec α) (k0 : ℕ)
    (t : StripState α) (i : ℕ) (h : StripInv k0 t) : StripInv k0 (s.stripBody shift q t i) := by
  refine ⟨?_, ?_, ?_⟩
  · show scanFrom (k0, 0, 0) (t.tileFaces ++ _) = some ((t.tiles ++ [q.stripTile i]).length, 0, 0)
    rw [scanFrom_append, h.numbered, h.vertex, List.length_append]
    exact scanFrom_mixedBlock _ t.cur t.curR
      (t.curR.1 + (s.stripVect shift q.p2 q.p3).1, t.curR.2.1 + (s.stripVect shift q.p2 q.p3).2.1,
        t.curR.2.2 + (s.stripVect shift q.p2 q.p3).2.2)
      (t.cur.1 + (s.stripVect shift q.p1 q.p4).1, t.cur.2.1 + (s.stripVect shift q.p1 q.p4).2.1,
        t.cur.2.2 + (s.stripVect shift q.p1 q.p4).2.2)
      (q.stripUV i).1 (q.stripUV i).2.1 (q.stripUV i).2.2.1 (q.stripUV i).2.2.2
  · show t.vertexCount + 4 = 4 * (t.tiles ++ [q.stripTile i]).length + 1
    rw [h.vertex, List.length_append]
    simp only [List.length_singleton]
    ring
  · show LockStep (t.tiles ++ [q.stripTile i]).length
      (t.log ++ [.face t.vertexCount, .tile t.tiles.length])
    rw [h.vertex, List.length_append]
    exact LockStep.faceTile h.lock

theorem SphereCap.strips_inv (s : SphereCap α) (shift : ℤ) (q : TileSpec α) (k0 : ℕ)
    (l : List ℕ) (t : StripState α) (h : StripInv k0 t) :
    StripInv k0 (l.foldl (s.stripBody shift q) t) := by
  induction l generalizing t with
  | nil => exact h
  | cons i l ih => exact ih _ (SphereCap.stripBody_inv s shift q k0 t i h)

/-- The text of a coarse tile continues the numbering of the mesh, and its
tiles and log entries keep pace with its faces. -/
theorem SphereCap.tileStrips_inv (s : SphereCap α) (shift : ℤ) (q : TileSpec α)
    (tiles : List Tilelayout) (vertexCount : ℕ) (log : List Emission)
    (hv : vertexCount = 4 * tiles.length + 1) (hl : LockStep tiles.length log) :
    scanFrom (tiles.length, 0, 0) (s.tileStrips shift q tiles vertexCount log).tileFaces =
      some ((s.tileStrips shift q tiles vertexCount log).tiles.length, 0, 0) ∧
    (s.tileStrips shift q tiles vertexCount log).vertexCount + 4 =
      4 * (s.tileStrips shift q tiles vertexCount log).tiles.length + 1 ∧
    LockStep (s.tileStrips shift q tiles vertexCount log).tiles.length
      (s.tileStrips shift q tiles vertexCount log).log := by
  have h := SphereCap.strips_inv s shift q tiles.length (List.range shift.toNat)
    { tileFaces := [], tiles := tiles, vertexCount := vertexCount, cur := q.p1, curR := q.p2,
      log := log } ⟨rfl, hv, hl⟩
  unfold SphereCap.tileStrips
  simp only []
  generalize (List.range shift.toNat).foldl (s.stripBody shift q)
    { tileFaces := [], tiles := tiles, vertexCount := vertexCount, cur := q.p1, curR := q.p2,
      log := log } = t at h ⊢
  refine ⟨?_, ?_, ?_⟩
  · rw [scanFrom_append, h.numbered, h.vertex, List.length_append]
    exact scanFrom_mixedBlock _ t.cur t.curR q.p3 q.p4 q.lastUV.1 q.lastUV.2.1 q.lastUV.2.2.1
      q.lastUV.2.2.2
  · rw [h.vertex, List.length_append]
    simp only [List.length_singleton]
    ring
  · rw [h.vertex, List.length_append]
    exact LockStep.tileFace h.lock

theorem SphereCap.emitTile_inv (s : SphereCap α) (shift : ℤ) (q : TileSpec α)
    (st : SphereState α (List (List (ObjLine α)))) (h : SphereInv st) :
    Step.Ends SphereInv (fun o s' => o ≠ .ok ∧ Numbered s'.wObj)
      (s.emitTile (Writer.recorder _) shift q st) := by
  obtain ⟨h1, h2, h3⟩ := SphereCap.tileStrips_inv s shift q st.tiles st.vertexCount st.log
    h.vertex h.lock
  unfold SphereCap.emitTile
  refine ⟨?_, h2, h3⟩
  show scanFrom (0, 0, 0) (st.wObj ++ [_]).flatten = _
  rw [List.flatten_append, scanFrom_append, h.numbered]
  simpa using h1

theorem SphereCap.leftBody_inv (m : MathLib α) (s : SphereCap α) (overrun : α) (shift : ℤ)
    (q : SphereState α (List (List (ObjLine α))) → TileSpec α) (inc : α)
    (st : SphereState α (List (List (ObjLine α)))) (h : SphereInv st) :
    Step.Ends SphereInv (fun o s' => o ≠ .ok ∧ Numbered s'.wObj)
      (s.leftBody m (Writer.recorder _) overrun shift q inc st) := by
  unfold SphereCap.leftBody
  refine Step.Ends_map _ _ _ _ ?_
  have hb := SphereCap.emitTile_inv s shift (q st) st h
  cases hr : s.emitTile (Writer.recorder _) shift (q st) st with
  | ok s' =>
    rw [hr] at hb
    exact ⟨hb.numbered, hb.vertex, hb.lock⟩
  | error e =>
    rw [hr] at hb
    exact hb

theorem SphereCap.rightBody_inv (m : MathLib α) (s : SphereCap α) (overrun : α) (shift : ℤ)
    (q : SphereState α (List (List (ObjLine α))) → TileSpec α) (inc : α)
    (st : SphereState α (List (List (ObjLine α)))) (h : SphereInv st) :
    Step.Ends SphereInv (fun o s' => o ≠ .ok ∧ Numbered s'.wObj)
      (s.rightBody m (Writer.recorder _) overrun shift q inc st) := by
  unfold SphereCap.rightBody
  refine Step.Ends_map _ _ _ _ ?_
  have hb := SphereCap.emitTile_inv s shift (q st) st h
  cases hr : s.emitTile (Writer.recorder _) shift (q st) st with
  | ok s' =>
    rw [hr] at hb
    exact ⟨hb.numbered, hb.vertex, hb.lock⟩
  | error e =>
    rw [hr] at hb
    exact hb

/-- A row made of a loop of `leftBody` and a loop of `rightBody` keeps the
invariant, whatever the loop conditions and the closing update `fin` of
variables other than the sink, the tiles, the vertex count and the log. -/
theorem SphereCap.row_inv (m : MathLib α) (s : SphereCap α) (overrun : α) (shift : ℤ)
    (ql qr : SphereState α (List (List (ObjLine α))) → TileSpec α) (inc : α)
    (cl cr : SphereState α (List (List (ObjLine α))) → Bool) (fuel : ℕ)
    (st : SphereState α (List (List (ObjLine α)))) (h : SphereInv st) :
    Step.Ends SphereInv (fun o s' => o ≠ .ok ∧ Numbered s'.wObj)
      (whileLoop cl (s.leftBody m (Writer.recorder _) overrun shift ql inc) fuel st) ∧
    Step.Ends SphereInv (fun o s' => o ≠ .ok ∧ Numbered s'.wObj)
      (whileLoop cr (s.rightBody m (Writer.recorder _) overrun shift qr inc) fuel st) :=
  ⟨whileLoop_ends _ _ _ _ (fun _ hs => ⟨by simp, _, hs.numbered⟩)
      (fun t ht _ => SphereCap.leftBody_inv m s overrun shift ql inc t ht) fuel st h,
    whileLoop_ends _ _ _ _ (fun _ hs => ⟨by simp, _, hs.numbered⟩)
      (fun t ht _ => SphereCap.rightBody_inv m s overrun shift qr inc t ht) fuel st h⟩

theorem SphereCap.topRow_inv (m : MathLib α) (s : SphereCap α) (overrun : α) (fuel : ℕ)
    (st : SphereState α (List (List (ObjLine α)))) (h : SphereInv st) :
    Step.Ends SphereInv (fun o s' => o ≠ .ok ∧ Numbered s'.wObj)
      (s.topRow m (Writer.recorder _) overrun fuel st) := by
  unfold SphereCap.topRow
  simp only []
  have h1 := (SphereCap.row_inv m s overrun (s.shiftTop m st.theta) (s.specTopLeft m overrun)
    (s.specTopRight m overrun) (s.rowInc m (st.theta - s.thetaInc m))
    (fun t => decide (t.azimuth < s.AzimuthMaxAngle)) (fun t => decide (t.clockAz > -s.ThetaMaxAngle))
    fuel { st with cornerAz := st.azimuth, u := 1 / 2, uBot := 1 / 2, radialInc := 0 }
    ⟨h.numbered, h.vertex, h.lock⟩).1
  cases hr1 : whileLoop (fun t : SphereState α (List (List (ObjLine α))) =>
      decide (t.azimuth < s.AzimuthMaxAngle))
      (s.leftBody m (Writer.recorder _) overrun (s.shiftTop m st.theta)
        (s.specTopLeft m overrun) (s.rowInc m (st.theta - s.thetaInc m))) fuel
      { st with cornerAz := st.azimuth, u := 1 / 2, uBot := 1 / 2, radialInc := 0 } with
  | error e =>
    rw [hr1] at h1
    exact h1
  | ok st1 =>
    rw [hr1] at h1
    simp only []
    have h2 := (SphereCap.row_inv m s overrun (s.shiftTop m st.theta) (s.specTopLeft m overrun)
      (s.specTopRight m overrun) (s.rowInc m (st.theta - s.thetaInc m))
      (fun t => decide (t.azimuth < s.AzimuthMaxAngle))
      (fun t => decide (t.clockAz > -s.ThetaMaxAngle)) fuel
      { st1 with cornerAz := st1.clockAz, u := 1 / 2, uBot := 1 / 2, radialInc := 0 }
      ⟨h1.numbered, h1.vertex, h1.lock⟩).2
    cases hr2 : whileLoop (fun t : SphereState α (List (List (ObjLine α))) =>
        decide (t.clockAz > -s.ThetaMaxAngle))
        (s.rightBody m (Writer.recorder _) overrun (s.shiftTop m st.theta)
          (s.specTopRight m overrun) (s.rowInc m (st.theta - s.thetaInc m))) fuel
        { st1 with cornerAz := st1.clockAz, u := 1 / 2, uBot := 1 / 2, radialInc := 0 } with
    | error e =>
      rw [hr2] at h2
      exact h2
    | ok st2 =>
      rw [hr2] at h2
      exact ⟨h2.numbered, h2.vertex, h2.lock⟩

theorem SphereCap.botRow_inv (m : MathLib α) (s : SphereCap α) (overrun : α) (fuel : ℕ)
    (st : SphereState α (List (List (ObjLine α)))) (h : SphereInv st) :
    Step.Ends SphereInv (fun o s' => o ≠ .ok ∧ Numbered s'.wObj)
      (s.botRow m (Writer.recorder _) overrun fuel st) := by
  unfold SphereCap.botRow
  simp only []
  have h1 := (SphereCap.row_inv m s overrun (s.shiftBot m st.theta) (s.specBotLeft m overrun)
    (s.specBotRight m overrun) (s.rowInc m (st.theta + s.thetaInc m))
    (fun t => decide (t.azimuth < s.ThetaMaxAngle)) (fun t => decide (t.clockAz > -s.ThetaMaxAngle))
    fuel { st with cornerAz := st.azimuth, u := 1 / 2, uBot := 1 / 2, radialInc := 0 }
    ⟨h.numbered, h.vertex, h.lock⟩).1
  cases hr1 : whileLoop (fun t : SphereState α (List (List (ObjLine α))) =>
      decide (t.azimuth < s.ThetaMaxAngle))
      (s.leftBody m (Writer.recorder _) overrun (s.shiftBot m st.theta)
        (s.specBotLeft m overrun) (s.rowInc m (st.theta + s.thetaInc m))) fuel
      { st with cornerAz := st.azimuth, u := 1 / 2, uBot := 1 / 2, radialInc := 0 } with
  | error e =>
    rw [hr1] at h1
    exact h1
  | ok st1 =>
    rw [hr1] at h1
    simp only []
    have h2 := (SphereCap.row_inv m s overrun (s.shiftBot m st.theta) (s.specBotLeft m overrun)
      (s.specBotRight m overrun) (s.rowInc m (st.theta + s.thetaInc m))
      (fun t => decide (t.azimuth < s.ThetaMaxAngle))
      (fun t => decide (t.clockAz > -s.ThetaMaxAngle)) fuel
      { st1 with cornerAz := st1.clockAz, u := 1 / 2, uBot := 1 / 2, radialInc := 0 }
      ⟨h1.numbered, h1.vertex, h1.lock⟩).2
    cases hr2 : whileLoop (fun t : SphereState α (List (List (ObjLine α))) =>
        decide (t.clockAz > -s.ThetaMaxAngle))
        (s.rightBody m (Writer.recorder _) overrun (s.shiftBot m st.theta)
          (s.specBotRight m overrun) (s.rowInc m (st.theta + s.thetaInc m))) fuel
        { st1 with cornerAz := st1.clockAz, u := 1 / 2, uBot := 1 / 2, radialInc := 0 } with
    | error e =>
      rw [hr2] at h2
      exact h2
    | ok st2 =>
      rw [hr2] at h2
      exact ⟨h2.numbered, h2.vertex, h2.lock⟩

theorem SphereCap.upperHalf_inv (m : MathLib α) (s : SphereCap α) (overrun : α) (fuel : ℕ) :
    Step.Ends SphereInv (fun o s' => o ≠ .ok ∧ Numbered s'.wObj)
      (s.upperHalf m (Writer.recorder _) overrun fuel []) :=
  whileLoop_ends _ _ _ _ (fun _ hs => ⟨by simp, _, hs.numbered⟩)
    (fun t ht _ => SphereCap.topRow_inv m s overrun fuel t ht) fuel _ ⟨rfl, rfl, LockStep.nil⟩

theorem SphereCap.lowerHalf_inv (m : MathLib α) (s : SphereCap α) (overrun : α) (fuel : ℕ)
    (st : SphereState α (List (List (ObjLine α)))) (h : SphereInv st) :
    Step.Ends SphereInv (fun o s' => o ≠ .ok ∧ Numbered s'.wObj)
      (s.lowerHalf m (Writer.recorder _) overrun fuel st) :=
  whileLoop_ends _ _ _ _ (fun _ hs => ⟨by simp, _, hs.numbered⟩)
    (fun t ht _ => SphereCap.botRow_inv m s overrun fuel t ht) fuel _
    ⟨h.numbered, h.vertex, h.lock⟩

/-- The pre-scan stops early only when the step budget runs out. -/
theorem SphereCap.scan_stop (m : MathLib α) (s : SphereCap α) (fuel : ℕ) :
    Step.Ends (fun _ => True) (fun o _ => o ≠ .ok) (s.scan m fuel) := by
  unfold SphereCap.scan
  refine whileLoop_ends _ _ _ _ (fun _ _ => by simp) ?_ fuel _ trivial
  intro st _ _
  unfold SphereCap.scanRow
  simp only []
  have h := whileLoop_ends (α := α) (fun t : ScanState α => decide (t.azimuth < s.AzimuthMaxAngle))
    (fun t => .ok { t with
      azimuth := t.azimuth + s.rowInc m (st.theta - s.thetaInc m)
      uTop := t.uTop + (s.uTileWidth0 m +
        ((s.shiftTop m st.theta : ℤ) : α) * (1 / s.maxX0 m) * 2) })
    (fun _ => True) (fun o _ => o ≠ .ok) (fun _ _ => by simp) (fun _ _ _ => trivial) fuel
    { st with azimuth := 0, uTop := 1 / 2 } trivial
  cases hr : whileLoop (fun t : ScanState α => decide (t.azimuth < s.AzimuthMaxAngle))
    (fun t => .ok { t with
      azimuth := t.azimuth + s.rowInc m (st.theta - s.thetaInc m)
      uTop := t.uTop + (s.uTileWidth0 m +
        ((s.shiftTop m st.theta : ℤ) : α) * (1 / s.maxX0 m) * 2) }) fuel
    { st with azimuth := 0, uTop := 1 / 2 } with
  | error e =>
    rw [hr] at h
    exact h
  | ok t => trivial

/-- What a run of `SphereCap.Generate` into a recording mesh sink leaves: a
mesh of complete blocks, and, when it returns `nil`, a final state in which
tiles and faces are paired and from which the layout document is written. -/
theorem SphereCap.Generate_spec {σt : Type} (m : MathLib α) (s : SphereCap α)
    (wTsig : Writer σt TPIG) (fuel : ℕ) (t : σt) :
    Numbered (s.Generate m (Writer.recorder _) wTsig fuel [] t).wObj ∧
    ((s.Generate m (Writer.recorder _) wTsig fuel [] t).outcome = .ok →
      ∃ (overrun : α) (st : SphereState α (List (List (ObjLine α)))), SphereInv st ∧
        (s.Generate m (Writer.recorder _) wTsig fuel [] t).wObj = st.wObj ∧
        (s.Generate m (Writer.recorder _) wTsig fuel [] t).log = st.log ∧
        (s.Generate m (Writer.recorder _) wTsig fuel [] t).wTsig =
          (wTsig.write t
            { Tilelayout := st.tiles, Dimensions := { Flat := s.flatBox m overrun } }).1) := by
  unfold SphereCap.Generate
  have h0 := SphereCap.scan_stop m s fuel
  cases hsc : s.scan m fuel with
  | error e =>
    obtain ⟨out, sc⟩ := e
    rw [hsc] at h0
    exact ⟨⟨0, rfl⟩, fun h => absurd h h0⟩
  | ok sc =>
    simp only []
    have h1 := SphereCap.upperHalf_inv m s sc.overrun fuel
    cases hu : s.upperHalf m (Writer.recorder _) sc.overrun fuel [] with
    | error e =>
      obtain ⟨out, st⟩ := e
      rw [hu] at h1
      exact ⟨h1.2, fun h => absurd h h1.1⟩
    | ok st1 =>
      rw [hu] at h1
      simp only []
      have h2 := SphereCap.lowerHalf_inv m s sc.overrun fuel st1 h1
      cases hl : s.lowerHalf m (Writer.recorder _) sc.overrun fuel st1 with
      | error e =>
        obtain ⟨out, st⟩ := e
        rw [hl] at h2
        exact ⟨h2.2, fun h => absurd h h2.1⟩
      | ok st2 =>
        rw [hl] at h2
        simp only []
        rcases hw : wTsig.write t
          { Tilelayout := st2.tiles, Dimensions := { Flat := s.flatBox m sc.overrun } }
          with ⟨w, _ | err⟩
        · exact ⟨⟨_, h2.numbered⟩, fun _ => ⟨sc.overrun, st2, h2, rfl, rfl, by rw [hw]⟩⟩
        · refine ⟨⟨_, h2.numbered⟩, fun h => ?_⟩
          simp at h

end SphereLemmas

section GridLemmas
variable {α σ : Type}

theorem whileLoop_indexed (cond : σ → Bool) (body : σ → Step α σ) (I : ℕ → σ → Prop)
    (Q : Outcome α → σ → Prop) (hfuel : ∀ k s, I k s → Q .outOfFuel s)
    (hbody : ∀ k s, I k s → cond s = true → Step.Ends (I (k + 1)) Q (body s)) :
    ∀ (fuel k : ℕ) (s : σ), I k s →
      Step.Ends (fun s' => ∃ j, I j s' ∧ cond s' = false) Q (whileLoop cond body fuel s) := by
  intro fuel
  induction fuel with
  | zero =>
    intro k s hs
    unfold whileLoop
    by_cases hc : cond s = true
    · simpa [hc, Step.Ends] using hfuel k s hs
    · simp only [hc, Step.Ends]
      exact ⟨k, hs, by simpa using hc⟩
  | succ n ih =>
    intro k s hs
    unfold whileLoop
    by_cases hc : cond s = true
    · have hb := hbody k s hs hc
      simp only [hc, if_true]
      cases hbs : body s with
      | ok s' =>
        rw [hbs] at hb
        exact ih (k + 1) s' hb
      | error e =>
        rw [hbs] at hb
        exact hb
    · simp only [hc, Step.Ends]
      exact ⟨k, hs, by simpa using hc⟩

theorem take_set_succ {β : Type} (l : List β) (n : ℕ) (a : β) (h : n < l.length) :
    (l.set n a).take (n + 1) = l.take n ++ [a] := by
  have hl : (l.take n).length = n := by
    rw [List.length_take]
    omega
  rw [List.set_eq_take_append_cons_drop, if_pos h, List.take_append_eq_append_take, hl,
    List.take_of_length_le (by omega)]
  simp

/-- A loop `for x < stop` that starts at 0 and adds `step > 0` has made
`ceil(stop/step)` passes when it ends. -/
theorem passes_eq_ceil {β : Type} [LinearOrderedField β] [FloorRing β] {stop step : β}
    (hstep : 0 < step) (r : ℕ) (hall : ∀ i < r, (i : β) * step < stop)
    (hexit : ¬ (r : β) * step < stop) : r = ⌈stop / step⌉.toNat := by
  have h1 : stop / step ≤ (r : β) := by
    rw [div_le_iff₀ hstep]
    exact not_lt.mp hexit
  have h2 : ⌈stop / step⌉ ≤ (r : ℤ) := Int.ceil_le.mpr (by exact_mod_cast h1)
  rcases Nat.eq_zero_or_pos r with h0 | hpos
  · subst h0
    simp only [Nat.cast_zero] at h2
    omega
  · have h3 := hall (r - 1) (by omega)
    have h4 : ((r - 1 : ℕ) : β) < stop / step := by
      rw [lt_div_iff₀ hstep]
      exact h3
    have h5 : ((r - 1 : ℕ) : ℤ) < ⌈stop / step⌉ := by
      rw [Int.lt_ceil]
      exact_mod_cast h4
    omega

end GridLemmas

section CurveGrid

variable {α : Type} [LinearOrderedField α] [FloorRing α]

/-- One pass of the azimuth loop keeps the closed forms of the loop variables
and adds tile `k` of the row; if it panics, the mesh sink is as it was. -/
theorem Curve.tileBody_cell (m : MathLib α) (c : Curve α) (r k : ℕ)
    (s : CurveState α (List (List (ObjLine α)))) (h : CurveCell m c r k s) :
    Step.Ends (CurveCell m c r (k + 1)) (fun _ s' => s'.wObj = s.wObj) (Curve.tileBody m c s) := by
  unfold Curve.tileBody
  by_cases hlt : s.tileCount < s.tiles.length
  · simp only [hlt, if_true, Step.Ends]
    have hlt' : r * c.perRow m + k < s.tiles.length := by
      rw [← h.tileCount]
      exact hlt
    refine ⟨h.z, h.v, ?_, ?_, h.wObj, ?_, ?_, ?_, ?_, ?_, ?_⟩
    · show s.azimuth + c.azimuthInc m = c.azimuthAt m (k + 1)
      rw [h.azimuth]
      unfold Curve.azimuthAt
      push_cast
      ring
    · show s.u - c.uWidth m = c.uAt m (k + 1)
      rw [h.u]
      unfold Curve.uAt
      push_cast
      ring
    · show s.tileFaces ++ _ = (List.range (k + 1)).flatMap (c.block m r)
      rw [List.range_succ, List.flatMap_append, List.flatMap_singleton, h.tileFaces, h.z, h.v,
        h.azimuth, h.u, h.vertexCount]
      rfl
    · show s.tileCount + 1 = r * c.perRow m + (k + 1)
      rw [h.tileCount]
      ring
    · show s.vertexCount + 4 = 4 * (r * c.perRow m + (k + 1)) + 1
      rw [h.vertexCount]
      ring
    · show (s.tiles.set s.tileCount _).take (r * c.perRow m + (k + 1)) = _
      rw [h.tileCount, ← Nat.add_assoc, take_set_succ _ _ _ hlt', h.tiles, List.range_succ,
        List.map_append, List.append_assoc, h.u, h.v]
      rfl
    · show (s.tiles.set s.tileCount _).length = _
      rw [List.length_set]
      exact h.length
    · have := h.length
      omega
  · simp only [hlt, if_false, Step.Ends]

theorem Step.Ends_imp {σ : Type} {P P' : σ → Prop} {Q Q' : Outcome α → σ → Prop}
    {r : Step α σ} (hP : ∀ s, P s → P' s) (hQ : ∀ o s, Q o s → Q' o s)
    (h : Step.Ends P Q r) : Step.Ends P' Q' r := by
  cases r with
  | ok s => exact hP s h
  | error e => exact hQ e.1 e.2 h

/-- The azimuth loop of row `r` ends after `perRow` tiles, or stops with the
mesh sink as it was. -/
theorem Curve.azimuthLoop_cell (m : MathLib α) (c : Curve α) (hinc : 0 < c.azimuthInc m)
    (fuel r : ℕ) (s : CurveState α (List (List (ObjLine α)))) (h : CurveCell m c r 0 s) :
    Step.Ends (CurveCell m c r (c.perRow m)) (fun _ s' => s'.wObj = s.wObj)
      (whileLoop (fun s : CurveState α (List (List (ObjLine α))) =>
        decide (s.azimuth ≤ c.AzimuthMaxAngle)) (Curve.tileBody m c) fuel s) := by
  have key := whileLoop_indexed
    (fun s : CurveState α (List (List (ObjLine α))) => decide (s.azimuth ≤ c.AzimuthMaxAngle))
    (Curve.tileBody m c) (CurveCell m c r) (fun _ s' => s'.wObj = s.wObj)
    (fun k t ht => ht.wObj.trans h.wObj.symm)
    (fun k t ht _ => Step.Ends_imp (fun _ hs => hs)
      (fun _ t' (ht' : t'.wObj = t.wObj) => ht'.trans (ht.wObj.trans h.wObj.symm))
      (Curve.tileBody_cell m c r k t ht)) fuel 0 s h
  cases hr : whileLoop (fun s : CurveState α (List (List (ObjLine α))) =>
      decide (s.azimuth ≤ c.AzimuthMaxAngle)) (Curve.tileBody m c) fuel s with
  | error e =>
    rw [hr] at key
    exact key
  | ok s' =>
    rw [hr] at key
    obtain ⟨j, hj, _⟩ := key
    obtain ⟨_, hcnt⟩ := Curve.azimuthLoop_count m c hinc fuel s s' hr
    have haz : s.azimuth = -c.AzimuthMaxAngle := by
      rw [h.azimuth]
      simp [Curve.azimuthAt]
    have hj' : j = c.perRow m := by
      have h1 := hj.tileCount
      have h2 := h.tileCount
      rw [haz] at hcnt
      unfold Curve.perRow
      omega
    subst hj'
    exact hj

/-- One row: the row invariant moves on to the next row, or the run stops
with whole rows written. -/
theorem Curve.rowBody_grid (m : MathLib α) (c : Curve α) (hinc : 0 < c.azimuthInc m)
    (fuel r : ℕ) (s : CurveState α (List (List (ObjLine α)))) (h : CurveRow m c r s)
    (hc : s.z < c.CurveHeight) :
    Step.Ends (CurveRow m c (r + 1)) (fun _ s' => CurveStopped m c s'.wObj)
      (Curve.rowBody m c (Writer.recorder _) fuel s) := by
  unfold Curve.rowBody
  have hz : s.z = c.zAt r := h.cell.z
  have hb := Curve.azimuthLoop_cell m c hinc fuel r _ h.cell
  cases hr : whileLoop (fun s : CurveState α (List (List (ObjLine α))) =>
      decide (s.azimuth ≤ c.AzimuthMaxAngle)) (Curve.tileBody m c) fuel
      { s with u := 1, tileFaces := [] } with
  | error e =>
    rw [hr] at hb
    have hw : e.2.wObj = s.wObj := hb
    refine ⟨r, ?_, h.entered, ?_⟩
    · rw [hw]
      exact h.cell.wObj
    · simpa using h.cell.inside
  | ok s1 =>
    rw [hr] at hb
    have hb : CurveCell m c r (c.perRow m) s1 := hb
    have hsucc : (r + 1) * c.perRow m + 0 = r * c.perRow m + c.perRow m := by ring
    refine ⟨⟨?_, ?_, ?_, ?_, ?_, ?_, ?_, ?_, ?_, hb.length, ?_⟩, ?_⟩
    · show s1.z + c.TileHeight = c.zAt (r + 1)
      rw [hb.z]
      unfold Curve.zAt
      push_cast
      ring
    · show s1.v + c.vheight = c.vAt (r + 1)
      rw [hb.v]
      unfold Curve.vAt
      push_cast
      ring
    · show -c.AzimuthMaxAngle = c.azimuthAt m 0
      simp [Curve.azimuthAt]
    · show (1 : α) = c.uAt m 0
      simp [Curve.uAt]
    · show s1.wObj ++ [s1.tileFaces] = (List.range (r + 1)).map (c.rowLines m)
      rw [hb.wObj, hb.tileFaces, List.range_succ, List.map_append]
      rfl
    · rfl
    · show s1.tileCount = (r + 1) * c.perRow m + 0
      rw [hb.tileCount]
      ring
    · show s1.vertexCount = 4 * ((r + 1) * c.perRow m + 0) + 1
      rw [hb.vertexCount]
      ring
    · show s1.tiles.take ((r + 1) * c.perRow m + 0) = _
      rw [hsucc, hb.tiles, List.range_succ, List.flatMap_append, List.flatMap_singleton]
      simp [Curve.rowTiles]
    · rw [hsucc]
      exact hb.inside
    · intro i hi
      rcases Nat.lt_succ_iff_lt_or_eq.mp hi with hlt | heq
      · exact h.entered i hlt
      · rw [heq, ← hz]
        exact hc

/-- The loop over the rows of `Curve.Generate`, with a recording mesh sink:
it ends before some row `r` with `z` at or above the height, or stops with
whole rows written. -/
theorem Curve.rows_grid (m : MathLib α) (c : Curve α) (hinc : 0 < c.azimuthInc m) (fuel : ℕ) :
    Step.Ends (fun s' => ∃ r, CurveRow m c r s' ∧ ¬ c.zAt r < c.CurveHeight)
      (fun _ s' => CurveStopped m c s'.wObj)
      (whileLoop (fun s : CurveState α (List (List (ObjLine α))) =>
          decide (s.z < c.CurveHeight)) (Curve.rowBody m c (Writer.recorder _) fuel) fuel
        { wObj := [], tiles := List.replicate (c.tileTotal m).toNat Tilelayout.zero,
          vertexCount := 1, tileCount := 0, tileFaces := [], z := 0,
          azimuth := -c.AzimuthMaxAngle, u := 1, v := 0, log := [] }) := by
  have key := whileLoop_indexed
    (fun s : CurveState α (List (List (ObjLine α))) => decide (s.z < c.CurveHeight))
    (Curve.rowBody m c (Writer.recorder _) fuel) (CurveRow m c)
    (fun _ s' => CurveStopped m c s'.wObj)
    (fun k t ht => ⟨k, ht.cell.wObj, ht.entered, by simpa using ht.cell.inside⟩)
    (fun k t ht hc => Curve.rowBody_grid m c hinc fuel k t ht (by simpa using hc)) fuel 0
    { wObj := [], tiles := List.replicate (c.tileTotal m).toNat Tilelayout.zero,
      vertexCount := 1, tileCount := 0, tileFaces := [], z := 0,
      azimuth := -c.AzimuthMaxAngle, u := 1, v := 0, log := [] }
    ⟨⟨by simp [Curve.zAt], by simp [Curve.vAt], by simp [Curve.azimuthAt], by simp [Curve.uAt],
      rfl, rfl, by simp, by simp, by simp, List.length_replicate _ _, by simp⟩,
      fun i hi => absurd hi (Nat.not_lt_zero i)⟩
  refine Step.Ends_imp ?_ (fun _ _ hq => hq) key
  rintro s' ⟨j, hj, hcond⟩
  refine ⟨j, hj, ?_⟩
  rw [← hj.cell.z]
  simpa using hcond

theorem Round_intCast (z : ℤ) : math.Round ((z : ℤ) : α) = ((z : ℤ) : α) := by
  unfold math.Round
  split
  · congr 1
    rw [Int.floor_eq_iff]
    constructor <;> linarith
  · congr 1
    rw [Int.ceil_eq_iff]
    constructor <;> linarith

theorem Curve.tileTotal_eq (m : MathLib α) (c : Curve α) :
    c.tileTotal m =
      ⌈2 * c.AzimuthMaxAngle / c.azimuthInc m⌉ * ⌈c.CurveHeight / c.TileHeight⌉ := by
  unfold Curve.tileTotal Curve.columns Curve.rows math.Ceil
  rw [← Int.cast_mul]
  exact int_intCast _

/-- The mesh and the layout a recording run of `Curve.Generate` leaves, for a
positive azimuth increment: whole rows of tiles at the closed forms of the
loop variables, and on a normal return a document whose tile list starts with
the tiles of these rows. -/
theorem Curve.Generate_grid (m : MathLib α) (c : Curve α) (hinc : 0 < c.azimuthInc m)
    (fuel : ℕ) :
    CurveStopped m c (c.Generate m (Writer.recorder _) (Writer.recorder TPIG) fuel [] []).wObj ∧
    ((c.Generate m (Writer.recorder _) (Writer.recorder TPIG) fuel [] []).outcome = .ok →
      ∃ (r : ℕ) (tiles : List Tilelayout),
        (c.Generate m (Writer.recorder _) (Writer.recorder TPIG) fuel [] []).wObj =
          (List.range r).map (c.rowLines m) ∧
        (c.Generate m (Writer.recorder _) (Writer.recorder TPIG) fuel [] []).wTsig =
          [{ Tilelayout := tiles, Dimensions := { Flat := c.flatBox m } }] ∧
        (∀ i < r, c.zAt i < c.CurveHeight) ∧ ¬ c.zAt r < c.CurveHeight ∧
        tiles.take (r * c.perRow m) = (List.range r).flatMap (c.rowTiles m) ∧
        tiles.length = (c.tileTotal m).toNat ∧ r * c.perRow m ≤ (c.tileTotal m).toNat ∧
        0 ≤ c.tileTotal m) := by
  have hgrid := Curve.rows_grid m c hinc fuel
  have hinv := Curve.rows_inv m c fuel
  rcases Curve.Generate_cases m c (Writer.recorder _) (Writer.recorder TPIG) fuel [] [] with
    ⟨_, h0⟩ | ⟨_, out, s, hs, h1⟩ | ⟨hpos, s, hs, h1, h2, h3⟩
  · rw [h0]
    refine ⟨⟨0, rfl, fun i hi => absurd hi (Nat.not_lt_zero i), by simp⟩, fun h => ?_⟩
    simp at h
  · rw [hs] at hgrid hinv
    rw [h1]
    exact ⟨hgrid, fun h => absurd h hinv.1⟩
  · rw [hs] at hgrid
    obtain ⟨r, hr, hexit⟩ := hgrid
    refine ⟨?_, fun h => ?_⟩
    · rw [h1]
      exact ⟨r, hr.cell.wObj, hr.entered, by simpa using hr.cell.inside⟩
    · obtain ⟨_, hw⟩ := h3 h
      refine ⟨r, s.tiles, ?_, ?_, hr.entered, hexit, ?_, hr.cell.length, ?_, hpos⟩
      · rw [h1]
        exact hr.cell.wObj
      · rw [hw]
        rfl
      · simpa using hr.cell.tiles
      · simpa using hr.cell.inside

/-- On a normal return with positive tile height, curve height and azimuth
increment, the rows are `ceil(CurveHeight/TileHeight)`, every row has
`ceil(2 AzimuthMaxAngle/azimuthInc)` tiles and the tile list is full. -/
theorem Curve.ok_counts (m : MathLib α) (c : Curve α)
    (hTH : 0 < c.TileHeight) (hH : 0 < c.CurveHeight) (r : ℕ)
    (hall : ∀ i < r, c.zAt i < c.CurveHeight) (hexit : ¬ c.zAt r < c.CurveHeight)
    (hin : r * c.perRow m ≤ (c.tileTotal m).toNat) (hpos : 0 ≤ c.tileTotal m) :
    r = ⌈c.CurveHeight / c.TileHeight⌉.toNat ∧
    (c.perRow m : ℤ) = ⌈2 * c.AzimuthMaxAngle / c.azimuthInc m⌉ ∧
    (c.tileTotal m).toNat = r * c.perRow m ∧ 0 < r := by
  have hr : r = ⌈c.CurveHeight / c.TileHeight⌉.toNat := passes_eq_ceil hTH r hall hexit
  have hR : 0 < ⌈c.CurveHeight / c.TileHeight⌉ := Int.ceil_pos.mpr (div_pos hH hTH)
  have hrR : (r : ℤ) = ⌈c.CurveHeight / c.TileHeight⌉ := by
    rw [hr]
    exact Int.toNat_of_nonneg hR.le
  have hle := Curve.tileTotal_le m c hTH hH
  have htot := Curve.tileTotal_eq m c
  have hle' : c.tileTotal m ≤ (c.perRow m : ℤ) * (r : ℤ) := by
    have : (c.perRow m : ℤ) * (r : ℤ) =
        (((⌊(c.AzimuthMaxAngle - -c.AzimuthMaxAngle) / c.azimuthInc m⌋ + 1).toNat *
          ⌈(c.CurveHeight - 0) / c.TileHeight⌉.toNat : ℕ) : ℤ) := by
      rw [hr, sub_zero]
      unfold Curve.perRow
      push_cast
      rfl
    rw [this]
    exact hle
  have hin' : (r : ℤ) * (c.perRow m : ℤ) ≤ c.tileTotal m := by
    have : ((r * c.perRow m : ℕ) : ℤ) ≤ ((c.tileTotal m).toNat : ℤ) := by exact_mod_cast hin
    rw [Int.toNat_of_nonneg hpos] at this
    exact_mod_cast this
  have heq : c.tileTotal m = (r : ℤ) * (c.perRow m : ℤ) := by linarith
  have hrpos : (0 : ℤ) < r := by rw [hrR]; exact hR
  refine ⟨hr, ?_, ?_, by exact_mod_cast hrpos⟩
  · rw [htot, ← hrR] at heq
    have : (⌈2 * c.AzimuthMaxAngle / c.azimuthInc m⌉ - (c.perRow m : ℤ)) * (r : ℤ) = 0 := by
      linarith
    rcases mul_eq_zero.mp this with h | h
    · linarith
    · omega
  · have : ((c.tileTotal m).toNat : ℤ) = ((r * c.perRow m : ℕ) : ℤ) := by
      rw [Int.toNat_of_nonneg hpos, heq]
      push_cast
      rfl
    exact_mod_cast this

/-- The tiles of a regular grid partition the atlas: every pixel of the box
`(0, n dx, 0, rows dy)` lies in exactly one of them. -/
theorem regularGrid_partition (n rows dx dy : ℕ) (hdx : 0 < dx) (hdy : 0 < dy) (x y : ℤ)
    (hx0 : 0 ≤ x) (hx1 : x < (n : ℤ) * dx) (hy0 : 0 ≤ y) (hy1 : y < (rows : ℤ) * dy) :
    ∃! t, t ∈ regularGrid n rows dx dy ∧ t.Covers x y := by
  have hdx' : (0 : ℤ) < dx := by exact_mod_cast hdx
  have hdy' : (0 : ℤ) < dy := by exact_mod_cast hdy
  have hqx0 : 0 ≤ x / dx := Int.ediv_nonneg hx0 hdx'.le
  have hqy0 : 0 ≤ y / dy := Int.ediv_nonneg hy0 hdy'.le
  have hqx1 : x / dx < n := Int.ediv_lt_of_lt_mul hdx' hx1
  have hqy1 : y / dy < rows := Int.ediv_lt_of_lt_mul hdy' hy1
  have hxl : x / dx * dx ≤ x := Int.ediv_mul_le x hdx'.ne'
  have hxu : x < (x / dx + 1) * dx := Int.lt_ediv_add_one_mul_self x hdx'
  have hyl : y / dy * dy ≤ y := Int.ediv_mul_le y hdy'.ne'
  have hyu : y < (y / dy + 1) * dy := Int.lt_ediv_add_one_mul_self y hdy'
  refine ⟨⟨⟨⟨x / dx * dx, y / dy * dy⟩, ⟨dx, dy⟩⟩⟩, ⟨?_, ?_⟩, ?_⟩
  · obtain ⟨qx, hqx⟩ := Int.eq_ofNat_of_zero_le hqx0
    obtain ⟨qy, hqy⟩ := Int.eq_ofNat_of_zero_le hqy0
    rw [hqx] at hqx1 ⊢
    rw [hqy] at hqy1 ⊢
    have e1 : ((n - 1 - qx : ℕ) : ℤ) = (n : ℤ) - 1 - qx := by omega
    have e2 : ((rows - 1 - qy : ℕ) : ℤ) = (rows : ℤ) - 1 - qy := by omega
    have hr : rows - 1 - qy < rows := by omega
    have hk : n - 1 - qx < n := by omega
    refine List.mem_flatMap.mpr ⟨rows - 1 - qy, List.mem_range.mpr hr,
      List.mem_map.mpr ⟨n - 1 - qx, List.mem_range.mpr hk, ?_⟩⟩
    rw [e1, e2]
    have hX : ((n : ℤ) - 1 - ((n : ℤ) - 1 - qx)) * dx = qx * dx := by ring
    have hY : ((rows : ℤ) - 1 - ((rows : ℤ) - 1 - qy)) * dy = qy * dy := by ring
    rw [hX, hY]
  · refine ⟨hxl, ?_, hyl, ?_⟩
    · show x < x / dx * dx + dx
      linarith
    · show y < y / dy * dy + dy
      linarith
  · rintro t ⟨ht, hc⟩
    obtain ⟨r, _, ht⟩ := List.mem_flatMap.mp ht
    obtain ⟨k, _, rfl⟩ := List.mem_map.mp ht
    obtain ⟨c1, c2, c3, c4⟩ := hc
    simp only at c1 c2 c3 c4
    have hk : (n : ℤ) - 1 - k = x / dx := by
      have h1 : ((n : ℤ) - 1 - k) * dx ≤ x := c1
      have h2 : x < ((n : ℤ) - 1 - k + 1) * dx := by linarith
      have h3 := Int.le_ediv_of_mul_le hdx' h1
      have h4 := (Int.ediv_lt_iff_lt_mul hdx').mpr h2
      omega
    have hr : (rows : ℤ) - 1 - r = y / dy := by
      have h1 : ((rows : ℤ) - 1 - r) * dy ≤ y := c3
      have h2 : y < ((rows : ℤ) - 1 - r + 1) * dy := by linarith
      have h3 := Int.le_ediv_of_mul_le hdy' h1
      have h4 := (Int.ediv_lt_iff_lt_mul hdy').mpr h2
      omega
    rw [hk, hr]


/-- With integer pixel pitches and `n > k` columns, `rows > r` rows, the entry
of tile `k` of row `r` is the one of the regular grid. -/
theorem Curve.tileAt_eq (m : MathLib α) (c : Curve α) (n rows dx dy r k : ℕ)
    (hn : c.columns m = (n : α)) (hrows : c.rows = (rows : α)) (hdx : c.Dx = dx)
    (hdy : c.Dy = dy) (hk : k < n) (hr : r < rows) :
    c.tileAt m r k =
      ⟨⟨⟨((n : ℤ) - 1 - k) * dx, ((rows : ℤ) - 1 - r) * dy⟩, ⟨dx, dy⟩⟩⟩ := by
  have hn0 : (n : α) ≠ 0 := by
    have : 0 < n := by omega
    exact_mod_cast this.ne'
  have hr0 : (rows : α) ≠ 0 := by
    have : 0 < rows := by omega
    exact_mod_cast this.ne'
  have hX : (c.uAt m k - c.uWidth m) * c.pixelWidth m = ((((n : ℤ) - 1 - k) * dx : ℤ) : α) := by
    unfold Curve.uAt Curve.uWidth Curve.pixelWidth
    rw [hn, hdx]
    push_cast
    field_simp
    ring
  have hY : (1 - (c.vAt r + c.vheight)) * c.pixelHeight =
      ((((rows : ℤ) - 1 - r) * dy : ℤ) : α) := by
    unfold Curve.vAt Curve.vheight Curve.pixelHeight
    rw [hrows, hdy]
    push_cast
    field_simp
    ring
  have hDx : int c.Dx = (dx : ℤ) := by
    rw [hdx]
    exact_mod_cast int_intCast (α := α) (dx : ℤ)
  have hDy : int c.Dy = (dy : ℤ) := by
    rw [hdy]
    exact_mod_cast int_intCast (α := α) (dy : ℤ)
  unfold Curve.tileAt
  rw [hX, hY, Round_intCast, Round_intCast, int_intCast, int_intCast, hDx, hDy]

theorem Curve.faceCount_rowLines (m : MathLib α) (c : Curve α) (r : ℕ) :
    faceCount (c.rowLines m r) = c.perRow m := by
  unfold Curve.rowLines
  induction c.perRow m with
  | zero => rfl
  | succ n ih =>
    rw [List.range_succ, List.flatMap_append, List.flatMap_singleton, faceCount_append, ih]
    rfl

theorem Curve.faceCount_rows (m : MathLib α) (c : Curve α) (r : ℕ) :
    faceCount (meshLines ((List.range r).map (c.rowLines m))) = r * c.perRow m := by
  unfold meshLines
  induction r with
  | zero => simp [faceCount]
  | succ n ih =>
    rw [List.range_succ, List.map_append, List.flatten_append, faceCount_append, ih]
    simp only [List.map_cons, List.map_nil, List.flatten_cons, List.flatten_nil,
      List.append_nil]
    rw [Curve.faceCount_rowLines]
    ring

/-- A run that has written a tile has a positive tile height: with a tile
height that is not positive the tile list is empty. -/
theorem Curve.written_pos (m : MathLib α) (c : Curve α) (r : ℕ) (hr : 0 < r)
    (hN : 0 < c.perRow m) (hall : ∀ i < r, c.zAt i < c.CurveHeight)
    (hin : r * c.perRow m ≤ (c.tileTotal m).toNat) : 0 < c.TileHeight := by
  have hH : 0 < c.CurveHeight := by
    have := hall 0 hr
    simpa [Curve.zAt] using this
  have hT : 1 ≤ c.tileTotal m := by
    have h1 : 1 ≤ r * c.perRow m := Nat.mul_pos hr hN
    omega
  have hx : (c.AzimuthMaxAngle - -c.AzimuthMaxAngle) / c.azimuthInc m =
      2 * c.AzimuthMaxAngle / c.azimuthInc m := by ring
  have hC : 0 ≤ ⌈2 * c.AzimuthMaxAngle / c.azimuthInc m⌉ := by
    have h1 : 0 ≤ ⌊2 * c.AzimuthMaxAngle / c.azimuthInc m⌋ := by
      unfold Curve.perRow at hN
      rw [hx] at hN
      omega
    exact h1.trans (Int.floor_le_ceil _)
  rw [Curve.tileTotal_eq] at hT
  have hR : 0 < ⌈c.CurveHeight / c.TileHeight⌉ := by
    by_contra hcon
    have : ⌈2 * c.AzimuthMaxAngle / c.azimuthInc m⌉ * ⌈c.CurveHeight / c.TileHeight⌉ ≤ 0 :=
      mul_nonpos_of_nonneg_of_nonpos hC (not_lt.mp hcon)
    omega
  by_contra hcon
  have h1 : c.CurveHeight / c.TileHeight ≤ 0 :=
    div_nonpos_of_nonneg_of_nonpos hH.le (not_lt.mp hcon)
  have h2 : ⌈c.CurveHeight / c.TileHeight⌉ ≤ 0 := Int.ceil_le.mpr (by simpa using h1)
  omega

/-- The azimuth of a tile of a row is at most the maximum. -/
theorem Curve.azimuthAt_le (m : MathLib α) (c : Curve α) (hinc : 0 < c.azimuthInc m) (k : ℕ)
    (hk : k < c.perRow m) : c.azimuthAt m k ≤ c.AzimuthMaxAngle := by
  have h1 : (k : ℤ) ≤ ⌊(c.AzimuthMaxAngle - -c.AzimuthMaxAngle) / c.azimuthInc m⌋ := by
    unfold Curve.perRow at hk
    omega
  have h2 : ((k : ℤ) : α) ≤ (c.AzimuthMaxAngle - -c.AzimuthMaxAngle) / c.azimuthInc m :=
    Int.le_floor.mp h1
  rw [le_div_iff₀ hinc] at h2
  unfold Curve.azimuthAt
  have h3 : ((k : ℤ) : α) = (k : α) := by push_cast; rfl
  rw [h3] at h2
  linarith

end CurveGrid

section SphereSteps

variable {α : Type} [LinearOrderedField α] [FloorRing α]

/-- Halving after the conversion to `int`, by Go's integer division, and
halving before it give the same integer. -/
theorem int_tdiv_two (x : α) : (int x).tdiv 2 = int (x / 2) := by
  unfold int
  by_cases hx : 0 ≤ x
  · have hx2 : 0 ≤ x / 2 := by positivity
    rw [if_pos hx, if_pos hx2]
    have h0 : 0 ≤ ⌊x⌋ := Int.floor_nonneg.mpr hx
    rw [Int.tdiv_eq_ediv h0 (by norm_num)]
    symm
    rw [Int.floor_eq_iff]
    have h1 := Int.floor_le x
    have h2 := Int.lt_floor_add_one x
    have h3 : ((⌊x⌋ / 2 : ℤ) : α) * 2 ≤ (⌊x⌋ : α) := by
      have : ⌊x⌋ / 2 * 2 ≤ ⌊x⌋ := Int.ediv_mul_le _ (by norm_num)
      exact_mod_cast this
    have h4 : (⌊x⌋ : α) + 1 ≤ ((⌊x⌋ / 2 : ℤ) : α) * 2 + 2 := by
      have : ⌊x⌋ + 1 ≤ ⌊x⌋ / 2 * 2 + 2 := by omega
      exact_mod_cast this
    constructor <;> linarith
  · have hx' : x < 0 := not_le.mp hx
    have hx2 : ¬ 0 ≤ x / 2 := by
      rw [not_le]
      linarith
    rw [if_neg hx, if_neg hx2]
    have h0 : ⌈x⌉ ≤ 0 := Int.ceil_le.mpr (by simpa using hx'.le)
    have hneg : (⌈x⌉).tdiv 2 = -((-⌈x⌉) / 2) := by
      have h5 : (-(-⌈x⌉)).tdiv 2 = -((-⌈x⌉).tdiv 2) := Int.neg_tdiv _ _
      rw [neg_neg] at h5
      rw [h5, Int.tdiv_eq_ediv (by omega) (by norm_num)]
    rw [hneg]
    symm
    rw [Int.ceil_eq_iff]
    have h1 := Int.le_ceil x
    have h2 := Int.ceil_lt_add_one x
    have h3 : (⌈x⌉ : α) ≤ ((-((-⌈x⌉) / 2) : ℤ) : α) * 2 := by
      have : ⌈x⌉ ≤ (-((-⌈x⌉) / 2)) * 2 := by omega
      exact_mod_cast this
    have h4 : ((-((-⌈x⌉) / 2) : ℤ) : α) * 2 - 2 ≤ (⌈x⌉ : α) - 1 := by
      have : (-((-⌈x⌉) / 2)) * 2 - 2 ≤ ⌈x⌉ - 1 := by omega
      exact_mod_cast this
    constructor <;> linarith


theorem SphereCap.emitTile_theta {σo : Type} (s : SphereCap α)
    (wObj : Writer σo (List (ObjLine α))) (shift : ℤ) (q : TileSpec α) (st : SphereState α σo) :
    Step.Ends (fun st' => st'.theta = st.theta) (fun _ _ => True)
      (s.emitTile wObj shift q st) := by
  unfold SphereCap.emitTile
  simp only []
  rcases hw : wObj.write st.wObj
    (s.tileStrips shift q st.tiles st.vertexCount st.log).tileFaces with ⟨w, _ | err⟩
  · exact rfl
  · exact trivial

/-- The two loops of a row leave `theta` as it is. -/
theorem SphereCap.rowLoop_theta {σo : Type} (cond : SphereState α σo → Bool)
    (body : SphereState α σo → Step α (SphereState α σo)) (θ : α)
    (hbody : ∀ st, Step.Ends (fun st' => st'.theta = st.theta) (fun _ _ => True) (body st))
    (fuel : ℕ) (st : SphereState α σo) (h : st.theta = θ) :
    Step.Ends (fun st' => st'.theta = θ) (fun _ _ => True) (whileLoop cond body fuel st) :=
  whileLoop_ends cond body (fun st' => st'.theta = θ) (fun _ _ => True) (fun _ _ => trivial)
    (fun t ht _ => Step.Ends_imp (fun _ h' => h'.trans ht) (fun _ _ _ => trivial) (hbody t))
    fuel st h

theorem SphereCap.leftBody_theta {σo : Type} (m : MathLib α) (s : SphereCap α)
    (wObj : Writer σo (List (ObjLine α))) (overrun : α) (shift : ℤ)
    (q : SphereState α σo → TileSpec α) (inc : α) (st : SphereState α σo) :
    Step.Ends (fun st' => st'.theta = st.theta) (fun _ _ => True)
      (s.leftBody m wObj overrun shift q inc st) :=
  Step.Ends_map _ _ _ _ (SphereCap.emitTile_theta s wObj shift (q st) st)

theorem SphereCap.rightBody_theta {σo : Type} (m : MathLib α) (s : SphereCap α)
    (wObj : Writer σo (List (ObjLine α))) (overrun : α) (shift : ℤ)
    (q : SphereState α σo → TileSpec α) (inc : α) (st : SphereState α σo) :
    Step.Ends (fun st' => st'.theta = st.theta) (fun _ _ => True)
      (s.rightBody m wObj overrun shift q inc st) :=
  Step.Ends_map _ _ _ _ (SphereCap.emitTile_theta s wObj shift (q st) st)

/-- A row of the upper half lowers `theta` by `thetaInc`. -/
theorem SphereCap.topRow_theta {σo : Type} (m : MathLib α) (s : SphereCap α)
    (wObj : Writer σo (List (ObjLine α))) (overrun : α) (fuel : ℕ) (st st' : SphereState α σo)
    (h : s.topRow m wObj overrun fuel st = .ok st') : st'.theta = st.theta - s.thetaInc m := by
  unfold SphereCap.topRow at h
  simp only [] at h
  have h1 := SphereCap.rowLoop_theta (fun t => decide (t.azimuth < s.AzimuthMaxAngle))
    (s.leftBody m wObj overrun (s.shiftTop m st.theta) (s.specTopLeft m overrun)
      (s.rowInc m (st.theta - s.thetaInc m))) st.theta
    (SphereCap.leftBody_theta m s wObj overrun _ _ _) fuel
    { st with cornerAz := st.azimuth, u := 1 / 2, uBot := 1 / 2, radialInc := 0 } rfl
  cases hr1 : whileLoop (fun t => decide (t.azimuth < s.AzimuthMaxAngle))
    (s.leftBody m wObj overrun (s.shiftTop m st.theta) (s.specTopLeft m overrun)
      (s.rowInc m (st.theta - s.thetaInc m))) fuel
    { st with cornerAz := st.azimuth, u := 1 / 2, uBot := 1 / 2, radialInc := 0 } with
  | error e =>
    rw [hr1] at h
    cases h
  | ok st1 =>
    rw [hr1] at h h1
    simp only [] at h
    have h2 := SphereCap.rowLoop_theta (fun t => decide (t.clockAz > -s.ThetaMaxAngle))
      (s.rightBody m wObj overrun (s.shiftTop m st.theta) (s.specTopRight m overrun)
        (s.rowInc m (st.theta - s.thetaInc m))) st.theta
      (SphereCap.rightBody_theta m s wObj overrun _ _ _) fuel
      { st1 with cornerAz := st1.clockAz, u := 1 / 2, uBot := 1 / 2, radialInc := 0 } h1
    cases hr2 : whileLoop (fun t => decide (t.clockAz > -s.ThetaMaxAngle))
      (s.rightBody m wObj overrun (s.shiftTop m st.theta) (s.specTopRight m overrun)
        (s.rowInc m (st.theta - s.thetaInc m))) fuel
      { st1 with cornerAz := st1.clockAz, u := 1 / 2, uBot := 1 / 2, radialInc := 0 } with
    | error e =>
      rw [hr2] at h
      cases h
    | ok st2 =>
      rw [hr2] at h h2
      simp only [Except.ok.injEq] at h
      subst h
      show st2.theta - s.thetaInc m = _
      rw [h2]

/-- A row of the lower half raises `theta` by `thetaInc`. -/
theorem SphereCap.botRow_theta {σo : Type} (m : MathLib α) (s : SphereCap α)
    (wObj : Writer σo (List (ObjLine α))) (overrun : α) (fuel : ℕ) (st st' : SphereState α σo)
    (h : s.botRow m wObj overrun fuel st = .ok st') : st'.theta = st.theta + s.thetaInc m := by
  unfold SphereCap.botRow at h
  simp only [] at h
  have h1 := SphereCap.rowLoop_theta (fun t => decide (t.azimuth < s.ThetaMaxAngle))
    (s.leftBody m wObj overrun (s.shiftBot m st.theta) (s.specBotLeft m overrun)
      (s.rowInc m (st.theta + s.thetaInc m))) st.theta
    (SphereCap.leftBody_theta m s wObj overrun _ _ _) fuel
    { st with cornerAz := st.azimuth, u := 1 / 2, uBot := 1 / 2, radialInc := 0 } rfl
  cases hr1 : whileLoop (fun t => decide (t.azimuth < s.ThetaMaxAngle))
    (s.leftBody m wObj overrun (s.shiftBot m st.theta) (s.specBotLeft m overrun)
      (s.rowInc m (st.theta + s.thetaInc m))) fuel
    { st with cornerAz := st.azimuth, u := 1 / 2, uBot := 1 / 2, radialInc := 0 } with
  | error e =>
    rw [hr1] at h
    cases h
  | ok st1 =>
    rw [hr1] at h h1
    simp only [] at h
    have h2 := SphereCap.rowLoop_theta (fun t => decide (t.clockAz > -s.ThetaMaxAngle))
      (s.rightBody m wObj overrun (s.shiftBot m st.theta) (s.specBotRight m overrun)
        (s.rowInc m (st.theta + s.thetaInc m))) st.theta
      (SphereCap.rightBody_theta m s wObj overrun _ _ _) fuel
      { st1 with cornerAz := st1.clockAz, u := 1 / 2, uBot := 1 / 2, radialInc := 0 } h1
    cases hr2 : whileLoop (fun t => decide (t.clockAz > -s.ThetaMaxAngle))
      (s.rightBody m wObj overrun (s.shiftBot m st.theta) (s.specBotRight m overrun)
        (s.rowInc m (st.theta + s.thetaInc m))) fuel
      { st1 with cornerAz := st1.clockAz, u := 1 / 2, uBot := 1 / 2, radialInc := 0 } with
    | error e =>
      rw [hr2] at h
      cases h
    | ok st2 =>
      rw [hr2] at h h2
      simp only [Except.ok.injEq] at h
      subst h
      show st2.theta + s.thetaInc m = _
      rw [h2]

/-- A row of the pre-scan lowers `theta` by `thetaInc`. -/
theorem SphereCap.scanRow_theta (m : MathLib α) (s : SphereCap α) (fuel : ℕ)
    (st st' : ScanState α) (h : s.scanRow m fuel st = .ok st') :
    st'.theta = st.theta - s.thetaInc m := by
  unfold SphereCap.scanRow at h
  simp only [] at h
  have h1 := whileLoop_ends (α := α) (fun t : ScanState α => decide (t.azimuth < s.AzimuthMaxAngle))
    (fun t => .ok { t with
      azimuth := t.azimuth + s.rowInc m (st.theta - s.thetaInc m)
      uTop := t.uTop + (s.uTileWidth0 m +
        ((s.shiftTop m st.theta : ℤ) : α) * (1 / s.maxX0 m) * 2) })
    (fun t => t.theta = st.theta) (fun _ _ => True) (fun _ _ => trivial)
    (fun t ht _ => ht) fuel { st with azimuth := 0, uTop := 1 / 2 } rfl
  cases hr : whileLoop (fun t : ScanState α => decide (t.azimuth < s.AzimuthMaxAngle))
    (fun t => .ok { t with
      azimuth := t.azimuth + s.rowInc m (st.theta - s.thetaInc m)
      uTop := t.uTop + (s.uTileWidth0 m +
        ((s.shiftTop m st.theta : ℤ) : α) * (1 / s.maxX0 m) * 2) }) fuel
    { st with azimuth := 0, uTop := 1 / 2 } with
  | error e =>
    rw [hr] at h
    cases h
  | ok t =>
    rw [hr] at h h1
    simp only [Except.ok.injEq] at h
    subst h
    show t.theta - s.thetaInc m = _
    rw [h1]

/-- The shift of a row of the lower half is the shift of its mirror row of
the upper half, when the sine takes the same values at the mirrored
inclinations. -/
theorem SphereCap.shiftBot_eq_shiftTop (m : MathLib α) (s : SphereCap α) (x : α)
    (h0 : m.Sin (m.Pi / 2 + x) = m.Sin (m.Pi / 2 - x))
    (h1 : m.Sin (m.Pi / 2 + (x + s.thetaInc m)) = m.Sin (m.Pi / 2 - (x + s.thetaInc m))) :
    s.shiftBot m (m.Pi / 2 + x) = s.shiftTop m (m.Pi / 2 - x) := by
  unfold SphereCap.shiftBot SphereCap.shiftTop
  rw [int_tdiv_two]
  simp only [SphereCap.futDif, SphereCap.rowInc]
  have e1 : m.Pi / 2 + x + s.thetaInc m = m.Pi / 2 + (x + s.thetaInc m) := by ring
  have e2 : m.Pi / 2 - x - s.thetaInc m = m.Pi / 2 - (x + s.thetaInc m) := by ring
  have e3 : m.Pi / 2 + (x + s.thetaInc m) - s.thetaInc m = m.Pi / 2 + x := by ring
  rw [e1, e2, e3, h0, h1]
  congr 1
  ring

end SphereSteps

section FenceSigns

variable {α : Type} [LinearOrderedField α] [FloorRing α]

theorem int_of_neg {x : α} (h : x < 0) : int x = ⌈x⌉ := by
  unfold int
  rw [if_neg (not_le.mpr h)]

/-- The test of `halfCubeFence` passes on every negative ratio and on every
integer ratio, and on no other. -/
theorem fence_test_iff_signed (x : α) : int (math.Ceil x) = int x ↔ x < 0 ∨ IsInteger x := by
  rcases lt_or_le x 0 with h | h
  · rw [int_ceil, int_of_neg h]
    simp [h]
  · rw [fence_test_iff h]
    simp [not_lt.mpr h]

end FenceSigns

section StripLemmas

variable {α : Type} [LinearOrderedField α] [FloorRing α]

theorem vertices_append (a b : List (ObjLine α)) : vertices (a ++ b) = vertices a ++ vertices b := by
  simp [vertices, List.filterMap_append]

/-- The strip loop after `k` passes: the running corners are the `k`-th
interpolated points of the two sides, and the text holds one quad per pass,
each joined to the next along an interpolated edge. -/
theorem SphereCap.strips_closed (s : SphereCap α) (shift : ℤ) (q : TileSpec α)
    (init : StripState α) (hc : init.cur = q.p1) (hcR : init.curR = q.p2) (k : ℕ) :
    ((List.range k).foldl (s.stripBody shift q) init).cur = s.stripCorner shift q.p1 q.p4 k ∧
    ((List.range k).foldl (s.stripBody shift q) init).curR = s.stripCorner shift q.p2 q.p3 k ∧
    vertices ((List.range k).foldl (s.stripBody shift q) init).tileFaces =
      vertices init.tileFaces ++ (List.range k).flatMap (fun i =>
        [s.stripCorner shift q.p1 q.p4 i, s.stripCorner shift q.p2 q.p3 i,
          s.stripCorner shift q.p2 q.p3 (i + 1), s.stripCorner shift q.p1 q.p4 (i + 1)]) ∧
    faceCount ((List.range k).foldl (s.stripBody shift q) init).tileFaces =
      faceCount init.tileFaces + k ∧
    ((List.range k).foldl (s.stripBody shift q) init).tiles.length = init.tiles.length + k := by
  induction k with
  | zero =>
    refine ⟨?_, ?_, ?_, ?_, ?_⟩
    · simp [hc, SphereCap.stripCorner]
    · simp [hcR, SphereCap.stripCorner]
    · simp
    · simp
    · simp
  | succ k ih =>
    obtain ⟨h1, h2, h3, h4, h5⟩ := ih
    rw [List.range_succ, List.foldl_append]
    simp only [List.foldl_cons, List.foldl_nil]
    generalize (List.range k).foldl (s.stripBody shift q) init = t at h1 h2 h3 h4 h5
    have hn : (s.stripBody shift q t k).cur = s.stripCorner shift q.p1 q.p4 (k + 1) := by
      show (_, _, _) = _
      rw [h1]
      simp only [SphereCap.stripCorner, SphereCap.stripVect]
      push_cast
      refine Prod.ext ?_ (Prod.ext ?_ ?_) <;> simp only [] <;> ring
    have hnR : (s.stripBody shift q t k).curR = s.stripCorner shift q.p2 q.p3 (k + 1) := by
      show (_, _, _) = _
      rw [h2]
      simp only [SphereCap.stripCorner, SphereCap.stripVect]
      push_cast
      refine Prod.ext ?_ (Prod.ext ?_ ?_) <;> simp only [] <;> ring
    refine ⟨hn, hnR, ?_, ?_, ?_⟩
    · have hv : vertices (s.stripBody shift q t k).tileFaces =
          vertices t.tileFaces ++ [t.cur, t.curR, (s.stripBody shift q t k).curR,
            (s.stripBody shift q t k).cur] := by
        show vertices (t.tileFaces ++ _) = _
        rw [vertices_append]
        rfl
      rw [hv, h3, hn, hnR, h1, h2, List.flatMap_append, List.append_assoc]
      simp
    · show faceCount (t.tileFaces ++ _) = _
      rw [faceCount_append, h4]
      simp [faceCount, faceLine, Nat.add_assoc]
    · show (t.tiles ++ _).length = _
      rw [List.length_append, h5]
      simp [Nat.add_assoc]

end StripLemmas

section Divergence

variable {α σ : Type}

/-- A loop whose condition holds on an invariant of its body uses up every
step budget. -/
theorem whileLoop_diverges (cond : σ → Bool) (body : σ → Step α σ) (I : σ → Prop)
    (hc : ∀ s, I s → cond s = true) (hb : ∀ s, I s → ∃ s', body s = .ok s' ∧ I s') :
    ∀ (fuel : ℕ) (s : σ), I s → ∃ s', whileLoop cond body fuel s = .error (.outOfFuel, s') := by
  intro fuel
  induction fuel with
  | zero =>
    intro s hs
    exact ⟨s, by simp [whileLoop, hc s hs]⟩
  | succ n ih =>
    intro s hs
    obtain ⟨s', hs', hI⟩ := hb s hs
    obtain ⟨s'', h⟩ := ih s' hI
    exact ⟨s'', by simp [whileLoop, hc s hs, hs', h]⟩

end Divergence

section ScanDivergence

variable {α : Type} [LinearOrderedField α] [FloorRing α]

/-- The pre-scan of a cap one of whose visited rows has a far edge with a
non-positive azimuth increment: the azimuth loop of that row never reaches
its bound, so the pre-scan uses up every step budget. -/
theorem SphereCap.scan_diverges (m : MathLib α) (s : SphereCap α) (n : ℕ)
    (hvisit : ∀ k : ℕ, k ≤ n → m.Pi / 2 - (k : α) * s.thetaInc m > m.Pi / 2 - s.ThetaMaxAngle)
    (hneg : s.rowInc m (m.Pi / 2 - (n : α) * s.thetaInc m - s.thetaInc m) ≤ 0)
    (haz : 0 < s.AzimuthMaxAngle) (fuel : ℕ) :
    ∃ st, s.scan m fuel = .error (.outOfFuel, st) := by
  have h := whileLoop_indexed (α := α)
    (fun t : ScanState α => decide (t.theta > m.Pi / 2 - s.ThetaMaxAngle)) (s.scanRow m fuel)
    (fun k st => k ≤ n ∧ st.theta = m.Pi / 2 - (k : α) * s.thetaInc m)
    (fun o _ => o = .outOfFuel) (fun _ _ _ => rfl) ?_ fuel 0
    { theta := m.Pi / 2, overrun := 1, azimuth := 0, uTop := 1 / 2 }
    ⟨Nat.zero_le n, by simp⟩
  · unfold SphereCap.scan
    cases hr : whileLoop (fun t : ScanState α => decide (t.theta > m.Pi / 2 - s.ThetaMaxAngle))
      (s.scanRow m fuel) fuel { theta := m.Pi / 2, overrun := 1, azimuth := 0, uTop := 1 / 2 } with
    | error e =>
      obtain ⟨o, st⟩ := e
      rw [hr] at h
      have ho : o = .outOfFuel := h
      exact ⟨st, by rw [ho]⟩
    | ok st =>
      rw [hr] at h
      obtain ⟨j, ⟨hj, hth⟩, hc⟩ := h
      have := hvisit j hj
      rw [← hth] at this
      simp [this] at hc
  · intro k st hI hc
    obtain ⟨hk, hth⟩ := hI
    unfold SphereCap.scanRow
    simp only []
    rcases Nat.lt_or_ge k n with hlt | hge
    · have hin := whileLoop_ends (α := α)
        (fun t : ScanState α => decide (t.azimuth < s.AzimuthMaxAngle))
        (fun t => .ok { t with
          azimuth := t.azimuth + s.rowInc m (st.theta - s.thetaInc m)
          uTop := t.uTop + (s.uTileWidth0 m +
            ((s.shiftTop m st.theta : ℤ) : α) * (1 / s.maxX0 m) * 2) })
        (fun t => t.theta = st.theta) (fun o _ => o = .outOfFuel) (fun _ _ => rfl)
        (fun t ht _ => ht) fuel { st with azimuth := 0, uTop := 1 / 2 } rfl
      cases hr : whileLoop (fun t : ScanState α => decide (t.azimuth < s.AzimuthMaxAngle))
        (fun t => .ok { t with
          azimuth := t.azimuth + s.rowInc m (st.theta - s.thetaInc m)
          uTop := t.uTop + (s.uTileWidth0 m +
            ((s.shiftTop m st.theta : ℤ) : α) * (1 / s.maxX0 m) * 2) }) fuel
        { st with azimuth := 0, uTop := 1 / 2 } with
      | error e =>
        rw [hr] at hin
        exact hin
      | ok t =>
        rw [hr] at hin
        refine ⟨hlt, ?_⟩
        show t.theta - s.thetaInc m = _
        have ht : t.theta = st.theta := hin
        rw [ht, hth]
        push_cast
        ring
    · have hkn : k = n := le_antisymm hk hge
      subst hkn
      obtain ⟨t, ht⟩ := whileLoop_diverges (α := α)
        (fun t : ScanState α => decide (t.azimuth < s.AzimuthMaxAngle))
        (fun t => .ok { t with
          azimuth := t.azimuth + s.rowInc m (st.theta - s.thetaInc m)
          uTop := t.uTop + (s.uTileWidth0 m +
            ((s.shiftTop m st.theta : ℤ) : α) * (1 / s.maxX0 m) * 2) })
        (fun t => t.azimuth ≤ 0)
        (fun t ht => by
          have : t.azimuth < s.AzimuthMaxAngle := lt_of_le_of_lt ht haz
          simp [this])
        (fun t ht => ⟨_, rfl, by
          show t.azimuth + s.rowInc m (st.theta - s.thetaInc m) ≤ 0
          rw [hth]
          linarith⟩)
        fuel { st with azimuth := 0, uTop := 1 / 2 } (le_refl (0 : α))
      rw [ht]
      rfl

/-- A cap one of whose visited rows has a far edge with a non-positive azimuth
increment: `Generate` uses up every step budget in the pre-scan, before
anything is written. -/
theorem SphereCap.Generate_diverges {σo σt : Type} (m : MathLib α) (s : SphereCap α) (n : ℕ)
    (hvisit : ∀ k : ℕ, k ≤ n → m.Pi / 2 - (k : α) * s.thetaInc m > m.Pi / 2 - s.ThetaMaxAngle)
    (hneg : s.rowInc m (m.Pi / 2 - (n : α) * s.thetaInc m - s.thetaInc m) ≤ 0)
    (haz : 0 < s.AzimuthMaxAngle) (wObj : Writer σo (List (ObjLine α)))
    (wTsig : Writer σt TPIG) (fuel : ℕ) (o : σo) (t : σt) :
    s.Generate m wObj wTsig fuel o t =
      { outcome := .outOfFuel, wObj := o, wTsig := t, log := [] } := by
  obtain ⟨st, h⟩ := SphereCap.scan_diverges m s n hvisit hneg haz fuel
  unfold SphereCap.Generate
  rw [h]

end ScanDivergence

section Naturality

variable {α σ σ' : Type}

theorem whileLoop_mapState (g : σ → σ') (cond : σ → Bool) (cond' : σ' → Bool)
    (body : σ → Step α σ) (body' : σ' → Step α σ') (hc : ∀ s, cond' (g s) = cond s)
    (hb : ∀ s, body' (g s) = Step.mapState g (body s)) :
    ∀ (fuel : ℕ) (s : σ), whileLoop cond' body' fuel (g s) =
      Step.mapState g (whileLoop cond body fuel s) := by
  intro fuel
  induction fuel with
  | zero =>
    intro s
    unfold whileLoop
    rw [hc]
    by_cases h : cond s = true
    · simp [h, Step.mapState]
    · simp [h, Step.mapState]
  | succ n ih =>
    intro s
    unfold whileLoop
    rw [hc, hb]
    by_cases h : cond s = true
    · simp only [h, if_true]
      cases hbs : body s with
      | error e => rfl
      | ok s' =>
        simp only [Step.mapState]
        exact ih s'
    · simp [h, Step.mapState]

theorem Step.mapState_map (g : σ → σ') (f : σ → σ) (f' : σ' → σ') (hf : ∀ s, g (f s) = f' (g s))
    (r : Step α σ) : Step.mapState g (r.map f) = (Step.mapState g r).map f' := by
  cases r with
  | error e => rfl
  | ok s =>
    show Step.mapState g (.ok (f s)) = .ok (f' (g s))
    simp only [Step.mapState, hf]

end Naturality

section CubeNaturality

variable {α : Type} [LinearOrderedField α] [FloorRing α] {σ1 σ2 : Type}

theorem Cube.quad_natural (g : σ1 → σ2) (s : CubeState α σ1) (ls : List (ObjLine α))
    (t : Tilelayout) :
    (Cube.setTile (Cube.addLines (s.mapObj g) ls) t).map Cube.writeFace =
      Step.mapState (CubeState.mapObj g)
        ((Cube.setTile (Cube.addLines s ls) t).map Cube.writeFace) := by
  by_cases h : s.tileCount < s.tiles.length
  · have h' : (Cube.addLines (s.mapObj g) ls).tileCount < (Cube.addLines (s.mapObj g) ls).tiles.length := h
    have h'' : (Cube.addLines s ls).tileCount < (Cube.addLines s ls).tiles.length := h
    simp only [Cube.setTile, h', h'', if_true]
    rfl
  · have h' : ¬ (Cube.addLines (s.mapObj g) ls).tileCount < (Cube.addLines (s.mapObj g) ls).tiles.length := h
    have h'' : ¬ (Cube.addLines s ls).tileCount < (Cube.addLines s ls).tiles.length := h
    simp only [Cube.setTile, h', h'', if_false]
    rfl

theorem Cube.tileBody_natural (g : σ1 → σ2) (c : Cube α) (p : Plane α) (s : CubeState α σ1) :
    Cube.tileBody c p (s.mapObj g) = Step.mapState (CubeState.mapObj g) (Cube.tileBody c p s) := by
  unfold Cube.tileBody
  simp only [Cube.addLines_addLines]
  split
  · exact Cube.quad_natural g s _ _
  · split
    · exact Cube.quad_natural g s _ _
    · exact Cube.quad_natural g s _ _
  · split
    · exact Cube.quad_natural g s _ _
    · exact Cube.quad_natural g s _ _
  · rfl

theorem Cube.jLoop_natural (g : σ1 → σ2) (c : Cube α) (p : Plane α) (fuel : ℕ)
    (s : CubeState α σ1) :
    Cube.jLoop c p fuel (s.mapObj g) = Step.mapState (CubeState.mapObj g) (Cube.jLoop c p fuel s) := by
  unfold Cube.jLoop
  refine whileLoop_mapState (CubeState.mapObj g) _ _ _ _ (fun _ => rfl) ?_ fuel s
  intro s
  rw [Cube.tileBody_natural]
  refine (Step.mapState_map (CubeState.mapObj g) _ _ ?_ _).symm
  intro _
  rfl

theorem Cube.iLoop_natural (g : σ1 → σ2) (c : Cube α) (p : Plane α) (fuel : ℕ)
    (s : CubeState α σ1) :
    Cube.iLoop c p fuel (s.mapObj g) = Step.mapState (CubeState.mapObj g) (Cube.iLoop c p fuel s) := by
  unfold Cube.iLoop
  refine whileLoop_mapState (CubeState.mapObj g) _ _ _ _ (fun _ => rfl) ?_ fuel s
  intro s
  have h := Cube.jLoop_natural g c p fuel { s with jCount := 0, j := p.jStart }
  have e : ({ s.mapObj g with jCount := 0, j := p.jStart } : CubeState α σ2) =
      CubeState.mapObj g { s with jCount := 0, j := p.jStart } := rfl
  rw [e, h]
  refine (Step.mapState_map (CubeState.mapObj g) _ _ ?_ _).symm
  intro _
  rfl

theorem Cube.planeBody_natural (g : σ1 → σ2) (w1 : Writer σ1 (List (ObjLine α)))
    (w2 : Writer σ2 (List (ObjLine α))) (hw : w2.Follows w1 g) (c : Cube α) (fuel : ℕ)
    (p : Plane α) (s : CubeState α σ1) :
    Cube.planeBody c w2 fuel p (s.mapObj g) =
      Step.mapState (CubeState.mapObj g) (Cube.planeBody c w1 fuel p s) := by
  unfold Cube.planeBody
  have h := Cube.iLoop_natural g c p fuel { s with iCount := 0, tileFace := [], i := p.iStart }
  have e : ({ s.mapObj g with iCount := 0, tileFace := [], i := p.iStart } : CubeState α σ2) =
      CubeState.mapObj g { s with iCount := 0, tileFace := [], i := p.iStart } := rfl
  rw [e, h]
  cases hi : Cube.iLoop c p fuel { s with iCount := 0, tileFace := [], i := p.iStart } with
  | error e => rfl
  | ok s' =>
    simp only [Step.mapState]
    have hw' := hw s'.wObj s'.tileFace
    show (match w2.write (g s'.wObj) s'.tileFace with
      | (w, none) => Except.ok { CubeState.mapObj g s' with wObj := w }
      | (w, some err) => Except.error (Outcome.error (.objWrite err),
          { CubeState.mapObj g s' with wObj := w })) = _
    rw [hw']
    cases hwr : w1.write s'.wObj s'.tileFace with
    | mk w e =>
      cases e with
      | none => rfl
      | some err => rfl

theorem Cube.sweep_natural (g : σ1 → σ2) (w1 : Writer σ1 (List (ObjLine α)))
    (w2 : Writer σ2 (List (ObjLine α))) (hw : w2.Follows w1 g) (c : Cube α) (fuel : ℕ)
    (ps : List (Plane α)) (s : CubeState α σ1) :
    Cube.sweep c w2 fuel ps (s.mapObj g) =
      Step.mapState (CubeState.mapObj g) (Cube.sweep c w1 fuel ps s) := by
  induction ps generalizing s with
  | nil => rfl
  | cons p ps ih =>
    unfold Cube.sweep
    rw [Cube.planeBody_natural g w1 w2 hw]
    cases hp : Cube.planeBody c w1 fuel p s with
    | error e => rfl
    | ok s' =>
      simp only [Step.mapState]
      exact ih s'

/-- A run of `Cube.Generate` into a mesh sink that follows another is the
run into the other, seen through the map between the sinks. -/
theorem Cube.Generate_natural {σt : Type} (g : σ1 → σ2) (w1 : Writer σ1 (List (ObjLine α)))
    (w2 : Writer σ2 (List (ObjLine α))) (hw : w2.Follows w1 g) (c : Cube α)
    (wTsig : Writer σt TPIG) (fuel : ℕ) (o : σ1) (t : σt) :
    c.Generate w2 wTsig fuel (g o) t = (c.Generate w1 wTsig fuel o t).mapObj g := by
  unfold Cube.Generate
  cases hf : halfCubeFence c.TileHeight c.TileWidth c.CubeWidth c.CubeHeight c.CubeDepth with
  | some err => rfl
  | none =>
    simp only []
    by_cases hneg : c.tileTotal < 0
    · simp only [hneg, if_true]
      rfl
    · simp only [hneg, if_false]
      have h := Cube.sweep_natural g w1 w2 hw c fuel c.planes
        { wObj := o, tiles := List.replicate c.tileTotal.toNat Tilelayout.zero,
          vertexCount := 1, tileCount := 0, tileFace := [], iCount := 0, jCount := 0,
          i := 0, j := 0, log := [] }
      have e : (
          { wObj := g o, tiles := List.replicate c.tileTotal.toNat Tilelayout.zero,
            vertexCount := 1, tileCount := 0, tileFace := [], iCount := 0, jCount := 0,
            i := 0, j := 0, log := [] } : CubeState α σ2) =
          CubeState.mapObj (α := α) g
            { wObj := o, tiles := List.replicate c.tileTotal.toNat Tilelayout.zero,
              vertexCount := 1, tileCount := 0, tileFace := [], iCount := 0, jCount := 0,
              i := 0, j := 0, log := [] } := rfl
      rw [e, h]
      cases hs : Cube.sweep c w1 fuel c.planes
        { wObj := o, tiles := List.replicate c.tileTotal.toNat Tilelayout.zero,
          vertexCount := 1, tileCount := 0, tileFace := [], iCount := 0, jCount := 0,
          i := 0, j := 0, log := [] } with
      | error e =>
        obtain ⟨out, s⟩ := e
        rfl
      | ok s =>
        simp only [Step.mapState]
        simp only [CubeState.mapObj]
        split <;> rfl

end CubeNaturality

section CurveNaturality

variable {α : Type} [LinearOrderedField α] [FloorRing α] {σ1 σ2 : Type}

theorem Curve.azimuthBody_natural (g : σ1 → σ2) (m : MathLib α) (c : Curve α) (s : CurveState α σ1) :
    Curve.tileBody m c (s.mapObj g) = Step.mapState (CurveState.mapObj g) (Curve.tileBody m c s) := by
  unfold Curve.tileBody
  simp only [CurveState.mapObj]
  split <;> rfl

theorem Curve.rowBody_natural (g : σ1 → σ2) (w1 : Writer σ1 (List (ObjLine α)))
    (w2 : Writer σ2 (List (ObjLine α))) (hw : w2.Follows w1 g) (m : MathLib α) (c : Curve α)
    (fuel : ℕ) (s : CurveState α σ1) :
    Curve.rowBody m c w2 fuel (s.mapObj g) =
      Step.mapState (CurveState.mapObj g) (Curve.rowBody m c w1 fuel s) := by
  unfold Curve.rowBody
  have h := whileLoop_mapState (α := α) (CurveState.mapObj g)
    (fun s : CurveState α σ1 => decide (s.azimuth ≤ c.AzimuthMaxAngle))
    (fun s : CurveState α σ2 => decide (s.azimuth ≤ c.AzimuthMaxAngle))
    (Curve.tileBody m c) (Curve.tileBody m c) (fun _ => rfl)
    (fun s => Curve.azimuthBody_natural g m c s) fuel { s with u := 1, tileFaces := [] }
  have e : (
      { s.mapObj g with u := 1, tileFaces := [] } : CurveState α σ2) =
      CurveState.mapObj g { s with u := 1, tileFaces := [] } := rfl
  rw [e, h]
  cases hi : whileLoop (fun s : CurveState α σ1 => decide (s.azimuth ≤ c.AzimuthMaxAngle))
    (Curve.tileBody m c) fuel { s with u := 1, tileFaces := [] } with
  | error e => rfl
  | ok s' =>
    simp only [Step.mapState]
    have hw' := hw s'.wObj s'.tileFaces
    simp only [CurveState.mapObj]
    rw [hw']
    cases hwr : w1.write s'.wObj s'.tileFaces with
    | mk w e =>
      cases e with
      | none => rfl
      | some err => rfl

/-- A run of `Curve.Generate` into a mesh sink that follows another is the
run into the other, seen through the map between the sinks. -/
theorem Curve.Generate_rows_natural {σt : Type} (g : σ1 → σ2) (w1 : Writer σ1 (List (ObjLine α)))
    (w2 : Writer σ2 (List (ObjLine α))) (hw : w2.Follows w1 g) (m : MathLib α) (c : Curve α)
    (wTsig : Writer σt TPIG) (fuel : ℕ) (o : σ1) (t : σt) :
    c.Generate m w2 wTsig fuel (g o) t = (c.Generate m w1 wTsig fuel o t).mapObj g := by
  unfold Curve.Generate
  by_cases hneg : c.tileTotal m < 0
  · simp only [hneg, if_true]
    rfl
  · simp only [hneg, if_false]
    have h := whileLoop_mapState (α := α) (CurveState.mapObj g)
      (fun s : CurveState α σ1 => decide (s.z < c.CurveHeight))
      (fun s : CurveState α σ2 => decide (s.z < c.CurveHeight))
      (Curve.rowBody m c w1 fuel) (Curve.rowBody m c w2 fuel) (fun _ => rfl)
      (fun s => Curve.rowBody_natural g w1 w2 hw m c fuel s) fuel
      { wObj := o, tiles := List.replicate (c.tileTotal m).toNat Tilelayout.zero,
        vertexCount := 1, tileCount := 0, tileFaces := [], z := 0,
        azimuth := -c.AzimuthMaxAngle, u := 1, v := 0, log := [] }
    have e : (
        { wObj := g o, tiles := List.replicate (c.tileTotal m).toNat Tilelayout.zero,
          vertexCount := 1, tileCount := 0, tileFaces := [], z := 0,
          azimuth := -c.AzimuthMaxAngle, u := 1, v := 0, log := [] } : CurveState α σ2) =
        CurveState.mapObj (α := α) g
          { wObj := o, tiles := List.replicate (c.tileTotal m).toNat Tilelayout.zero,
            vertexCount := 1, tileCount := 0, tileFaces := [], z := 0,
            azimuth := -c.AzimuthMaxAngle, u := 1, v := 0, log := [] } := rfl
    rw [e, h]
    cases hs : whileLoop (fun s : CurveState α σ1 => decide (s.z < c.CurveHeight))
      (Curve.rowBody m c w1 fuel) fuel
      { wObj := o, tiles := List.replicate (c.tileTotal m).toNat Tilelayout.zero,
        vertexCount := 1, tileCount := 0, tileFaces := [], z := 0,
        azimuth := -c.AzimuthMaxAngle, u := 1, v := 0, log := [] } with
    | error e =>
      obtain ⟨out, s⟩ := e
      rfl
    | ok s =>
      simp only [Step.mapState]
      simp only [CurveState.mapObj]
      split <;> rfl

end CurveNaturality

section SphereNaturality

variable {α : Type} [LinearOrderedField α] [FloorRing α] {σ1 σ2 : Type}

theorem SphereCap.emitTile_natural (g : σ1 → σ2) (w1 : Writer σ1 (List (ObjLine α)))
    (w2 : Writer σ2 (List (ObjLine α))) (hw : w2.Follows w1 g) (s : SphereCap α) (shift : ℤ)
    (q : TileSpec α) (st : SphereState α σ1) :
    s.emitTile w2 shift q (st.mapObj g) =
      Step.mapState (SphereState.mapObj g) (s.emitTile w1 shift q st) := by
  unfold SphereCap.emitTile
  simp only [SphereState.mapObj]
  rw [hw]
  cases hwr : w1.write st.wObj (s.tileStrips shift q st.tiles st.vertexCount st.log).tileFaces with
  | mk w e =>
    cases e with
    | none => rfl
    | some err => rfl

theorem SphereCap.leftBody_natural (g : σ1 → σ2) (w1 : Writer σ1 (List (ObjLine α)))
    (w2 : Writer σ2 (List (ObjLine α))) (hw : w2.Follows w1 g) (m : MathLib α) (s : SphereCap α)
    (overrun : α) (shift : ℤ) (q1 : SphereState α σ1 → TileSpec α)
    (q2 : SphereState α σ2 → TileSpec α) (hq : ∀ st, q2 (SphereState.mapObj g st) = q1 st)
    (inc : α) (st : SphereState α σ1) :
    s.leftBody m w2 overrun shift q2 inc (st.mapObj g) =
      Step.mapState (SphereState.mapObj g) (s.leftBody m w1 overrun shift q1 inc st) := by
  unfold SphereCap.leftBody
  rw [hq, SphereCap.emitTile_natural g w1 w2 hw]
  refine (Step.mapState_map (SphereState.mapObj g) _ _ ?_ _).symm
  intro _
  rfl

theorem SphereCap.rightBody_natural (g : σ1 → σ2) (w1 : Writer σ1 (List (ObjLine α)))
    (w2 : Writer σ2 (List (ObjLine α))) (hw : w2.Follows w1 g) (m : MathLib α) (s : SphereCap α)
    (overrun : α) (shift : ℤ) (q1 : SphereState α σ1 → TileSpec α)
    (q2 : SphereState α σ2 → TileSpec α) (hq : ∀ st, q2 (SphereState.mapObj g st) = q1 st)
    (inc : α) (st : SphereState α σ1) :
    s.rightBody m w2 overrun shift q2 inc (st.mapObj g) =
      Step.mapState (SphereState.mapObj g) (s.rightBody m w1 overrun shift q1 inc st) := by
  unfold SphereCap.rightBody
  rw [hq, SphereCap.emitTile_natural g w1 w2 hw]
  refine (Step.mapState_map (SphereState.mapObj g) _ _ ?_ _).symm
  intro _
  rfl

theorem SphereCap.topRow_natural (g : σ1 → σ2) (w1 : Writer σ1 (List (ObjLine α)))
    (w2 : Writer σ2 (List (ObjLine α))) (hw : w2.Follows w1 g) (m : MathLib α) (s : SphereCap α)
    (overrun : α) (fuel : ℕ) (st : SphereState α σ1) :
    s.topRow m w2 overrun fuel (st.mapObj g) =
      Step.mapState (SphereState.mapObj g) (s.topRow m w1 overrun fuel st) := by
  unfold SphereCap.topRow
  simp only []
  have h1 := whileLoop_mapState (α := α) (SphereState.mapObj g)
    (fun t : SphereState α σ1 => decide (t.azimuth < s.AzimuthMaxAngle))
    (fun t : SphereState α σ2 => decide (t.azimuth < s.AzimuthMaxAngle))
    (s.leftBody m w1 overrun (s.shiftTop m st.theta) (s.specTopLeft m overrun)
      (s.rowInc m (st.theta - s.thetaInc m)))
    (s.leftBody m w2 overrun (s.shiftTop m st.theta) (s.specTopLeft m overrun)
      (s.rowInc m (st.theta - s.thetaInc m)))
    (fun _ => rfl)
    (fun t => SphereCap.leftBody_natural g w1 w2 hw m s overrun _ _ _ (fun _ => rfl) _ t) fuel
    { st with cornerAz := st.azimuth, u := 1 / 2, uBot := 1 / 2, radialInc := 0 }
  have e1 : (
      { st.mapObj g with cornerAz := (st.mapObj g).azimuth, u := 1 / 2, uBot := 1 / 2,
                         radialInc := 0 } : SphereState α σ2) =
      SphereState.mapObj g
        { st with cornerAz := st.azimuth, u := 1 / 2, uBot := 1 / 2, radialInc := 0 } := rfl
  have e0 : (st.mapObj g).theta = st.theta := rfl
  rw [e1, e0, h1]
  cases hl : whileLoop (fun t : SphereState α σ1 => decide (t.azimuth < s.AzimuthMaxAngle))
    (s.leftBody m w1 overrun (s.shiftTop m st.theta) (s.specTopLeft m overrun)
      (s.rowInc m (st.theta - s.thetaInc m))) fuel
    { st with cornerAz := st.azimuth, u := 1 / 2, uBot := 1 / 2, radialInc := 0 } with
  | error e => rfl
  | ok st1 =>
    simp only [Step.mapState]
    have h2 := whileLoop_mapState (α := α) (SphereState.mapObj g)
      (fun t : SphereState α σ1 => decide (t.clockAz > -s.ThetaMaxAngle))
      (fun t : SphereState α σ2 => decide (t.clockAz > -s.ThetaMaxAngle))
      (s.rightBody m w1 overrun (s.shiftTop m st.theta) (s.specTopRight m overrun)
        (s.rowInc m (st.theta - s.thetaInc m)))
      (s.rightBody m w2 overrun (s.shiftTop m st.theta) (s.specTopRight m overrun)
        (s.rowInc m (st.theta - s.thetaInc m)))
      (fun _ => rfl)
      (fun t => SphereCap.rightBody_natural g w1 w2 hw m s overrun _ _ _ (fun _ => rfl) _ t) fuel
      { st1 with cornerAz := st1.clockAz, u := 1 / 2, uBot := 1 / 2, radialInc := 0 }
    have e2 : (
        { st1.mapObj g with cornerAz := (st1.mapObj g).clockAz, u := 1 / 2, uBot := 1 / 2,
                            radialInc := 0 } : SphereState α σ2) =
        SphereState.mapObj g
          { st1 with cornerAz := st1.clockAz, u := 1 / 2, uBot := 1 / 2, radialInc := 0 } := rfl
    rw [e2, h2]
    cases hr : whileLoop (fun t : SphereState α σ1 => decide (t.clockAz > -s.ThetaMaxAngle))
      (s.rightBody m w1 overrun (s.shiftTop m st.theta) (s.specTopRight m overrun)
        (s.rowInc m (st.theta - s.thetaInc m))) fuel
      { st1 with cornerAz := st1.clockAz, u := 1 / 2, uBot := 1 / 2, radialInc := 0 } with
    | error e => rfl
    | ok st2 => rfl

theorem SphereCap.botRow_natural (g : σ1 → σ2) (w1 : Writer σ1 (List (ObjLine α)))
    (w2 : Writer σ2 (List (ObjLine α))) (hw : w2.Follows w1 g) (m : MathLib α) (s : SphereCap α)
    (overrun : α) (fuel : ℕ) (st : SphereState α σ1) :
    s.botRow m w2 overrun fuel (st.mapObj g) =
      Step.mapState (SphereState.mapObj g) (s.botRow m w1 overrun fuel st) := by
  unfold SphereCap.botRow
  simp only []
  have h1 := whileLoop_mapState (α := α) (SphereState.mapObj g)
    (fun t : SphereState α σ1 => decide (t.azimuth < s.ThetaMaxAngle))
    (fun t : SphereState α σ2 => decide (t.azimuth < s.ThetaMaxAngle))
    (s.leftBody m w1 overrun (s.shiftBot m st.theta) (s.specBotLeft m overrun)
      (s.rowInc m (st.theta + s.thetaInc m)))
    (s.leftBody m w2 overrun (s.shiftBot m st.theta) (s.specBotLeft m overrun)
      (s.rowInc m (st.theta + s.thetaInc m)))
    (fun _ => rfl)
    (fun t => SphereCap.leftBody_natural g w1 w2 hw m s overrun _ _ _ (fun _ => rfl) _ t) fuel
    { st with cornerAz := st.azimuth, u := 1 / 2, uBot := 1 / 2, radialInc := 0 }
  have e1 : (
      { st.mapObj g with cornerAz := (st.mapObj g).azimuth, u := 1 / 2, uBot := 1 / 2,
                         radialInc := 0 } : SphereState α σ2) =
      SphereState.mapObj g
        { st with cornerAz := st.azimuth, u := 1 / 2, uBot := 1 / 2, radialInc := 0 } := rfl
  have e0 : (st.mapObj g).theta = st.theta := rfl
  rw [e1, e0, h1]
  cases hl : whileLoop (fun t : SphereState α σ1 => decide (t.azimuth < s.ThetaMaxAngle))
    (s.leftBody m w1 overrun (s.shiftBot m st.theta) (s.specBotLeft m overrun)
      (s.rowInc m (st.theta + s.thetaInc m))) fuel
    { st with cornerAz := st.azimuth, u := 1 / 2, uBot := 1 / 2, radialInc := 0 } with
  | error e => rfl
  | ok st1 =>
    simp only [Step.mapState]
    have h2 := whileLoop_mapState (α := α) (SphereState.mapObj g)
      (fun t : SphereState α σ1 => decide (t.clockAz > -s.ThetaMaxAngle))
      (fun t : SphereState α σ2 => decide (t.clockAz > -s.ThetaMaxAngle))
      (s.rightBody m w1 overrun (s.shiftBot m st.theta) (s.specBotRight m overrun)
        (s.rowInc m (st.theta + s.thetaInc m)))
      (s.rightBody m w2 overrun (s.shiftBot m st.theta) (s.specBotRight m overrun)
        (s.rowInc m (st.theta + s.thetaInc m)))
      (fun _ => rfl)
      (fun t => SphereCap.rightBody_natural g w1 w2 hw m s overrun _ _ _ (fun _ => rfl) _ t) fuel
      { st1 with cornerAz := st1.clockAz, u := 1 / 2, uBot := 1 / 2, radialInc := 0 }
    have e2 : (
        { st1.mapObj g with cornerAz := (st1.mapObj g).clockAz, u := 1 / 2, uBot := 1 / 2,
                            radialInc := 0 } : SphereState α σ2) =
        SphereState.mapObj g
          { st1 with cornerAz := st1.clockAz, u := 1 / 2, uBot := 1 / 2, radialInc := 0 } := rfl
    rw [e2, h2]
    cases hr : whileLoop (fun t : SphereState α σ1 => decide (t.clockAz > -s.ThetaMaxAngle))
      (s.rightBody m w1 overrun (s.shiftBot m st.theta) (s.specBotRight m overrun)
        (s.rowInc m (st.theta + s.thetaInc m))) fuel
      { st1 with cornerAz := st1.clockAz, u := 1 / 2, uBot := 1 / 2, radialInc := 0 } with
    | error e => rfl
    | ok st2 => rfl

theorem SphereCap.upperHalf_natural (g : σ1 → σ2) (w1 : Writer σ1 (List (ObjLine α)))
    (w2 : Writer σ2 (List (ObjLine α))) (hw : w2.Follows w1 g) (m : MathLib α) (s : SphereCap α)
    (overrun : α) (fuel : ℕ) (o : σ1) :
    s.upperHalf m w2 overrun fuel (g o) =
      Step.mapState (SphereState.mapObj g) (s.upperHalf m w1 overrun fuel o) := by
  unfold SphereCap.upperHalf
  exact whileLoop_mapState (α := α) (SphereState.mapObj g)
    (fun st : SphereState α σ1 => decide (st.theta > m.Pi / 2 - s.ThetaMaxAngle))
    (fun st : SphereState α σ2 => decide (st.theta > m.Pi / 2 - s.ThetaMaxAngle))
    (s.topRow m w1 overrun fuel) (s.topRow m w2 overrun fuel) (fun _ => rfl)
    (fun st => SphereCap.topRow_natural g w1 w2 hw m s overrun fuel st) fuel
    { wObj := o, tiles := [], vertexCount := 1, theta := m.Pi / 2, azimuth := 0,
      clockAz := 0, v := 1 / 2, u := 1 / 2, uBot := 1 / 2, radialInc := 0, cornerAz := 0,
      log := [] }

theorem SphereCap.lowerHalf_natural (g : σ1 → σ2) (w1 : Writer σ1 (List (ObjLine α)))
    (w2 : Writer σ2 (List (ObjLine α))) (hw : w2.Follows w1 g) (m : MathLib α) (s : SphereCap α)
    (overrun : α) (fuel : ℕ) (st : SphereState α σ1) :
    s.lowerHalf m w2 overrun fuel (st.mapObj g) =
      Step.mapState (SphereState.mapObj g) (s.lowerHalf m w1 overrun fuel st) := by
  unfold SphereCap.lowerHalf
  exact whileLoop_mapState (α := α) (SphereState.mapObj g)
    (fun st : SphereState α σ1 => decide (st.theta < m.Pi / 2 + s.ThetaMaxAngle))
    (fun st : SphereState α σ2 => decide (st.theta < m.Pi / 2 + s.ThetaMaxAngle))
    (s.botRow m w1 overrun fuel) (s.botRow m w2 overrun fuel) (fun _ => rfl)
    (fun st => SphereCap.botRow_natural g w1 w2 hw m s overrun fuel st) fuel
    { st with v := 1 / 2, theta := m.Pi / 2 }

/-- A run of `SphereCap.Generate` into a mesh sink that follows another is
the run into the other, seen through the map between the sinks. -/
theorem SphereCap.Generate_cap_natural {σt : Type} (g : σ1 → σ2)
    (w1 : Writer σ1 (List (ObjLine α))) (w2 : Writer σ2 (List (ObjLine α)))
    (hw : w2.Follows w1 g) (m : MathLib α) (s : SphereCap α) (wTsig : Writer σt TPIG)
    (fuel : ℕ) (o : σ1) (t : σt) :
    s.Generate m w2 wTsig fuel (g o) t = (s.Generate m w1 wTsig fuel o t).mapObj g := by
  unfold SphereCap.Generate
  cases hsc : s.scan m fuel with
  | error e =>
    obtain ⟨out, sc⟩ := e
    rfl
  | ok sc =>
    simp only []
    rw [SphereCap.upperHalf_natural g w1 w2 hw]
    cases hu : s.upperHalf m w1 sc.overrun fuel o with
    | error e =>
      obtain ⟨out, st⟩ := e
      rfl
    | ok st1 =>
      simp only [Step.mapState]
      rw [SphereCap.lowerHalf_natural g w1 w2 hw]
      cases hl : s.lowerHalf m w1 sc.overrun fuel st1 with
      | error e =>
        obtain ⟨out, st⟩ := e
        rfl
      | ok st2 =>
        simp only [Step.mapState]
        simp only [SphereState.mapObj]
        split <;> rfl

end SphereNaturality

section SinkIndependence

variable {α : Type} [LinearOrderedField α] [FloorRing α]

/-- Go's `io.Discard` follows every sink that accepts every payload. -/
theorem Writer.discard_follows {σ β : Type} (w : Writer σ β)
    (h : ∀ s b, (w.write s b).2 = none) : (Writer.discard β).Follows w (fun _ => ()) := by
  intro s b
  show ((), none) = ((), (w.write s b).2)
  rw [h]

/-- The mesh sink after `Cube.Generate` does not depend on the layout sink. -/
theorem Cube.Generate_wObj_indep {σo σ1 σ2 : Type} (c : Cube α)
    (wObj : Writer σo (List (ObjLine α))) (wT1 : Writer σ1 TPIG) (wT2 : Writer σ2 TPIG)
    (fuel : ℕ) (o : σo) (t1 : σ1) (t2 : σ2) :
    (c.Generate wObj wT1 fuel o t1).wObj = (c.Generate wObj wT2 fuel o t2).wObj := by
  unfold Cube.Generate
  cases hf : halfCubeFence c.TileHeight c.TileWidth c.CubeWidth c.CubeHeight c.CubeDepth with
  | some err => rfl
  | none =>
    simp only []
    by_cases hneg : c.tileTotal < 0
    · simp only [hneg, if_true]
    · simp only [hneg, if_false]
      cases hs : Cube.sweep c wObj fuel c.planes
        { wObj := o, tiles := List.replicate c.tileTotal.toNat Tilelayout.zero,
          vertexCount := 1, tileCount := 0, tileFace := [], iCount := 0, jCount := 0,
          i := 0, j := 0, log := [] } with
      | error e => rfl
      | ok s =>
        simp only []
        cases h1 : wT1.write t1 { Tilelayout := s.tiles, Dimensions := { Flat := c.flatBox } } with
        | mk w e =>
          cases h2 : wT2.write t2 { Tilelayout := s.tiles, Dimensions := { Flat := c.flatBox } } with
          | mk w' e' => cases e <;> cases e' <;> rfl

/-- The mesh sink after `Curve.Generate` does not depend on the layout sink. -/
theorem Curve.Generate_rows_wObj_indep {σo σ1 σ2 : Type} (m : MathLib α) (c : Curve α)
    (wObj : Writer σo (List (ObjLine α))) (wT1 : Writer σ1 TPIG) (wT2 : Writer σ2 TPIG)
    (fuel : ℕ) (o : σo) (t1 : σ1) (t2 : σ2) :
    (c.Generate m wObj wT1 fuel o t1).wObj = (c.Generate m wObj wT2 fuel o t2).wObj := by
  unfold Curve.Generate
  by_cases hneg : c.tileTotal m < 0
  · simp only [hneg, if_true]
  · simp only [hneg, if_false]
    cases hs : whileLoop (fun s : CurveState α σo => decide (s.z < c.CurveHeight))
      (Curve.rowBody m c wObj fuel) fuel
      { wObj := o, tiles := List.replicate (c.tileTotal m).toNat Tilelayout.zero,
        vertexCount := 1, tileCount := 0, tileFaces := [], z := 0,
        azimuth := -c.AzimuthMaxAngle, u := 1, v := 0, log := [] } with
    | error e => rfl
    | ok s =>
      simp only []
      cases h1 : wT1.write t1 { Tilelayout := s.tiles, Dimensions := { Flat := c.flatBox m } } with
      | mk w e =>
        cases h2 : wT2.write t2
          { Tilelayout := s.tiles, Dimensions := { Flat := c.flatBox m } } with
        | mk w' e' => cases e <;> cases e' <;> rfl

/-- The mesh sink after `SphereCap.Generate` does not depend on the layout
sink. -/
theorem SphereCap.Generate_cap_wObj_indep {σo σ1 σ2 : Type} (m : MathLib α) (s : SphereCap α)
    (wObj : Writer σo (List (ObjLine α))) (wT1 : Writer σ1 TPIG) (wT2 : Writer σ2 TPIG)
    (fuel : ℕ) (o : σo) (t1 : σ1) (t2 : σ2) :
    (s.Generate m wObj wT1 fuel o t1).wObj = (s.Generate m wObj wT2 fuel o t2).wObj := by
  unfold SphereCap.Generate
  cases hsc : s.scan m fuel with
  | error e => rfl
  | ok sc =>
    simp only []
    cases hu : s.upperHalf m wObj sc.overrun fuel o with
    | error e => rfl
    | ok st1 =>
      simp only []
      cases hl : s.lowerHalf m wObj sc.overrun fuel st1 with
      | error e => rfl
      | ok st2 =>
        simp only []
        cases h1 : wT1.write t1
          { Tilelayout := st2.tiles, Dimensions := { Flat := s.flatBox m sc.overrun } } with
        | mk w e =>
          cases h2 : wT2.write t2
            { Tilelayout := st2.tiles, Dimensions := { Flat := s.flatBox m sc.overrun } } with
          | mk w' e' => cases e <;> cases e' <;> rfl

end SinkIndependence

section LoggedSinks

variable {α : Type} [LinearOrderedField α] [FloorRing α]

theorem AllAccepted.snoc {calls : List (Option String)} (h : AllAccepted calls) :
    AllAccepted (calls ++ [none]) := by
  intro c hc
  rcases List.mem_append.mp hc with h1 | h1
  · exact h c h1
  · simpa using h1

theorem MeshStop.notMultiple {o : Outcome α} {calls : List (Option String)}
    (h : MeshStop o calls) : o.isNotMultiple = false := by
  rcases h with ⟨_, h⟩ | ⟨_, _, _, _, rfl⟩
  · cases o <;> simp [Outcome.isCrash] at h <;> rfl
  · rfl

/-- A sink follows its logged version through the first projection. -/
theorem Writer.follows_logged {σ β : Type} (w : Writer σ β) :
    w.Follows w.logged Prod.fst := fun _ _ => rfl

/-- A write to a logged sink whose calls were all accepted: the step
continues with all calls accepted, or stops on the failed call. -/
theorem Writer.logged_write {σ β : Type} (w : Writer σ β) (s : σ × List (Option String)) (b : β)
    (h : AllAccepted s.2) :
    ((w.logged.write s b).2 = none ∧ AllAccepted (w.logged.write s b).1.2) ∨
    ∃ err, (w.logged.write s b).2 = some err ∧ (w.logged.write s b).1.2 = s.2 ++ [some err] := by
  cases he : (w.write s.1 b).2 with
  | none =>
    left
    refine ⟨he, ?_⟩
    show AllAccepted (s.2 ++ [(w.write s.1 b).2])
    rw [he]
    exact h.snoc
  | some err =>
    right
    refine ⟨err, he, ?_⟩
    show s.2 ++ [(w.write s.1 b).2] = _
    rw [he]

end LoggedSinks

section CubeLogged

variable {α : Type} [LinearOrderedField α] [FloorRing α] {σo : Type}

theorem Cube.tileBody_quiet (c : Cube α) (p : Plane α) (s : CubeState α σo) :
    Step.Ends (fun s' => s'.wObj = s.wObj) (fun o s' => o.isCrash = true ∧ s'.wObj = s.wObj)
      (Cube.tileBody c p s) := by
  rcases Cube.tileBody_cases c p s with ⟨_, _, _, h⟩ | ⟨_, a1, a2, a3, a4, b1, b2, b3, b4, t, h⟩
  · rw [h]
    exact rfl
  · rw [h]
    rcases Cube.quadStep s _ t with ⟨_, h'⟩ | ⟨_, h'⟩
    · rw [h']
      exact rfl
    · rw [h']
      exact ⟨rfl, rfl⟩

theorem Cube.jLoop_quiet (c : Cube α) (p : Plane α) (fuel : ℕ) (s : CubeState α σo) :
    Step.Ends (fun s' => s'.wObj = s.wObj) (fun o s' => o.isCrash = true ∧ s'.wObj = s.wObj)
      (Cube.jLoop c p fuel s) := by
  unfold Cube.jLoop
  refine whileLoop_ends _ _ (fun s' => s'.wObj = s.wObj)
    (fun o s' => o.isCrash = true ∧ s'.wObj = s.wObj) (fun _ h => ⟨rfl, h⟩) ?_ fuel s rfl
  intro s1 h1 _
  refine Step.Ends_map _ _ _ _ ?_
  exact Step.Ends_imp (fun s' h => h.trans h1) (fun o s' h => ⟨h.1, h.2.trans h1⟩)
    (Cube.tileBody_quiet c p s1)

theorem Cube.iLoop_quiet (c : Cube α) (p : Plane α) (fuel : ℕ) (s : CubeState α σo) :
    Step.Ends (fun s' => s'.wObj = s.wObj) (fun o s' => o.isCrash = true ∧ s'.wObj = s.wObj)
      (Cube.iLoop c p fuel s) := by
  unfold Cube.iLoop
  refine whileLoop_ends _ _ (fun s' => s'.wObj = s.wObj)
    (fun o s' => o.isCrash = true ∧ s'.wObj = s.wObj) (fun _ h => ⟨rfl, h⟩) ?_ fuel s rfl
  intro s1 h1 _
  refine Step.Ends_map _ _ _ _ ?_
  exact Step.Ends_imp (fun s' h => h.trans h1) (fun o s' h => ⟨h.1, h.2.trans h1⟩)
    (Cube.jLoop_quiet c p fuel { s1 with jCount := 0, j := p.jStart })

theorem Cube.planeBody_logged {σ : Type} (c : Cube α) (w : Writer σ (List (ObjLine α)))
    (fuel : ℕ) (p : Plane α) (s : CubeState α (σ × List (Option String)))
    (h : AllAccepted s.wObj.2) :
    Step.Ends (fun s' => AllAccepted s'.wObj.2) (fun o s' => MeshStop o s'.wObj.2)
      (Cube.planeBody c w.logged fuel p s) := by
  unfold Cube.planeBody
  have hq := Cube.iLoop_quiet c p fuel { s with iCount := 0, tileFace := [], i := p.iStart }
  cases hi : Cube.iLoop c p fuel { s with iCount := 0, tileFace := [], i := p.iStart } with
  | error e =>
    obtain ⟨o, s'⟩ := e
    rw [hi] at hq
    obtain ⟨hc, hw⟩ := hq
    refine Or.inl ⟨?_, hc⟩
    rw [hw]
    exact h
  | ok s' =>
    rw [hi] at hq
    have hw : s'.wObj = s.wObj := hq
    have h' : AllAccepted s'.wObj.2 := by
      rw [hw]
      exact h
    simp only []
    rcases Writer.logged_write w s'.wObj s'.tileFace h' with ⟨he, ha⟩ | ⟨err, he, ha⟩
    · cases hwr : w.logged.write s'.wObj s'.tileFace with
      | mk w1 e =>
        rw [hwr] at he ha
        simp only [] at he
        subst he
        exact ha
    · cases hwr : w.logged.write s'.wObj s'.tileFace with
      | mk w1 e =>
        rw [hwr] at he ha
        simp only [] at he
        subst he
        exact Or.inr ⟨_, err, ha, h', rfl⟩

theorem Cube.sweep_logged {σ : Type} (c : Cube α) (w : Writer σ (List (ObjLine α)))
    (fuel : ℕ) (ps : List (Plane α)) (s : CubeState α (σ × List (Option String)))
    (h : AllAccepted s.wObj.2) :
    Step.Ends (fun s' => AllAccepted s'.wObj.2) (fun o s' => MeshStop o s'.wObj.2)
      (Cube.sweep c w.logged fuel ps s) := by
  induction ps generalizing s with
  | nil => exact h
  | cons p ps ih =>
    unfold Cube.sweep
    have hp := Cube.planeBody_logged c w fuel p s h
    cases hb : Cube.planeBody c w.logged fuel p s with
    | error e =>
      rw [hb] at hp
      exact hp
    | ok s' =>
      rw [hb] at hp
      exact ih s' hp

/-- A run of `Cube.Generate` into a logged mesh sink aborts at the first
failed write. -/
theorem Cube.Generate_logged {σ σt : Type} (c : Cube α) (w : Writer σ (List (ObjLine α)))
    (wTsig : Writer σt TPIG) (fuel : ℕ) (o : σ) (t : σt) :
    FailureAborts (c.Generate w.logged wTsig fuel (o, []) t) t := by
  have h0 : AllAccepted ([] : List (Option String)) := fun _ h => absurd h (List.not_mem_nil _)
  unfold Cube.Generate
  cases hf : halfCubeFence c.TileHeight c.TileWidth c.CubeWidth c.CubeHeight c.CubeDepth with
  | some err => exact Or.inl h0
  | none =>
    simp only []
    by_cases hneg : c.tileTotal < 0
    · simp only [hneg, if_true]
      exact Or.inl h0
    · simp only [hneg, if_false]
      have hs := Cube.sweep_logged c w fuel c.planes
        { wObj := (o, []), tiles := List.replicate c.tileTotal.toNat Tilelayout.zero,
          vertexCount := 1, tileCount := 0, tileFace := [], iCount := 0, jCount := 0,
          i := 0, j := 0, log := [] } h0
      cases hsw : Cube.sweep c w.logged fuel c.planes
        { wObj := (o, []), tiles := List.replicate c.tileTotal.toNat Tilelayout.zero,
          vertexCount := 1, tileCount := 0, tileFace := [], iCount := 0, jCount := 0,
          i := 0, j := 0, log := [] } with
      | error e =>
        obtain ⟨out, s⟩ := e
        rw [hsw] at hs
        rcases hs with ⟨ha, _⟩ | ⟨pre, err, h1, h2, h3⟩
        · exact Or.inl ha
        · exact Or.inr ⟨pre, err, h1, h2, h3, rfl⟩
      | ok s =>
        rw [hsw] at hs
        simp only []
        cases hwr : wTsig.write t { Tilelayout := s.tiles, Dimensions := { Flat := c.flatBox } } with
        | mk w1 e =>
          cases e with
          | none => exact Or.inl hs
          | some err => exact Or.inl hs

end CubeLogged

section CurveLogged

variable {α : Type} [LinearOrderedField α] [FloorRing α]

theorem Curve.azimuthBody_quiet {σo : Type} (m : MathLib α) (c : Curve α) (s : CurveState α σo) :
    Step.Ends (fun s' => s'.wObj = s.wObj) (fun o s' => o.isCrash = true ∧ s'.wObj = s.wObj)
      (Curve.tileBody m c s) := by
  rcases Curve.azimuthBody_cases m c s with
    ⟨_, a1, a2, a3, a4, b1, b2, b3, b4, t, hb⟩ | ⟨_, s1, hb, hw⟩
  · rw [hb]
    exact rfl
  · rw [hb]
    exact ⟨rfl, hw⟩

theorem Curve.rowBody_logged {σ : Type} (m : MathLib α) (c : Curve α)
    (w : Writer σ (List (ObjLine α))) (fuel : ℕ) (s : CurveState α (σ × List (Option String)))
    (h : AllAccepted s.wObj.2) :
    Step.Ends (fun s' => AllAccepted s'.wObj.2) (fun o s' => MeshStop o s'.wObj.2)
      (Curve.rowBody m c w.logged fuel s) := by
  unfold Curve.rowBody
  have hq := whileLoop_ends (α := α)
    (fun s : CurveState α (σ × List (Option String)) => decide (s.azimuth ≤ c.AzimuthMaxAngle))
    (Curve.tileBody m c) (fun s' => s'.wObj = s.wObj)
    (fun o s' => o.isCrash = true ∧ s'.wObj = s.wObj) (fun _ h => ⟨rfl, h⟩)
    (fun s1 h1 _ => Step.Ends_imp (fun s' h => h.trans h1) (fun o s' h => ⟨h.1, h.2.trans h1⟩)
      (Curve.azimuthBody_quiet m c s1)) fuel { s with u := 1, tileFaces := [] } rfl
  cases hi : whileLoop
    (fun s : CurveState α (σ × List (Option String)) => decide (s.azimuth ≤ c.AzimuthMaxAngle))
    (Curve.tileBody m c) fuel { s with u := 1, tileFaces := [] } with
  | error e =>
    obtain ⟨o, s'⟩ := e
    rw [hi] at hq
    obtain ⟨hc, hw⟩ := hq
    refine Or.inl ⟨?_, hc⟩
    rw [hw]
    exact h
  | ok s' =>
    rw [hi] at hq
    have hw : s'.wObj = s.wObj := hq
    have h' : AllAccepted s'.wObj.2 := by
      rw [hw]
      exact h
    simp only []
    rcases Writer.logged_write w s'.wObj s'.tileFaces h' with ⟨he, ha⟩ | ⟨err, he, ha⟩
    · cases hwr : w.logged.write s'.wObj s'.tileFaces with
      | mk w1 e =>
        rw [hwr] at he ha
        simp only [] at he
        subst he
        exact ha
    · cases hwr : w.logged.write s'.wObj s'.tileFaces with
      | mk w1 e =>
        rw [hwr] at he ha
        simp only [] at he
        subst he
        exact Or.inr ⟨_, err, ha, h', rfl⟩

/-- A run of `Curve.Generate` into a logged mesh sink never returns a
configuration error and aborts at the first failed write. -/
theorem Curve.Generate_rows_logged {σ σt : Type} (m : MathLib α) (c : Curve α)
    (w : Writer σ (List (ObjLine α))) (wTsig : Writer σt TPIG) (fuel : ℕ) (o : σ) (t : σt) :
    (c.Generate m w.logged wTsig fuel (o, []) t).outcome.isNotMultiple = false ∧
    FailureAborts (c.Generate m w.logged wTsig fuel (o, []) t) t := by
  have h0 : AllAccepted ([] : List (Option String)) := fun _ h => absurd h (List.not_mem_nil _)
  unfold Curve.Generate
  by_cases hneg : c.tileTotal m < 0
  · simp only [hneg, if_true]
    exact ⟨rfl, Or.inl h0⟩
  · simp only [hneg, if_false]
    have hs := whileLoop_ends (α := α)
      (fun s : CurveState α (σ × List (Option String)) => decide (s.z < c.CurveHeight))
      (Curve.rowBody m c w.logged fuel) (fun s' => AllAccepted s'.wObj.2)
      (fun o s' => MeshStop o s'.wObj.2) (fun _ h => Or.inl ⟨h, rfl⟩)
      (fun s1 h1 _ => Curve.rowBody_logged m c w fuel s1 h1) fuel
      { wObj := (o, []), tiles := List.replicate (c.tileTotal m).toNat Tilelayout.zero,
        vertexCount := 1, tileCount := 0, tileFaces := [], z := 0,
        azimuth := -c.AzimuthMaxAngle, u := 1, v := 0, log := [] } h0
    cases hsw : whileLoop
      (fun s : CurveState α (σ × List (Option String)) => decide (s.z < c.CurveHeight))
      (Curve.rowBody m c w.logged fuel) fuel
      { wObj := (o, []), tiles := List.replicate (c.tileTotal m).toNat Tilelayout.zero,
        vertexCount := 1, tileCount := 0, tileFaces := [], z := 0,
        azimuth := -c.AzimuthMaxAngle, u := 1, v := 0, log := [] } with
    | error e =>
      obtain ⟨out, s⟩ := e
      rw [hsw] at hs
      refine ⟨MeshStop.notMultiple hs, ?_⟩
      rcases hs with ⟨ha, _⟩ | ⟨pre, err, h1, h2, h3⟩
      · exact Or.inl ha
      · exact Or.inr ⟨pre, err, h1, h2, h3, rfl⟩
    | ok s =>
      rw [hsw] at hs
      simp only []
      cases hwr : wTsig.write t
        { Tilelayout := s.tiles, Dimensions := { Flat := c.flatBox m } } with
      | mk w1 e =>
        cases e with
        | none => exact ⟨rfl, Or.inl hs⟩
        | some err => exact ⟨rfl, Or.inl hs⟩

end CurveLogged

section SphereLogged

variable {α : Type} [LinearOrderedField α] [FloorRing α]

theorem SphereCap.emitTile_logged {σ : Type} (s : SphereCap α) (w : Writer σ (List (ObjLine α)))
    (shift : ℤ) (q : TileSpec α) (st : SphereState α (σ × List (Option String)))
    (h : AllAccepted st.wObj.2) :
    Step.Ends (fun s' => AllAccepted s'.wObj.2) (fun o s' => MeshStop o s'.wObj.2)
      (s.emitTile w.logged shift q st) := by
  unfold SphereCap.emitTile
  simp only []
  rcases Writer.logged_write w st.wObj
    (s.tileStrips shift q st.tiles st.vertexCount st.log).tileFaces h with
    ⟨he, ha⟩ | ⟨err, he, ha⟩
  · cases hwr : w.logged.write st.wObj
      (s.tileStrips shift q st.tiles st.vertexCount st.log).tileFaces with
    | mk w1 e =>
      rw [hwr] at he ha
      simp only [] at he
      subst he
      exact ha
  · cases hwr : w.logged.write st.wObj
      (s.tileStrips shift q st.tiles st.vertexCount st.log).tileFaces with
    | mk w1 e =>
      rw [hwr] at he ha
      simp only [] at he
      subst he
      exact Or.inr ⟨_, err, ha, h, rfl⟩

theorem SphereCap.leftBody_logged {σ : Type} (m : MathLib α) (s : SphereCap α)
    (w : Writer σ (List (ObjLine α))) (overrun : α) (shift : ℤ)
    (q : SphereState α (σ × List (Option String)) → TileSpec α) (inc : α)
    (st : SphereState α (σ × List (Option String))) (h : AllAccepted st.wObj.2) :
    Step.Ends (fun s' => AllAccepted s'.wObj.2) (fun o s' => MeshStop o s'.wObj.2)
      (s.leftBody m w.logged overrun shift q inc st) := by
  unfold SphereCap.leftBody
  exact Step.Ends_map _ _ _ _ (SphereCap.emitTile_logged s w shift (q st) st h)

theorem SphereCap.rightBody_logged {σ : Type} (m : MathLib α) (s : SphereCap α)
    (w : Writer σ (List (ObjLine α))) (overrun : α) (shift : ℤ)
    (q : SphereState α (σ × List (Option String)) → TileSpec α) (inc : α)
    (st : SphereState α (σ × List (Option String))) (h : AllAccepted st.wObj.2) :
    Step.Ends (fun s' => AllAccepted s'.wObj.2) (fun o s' => MeshStop o s'.wObj.2)
      (s.rightBody m w.logged overrun shift q inc st) := by
  unfold SphereCap.rightBody
  exact Step.Ends_map _ _ _ _ (SphereCap.emitTile_logged s w shift (q st) st h)

theorem SphereCap.topRow_logged {σ : Type} (m : MathLib α) (s : SphereCap α)
    (w : Writer σ (List (ObjLine α))) (overrun : α) (fuel : ℕ)
    (st : SphereState α (σ × List (Option String))) (h : AllAccepted st.wObj.2) :
    Step.Ends (fun s' => AllAccepted s'.wObj.2) (fun o s' => MeshStop o s'.wObj.2)
      (s.topRow m w.logged overrun fuel st) := by
  unfold SphereCap.topRow
  simp only []
  have h1 := whileLoop_ends (α := α)
    (fun t : SphereState α (σ × List (Option String)) => decide (t.azimuth < s.AzimuthMaxAngle))
    (s.leftBody m w.logged overrun (s.shiftTop m st.theta) (s.specTopLeft m overrun)
      (s.rowInc m (st.theta - s.thetaInc m)))
    (fun s' => AllAccepted s'.wObj.2) (fun o s' => MeshStop o s'.wObj.2)
    (fun _ h => Or.inl ⟨h, rfl⟩)
    (fun t ht _ => SphereCap.leftBody_logged m s w overrun _ _ _ t ht) fuel
    { st with cornerAz := st.azimuth, u := 1 / 2, uBot := 1 / 2, radialInc := 0 } h
  cases hl : whileLoop
    (fun t : SphereState α (σ × List (Option String)) => decide (t.azimuth < s.AzimuthMaxAngle))
    (s.leftBody m w.logged overrun (s.shiftTop m st.theta) (s.specTopLeft m overrun)
      (s.rowInc m (st.theta - s.thetaInc m))) fuel
    { st with cornerAz := st.azimuth, u := 1 / 2, uBot := 1 / 2, radialInc := 0 } with
  | error e =>
    rw [hl] at h1
    exact h1
  | ok st1 =>
    rw [hl] at h1
    simp only []
    have h2 := whileLoop_ends (α := α)
      (fun t : SphereState α (σ × List (Option String)) => decide (t.clockAz > -s.ThetaMaxAngle))
      (s.rightBody m w.logged overrun (s.shiftTop m st.theta) (s.specTopRight m overrun)
        (s.rowInc m (st.theta - s.thetaInc m)))
      (fun s' => AllAccepted s'.wObj.2) (fun o s' => MeshStop o s'.wObj.2)
      (fun _ h => Or.inl ⟨h, rfl⟩)
      (fun t ht _ => SphereCap.rightBody_logged m s w overrun _ _ _ t ht) fuel
      { st1 with cornerAz := st1.clockAz, u := 1 / 2, uBot := 1 / 2, radialInc := 0 } h1
    cases hr : whileLoop
      (fun t : SphereState α (σ × List (Option String)) => decide (t.clockAz > -s.ThetaMaxAngle))
      (s.rightBody m w.logged overrun (s.shiftTop m st.theta) (s.specTopRight m overrun)
        (s.rowInc m (st.theta - s.thetaInc m))) fuel
      { st1 with cornerAz := st1.clockAz, u := 1 / 2, uBot := 1 / 2, radialInc := 0 } with
    | error e =>
      rw [hr] at h2
      exact h2
    | ok st2 =>
      rw [hr] at h2
      exact h2

theorem SphereCap.botRow_logged {σ : Type} (m : MathLib α) (s : SphereCap α)
    (w : Writer σ (List (ObjLine α))) (overrun : α) (fuel : ℕ)
    (st : SphereState α (σ × List (Option String))) (h : AllAccepted st.wObj.2) :
    Step.Ends (fun s' => AllAccepted s'.wObj.2) (fun o s' => MeshStop o s'.wObj.2)
      (s.botRow m w.logged overrun fuel st) := by
  unfold SphereCap.botRow
  simp only []
  have h1 := whileLoop_ends (α := α)
    (fun t : SphereState α (σ × List (Option String)) => decide (t.azimuth < s.ThetaMaxAngle))
    (s.leftBody m w.logged overrun (s.shiftBot m st.theta) (s.specBotLeft m overrun)
      (s.rowInc m (st.theta + s.thetaInc m)))
    (fun s' => AllAccepted s'.wObj.2) (fun o s' => MeshStop o s'.wObj.2)
    (fun _ h => Or.inl ⟨h, rfl⟩)
    (fun t ht _ => SphereCap.leftBody_logged m s w overrun _ _ _ t ht) fuel
    { st with cornerAz := st.azimuth, u := 1 / 2, uBot := 1 / 2, radialInc := 0 } h
  cases hl : whileLoop
    (fun t : SphereState α (σ × List (Option String)) => decide (t.azimuth < s.ThetaMaxAngle))
    (s.leftBody m w.logged overrun (s.shiftBot m st.theta) (s.specBotLeft m overrun)
      (s.rowInc m (st.theta + s.thetaInc m))) fuel
    { st with cornerAz := st.azimuth, u := 1 / 2, uBot := 1 / 2, radialInc := 0 } with
  | error e =>
    rw [hl] at h1
    exact h1
  | ok st1 =>
    rw [hl] at h1
    simp only []
    have h2 := whileLoop_ends (α := α)
      (fun t : SphereState α (σ × List (Option String)) => decide (t.clockAz > -s.ThetaMaxAngle))
      (s.rightBody m w.logged overrun (s.shiftBot m st.theta) (s.specBotRight m overrun)
        (s.rowInc m (st.theta + s.thetaInc m)))
      (fun s' => AllAccepted s'.wObj.2) (fun o s' => MeshStop o s'.wObj.2)
      (fun _ h => Or.inl ⟨h, rfl⟩)
      (fun t ht _ => SphereCap.rightBody_logged m s w overrun _ _ _ t ht) fuel
      { st1 with cornerAz := st1.clockAz, u := 1 / 2, uBot := 1 / 2, radialInc := 0 } h1
    cases hr : whileLoop
      (fun t : SphereState α (σ × List (Option String)) => decide (t.clockAz > -s.ThetaMaxAngle))
      (s.rightBody m w.logged overrun (s.shiftBot m st.theta) (s.specBotRight m overrun)
        (s.rowInc m (st.theta + s.thetaInc m))) fuel
      { st1 with cornerAz := st1.clockAz, u := 1 / 2, uBot := 1 / 2, radialInc := 0 } with
    | error e =>
      rw [hr] at h2
      exact h2
    | ok st2 =>
      rw [hr] at h2
      exact h2

theorem SphereCap.upperHalf_logged {σ : Type} (m : MathLib α) (s : SphereCap α)
    (w : Writer σ (List (ObjLine α))) (overrun : α) (fuel : ℕ) (o : σ) :
    Step.Ends (fun s' => AllAccepted s'.wObj.2) (fun o s' => MeshStop o s'.wObj.2)
      (s.upperHalf m w.logged overrun fuel (o, [])) := by
  unfold SphereCap.upperHalf
  exact whileLoop_ends (α := α)
    (fun st : SphereState α (σ × List (Option String)) =>
      decide (st.theta > m.Pi / 2 - s.ThetaMaxAngle))
    (s.topRow m w.logged overrun fuel)
    (fun s' => AllAccepted s'.wObj.2) (fun o s' => MeshStop o s'.wObj.2)
    (fun _ h => Or.inl ⟨h, rfl⟩)
    (fun t ht _ => SphereCap.topRow_logged m s w overrun fuel t ht) fuel _
    (fun _ h => absurd h (List.not_mem_nil _))

theorem SphereCap.lowerHalf_logged {σ : Type} (m : MathLib α) (s : SphereCap α)
    (w : Writer σ (List (ObjLine α))) (overrun : α) (fuel : ℕ)
    (st : SphereState α (σ × List (Option String))) (h : AllAccepted st.wObj.2) :
    Step.Ends (fun s' => AllAccepted s'.wObj.2) (fun o s' => MeshStop o s'.wObj.2)
      (s.lowerHalf m w.logged overrun fuel st) := by
  unfold SphereCap.lowerHalf
  exact whileLoop_ends (α := α)
    (fun st : SphereState α (σ × List (Option String)) =>
      decide (st.theta < m.Pi / 2 + s.ThetaMaxAngle))
    (s.botRow m w.logged overrun fuel)
    (fun s' => AllAccepted s'.wObj.2) (fun o s' => MeshStop o s'.wObj.2)
    (fun _ h => Or.inl ⟨h, rfl⟩)
    (fun t ht _ => SphereCap.botRow_logged m s w overrun fuel t ht) fuel _ h

/-- The pre-scan stops early only by using up the step budget. -/
theorem SphereCap.scan_crash (m : MathLib α) (s : SphereCap α) (fuel : ℕ) :
    Step.Ends (fun _ => True) (fun o _ => o = .outOfFuel) (s.scan m fuel) := by
  unfold SphereCap.scan
  refine whileLoop_ends _ _ (fun _ => True) (fun o _ => o = .outOfFuel) (fun _ _ => rfl) ?_
    fuel _ trivial
  intro st _ _
  unfold SphereCap.scanRow
  simp only []
  have h := whileLoop_ends (α := α) (fun t : ScanState α => decide (t.azimuth < s.AzimuthMaxAngle))
    (fun t => .ok { t with
      azimuth := t.azimuth + s.rowInc m (st.theta - s.thetaInc m)
      uTop := t.uTop + (s.uTileWidth0 m +
        ((s.shiftTop m st.theta : ℤ) : α) * (1 / s.maxX0 m) * 2) })
    (fun _ => True) (fun o _ => o = .outOfFuel) (fun _ _ => rfl) (fun _ _ _ => trivial) fuel
    { st with azimuth := 0, uTop := 1 / 2 } trivial
  cases hr : whileLoop (fun t : ScanState α => decide (t.azimuth < s.AzimuthMaxAngle))
    (fun t => .ok { t with
      azimuth := t.azimuth + s.rowInc m (st.theta - s.thetaInc m)
      uTop := t.uTop + (s.uTileWidth0 m +
        ((s.shiftTop m st.theta : ℤ) : α) * (1 / s.maxX0 m) * 2) }) fuel
    { st with azimuth := 0, uTop := 1 / 2 } with
  | error e =>
    rw [hr] at h
    exact h
  | ok t => trivial

/-- A run of `SphereCap.Generate` into a logged mesh sink never returns a
configuration error and aborts at the first failed write. -/
theorem SphereCap.Generate_cap_logged {σ σt : Type} (m : MathLib α) (s : SphereCap α)
    (w : Writer σ (List (ObjLine α))) (wTsig : Writer σt TPIG) (fuel : ℕ) (o : σ) (t : σt) :
    (s.Generate m w.logged wTsig fuel (o, []) t).outcome.isNotMultiple = false ∧
    FailureAborts (s.Generate m w.logged wTsig fuel (o, []) t) t := by
  have h0 : AllAccepted ([] : List (Option String)) := fun _ h => absurd h (List.not_mem_nil _)
  unfold SphereCap.Generate
  have hsc0 := SphereCap.scan_crash m s fuel
  cases hsc : s.scan m fuel with
  | error e =>
    obtain ⟨out, sc⟩ := e
    rw [hsc] at hsc0
    have ho : out = .outOfFuel := hsc0
    subst ho
    exact ⟨rfl, Or.inl h0⟩
  | ok sc =>
    simp only []
    have hu0 := SphereCap.upperHalf_logged m s w sc.overrun fuel o
    cases hu : s.upperHalf m w.logged sc.overrun fuel (o, []) with
    | error e =>
      obtain ⟨out, st⟩ := e
      rw [hu] at hu0
      refine ⟨MeshStop.notMultiple hu0, ?_⟩
      rcases hu0 with ⟨ha, _⟩ | ⟨pre, err, h1, h2, h3⟩
      · exact Or.inl ha
      · exact Or.inr ⟨pre, err, h1, h2, h3, rfl⟩
    | ok st1 =>
      rw [hu] at hu0
      simp only []
      have hl0 := SphereCap.lowerHalf_logged m s w sc.overrun fuel st1 hu0
      cases hl : s.lowerHalf m w.logged sc.overrun fuel st1 with
      | error e =>
        obtain ⟨out, st⟩ := e
        rw [hl] at hl0
        refine ⟨MeshStop.notMultiple hl0, ?_⟩
        rcases hl0 with ⟨ha, _⟩ | ⟨pre, err, h1, h2, h3⟩
        · exact Or.inl ha
        · exact Or.inr ⟨pre, err, h1, h2, h3, rfl⟩
      | ok st2 =>
        rw [hl] at hl0
        simp only []
        cases hwr : wTsig.write t
          { Tilelayout := st2.tiles, Dimensions := { Flat := s.flatBox m sc.overrun } } with
        | mk w1 e =>
          cases e with
          | none => exact ⟨rfl, Or.inl hl0⟩
          | some err => exact ⟨rfl, Or.inl hl0⟩

end SphereLogged

section FloatLemmas

/-- A rational number is an integer exactly when its denominator is 1. -/
theorem isInteger_rat_iff (q : ℚ) : IsInteger q ↔ q.den = 1 := by
  constructor
  · rintro ⟨n, rfl⟩
    exact Rat.intCast_den n
  · intro h
    exact ⟨q.num, Rat.coe_int_num_of_den_eq_one h⟩

end FloatLemmas

section SinkErrors

variable {α : Type} [LinearOrderedField α] [FloorRing α]

theorem MeshStop.fromSink {o : Outcome α} {calls : List (Option String)} (h : MeshStop o calls)
    (e : GenError α) (he : o = .error e) : ∃ err, e = .objWrite err ∧ some err ∈ calls := by
  rcases h with ⟨_, h⟩ | ⟨pre, err, hc, _, ho⟩
  · subst he
    simp [Outcome.isCrash] at h
  · rw [ho] at he
    injection he with he
    exact ⟨err, he.symm, by rw [hc]; simp⟩

/-- Every error of a run of `Curve.Generate` into a logged mesh sink is the
error of a failed call on a sink. -/
theorem Curve.Generate_rows_errors {σ σt : Type} (m : MathLib α) (c : Curve α)
    (w : Writer σ (List (ObjLine α))) (wTsig : Writer σt TPIG) (fuel : ℕ) (o : σ) (t : σt) :
    ErrorsFromSinks (c.Generate m w.logged wTsig fuel (o, []) t) wTsig t := by
  have h0 : AllAccepted ([] : List (Option String)) := fun _ h => absurd h (List.not_mem_nil _)
  unfold Curve.Generate
  by_cases hneg : c.tileTotal m < 0
  · simp only [hneg, if_true]
    intro e he
    cases he
  · simp only [hneg, if_false]
    have hs := whileLoop_ends (α := α)
      (fun s : CurveState α (σ × List (Option String)) => decide (s.z < c.CurveHeight))
      (Curve.rowBody m c w.logged fuel) (fun s' => AllAccepted s'.wObj.2)
      (fun o s' => MeshStop o s'.wObj.2) (fun _ h => Or.inl ⟨h, rfl⟩)
      (fun s1 h1 _ => Curve.rowBody_logged m c w fuel s1 h1) fuel
      { wObj := (o, []), tiles := List.replicate (c.tileTotal m).toNat Tilelayout.zero,
        vertexCount := 1, tileCount := 0, tileFaces := [], z := 0,
        azimuth := -c.AzimuthMaxAngle, u := 1, v := 0, log := [] } h0
    cases hsw : whileLoop
      (fun s : CurveState α (σ × List (Option String)) => decide (s.z < c.CurveHeight))
      (Curve.rowBody m c w.logged fuel) fuel
      { wObj := (o, []), tiles := List.replicate (c.tileTotal m).toNat Tilelayout.zero,
        vertexCount := 1, tileCount := 0, tileFaces := [], z := 0,
        azimuth := -c.AzimuthMaxAngle, u := 1, v := 0, log := [] } with
    | error e =>
      obtain ⟨out, s⟩ := e
      rw [hsw] at hs
      intro e he
      exact Or.inl (MeshStop.fromSink hs e he)
    | ok s =>
      simp only []
      cases hwr : wTsig.write t
        { Tilelayout := s.tiles, Dimensions := { Flat := c.flatBox m } } with
      | mk w1 e =>
        cases e with
        | none =>
          intro e he
          cases he
        | some err =>
          intro e he
          injection he with he
          exact Or.inr ⟨err, _, he.symm, by rw [hwr]⟩

/-- Every error of a run of `SphereCap.Generate` into a logged mesh sink is
the error of a failed call on a sink. -/
theorem SphereCap.Generate_cap_errors {σ σt : Type} (m : MathLib α) (s : SphereCap α)
    (w : Writer σ (List (ObjLine α))) (wTsig : Writer σt TPIG) (fuel : ℕ) (o : σ) (t : σt) :
    ErrorsFromSinks (s.Generate m w.logged wTsig fuel (o, []) t) wTsig t := by
  unfold SphereCap.Generate
  have hsc0 := SphereCap.scan_crash m s fuel
  cases hsc : s.scan m fuel with
  | error e =>
    obtain ⟨out, sc⟩ := e
    rw [hsc] at hsc0
    have ho : out = .outOfFuel := hsc0
    subst ho
    intro e he
    cases he
  | ok sc =>
    simp only []
    have hu0 := SphereCap.upperHalf_logged m s w sc.overrun fuel o
    cases hu : s.upperHalf m w.logged sc.overrun fuel (o, []) with
    | error e =>
      obtain ⟨out, st⟩ := e
      rw [hu] at hu0
      intro e he
      exact Or.inl (MeshStop.fromSink hu0 e he)
    | ok st1 =>
      rw [hu] at hu0
      simp only []
      have hl0 := SphereCap.lowerHalf_logged m s w sc.overrun fuel st1 hu0
      cases hl : s.lowerHalf m w.logged sc.overrun fuel st1 with
      | error e =>
        obtain ⟨out, st⟩ := e
        rw [hl] at hl0
        intro e he
        exact Or.inl (MeshStop.fromSink hl0 e he)
      | ok st2 =>
        simp only []
        cases hwr : wTsig.write t
          { Tilelayout := st2.tiles, Dimensions := { Flat := s.flatBox m sc.overrun } } with
        | mk w1 e =>
          cases e with
          | none =>
            intro e he
            cases he
          | some err =>
            intro e he
            injection he with he
            exact Or.inr ⟨err, _, he.symm, by rw [hwr]⟩

/-- The logged version of a sink that accepts every write keeps a record
without a failed call: it follows itself through `cleared`. -/
theorem Writer.logged_follows_cleared {σ β : Type} (w : Writer σ β)
    (hw : ∀ s b, (w.write s b).2 = none) : w.logged.Follows w.logged cleared := by
  intro s b
  simp only [Writer.logged, cleared, List.map_append, List.map_cons, List.map_nil, hw]

/-- The record of a run is the record of the same run with cleared entries
when it is its own image under `cleared`. -/
theorem not_mem_of_cleared {σ : Type} (s : σ × List (Option String)) (h : s = cleared s)
    (err : String) : some err ∉ s.2 := by
  intro hm
  rw [h] at hm
  simp [cleared] at hm

/-- With sinks that accept every write, `Curve.Generate` returns no error. -/
theorem Curve.Generate_rows_no_error {σ σt : Type} (m : MathLib α) (c : Curve α)
    (w : Writer σ (List (ObjLine α))) (wTsig : Writer σt TPIG)
    (hw : ∀ s b, (w.write s b).2 = none) (ht : ∀ s b, (wTsig.write s b).2 = none)
    (fuel : ℕ) (o : σ) (t : σt) (e : GenError α) :
    (c.Generate m w wTsig fuel o t).outcome ≠ .error e := by
  have e1 := Curve.Generate_rows_natural Prod.fst w.logged w (Writer.follows_logged w) m c
    wTsig fuel (o, []) t
  have e2 := Curve.Generate_rows_natural cleared w.logged w.logged
    (Writer.logged_follows_cleared w hw) m c wTsig fuel (o, []) t
  have e1' : (c.Generate m w wTsig fuel o t).outcome =
      (c.Generate m w.logged wTsig fuel (o, []) t).outcome := congrArg Result.outcome e1
  have e2' : (c.Generate m w.logged wTsig fuel (o, []) t).wObj =
      cleared (c.Generate m w.logged wTsig fuel (o, []) t).wObj := congrArg Result.wObj e2
  rw [e1']
  intro he
  rcases Curve.Generate_rows_errors m c w wTsig fuel o t e he with
    ⟨err, _, hm⟩ | ⟨err, doc, _, hd⟩
  · exact not_mem_of_cleared _ e2' err hm
  · rw [ht] at hd
    cases hd

/-- With sinks that accept every write, `SphereCap.Generate` returns no
error. -/
theorem SphereCap.Generate_cap_no_error {σ σt : Type} (m : MathLib α) (s : SphereCap α)
    (w : Writer σ (List (ObjLine α))) (wTsig : Writer σt TPIG)
    (hw : ∀ s b, (w.write s b).2 = none) (ht : ∀ s b, (wTsig.write s b).2 = none)
    (fuel : ℕ) (o : σ) (t : σt) (e : GenError α) :
    (s.Generate m w wTsig fuel o t).outcome ≠ .error e := by
  have e1 := SphereCap.Generate_cap_natural Prod.fst w.logged w (Writer.follows_logged w) m s
    wTsig fuel (o, []) t
  have e2 := SphereCap.Generate_cap_natural cleared w.logged w.logged
    (Writer.logged_follows_cleared w hw) m s wTsig fuel (o, []) t
  have e1' : (s.Generate m w wTsig fuel o t).outcome =
      (s.Generate m w.logged wTsig fuel (o, []) t).outcome := congrArg Result.outcome e1
  have e2' : (s.Generate m w.logged wTsig fuel (o, []) t).wObj =
      cleared (s.Generate m w.logged wTsig fuel (o, []) t).wObj := congrArg Result.wObj e2
  rw [e1']
  intro he
  rcases SphereCap.Generate_cap_errors m s w wTsig fuel o t e he with
    ⟨err, _, hm⟩ | ⟨err, doc, _, hd⟩
  · exact not_mem_of_cleared _ e2' err hm
  · rw [ht] at hd
    cases hd

end SinkErrors

section ShapeClaims

variable {α : Type} [LinearOrderedField α] [FloorRing α]

/-- C7. For every shape, every configuration and however the run ends, the
mesh a recording sink has received is numbered without sharing: it consists of
blocks of exactly 4 vertex lines and 4 texture-coordinate lines followed by
one face line, and the k-th face (from 0) references exactly the pairs
(4k+1)/(4k+1), (4k+2)/(4k+2), (4k+3)/(4k+3), (4k+4)/(4k+4): indices are
1-based, a vertex index equals its texture index, and no index is used by two
faces. -/
theorem faces_numbered_in_fours :
    (∀ {σt : Type} (c : Cube α) (wTsig : Writer σt TPIG) (fuel : ℕ) (t : σt),
      WellNumbered (meshLines (c.Generate (Writer.recorder _) wTsig fuel [] t).wObj)) ∧
    (∀ {σt : Type} (m : MathLib α) (c : Curve α) (wTsig : Writer σt TPIG) (fuel : ℕ) (t : σt),
      WellNumbered (meshLines (c.Generate m (Writer.recorder _) wTsig fuel [] t).wObj)) ∧
    (∀ {σt : Type} (m : MathLib α) (s : SphereCap α) (wTsig : Writer σt TPIG) (fuel : ℕ)
      (t : σt),
      WellNumbered (meshLines (s.Generate m (Writer.recorder _) wTsig fuel [] t).wObj)) := by
  refine ⟨?_, ?_, ?_⟩
  · intro σt c wTsig fuel t
    obtain ⟨k, hk⟩ := Cube.Generate_numbered c wTsig fuel t
    exact wellNumbered_of_scan _ k hk
  · intro σt m c wTsig fuel t
    obtain ⟨k, hk⟩ := Curve.Generate_rows_numbered m c wTsig fuel t
    exact wellNumbered_of_scan _ k hk
  · intro σt m s wTsig fuel t
    obtain ⟨k, hk⟩ := (SphereCap.Generate_spec m s wTsig fuel t).1
    exact wellNumbered_of_scan _ k hk

/-- C25. For every shape and configuration: (1) for any two mesh sinks that
accept every write (a recording sink and Go's `io.Discard` among them), the
layout sink after `Generate` is the same, and so is the way the run ends: the
layout document does not depend on the mesh sink; (2) for any two layout
sinks, failing or not, and one mesh sink, the mesh sink after `Generate` is
the same: the mesh does not depend on the layout sink. -/
theorem artifacts_independent_of_other_sink :
    (∀ {σ1 σ2 σt : Type} (c : Cube α) (w1 : Writer σ1 (List (ObjLine α)))
      (w2 : Writer σ2 (List (ObjLine α))) (wTsig : Writer σt TPIG) (fuel : ℕ) (o1 : σ1)
      (o2 : σ2) (t : σt),
      (∀ s b, (w1.write s b).2 = none) → (∀ s b, (w2.write s b).2 = none) →
      (c.Generate w1 wTsig fuel o1 t).wTsig = (c.Generate w2 wTsig fuel o2 t).wTsig ∧
      (c.Generate w1 wTsig fuel o1 t).outcome = (c.Generate w2 wTsig fuel o2 t).outcome) ∧
    (∀ {σ1 σ2 σt : Type} (m : MathLib α) (c : Curve α) (w1 : Writer σ1 (List (ObjLine α)))
      (w2 : Writer σ2 (List (ObjLine α))) (wTsig : Writer σt TPIG) (fuel : ℕ) (o1 : σ1)
      (o2 : σ2) (t : σt),
      (∀ s b, (w1.write s b).2 = none) → (∀ s b, (w2.write s b).2 = none) →
      (c.Generate m w1 wTsig fuel o1 t).wTsig = (c.Generate m w2 wTsig fuel o2 t).wTsig ∧
      (c.Generate m w1 wTsig fuel o1 t).outcome = (c.Generate m w2 wTsig fuel o2 t).outcome) ∧
    (∀ {σ1 σ2 σt : Type} (m : MathLib α) (s : SphereCap α) (w1 : Writer σ1 (List (ObjLine α)))
      (w2 : Writer σ2 (List (ObjLine α))) (wTsig : Writer σt TPIG) (fuel : ℕ) (o1 : σ1)
      (o2 : σ2) (t : σt),
      (∀ s b, (w1.write s b).2 = none) → (∀ s b, (w2.write s b).2 = none) →
      (s.Generate m w1 wTsig fuel o1 t).wTsig = (s.Generate m w2 wTsig fuel o2 t).wTsig ∧
      (s.Generate m w1 wTsig fuel o1 t).outcome = (s.Generate m w2 wTsig fuel o2 t).outcome) ∧
    (∀ {σo σ1 σ2 : Type} (c : Cube α) (wObj : Writer σo (List (ObjLine α)))
      (wT1 : Writer σ1 TPIG) (wT2 : Writer σ2 TPIG) (fuel : ℕ) (o : σo) (t1 : σ1) (t2 : σ2),
      (c.Generate wObj wT1 fuel o t1).wObj = (c.Generate wObj wT2 fuel o t2).wObj) ∧
    (∀ {σo σ1 σ2 : Type} (m : MathLib α) (c : Curve α) (wObj : Writer σo (List (ObjLine α)))
      (wT1 : Writer σ1 TPIG) (wT2 : Writer σ2 TPIG) (fuel : ℕ) (o : σo) (t1 : σ1) (t2 : σ2),
      (c.Generate m wObj wT1 fuel o t1).wObj = (c.Generate m wObj wT2 fuel o t2).wObj) ∧
    (∀ {σo σ1 σ2 : Type} (m : MathLib α) (s : SphereCap α) (wObj : Writer σo (List (ObjLine α)))
      (wT1 : Writer σ1 TPIG) (wT2 : Writer σ2 TPIG) (fuel : ℕ) (o : σo) (t1 : σ1) (t2 : σ2),
      (s.Generate m wObj wT1 fuel o t1).wObj = (s.Generate m wObj wT2 fuel o t2).wObj) := by
  refine ⟨?_, ?_, ?_, ?_, ?_, ?_⟩
  · intro σ1 σ2 σt c w1 w2 wTsig fuel o1 o2 t h1 h2
    have e1 := Cube.Generate_natural (fun _ => ()) w1 _ (Writer.discard_follows w1 h1) c wTsig
      fuel o1 t
    have e2 := Cube.Generate_natural (fun _ => ()) w2 _ (Writer.discard_follows w2 h2) c wTsig
      fuel o2 t
    have e := e1.symm.trans e2
    exact ⟨congrArg Result.wTsig e, congrArg Result.outcome e⟩
  · intro σ1 σ2 σt m c w1 w2 wTsig fuel o1 o2 t h1 h2
    have e1 := Curve.Generate_rows_natural (fun _ => ()) w1 _ (Writer.discard_follows w1 h1) m c wTsig
      fuel o1 t
    have e2 := Curve.Generate_rows_natural (fun _ => ()) w2 _ (Writer.discard_follows w2 h2) m c wTsig
      fuel o2 t
    have e := e1.symm.trans e2
    exact ⟨congrArg Result.wTsig e, congrArg Result.outcome e⟩
  · intro σ1 σ2 σt m s w1 w2 wTsig fuel o1 o2 t h1 h2
    have e1 := SphereCap.Generate_cap_natural (fun _ => ()) w1 _ (Writer.discard_follows w1 h1) m s
      wTsig fuel o1 t
    have e2 := SphereCap.Generate_cap_natural (fun _ => ()) w2 _ (Writer.discard_follows w2 h2) m s
      wTsig fuel o2 t
    have e := e1.symm.trans e2
    exact ⟨congrArg Result.wTsig e, congrArg Result.outcome e⟩
  · intro σo σ1 σ2 c wObj wT1 wT2 fuel o t1 t2
    exact Cube.Generate_wObj_indep c wObj wT1 wT2 fuel o t1 t2
  · intro σo σ1 σ2 m c wObj wT1 wT2 fuel o t1 t2
    exact Curve.Generate_rows_wObj_indep m c wObj wT1 wT2 fuel o t1 t2
  · intro σo σ1 σ2 m s wObj wT1 wT2 fuel o t1 t2
    exact SphereCap.Generate_cap_wObj_indep m s wObj wT1 wT2 fuel o t1 t2

/-- Witness of C25: the example cube, curve and cap with a recording and a
discarding mesh sink, and the example cap with a recording and a discarding
layout sink. -/
theorem artifacts_independent_of_other_sink_witness :
    ((exampleCube.Generate (Writer.recorder _) (Writer.recorder TPIG) 8 [] []).wTsig =
      (exampleCube.Generate (Writer.discard _) (Writer.recorder TPIG) 8 () []).wTsig ∧
     (exampleCube.Generate (Writer.recorder _) (Writer.recorder TPIG) 8 [] []).outcome =
      (exampleCube.Generate (Writer.discard _) (Writer.recorder TPIG) 8 () []).outcome) ∧
    ((exampleCurve.Generate taylorMath (Writer.recorder _) (Writer.recorder TPIG) 8 [] []).wTsig =
      (exampleCurve.Generate taylorMath (Writer.discard _) (Writer.recorder TPIG) 8 () []).wTsig ∧
     (exampleCurve.Generate taylorMath (Writer.recorder _) (Writer.recorder TPIG) 8 [] []).outcome =
      (exampleCurve.Generate taylorMath (Writer.discard _) (Writer.recorder TPIG) 8 () []).outcome) ∧
    ((exampleCap.Generate fineMath (Writer.recorder _) (Writer.recorder TPIG) 8 [] []).wTsig =
      (exampleCap.Generate fineMath (Writer.discard _) (Writer.recorder TPIG) 8 () []).wTsig ∧
     (exampleCap.Generate fineMath (Writer.recorder _) (Writer.recorder TPIG) 8 [] []).outcome =
      (exampleCap.Generate fineMath (Writer.discard _) (Writer.recorder TPIG) 8 () []).outcome) ∧
    (exampleCap.Generate fineMath (Writer.recorder _) (Writer.recorder TPIG) 8 [] []).wObj =
      (exampleCap.Generate fineMath (Writer.recorder _) (Writer.discard TPIG) 8 [] ()).wObj :=
  ⟨(artifacts_independent_of_other_sink (α := ℚ)).1 exampleCube (Writer.recorder _)
      (Writer.discard _) (Writer.recorder TPIG) 8 [] () [] (fun _ _ => rfl) (fun _ _ => rfl),
    (artifacts_independent_of_other_sink (α := ℚ)).2.1 taylorMath exampleCurve (Writer.recorder _)
      (Writer.discard _) (Writer.recorder TPIG) 8 [] () [] (fun _ _ => rfl) (fun _ _ => rfl),
    (artifacts_independent_of_other_sink (α := ℚ)).2.2.1 fineMath exampleCap (Writer.recorder _)
      (Writer.discard _) (Writer.recorder TPIG) 8 [] () [] (fun _ _ => rfl) (fun _ _ => rfl),
    (artifacts_independent_of_other_sink (α := ℚ)).2.2.2.2.2 fineMath exampleCap
      (Writer.recorder _) (Writer.recorder TPIG) (Writer.discard TPIG) 8 [] [] ()⟩

/-- C24. For every shape, every configuration and all sinks, both observed
through a record of their calls: either every write to the mesh sink was
accepted, or the write that failed is the last call made on the mesh sink,
`Generate` returns the error "error writing to obj" with the error of that
write, and the layout sink is as it was, with no call made on it. -/
theorem mesh_write_failure_aborts :
    (∀ {σ σt : Type} (c : Cube α) (w : Writer σ (List (ObjLine α))) (wTsig : Writer σt TPIG)
      (fuel : ℕ) (o : σ) (t : σt),
      FailureAborts (c.Generate w.logged wTsig.logged fuel (o, []) (t, [])) (t, [])) ∧
    (∀ {σ σt : Type} (m : MathLib α) (c : Curve α) (w : Writer σ (List (ObjLine α)))
      (wTsig : Writer σt TPIG) (fuel : ℕ) (o : σ) (t : σt),
      FailureAborts (c.Generate m w.logged wTsig.logged fuel (o, []) (t, [])) (t, [])) ∧
    (∀ {σ σt : Type} (m : MathLib α) (s : SphereCap α) (w : Writer σ (List (ObjLine α)))
      (wTsig : Writer σt TPIG) (fuel : ℕ) (o : σ) (t : σt),
      FailureAborts (s.Generate m w.logged wTsig.logged fuel (o, []) (t, [])) (t, [])) := by
  refine ⟨?_, ?_, ?_⟩
  · intro σ σt c w wTsig fuel o t
    exact Cube.Generate_logged c w wTsig.logged fuel o (t, [])
  · intro σ σt m c w wTsig fuel o t
    exact (Curve.Generate_rows_logged m c w wTsig.logged fuel o (t, [])).2
  · intro σ σt m s w wTsig fuel o t
    exact (SphereCap.Generate_cap_logged m s w wTsig.logged fuel o (t, [])).2

/-- Witness of C24: the example cube with a mesh sink that fails at its
third write, the example curve with one that fails at its second write and
the example cap with one that fails at its fourth write; the failed write is
the last call in each run. -/
theorem mesh_write_failure_aborts_witness :
    ((exampleCube.Generate (Writer.failingFrom _ 2).logged (Writer.recorder TPIG).logged 8
        (([], 0), []) ([], [])).wObj.2 = [none, none, some "write failed"] ∧
      FailureAborts (exampleCube.Generate (Writer.failingFrom _ 2).logged
        (Writer.recorder TPIG).logged 8 (([], 0), []) ([], [])) ([], [])) ∧
    ((exampleCurve.Generate taylorMath (Writer.failingFrom _ 1).logged
        (Writer.recorder TPIG).logged 8 (([], 0), []) ([], [])).wObj.2 =
        [none, some "write failed"] ∧
      FailureAborts (exampleCurve.Generate taylorMath (Writer.failingFrom _ 1).logged
        (Writer.recorder TPIG).logged 8 (([], 0), []) ([], [])) ([], [])) ∧
    ((exampleCap.Generate fineMath (Writer.failingFrom _ 3).logged
        (Writer.recorder TPIG).logged 8 (([], 0), []) ([], [])).wObj.2 =
        [none, none, none, some "write failed"] ∧
      FailureAborts (exampleCap.Generate fineMath (Writer.failingFrom _ 3).logged
        (Writer.recorder TPIG).logged 8 (([], 0), []) ([], [])) ([], [])) :=
  ⟨⟨by decide!, (mesh_write_failure_aborts (α := ℚ)).1 exampleCube (Writer.failingFrom _ 2)
      (Writer.recorder TPIG) 8 ([], 0) []⟩,
    ⟨by decide!, (mesh_write_failure_aborts (α := ℚ)).2.1 taylorMath exampleCurve
      (Writer.failingFrom _ 1) (Writer.recorder TPIG) 8 ([], 0) []⟩,
    ⟨by decide!, (mesh_write_failure_aborts (α := ℚ)).2.2 fineMath exampleCap
      (Writer.failingFrom _ 3) (Writer.recorder TPIG) 8 ([], 0) []⟩⟩

/-- C1 fails in the program's `float64` arithmetic. The curved wall of
radius 2 and height 0.27, with tiles 1 wide and 0.09 high and half a radian to
each side, has three rows of two tiles. The quotient 0.27/0.09 is rounded to
3.0000000000000004, so `math.Ceil` gives 4 rows and the tile list is allocated
with 2 * 4 = 8 entries, while the loop `for z < c.CurveHeight` stops after
three additions of 0.09: the run returns without error with 6 faces written
and a tile list of 8 entries, the last two still zero-valued. The claim also
fails without any rounding: the cube of unit tiles whose extents are all -1
passes the dimension check and `Cube.Generate` returns without error, having
written a layout of 5 tiles and a mesh without any face. -/
theorem curve_tiles_outnumber_faces :
    (Curve.Generate64 asinQuarter lowCurve64 8).outcome = .ok ∧
    (Curve.Generate64 asinQuarter lowCurve64 8).faces = 6 ∧
    (Curve.Generate64 asinQuarter lowCurve64 8).doc.map (fun d => d.Tilelayout.length) = some 8 ∧
    (Curve.Generate64 asinQuarter lowCurve64 8).doc.map (fun d => d.Tilelayout.drop 6) =
      some [Tilelayout.zero, Tilelayout.zero] ∧
    (negativeCube.record 8).outcome = .ok ∧
    (negativeCube.record 8).wTsig.map (fun d => d.Tilelayout.length) = [5] ∧
    faceCount (meshLines (negativeCube.record 8).wObj) = 0 := by
  decide!

/-- C23 fails as stated. The curved wall and the cap with tiles 5 wide on a
radius of 2 have TileWidth/(2 Radius) = 5/4 > 1. Whatever the math library
returns for the arcsine of 5/4 and whatever the step budget, the run into two
recording sinks does not return an error: it is not stopped by a
configuration error. -/
theorem oversize_tiles_not_rejected :
    1 < oversizeCurve.TileWidth / (2 * oversizeCurve.CurveRadius) ∧
    1 < oversizeCap.TileWidth / (2 * oversizeCap.Radius) ∧
    (∀ (m : MathLib ℚ) (fuel : ℕ) (e : GenError ℚ),
      (oversizeCurve.Generate m (Writer.recorder _) (Writer.recorder TPIG) fuel [] []).outcome ≠
        .error e) ∧
    (∀ (m : MathLib ℚ) (fuel : ℕ) (e : GenError ℚ),
      (oversizeCap.Generate m (Writer.recorder _) (Writer.recorder TPIG) fuel [] []).outcome ≠
        .error e) :=
  ⟨by decide!, by decide!,
    fun m fuel e => Curve.Generate_rows_no_error m oversizeCurve _ _ (fun _ _ => rfl)
      (fun _ _ => rfl) fuel [] [] e,
    fun m fuel e => SphereCap.Generate_cap_no_error m oversizeCap _ _ (fun _ _ => rfl)
      (fun _ _ => rfl) fuel [] [] e⟩

/-- C23, amended. `Curve.Generate` and `SphereCap.Generate` have no check of
their configuration. For every math library (whatever its arcsine returns
outside [-1, 1]), every configuration (TileWidth/(2 Radius) > 1 and
TileHeight/(2 Radius) > 1 included), all sinks and every step budget, an
error the run returns is the error of a failed call on one of its sinks: an
"error writing to obj" error with an error the mesh sink returned, found in
the record of its calls, or the error the layout sink returned when the
document was encoded. -/
theorem generate_errors_come_from_sinks :
    (∀ {σo σt : Type} (m : MathLib α) (c : Curve α) (wObj : Writer σo (List (ObjLine α)))
      (wTsig : Writer σt TPIG) (fuel : ℕ) (o : σo) (t : σt),
      ErrorsFromSinks (c.Generate m wObj.logged wTsig fuel (o, []) t) wTsig t) ∧
    (∀ {σo σt : Type} (m : MathLib α) (s : SphereCap α) (wObj : Writer σo (List (ObjLine α)))
      (wTsig : Writer σt TPIG) (fuel : ℕ) (o : σo) (t : σt),
      ErrorsFromSinks (s.Generate m wObj.logged wTsig fuel (o, []) t) wTsig t) :=
  ⟨fun m c wObj wTsig fuel o t => Curve.Generate_rows_errors m c wObj wTsig fuel o t,
    fun m s wObj wTsig fuel o t => SphereCap.Generate_cap_errors m s wObj wTsig fuel o t⟩

end ShapeClaims

section CubeClaims

variable {α : Type} [LinearOrderedField α] [FloorRing α]

/-- C3. Whenever the dimension check of the cube fails, `Cube.Generate`
returns the error of the check and both sinks are in the state they were in
before the call; the cube with tileWidth 1.5 and cubeWidth 2 fails with the
error on the width and nothing is written to either sink. -/
theorem cube_fence_failure_writes_nothing :
    (∀ {σo σt : Type} (c : Cube α) (wObj : Writer σo (List (ObjLine α)))
      (wTsig : Writer σt TPIG) (fuel : ℕ) (o : σo) (t : σt) (e : GenError α),
      halfCubeFence c.TileHeight c.TileWidth c.CubeWidth c.CubeHeight c.CubeDepth = some e →
        (c.Generate wObj wTsig fuel o t).outcome = .error e ∧
        (c.Generate wObj wTsig fuel o t).wObj = o ∧
        (c.Generate wObj wTsig fuel o t).wTsig = t) ∧
    (∀ fuel : ℕ,
      (oddWidthCube.Generate (Writer.recorder _) (Writer.recorder _) fuel [] []).outcome =
          .error (.notIntegerMultiple "width" "width" (3 / 2) 2) ∧
      (oddWidthCube.Generate (Writer.recorder _) (Writer.recorder _) fuel [] []).wObj = [] ∧
      (oddWidthCube.Generate (Writer.recorder _) (Writer.recorder _) fuel [] []).wTsig = []) := by
  have key : ∀ {σo σt : Type} (c : Cube α) (wObj : Writer σo (List (ObjLine α)))
      (wTsig : Writer σt TPIG) (fuel : ℕ) (o : σo) (t : σt) (e : GenError α),
      halfCubeFence c.TileHeight c.TileWidth c.CubeWidth c.CubeHeight c.CubeDepth = some e →
        (c.Generate wObj wTsig fuel o t).outcome = .error e ∧
        (c.Generate wObj wTsig fuel o t).wObj = o ∧
        (c.Generate wObj wTsig fuel o t).wTsig = t := by
    intro σo σt c wObj wTsig fuel o t e he
    rw [Cube.Generate_of_fence_some c wObj wTsig fuel o t e he]
    exact ⟨rfl, rfl, rfl⟩
  refine ⟨key, ?_⟩
  intro fuel
  have he : halfCubeFence oddWidthCube.TileHeight oddWidthCube.TileWidth oddWidthCube.CubeWidth
      oddWidthCube.CubeHeight oddWidthCube.CubeDepth =
      some (.notIntegerMultiple "width" "width" (3 / 2) 2) := by decide!
  rw [Cube.Generate_of_fence_some oddWidthCube _ _ fuel [] [] _ he]
  exact ⟨rfl, rfl, rfl⟩

/-- Witness of C3: the check fails on the cube with tileWidth 1.5 and
cubeWidth 2, and the run returns that error. -/
theorem cube_fence_failure_writes_nothing_witness :
    halfCubeFence oddWidthCube.TileHeight oddWidthCube.TileWidth oddWidthCube.CubeWidth
        oddWidthCube.CubeHeight oddWidthCube.CubeDepth =
      some (.notIntegerMultiple "width" "width" (3 / 2) 2) ∧
    (oddWidthCube.Generate (Writer.recorder _) (Writer.recorder _) 8 [] []).outcome =
      .error (.notIntegerMultiple "width" "width" (3 / 2) 2) :=
  ⟨by decide!,
    ((cube_fence_failure_writes_nothing (α := ℚ)).1 oddWidthCube (Writer.recorder _)
      (Writer.recorder _) 8 [] [] _ (by decide!)).1⟩

/-- C4, evaluated at a cube that passes the dimension check (tile 1 wide and
2 high, cube 1 wide, 2 high, 2 deep): the tile list has 7 entries and the
sweep stops with an index-out-of-range panic, in the bottom plane, after 7
faces; no layout document is written. -/
theorem cube_sweep_overruns_tile_list :
    halfCubeFence skewCube.TileHeight skewCube.TileWidth skewCube.CubeWidth skewCube.CubeHeight
        skewCube.CubeDepth = none ∧
    skewCube.tileTotal = 7 ∧
    (skewCube.record 8).outcome = .panic "index out of range" ∧
    (skewCube.record 8).log.getLast? = some (.face 25) ∧
    (skewCube.record 8).wTsig = [] := by
  decide!

/-- C5 fails as stated: the cube of the example does not emit 10 tiles from
wall counts 2, 4 and 4. -/
theorem example_cube_not_ten_tiles :
    ¬ ((exampleCube.record 8).wTsig.map (fun d => d.Tilelayout.length) = [10] ∧
      exampleCube.leftRight = 2 ∧ exampleCube.topbot = 4 ∧ exampleCube.back = 4) := by
  decide!

/-- C5, amended. For the cube with tileWidth = tileHeight = 1, cubeWidth = 2,
cubeHeight = 2, cubeDepth = 1, dx = dy = 10, `Cube.Generate` returns without
error and emits exactly 12 tiles and 12 faces (leftRight = 4, topbot = 4,
back = 4). -/
theorem example_cube_twelve_tiles :
    (exampleCube.record 8).outcome = .ok ∧
    (exampleCube.record 8).wTsig.map (fun d => d.Tilelayout.length) = [12] ∧
    faceCount (meshLines (exampleCube.record 8).wObj) = 12 ∧
    exampleCube.leftRight = 4 ∧ exampleCube.topbot = 4 ∧ exampleCube.back = 4 := by
  decide!

/-- C8, evaluated at a cube deeper than wide (unit tiles, width 1, height 1,
depth 2, 10 pixels per tile), which returns without error: for face 2, the
first face of the right wall, the texture coordinates written are
(0, 2/5), (1/5, 2/5), (1/5, 3/5), (0, 3/5), whose scaled corner is the pixel
(0, 20), while tile 2 of the layout has the origin (10, 20). -/
theorem cube_right_wall_tile_origin :
    (deepCube.record 8).outcome = .ok ∧
    faceTexCoords (meshLines (deepCube.record 8).wObj) 2 =
      [(0, 2 / 5), (1 / 5, 2 / 5), (1 / 5, 3 / 5), (0, 3 / 5)] ∧
    uvOrigin deepCube.pixelWidth deepCube.pixelHeight
      (faceTexCoords (meshLines (deepCube.record 8).wObj) 2) = some ⟨0, 20⟩ ∧
    (deepCube.record 8).wTsig.map (fun d => (d.Tilelayout.drop 2).head?.map
      (fun tl => tl.Layout.Flat)) = [some ⟨10, 20⟩] := by
  decide!

/-- C9, evaluated at a cube with tiles twice as high as wide (tile 1 by 2,
cube 2 by 2 by 2), which passes the dimension check and returns without
error: the top plane is written with the texture coordinate (1/3, 4/3), whose
v exceeds 1. -/
theorem cube_texcoord_above_one :
    halfCubeFence tallTileCube.TileHeight tallTileCube.TileWidth tallTileCube.CubeWidth
        tallTileCube.CubeHeight tallTileCube.CubeDepth = none ∧
    (tallTileCube.record 8).outcome = .ok ∧
    (1 / 3, 4 / 3) ∈ texCoords (meshLines (tallTileCube.record 8).wObj) ∧
    (1 : ℚ) < 4 / 3 := by
  decide!

/-- C10, evaluated at a cube deeper than wide (unit tiles, width 1, height 1,
depth 2), which returns without error: the back wall is written with the
vertex (2, 0, 0), whose x exceeds CubeWidth = 1; the mesh has its depth along
x and its width along y. -/
theorem cube_vertex_beyond_width :
    (deepCube.record 8).outcome = .ok ∧
    (2, 0, 0) ∈ vertices (meshLines (deepCube.record 8).wObj) ∧
    deepCube.CubeWidth < 2 ∧
    (∀ p ∈ vertices (meshLines (deepCube.record 8).wObj),
      0 ≤ p.1 ∧ p.1 ≤ deepCube.CubeDepth ∧ 0 ≤ p.2.1 ∧ p.2.1 ≤ deepCube.CubeWidth) := by
  decide!

/-- C29 fails as stated: with unit tiles, the width -3/2 and height and depth
1, the ratio CubeWidth / TileWidth is -3/2, not an integer, and
`halfCubeFence` returns no error, in exact arithmetic and in `float64` (where
-3/2 and the quotient are exact): for a negative ratio `int` and `math.Ceil`
both round towards zero, so the two sides of the test agree. -/
theorem fence_misses_negative_ratio :
    halfCubeFence (1 : ℚ) 1 (-3 / 2) 1 1 = none ∧
    halfCubeFence64 1 1 (F64.lit (-3 / 2)) 1 1 = none ∧
    (F64.lit (-3 / 2)).val / (1 : F64).val = -3 / 2 ∧
    ¬ IsInteger ((-3 / 2 : ℚ) / 1) := by
  refine ⟨by decide!, by decide!, by decide!, ?_⟩
  rw [isInteger_rat_iff]
  decide!

/-- C2 fails in the program's `float64` arithmetic: the dimension check
tests the rounded quotient. Three tiles of 0.1 fit a width of 0.3, and in
exact arithmetic the check passes; the `float64` quotient 0.3/0.1 is
2.9999999999999996 and `Cube.Generate` returns the error "tile width of 0.1
is not an integer multiple of a cube width of 0.3". The `float64` quotient
0.5/0.1 is 5 although the ratio of the two `float64` values 0.5 and 0.1 is
not an integer (0.1 is not a `float64`; the nearest one is larger), and
`Cube.Generate` returns without error. -/
theorem fence_decides_on_rounded_quotient :
    IsInteger ((3 / 10 : ℚ) / (1 / 10)) ∧
    halfCubeFence (1 / 10 : ℚ) (1 / 10) (3 / 10) (1 / 10) (1 / 10) = none ∧
    Cube.Generate64 threeTenthsCube64 8 =
      ⟨.error (.notIntegerMultiple "width" "width" (F64.lit (1 / 10)) (F64.lit (3 / 10))),
        0, none⟩ ∧
    ¬ IsInteger (fiveTenthsCube64.CubeWidth.val / fiveTenthsCube64.TileWidth.val) ∧
    (Cube.Generate64 fiveTenthsCube64 8).outcome = .ok := by
  refine ⟨?_, by decide!, by decide!, ?_, by decide!⟩
  · rw [isInteger_rat_iff]
    decide!
  · rw [isInteger_rat_iff]
    decide!

/-- C6 fails in the program's `float64` arithmetic. The cube of 0.1 tiles
that is 0.1 wide, 0.2 high and 0.5 deep, with 10 pixels per tile, passes the
dimension check and `Cube.Generate` returns without error. Its flat display
is 11 tiles wide and 12 tiles high; (2 CubeDepth + CubeHeight)/TileHeight is
rounded to 11.999999999999998 and truncated after the multiplication by Dy,
so the box written is (0, 110, 0, 119), where the formula of the claim gives
(0, 110, 0, 120). The tile origins are rounded, not truncated: the tile with
index 27 of the same layout has the origin (50, 110) and the size 10 by 10,
it ends at the row 120, outside the box. The cube of 0.1 tiles that is 0.8
deep also passes the dimension check, and no box is written for it: eight
additions of 0.1 give 0.7999999999999999, a ninth tile column is swept on
every plane along the depth, and the run panics at the index 33 of the 33
tiles allocated. -/
theorem cube_box_short_of_tiles :
    halfCubeFence64 tallCube64.TileHeight tallCube64.TileWidth tallCube64.CubeWidth
      tallCube64.CubeHeight tallCube64.CubeDepth = none ∧
    (Cube.Generate64 tallCube64 8).outcome = .ok ∧
    (Cube.Generate64 tallCube64 8).doc.map (fun d => d.Dimensions.Flat) =
      some ⟨0, 110, 0, 119⟩ ∧
    (Cube.Generate64 tallCube64 8).doc.map (fun d => d.Tilelayout.get? 27) =
      some (some ⟨⟨⟨50, 110⟩, ⟨10, 10⟩⟩⟩) ∧
    tallCubeExact.flatBox = ⟨0, 110, 0, 120⟩ ∧
    halfCubeFence64 eightTenthsCube64.TileHeight eightTenthsCube64.TileWidth
      eightTenthsCube64.CubeWidth eightTenthsCube64.CubeHeight
      eightTenthsCube64.CubeDepth = none ∧
    eightTenthsCube64.tileTotal64 = 33 ∧
    Cube.Generate64 eightTenthsCube64 12 = ⟨.panic "index out of range", 33, none⟩ := by
  decide!

end CubeClaims

section CurveClaims
variable {α : Type} [LinearOrderedField α] [FloorRing α]

theorem Curve.not_ok_of_whole_tiles (m : MathLib α) (c : Curve α) (fuel : ℕ)
    (hinc : 0 < c.azimuthInc m) (hTH : 0 < c.TileHeight) (hH : 0 < c.CurveHeight)
    (hA : 0 ≤ c.AzimuthMaxAngle) (hint : IsInteger (2 * c.AzimuthMaxAngle / c.azimuthInc m)) :
    (c.Generate m (Writer.recorder _) (Writer.recorder TPIG) fuel [] []).outcome ≠ .ok := by
  intro hok
  obtain ⟨r, tiles, _, _, hall, hexit, _, _, hin, hpos⟩ := (Curve.Generate_grid m c hinc fuel).2 hok
  obtain ⟨_, hN, _, _⟩ := Curve.ok_counts m c hTH hH r hall hexit hin hpos
  have hcf := (ceil_eq_floor_iff _).mpr hint
  have hfl : 0 ≤ ⌊2 * c.AzimuthMaxAngle / c.azimuthInc m⌋ :=
    Int.floor_nonneg.mpr (div_nonneg (by linarith) hinc.le)
  have hx : (c.AzimuthMaxAngle - -c.AzimuthMaxAngle) / c.azimuthInc m =
      2 * c.AzimuthMaxAngle / c.azimuthInc m := by ring
  unfold Curve.perRow at hN
  rw [hx] at hN
  omega

/-- C11 fails on the code. The loop `for azimuth <= c.AzimuthMaxAngle` makes
`floor(2 AzimuthMaxAngle/azimuthInc) + 1` passes in a row, while the tile list
holds `ceil(2 AzimuthMaxAngle/azimuthInc)` entries per row: when the ratio is
an integer there is one tile too many. With `AzimuthMaxAngle = 0` the list is
empty and the first tile is stored out of range, whatever the trigonometry
and the step budget; with `AzimuthMaxAngle` equal to the azimuth increment
(here 97/192) the list has 2 entries and the third tile is out of range. In
general, with positive tile height, curve height and azimuth increment, a
non-negative `AzimuthMaxAngle` and an integer ratio, no run returns `nil`. -/
theorem curve_sweep_overruns_tile_list :
    (∀ (m : MathLib ℚ) (fuel : ℕ),
      zeroAngleCurve.tileTotal m = 0 ∧
      (zeroAngleCurve.Generate m (Writer.recorder _) (Writer.recorder TPIG) (fuel + 1) [] []).outcome
        = .panic "index out of range") ∧
    (wholeTilesCurve.tileTotal taylorMath = 2 ∧
      (wholeTilesCurve.Generate taylorMath (Writer.recorder _) (Writer.recorder TPIG) 8 [] []).outcome
        = .panic "index out of range") ∧
    (∀ (m : MathLib α) (c : Curve α) (fuel : ℕ), 0 < c.azimuthInc m → 0 < c.TileHeight →
      0 < c.CurveHeight → 0 ≤ c.AzimuthMaxAngle →
      IsInteger (2 * c.AzimuthMaxAngle / c.azimuthInc m) →
      (c.Generate m (Writer.recorder _) (Writer.recorder TPIG) fuel [] []).outcome ≠ .ok) := by
  refine ⟨fun m fuel => ?_, by decide!, fun m c fuel h1 h2 h3 h4 h5 =>
    Curve.not_ok_of_whole_tiles m c fuel h1 h2 h3 h4 h5⟩
  have hcol : zeroAngleCurve.columns m = 0 := by
    simp [Curve.columns, zeroAngleCurve, math.Ceil]
  have htot : zeroAngleCurve.tileTotal m = 0 := by
    simp [Curve.tileTotal, hcol, int]
  refine ⟨htot, ?_⟩
  have hH : zeroAngleCurve.CurveHeight = 1 := rfl
  have hA : zeroAngleCurve.AzimuthMaxAngle = 0 := rfl
  simp [Curve.Generate, htot, whileLoop, Curve.rowBody, Curve.tileBody, hH, hA]

/-- C14. For a curve with a positive azimuth increment, whatever the run: the
mesh written consists of whole rows, row `i` being the blocks of its tiles
`0, 1, ...` in order, and the block of tile `k` of row `i` carries the
texture rectangle with right edge `u = 1 - k uWidth`, left edge
`u = 1 - (k + 1) uWidth`, bottom edge `v = i vheight` and top edge
`v = (i + 1) vheight`. So the left u-edge of a tile is the right u-edge of the
next tile of its row, and the top v-edge of a row is the bottom v-edge of the
next row, exactly. -/
theorem curve_uv_edges_shared (m : MathLib α) (c : Curve α) (fuel : ℕ)
    (hinc : 0 < c.azimuthInc m) :
    (∃ r, (c.Generate m (Writer.recorder _) (Writer.recorder TPIG) fuel [] []).wObj =
      (List.range r).map fun i => (List.range (c.perRow m)).flatMap (c.block m i)) ∧
    (∀ i k, texCoords (c.block m i k) =
      [(c.uAt m k, c.vAt i), (c.uAt m (k + 1), c.vAt i), (c.uAt m (k + 1), c.vAt (i + 1)),
        (c.uAt m k, c.vAt (i + 1))]) ∧
    (∀ k, c.uAt m k = 1 - (k : α) * c.uWidth m) ∧ (∀ i, c.vAt i = (i : α) * c.vheight) := by
  refine ⟨?_, fun i k => ?_, fun k => rfl, fun i => rfl⟩
  · obtain ⟨r, hr, _⟩ := (Curve.Generate_grid m c hinc fuel).1
    exact ⟨r, hr⟩
  · have hu : c.uAt m k - c.uWidth m = c.uAt m (k + 1) := by
      unfold Curve.uAt
      push_cast
      ring
    have hv : c.vAt i + c.vheight = c.vAt (i + 1) := by
      unfold Curve.vAt
      push_cast
      ring
    rw [← hu, ← hv]
    rfl

/-- Witness of C14: the example wall. -/
theorem curve_uv_edges_shared_witness :
    (0 : ℚ) < exampleCurve.azimuthInc taylorMath ∧
    texCoords (exampleCurve.block taylorMath 0 0) = [(1, 0), (1 / 2, 0), (1 / 2, 1 / 2), (1, 1 / 2)] ∧
    texCoords (exampleCurve.block taylorMath 0 1) = [(1 / 2, 0), (0, 0), (0, 1 / 2), (1 / 2, 1 / 2)] ∧
    texCoords (exampleCurve.block taylorMath 1 0) = [(1, 1 / 2), (1 / 2, 1 / 2), (1 / 2, 1), (1, 1)] := by
  have h := (curve_uv_edges_shared taylorMath exampleCurve 8 (by decide!)).2.1
  refine ⟨by decide!, ?_, ?_, ?_⟩
  · rw [h]
    decide!
  · rw [h]
    decide!
  · rw [h]
    decide!

/-- C15 fails as stated: the wall of radius 2 with unit tiles, height 3/2 and
azimuth 1/2 to each side is generated without error, and one of its vertices
is the point of the cylinder at height 2, above the height 3/2, and azimuth
49/96, beyond the azimuth 1/2. -/
theorem curve_vertex_beyond_extent :
    (overhangCurve.Generate taylorMath (Writer.recorder _) (Writer.recorder TPIG) 8 [] []).outcome
      = .ok ∧
    CylindricalToCartesian taylorMath overhangCurve.CurveRadius 2 (49 / 96) ∈ vertices (meshLines
      (overhangCurve.Generate taylorMath (Writer.recorder _) (Writer.recorder TPIG) 8 [] []).wObj) ∧
    overhangCurve.CurveHeight < 2 ∧ overhangCurve.AzimuthMaxAngle < 49 / 96 := by
  decide!

/-- C13 fails in the program's `float64` arithmetic. The curved wall of
radius 2 and height 0.27, with tiles 1 wide and 0.09 high, half a radian to
each side and 8 pixels per tile, has ceil(0.27/0.09) = 3 rows of 2 tiles, and
3 rows of 2 tiles are emitted. The `float64` quotient 0.27/0.09 is
3.0000000000000004 and `math.Ceil` makes 4 rows of it: the run returns
without error with the box (0, 16, 0, 32) instead of (0, 16, 0, 24), the
tiles of the three rows at the heights 24, 16 and 8 instead of 16, 8 and 0,
no tile in the 8 pixel rows from 0, and two zero-valued entries at the end of
the tile list. -/
theorem curve_box_above_rows :
    math.Ceil ((27 / 100 : ℚ) / (9 / 100)) = 3 ∧
    lowCurve64.rows64 = 4 ∧
    Curve.Generate64 asinQuarter lowCurve64 8 =
      { outcome := .ok, faces := 6,
        doc := some
          { Tilelayout :=
              [⟨⟨⟨8, 24⟩, ⟨8, 8⟩⟩⟩, ⟨⟨⟨0, 24⟩, ⟨8, 8⟩⟩⟩, ⟨⟨⟨8, 16⟩, ⟨8, 8⟩⟩⟩, ⟨⟨⟨0, 16⟩, ⟨8, 8⟩⟩⟩,
                ⟨⟨⟨8, 8⟩, ⟨8, 8⟩⟩⟩, ⟨⟨⟨0, 8⟩, ⟨8, 8⟩⟩⟩, ⟨⟨⟨0, 0⟩, ⟨0, 0⟩⟩⟩, ⟨⟨⟨0, 0⟩, ⟨0, 0⟩⟩⟩],
            Dimensions := ⟨⟨0, 16, 0, 32⟩⟩ } } := by
  decide!

end CurveClaims

section SphereClaims

variable {α : Type} [LinearOrderedField α] [FloorRing α]

/-- C16 fails on the code. The cap of radius 2 with unit tiles, 1.1 radians of
inclination and 8 pixels per tile is generated without error. In its third
row, 0.055 radians from the pole, the far-edge azimuth increment is so large
that the sine in `futDif` is negative: the shift is -7 in both halves and
`step = int(Dy / (shift + 1))` is -1. The strip loop does not run, and the
only tile of each coarse step of that row has the pixel height
`round(Dy - step * shift) = 1`, not 8. The heights of the sub-tiles of the 18
coarse steps, in emission order, are listed. -/
theorem cap_strip_heights_fall_short :
    poleCap.record.outcome = .ok ∧
    poleCap.shiftTop fineMath (fineMath.Pi / 2 - 2 * poleCap.thetaInc fineMath) = -7 ∧
    poleCap.shiftBot fineMath (fineMath.Pi / 2 + 2 * poleCap.thetaInc fineMath) = -7 ∧
    poleCap.step (-7) = -1 ∧
    poleCap.record.wTsig.map (fun d =>
      (coarseSteps poleCap.record.wObj d.Tilelayout).map fun g => g.map fun t => t.Layout.Size.Y) =
      [[[8], [8], [8], [2, 2, 4], [2, 2, 4], [2, 2, 4], [1], [1],
        [8], [8], [8], [8], [2, 2, 4], [2, 2, 4], [2, 2, 4], [2, 2, 4], [1], [1]]] := by
  decide!

/-- C17 fails on the code. The cap of radius 2 with unit tiles, one radian of
inclination, half a radian of azimuth and 8 pixels per tile is generated
without error with the bounding box (0, 24, 0, 32), and the x-origins of its
28 tiles, in emission order, include 26, beyond the atlas width 24, and -4,
-7 and -10. These tiles belong to the second coarse step of a row in the
loops that sweep the azimuth up to `ThetaMaxAngle`; the pre-scan that sizes
the atlas sweeps it up to `AzimuthMaxAngle`. -/
theorem cap_tile_outside_atlas :
    exampleCap.record.outcome = .ok ∧
    exampleCap.record.wTsig.map (fun d => d.Dimensions.Flat) = [⟨0, 24, 0, 32⟩] ∧
    exampleCap.record.wTsig.map (fun d => d.Tilelayout.map fun t => t.Layout.Flat.X) =
      [[4, 12, 20, 2, 3, 4, 14, 13, 12, 26, 23, 20,
        4, -4, 12, 20, 2, 3, 4, -10, -7, -4, 14, 13, 12, 26, 23, 20]] := by
  decide!

/-- C20 fails on the code. The cap of radius 2 with unit tiles, one radian of
inclination and half a radian of azimuth is generated without error in 14
coarse steps. Read off the mesh, step by step (first component: the azimuth
increases; second component: upper half), each row of the upper half has one
coarse step with increasing azimuth and two with decreasing azimuth, and each
row of the lower half two and two: only the first loop of the upper half
sweeps up to `AzimuthMaxAngle = 1/2`, the other three sweep up to
`ThetaMaxAngle = 1`. -/
theorem cap_quadrants_differ :
    exampleCap.record.outcome = .ok ∧
    exampleCap.record.wObj.map sideOf =
      [some (true, true), some (false, true), some (false, true),
       some (true, true), some (false, true), some (false, true),
       some (true, false), some (true, false), some (false, false), some (false, false),
       some (true, false), some (true, false), some (false, false), some (false, false)] := by
  decide!

/-- C18 fails as stated. The cap of radius 2 with unit tiles, one radian of
inclination and of azimuth and 8 pixels per tile is generated without error;
the face counts of its writes give the tiles of each coarse step. The second
row of the upper half has shift 2; its first two coarse steps are the tiles 4
to 6 and 7 to 9: the strips with index 0 have the origins (14, 6) and (2, 6)
and the strips with index 1 the origins (15, 4) and (5, 4), all 8 pixels
wide: the x-origins differ by 12 and by 10, not by 8. The last tiles, at
(16, 0) and (8, 0), differ by 8. -/
theorem cap_strips_apart :
    evenCap.record.outcome = .ok ∧
    evenCap.record.wObj.map faceCount = [1, 1, 1, 1, 3, 3, 3, 3, 1, 1, 1, 1, 3, 3, 3, 3] ∧
    evenCap.shiftTop fineMath (fineMath.Pi / 2 - evenCap.thetaInc fineMath) = 2 ∧
    evenCap.record.wTsig.map (fun d => ((d.Tilelayout.drop 4).take 6).map fun t =>
      (t.Layout.Flat.X, t.Layout.Flat.Y, t.Layout.Size.X, t.Layout.Size.Y)) =
      [[(14, 6, 8, 2), (15, 4, 8, 2), (16, 0, 8, 4), (2, 6, 8, 2), (5, 4, 8, 2), (8, 0, 8, 4)]] := by
  decide!

/-- C18, amended. In every quadrant and at every coarse step of a row, the
near u-edge of the strip with index `i` of the next coarse step is the far
u-edge of the strip with index `i` of this step moved by
`2 (shift - i) / maxX` (towards smaller `u` where the azimuth increases,
towards larger `u` where it decreases); the near u-edge of the last tile of
the next coarse step (the remainder tile) is the far u-edge of the last tile
of this step. -/
theorem cap_strip_gap (m : MathLib α) (s : SphereCap α) (overrun inc : α) (n i : ℤ)
    (st : SphereState α (List (List (ObjLine α)))) :
    (∃ st', s.leftBody m (Writer.recorder _) overrun n (s.specTopLeft m overrun) inc st = .ok st' ∧
      ((s.specTopLeft m overrun st').stripUV i).1.1 =
        ((s.specTopLeft m overrun st).stripUV i).2.1.1 -
          2 * ((s.shiftTop m st.theta - i : ℤ) : α) * (1 / s.maxX m overrun) ∧
      (s.specTopLeft m overrun st').lastUV.1.1 = (s.specTopLeft m overrun st).lastUV.2.1.1) ∧
    (∃ st', s.rightBody m (Writer.recorder _) overrun n (s.specTopRight m overrun) inc st = .ok st' ∧
      ((s.specTopRight m overrun st').stripUV i).1.1 =
        ((s.specTopRight m overrun st).stripUV i).2.1.1 +
          2 * ((s.shiftTop m st.theta - i : ℤ) : α) * (1 / s.maxX m overrun) ∧
      (s.specTopRight m overrun st').lastUV.1.1 = (s.specTopRight m overrun st).lastUV.2.1.1) ∧
    (∃ st', s.leftBody m (Writer.recorder _) overrun n (s.specBotLeft m overrun) inc st = .ok st' ∧
      ((s.specBotLeft m overrun st').stripUV i).1.1 =
        ((s.specBotLeft m overrun st).stripUV i).2.1.1 -
          2 * ((s.shiftBot m st.theta - i : ℤ) : α) * (1 / s.maxX m overrun) ∧
      (s.specBotLeft m overrun st').lastUV.1.1 = (s.specBotLeft m overrun st).lastUV.2.1.1) ∧
    (∃ st', s.rightBody m (Writer.recorder _) overrun n (s.specBotRight m overrun) inc st = .ok st' ∧
      ((s.specBotRight m overrun st').stripUV i).1.1 =
        ((s.specBotRight m overrun st).stripUV i).2.1.1 +
          2 * ((s.shiftBot m st.theta - i : ℤ) : α) * (1 / s.maxX m overrun) ∧
      (s.specBotRight m overrun st').lastUV.1.1 = (s.specBotRight m overrun st).lastUV.2.1.1) := by
  refine ⟨⟨_, rfl, ?_, ?_⟩, ⟨_, rfl, ?_, ?_⟩, ⟨_, rfl, ?_, ?_⟩, ⟨_, rfl, ?_, ?_⟩⟩
  · simp only [SphereCap.specTopLeft]
    push_cast
    ring
  · simp only [SphereCap.specTopLeft]
    try ring
  · simp only [SphereCap.specTopRight]
    push_cast
    ring
  · simp only [SphereCap.specTopRight]
    try ring
  · simp only [SphereCap.specBotLeft]
    push_cast
    ring
  · simp only [SphereCap.specBotLeft]
    try ring
  · simp only [SphereCap.specBotRight]
    push_cast
    ring
  · simp only [SphereCap.specBotRight]
    try ring

/-- C19. When the sine takes the same values at the inclinations
pi/2 + k thetaInc and pi/2 - k thetaInc of row `k` and at those of row
`k + 1`, as the real sine does: the shift of row `k` of the lower half,
`int((futDif/2)/(TileWidth/Dx))` at theta = pi/2 + k thetaInc, is the shift
of row `k` of the upper half and of the pre-scan,
`int(futDif/(TileWidth/Dx)) / 2` at theta = pi/2 - k thetaInc. The pre-scan
and the upper half go from a row to the next by lowering theta by thetaInc,
the lower half by raising it, all three from pi/2. In all four quadrants a
coarse tile is `Dx / maxX` wide in `u`, with `maxX` the width after the
overrun correction, whose integer part is the `X1` of the bounding box. -/
theorem cap_shift_mirrored (m : MathLib α) (s : SphereCap α) (k : ℕ)
    (h0 : m.Sin (m.Pi / 2 + (k : α) * s.thetaInc m) = m.Sin (m.Pi / 2 - (k : α) * s.thetaInc m))
    (h1 : m.Sin (m.Pi / 2 + ((k + 1 : ℕ) : α) * s.thetaInc m) =
      m.Sin (m.Pi / 2 - ((k + 1 : ℕ) : α) * s.thetaInc m)) :
    s.shiftBot m (m.Pi / 2 + (k : α) * s.thetaInc m) =
      s.shiftTop m (m.Pi / 2 - (k : α) * s.thetaInc m) ∧
    (∀ (fuel : ℕ) (st st' : ScanState α), s.scanRow m fuel st = .ok st' →
      st'.theta = st.theta - s.thetaInc m) ∧
    (∀ {σo : Type} (wObj : Writer σo (List (ObjLine α))) (overrun : α) (fuel : ℕ)
      (st st' : SphereState α σo),
      (s.topRow m wObj overrun fuel st = .ok st' → st'.theta = st.theta - s.thetaInc m) ∧
      (s.botRow m wObj overrun fuel st = .ok st' → st'.theta = st.theta + s.thetaInc m) ∧
      (s.specTopLeft m overrun st).lastUV.1.1 - (s.specTopLeft m overrun st).lastUV.2.1.1 =
        s.Dx / s.maxX m overrun ∧
      (s.specTopRight m overrun st).lastUV.2.1.1 - (s.specTopRight m overrun st).lastUV.1.1 =
        s.Dx / s.maxX m overrun ∧
      (s.specBotLeft m overrun st).lastUV.1.1 - (s.specBotLeft m overrun st).lastUV.2.1.1 =
        s.Dx / s.maxX m overrun ∧
      (s.specBotRight m overrun st).lastUV.2.1.1 - (s.specBotRight m overrun st).lastUV.1.1 =
        s.Dx / s.maxX m overrun ∧
      (s.flatBox m overrun).X1 = int (s.maxX m overrun)) := by
  refine ⟨SphereCap.shiftBot_eq_shiftTop m s _ h0 ?_, SphereCap.scanRow_theta m s, ?_⟩
  · have e : (k : α) * s.thetaInc m + s.thetaInc m = ((k + 1 : ℕ) : α) * s.thetaInc m := by
      push_cast
      ring
    rw [e]
    exact h1
  · intro σo wObj overrun fuel st st'
    refine ⟨SphereCap.topRow_theta m s wObj overrun fuel st st',
      SphereCap.botRow_theta m s wObj overrun fuel st st', ?_, ?_, ?_, ?_, rfl⟩
    · simp only [SphereCap.specTopLeft, SphereCap.uTileWidth]
      ring
    · simp only [SphereCap.specTopRight, SphereCap.uTileWidth]
      ring
    · simp only [SphereCap.specBotLeft, SphereCap.uTileWidth]
      ring
    · simp only [SphereCap.specBotRight, SphereCap.uTileWidth]
      ring

/-- Witness of C19: the second row (k = 1) of the example cap, whose shift
is 2 in both halves. -/
theorem cap_shift_mirrored_witness :
    fineMath.Sin (fineMath.Pi / 2 + ((1 : ℕ) : ℚ) * exampleCap.thetaInc fineMath) =
      fineMath.Sin (fineMath.Pi / 2 - ((1 : ℕ) : ℚ) * exampleCap.thetaInc fineMath) ∧
    exampleCap.shiftTop fineMath (fineMath.Pi / 2 - ((1 : ℕ) : ℚ) * exampleCap.thetaInc fineMath)
      = 2 ∧
    exampleCap.shiftBot fineMath (fineMath.Pi / 2 + ((1 : ℕ) : ℚ) * exampleCap.thetaInc fineMath) =
      exampleCap.shiftTop fineMath
        (fineMath.Pi / 2 - ((1 : ℕ) : ℚ) * exampleCap.thetaInc fineMath) :=
  ⟨by decide!, by decide!,
    (cap_shift_mirrored fineMath exampleCap 1 (by decide!) (by decide!)).1⟩

/-- C21 fails as stated: in the run of the example cap the coarse steps of
the first row, whose shift is 0, are written with 1 face each and those of
the second row, whose shift is 2, with 3 faces each, and the tile list holds
as many entries per coarse step: shift + 1, not shift + 2. -/
theorem cap_steps_one_face_per_strip :
    exampleCap.record.outcome = .ok ∧
    exampleCap.shiftTop fineMath (fineMath.Pi / 2) = 0 ∧
    exampleCap.shiftTop fineMath (fineMath.Pi / 2 - exampleCap.thetaInc fineMath) = 2 ∧
    exampleCap.record.wObj.map faceCount = [1, 1, 1, 3, 3, 3, 1, 1, 1, 1, 3, 3, 3, 3] ∧
    exampleCap.record.wTsig.map
      (fun d => (coarseSteps exampleCap.record.wObj d.Tilelayout).map List.length) =
      [[1, 1, 1, 3, 3, 3, 1, 1, 1, 1, 3, 3, 3, 3]] := by
  decide!

/-- C21, amended. For every sphere-cap configuration and every coarse
angular step with shift >= 0 (whatever its corners, texture coordinates and
tile records), the step is written to the mesh sink as one payload of exactly
shift + 1 faces, the `shift` strips of the strip loop and one leftover strip,
and the tile list grows by exactly shift + 1 entries. -/
theorem cap_step_strip_count (s : SphereCap α) (shift : ℤ) (q : TileSpec α)
    (st : SphereState α (List (List (ObjLine α)))) (hshift : 0 ≤ shift) :
    ∃ st' payload, s.emitTile (Writer.recorder _) shift q st = .ok st' ∧
      st'.wObj = st.wObj ++ [payload] ∧ (faceCount payload : ℤ) = shift + 1 ∧
      (st'.tiles.length : ℤ) = st.tiles.length + (shift + 1) := by
  obtain ⟨-, -, -, h4, h5⟩ := SphereCap.strips_closed s shift q
    { tileFaces := [], tiles := st.tiles, vertexCount := st.vertexCount, cur := q.p1,
      curR := q.p2, log := st.log } rfl rfl shift.toNat
  refine ⟨_, (s.tileStrips shift q st.tiles st.vertexCount st.log).tileFaces, rfl, rfl, ?_, ?_⟩
  · unfold SphereCap.tileStrips
    simp only []
    generalize (List.range shift.toNat).foldl (s.stripBody shift q)
      { tileFaces := [], tiles := st.tiles, vertexCount := st.vertexCount, cur := q.p1,
        curR := q.p2, log := st.log } = t at h4 h5
    rw [faceCount_append, h4]
    simp [faceCount, faceLine]
    omega
  · show ((s.tileStrips shift q st.tiles st.vertexCount st.log).tiles.length : ℤ) = _
    unfold SphereCap.tileStrips
    simp only []
    generalize (List.range shift.toNat).foldl (s.stripBody shift q)
      { tileFaces := [], tiles := st.tiles, vertexCount := st.vertexCount, cur := q.p1,
        curR := q.p2, log := st.log } = t at h4 h5
    rw [List.length_append, h5]
    simp
    omega

/-- Witness of C21: the first coarse step of the second row of the example
cap, with shift 2. -/
theorem cap_step_strip_count_witness :
    (0 : ℤ) ≤ 2 ∧
    ∃ st' payload, exampleCap.emitTile (Writer.recorder _) 2
        (exampleCap.specTopLeft fineMath 1 secondRowStart) secondRowStart = .ok st' ∧
      st'.wObj = secondRowStart.wObj ++ [payload] ∧ (faceCount payload : ℤ) = 2 + 1 ∧
      (st'.tiles.length : ℤ) = secondRowStart.tiles.length + (2 + 1) :=
  ⟨by decide, cap_step_strip_count exampleCap 2
    (exampleCap.specTopLeft fineMath 1 secondRowStart) secondRowStart (by decide)⟩

/-- C27. For every sphere-cap configuration and every coarse tile with near
corners P1, P2 and far corners P4, P3, the vertices written for the tile are,
in order, those of the strips 0 .. shift - 1 and of the leftover strip: strip
`i` has the vertices L(i), R(i), R(i+1), L(i+1) with
L(i) = P1 + i (step/Dy) (P4 - P1) and R(i) = P2 + i (step/Dy) (P3 - P2), so
that its far edge is the near edge of strip i + 1, and the leftover strip has
the vertices L(shift), R(shift), P3, P4: it runs from the last interpolated
edge to exactly P3 and P4. (For a negative shift there is no strip but the
leftover one, from P1, P2 to P3, P4.) -/
theorem cap_strips_interpolate (s : SphereCap α) (shift : ℤ) (q : TileSpec α)
    (tiles : List Tilelayout) (vertexCount : ℕ) (log : List Emission) :
    vertices (s.tileStrips shift q tiles vertexCount log).tileFaces =
      (List.range shift.toNat).flatMap (fun i =>
        [s.stripCorner shift q.p1 q.p4 i, s.stripCorner shift q.p2 q.p3 i,
          s.stripCorner shift q.p2 q.p3 (i + 1), s.stripCorner shift q.p1 q.p4 (i + 1)]) ++
      [s.stripCorner shift q.p1 q.p4 shift.toNat, s.stripCorner shift q.p2 q.p3 shift.toNat,
        q.p3, q.p4] := by
  obtain ⟨h1, h2, h3, -, -⟩ := SphereCap.strips_closed s shift q
    { tileFaces := [], tiles := tiles, vertexCount := vertexCount, cur := q.p1, curR := q.p2,
      log := log } rfl rfl shift.toNat
  unfold SphereCap.tileStrips
  simp only []
  generalize (List.range shift.toNat).foldl (s.stripBody shift q)
    { tileFaces := [], tiles := tiles, vertexCount := vertexCount, cur := q.p1, curR := q.p2,
      log := log } = t at h1 h2 h3
  rw [vertices_append, h3, ← h1, ← h2]
  rfl

/-- C28 fails: the cap of radius 2 with unit tiles, ThetaMaxAngle = 1.55 and
AzimuthMaxAngle = 0.5 satisfies every precondition of the claim, its fourth
row (theta = pi/2 - 3 thetaInc, about 0.055) is visited, and the azimuth
increment of the far edge of that row, 2 asin(TileWidth/(2r)) / sin(theta -
thetaInc), is negative (about -1.16, theta - thetaInc being about -0.45). The
loop `for azimuth < s.AzimuthMaxAngle` of the pre-scan then moves away from
its bound: whatever the step budget, `Generate` uses it up in the pre-scan
and writes nothing. -/
theorem endless_cap_never_returns :
    (0 < endlessCap.TileWidth ∧ endlessCap.TileWidth ≤ 2 * endlessCap.Radius ∧
      0 < endlessCap.TileHeight ∧ endlessCap.TileHeight ≤ 2 * endlessCap.Radius ∧
      0 < endlessCap.Dx ∧ 0 < endlessCap.Dy ∧
      0 < endlessCap.ThetaMaxAngle ∧ endlessCap.ThetaMaxAngle ≤ fineMath.Pi / 2 ∧
      0 < endlessCap.AzimuthMaxAngle ∧ endlessCap.AzimuthMaxAngle ≤ fineMath.Pi) ∧
    fineMath.Pi / 2 - 3 * endlessCap.thetaInc fineMath >
      fineMath.Pi / 2 - endlessCap.ThetaMaxAngle ∧
    endlessCap.rowInc fineMath
      (fineMath.Pi / 2 - 3 * endlessCap.thetaInc fineMath - endlessCap.thetaInc fineMath) < 0 ∧
    ∀ fuel : ℕ,
      endlessCap.Generate fineMath (Writer.recorder _) (Writer.recorder TPIG) fuel [] [] =
        { outcome := .outOfFuel, wObj := [], wTsig := [], log := [] } := by
  refine ⟨by decide!, by decide!, by decide!, ?_⟩
  intro fuel
  refine SphereCap.Generate_diverges fineMath endlessCap 3 ?_ ?_ (by decide!) _ _ fuel [] []
  · intro k hk
    interval_cases k <;> decide!
  · have h : endlessCap.rowInc fineMath
        (fineMath.Pi / 2 - ((3 : ℕ) : ℚ) * endlessCap.thetaInc fineMath -
          endlessCap.thetaInc fineMath) < 0 := by decide!
    exact h.le

end SphereClaims

section UtilClaims

variable {α : Type} [LinearOrderedField α] [FloorRing α]

/-- C30. For all r, theta, phi, converting polar coordinates to cylindrical
ones with `PolarToCylindrical` and those to cartesian ones with
`CylindricalToCartesian` gives exactly the triple of `PolarToCartesian`; and
when sine and cosine satisfy sin^2 + cos^2 = 1, the point
(X, Y, Z) = PolarToCartesian(r, theta, phi) lies on the sphere
X^2 + Y^2 + Z^2 = r^2. -/
theorem polar_conversions_agree (m : MathLib α) (r theta phi : α)
    (hpyth : ∀ x, m.Sin x ^ 2 + m.Cos x ^ 2 = 1) :
    CylindricalToCartesian m (PolarToCylindrical m r theta phi).1
        (PolarToCylindrical m r theta phi).2.1 (PolarToCylindrical m r theta phi).2.2 =
      PolarToCartesian m r theta phi ∧
    (PolarToCartesian m r theta phi).1 ^ 2 + (PolarToCartesian m r theta phi).2.1 ^ 2 +
      (PolarToCartesian m r theta phi).2.2 ^ 2 = r ^ 2 := by
  refine ⟨rfl, ?_⟩
  simp only [PolarToCartesian]
  have h1 := hpyth theta
  have h2 := hpyth phi
  linear_combination (r ^ 2 * m.Sin theta ^ 2) * h2 + r ^ 2 * h1

end UtilClaims

section RealClaims

/-- The chord of the angle `2 asin(w/(2r))` on the circle of radius `r` has
length `w`. -/
theorem chord_length (r w a z : ℝ) (hw : 0 < w) (hr : w ≤ 2 * r) :
    Real.sqrt ((r * Real.cos a - r * Real.cos (a + 2 * Real.arcsin (w / (2 * r)))) ^ 2 +
      (r * Real.sin a - r * Real.sin (a + 2 * Real.arcsin (w / (2 * r)))) ^ 2 + (z - z) ^ 2) = w := by
  have hr0 : 0 < r := by linarith
  have ht1 : w / (2 * r) ≤ 1 := by
    rw [div_le_one (by linarith)]
    exact hr
  have ht0 : 0 ≤ w / (2 * r) := by positivity
  have hs : Real.sin (Real.arcsin (w / (2 * r))) = w / (2 * r) :=
    Real.sin_arcsin (by linarith) ht1
  have h1 := Real.cos_sq_add_sin_sq a
  have h2 := Real.cos_sq_add_sin_sq (2 * Real.arcsin (w / (2 * r)))
  have h3 : Real.cos (2 * Real.arcsin (w / (2 * r))) = 1 - 2 * (w / (2 * r)) ^ 2 := by
    rw [Real.cos_two_mul, Real.cos_sq', hs]
    ring
  have key : (r * Real.cos a - r * Real.cos (a + 2 * Real.arcsin (w / (2 * r)))) ^ 2 +
      (r * Real.sin a - r * Real.sin (a + 2 * Real.arcsin (w / (2 * r)))) ^ 2 + (z - z) ^ 2 =
      w ^ 2 := by
    rw [Real.cos_add, Real.sin_add]
    have h4 : r ^ 2 * (2 - 2 * Real.cos (2 * Real.arcsin (w / (2 * r)))) = w ^ 2 := by
      rw [h3]
      field_simp
      ring
    rw [← h4]
    linear_combination (r ^ 2 * ((1 - Real.cos (2 * Real.arcsin (w / (2 * r)))) ^ 2 +
      Real.sin (2 * Real.arcsin (w / (2 * r))) ^ 2)) * h1 + r ^ 2 * h2
  rw [key]
  exact Real.sqrt_sq hw.le

/-- A vertical segment of the cylinder of height `h >= 0` has length `h`. -/
theorem riser_length (x y z h : ℝ) (hh : 0 ≤ h) :
    Real.sqrt ((x - x) ^ 2 + (y - y) ^ 2 + (z - (z + h)) ^ 2) = h := by
  have : (x - x) ^ 2 + (y - y) ^ 2 + (z - (z + h)) ^ 2 = h ^ 2 := by ring
  rw [this]
  exact Real.sqrt_sq hh

/-- C12. With the real sine, cosine, arcsine and square root and
`0 < TileWidth <= 2 CurveRadius`: the Euclidean distance between
`CylindricalToCartesian(r, z, a)` and
`CylindricalToCartesian(r, z, a + 2 asin(TileWidth/(2r)))` is `TileWidth` for
every `a` and `z`; and whatever the run, the mesh written consists of whole
rows of blocks, the block of tile `k` of row `i` has the corners of the quad
at height `i TileHeight` and azimuth `-AzimuthMaxAngle + k azimuthInc` as its
vertices, and of every quad written the two edges along the azimuth have
length `TileWidth` and the two edges along the height have length
`TileHeight`. -/
theorem curve_quad_edges (m : MathLib ℝ) (c : Curve ℝ) (fuel : ℕ)
    (hSin : m.Sin = Real.sin) (hCos : m.Cos = Real.cos) (hAsin : m.Asin = Real.arcsin)
    (hSqrt : m.Sqrt = Real.sqrt) (hTW : 0 < c.TileWidth) (hR : c.TileWidth ≤ 2 * c.CurveRadius) :
    (∀ a z : ℝ,
      ThreeDistance m (CylindricalToCartesian m c.CurveRadius z a).1
        (CylindricalToCartesian m c.CurveRadius z
          (a + 2 * m.Asin (c.TileWidth / (2 * c.CurveRadius)))).1
        (CylindricalToCartesian m c.CurveRadius z a).2.1
        (CylindricalToCartesian m c.CurveRadius z
          (a + 2 * m.Asin (c.TileWidth / (2 * c.CurveRadius)))).2.1
        (CylindricalToCartesian m c.CurveRadius z a).2.2
        (CylindricalToCartesian m c.CurveRadius z
          (a + 2 * m.Asin (c.TileWidth / (2 * c.CurveRadius)))).2.2 = c.TileWidth) ∧
    (∀ i k, vertices (c.block m i k) =
      [(c.quad m (c.zAt i) (c.azimuthAt m k)).1, (c.quad m (c.zAt i) (c.azimuthAt m k)).2.1,
        (c.quad m (c.zAt i) (c.azimuthAt m k)).2.2.1,
        (c.quad m (c.zAt i) (c.azimuthAt m k)).2.2.2]) ∧
    ∃ r, (c.Generate m (Writer.recorder _) (Writer.recorder TPIG) fuel [] []).wObj =
        (List.range r).map (fun i => (List.range (c.perRow m)).flatMap (c.block m i)) ∧
      ∀ i < r, ∀ k < c.perRow m, quadEdges m (c.quad m (c.zAt i) (c.azimuthAt m k)) =
        (c.TileWidth, c.TileWidth, c.TileHeight, c.TileHeight) := by
  have hr0 : 0 < c.CurveRadius := by linarith
  have hinc : 0 < c.azimuthInc m := by
    unfold Curve.azimuthInc
    rw [hAsin]
    have : 0 < Real.arcsin (c.TileWidth / (2 * c.CurveRadius)) :=
      Real.arcsin_pos.mpr (by positivity)
    linarith
  have hchord : ∀ a z : ℝ,
      ThreeDistance m (CylindricalToCartesian m c.CurveRadius z a).1
        (CylindricalToCartesian m c.CurveRadius z
          (a + 2 * m.Asin (c.TileWidth / (2 * c.CurveRadius)))).1
        (CylindricalToCartesian m c.CurveRadius z a).2.1
        (CylindricalToCartesian m c.CurveRadius z
          (a + 2 * m.Asin (c.TileWidth / (2 * c.CurveRadius)))).2.1
        (CylindricalToCartesian m c.CurveRadius z a).2.2
        (CylindricalToCartesian m c.CurveRadius z
          (a + 2 * m.Asin (c.TileWidth / (2 * c.CurveRadius)))).2.2 = c.TileWidth := by
    intro a z
    simp only [ThreeDistance, CylindricalToCartesian, hSin, hCos, hAsin, hSqrt]
    exact chord_length c.CurveRadius c.TileWidth a z hTW hR
  refine ⟨hchord, fun i k => rfl, ?_⟩
  obtain ⟨r, hw, hall, hin⟩ := (Curve.Generate_grid m c hinc fuel).1
  refine ⟨r, hw, fun i hi k hk => ?_⟩
  have hTH := Curve.written_pos m c r (by omega) (by omega) hall hin
  have hrise : ∀ a z : ℝ,
      ThreeDistance m (CylindricalToCartesian m c.CurveRadius z a).1
        (CylindricalToCartesian m c.CurveRadius (z + c.TileHeight) a).1
        (CylindricalToCartesian m c.CurveRadius z a).2.1
        (CylindricalToCartesian m c.CurveRadius (z + c.TileHeight) a).2.1
        (CylindricalToCartesian m c.CurveRadius z a).2.2
        (CylindricalToCartesian m c.CurveRadius (z + c.TileHeight) a).2.2 = c.TileHeight := by
    intro a z
    simp only [ThreeDistance, CylindricalToCartesian, hSqrt]
    exact riser_length _ _ z c.TileHeight hTH.le
  unfold quadEdges Curve.quad
  simp only [Curve.azimuthInc] at hchord ⊢
  rw [hchord, hchord, hrise, hrise]

/-- Witness of C12: the wall of radius 2 with unit tiles. -/
theorem curve_quad_edges_witness :
    (0 : ℝ) < 1 ∧ (1 : ℝ) ≤ 2 * 2 ∧
    ThreeDistance (⟨Real.pi, Real.sin, Real.cos, Real.arcsin, Real.sqrt⟩ : MathLib ℝ)
      (2 * Real.cos 0) (2 * Real.cos (0 + 2 * Real.arcsin (1 / (2 * 2))))
      (2 * Real.sin 0) (2 * Real.sin (0 + 2 * Real.arcsin (1 / (2 * 2)))) 0 0 = 1 :=
  ⟨by norm_num, by norm_num,
    (curve_quad_edges ⟨Real.pi, Real.sin, Real.cos, Real.arcsin, Real.sqrt⟩
      ⟨1, 1, 2, 2, 1 / 2, 8, 8⟩ 8 rfl rfl rfl rfl (by norm_num) (by norm_num)).1 0 0⟩

/-- The chord between two points of the sphere of radius `r` at the same
inclination `t` whose azimuths differ by `d`, squared. -/
theorem parallel_chord_sq (r t p d : ℝ) :
    (r * Real.sin t * Real.cos p - r * Real.sin t * Real.cos (p + d)) ^ 2 +
      (r * Real.sin t * Real.sin p - r * Real.sin t * Real.sin (p + d)) ^ 2 +
      (r * Real.cos t - r * Real.cos t) ^ 2 = (2 * r * Real.sin t * Real.sin (d / 2)) ^ 2 := by
  have h1 := Real.sin_sq_add_cos_sq p
  have h2 := Real.sin_sq_add_cos_sq (d / 2)
  have hc : Real.cos d = 1 - 2 * Real.sin (d / 2) ^ 2 := by
    have := Real.cos_two_mul (d / 2)
    rw [mul_div_cancel₀ d (two_ne_zero)] at this
    rw [this, Real.cos_sq']
    ring
  have hs : Real.sin d = 2 * Real.sin (d / 2) * Real.cos (d / 2) := by
    have := Real.sin_two_mul (d / 2)
    rw [mul_div_cancel₀ d (two_ne_zero)] at this
    exact this
  rw [Real.cos_add, Real.sin_add, hc, hs]
  linear_combination (4 * r ^ 2 * Real.sin t ^ 2 * Real.sin (d / 2) ^ 2 *
    (Real.sin (d / 2) ^ 2 + Real.cos (d / 2) ^ 2)) * h1 +
    (4 * r ^ 2 * Real.sin t ^ 2 * Real.sin (d / 2) ^ 2) * h2

/-- The chord between two points of the sphere of radius `r` at the same
azimuth whose inclinations differ by `e`, squared. -/
theorem meridian_chord_sq (r t p e : ℝ) :
    (r * Real.sin t * Real.cos p - r * Real.sin (t - e) * Real.cos p) ^ 2 +
      (r * Real.sin t * Real.sin p - r * Real.sin (t - e) * Real.sin p) ^ 2 +
      (r * Real.cos t - r * Real.cos (t - e)) ^ 2 = (2 * r * Real.sin (e / 2)) ^ 2 := by
  have h1 := Real.sin_sq_add_cos_sq p
  have h2 := Real.sin_sq_add_cos_sq t
  have h3 := Real.sin_sq_add_cos_sq (e / 2)
  have hc : Real.cos e = 1 - 2 * Real.sin (e / 2) ^ 2 := by
    have := Real.cos_two_mul (e / 2)
    rw [mul_div_cancel₀ e (two_ne_zero)] at this
    rw [this, Real.cos_sq']
    ring
  have hs : Real.sin e = 2 * Real.sin (e / 2) * Real.cos (e / 2) := by
    have := Real.sin_two_mul (e / 2)
    rw [mul_div_cancel₀ e (two_ne_zero)] at this
    exact this
  rw [Real.cos_sub, Real.sin_sub, hc, hs]
  linear_combination (4 * r ^ 2 * Real.sin (e / 2) ^ 2 *
    (Real.sin (e / 2) * Real.sin t + Real.cos (e / 2) * Real.cos t) ^ 2) * h1 +
    (4 * r ^ 2 * Real.sin (e / 2) ^ 2 * (Real.sin (e / 2) ^ 2 + Real.cos (e / 2) ^ 2)) * h2 +
    (4 * r ^ 2 * Real.sin (e / 2) ^ 2) * h3

/-- An angle `a` of the first quadrant divided by a sine `s` strictly between
0 and 1: the chord factor `s |sin (a / s)|` is strictly below `sin a`. -/
theorem scaled_sine_lt (a s : ℝ) (ha : 0 < a) (ha2 : a ≤ Real.pi / 2) (hs : 0 < s) (hs1 : s < 1) :
    s * |Real.sin (a / s)| < Real.sin a := by
  have hpi := Real.pi_pos
  have hx : 0 < a / s := div_pos ha hs
  rcases le_or_lt (a / s) Real.pi with hle | hgt
  · have hnn : 0 ≤ Real.sin (a / s) := Real.sin_nonneg_of_nonneg_of_le_pi hx.le hle
    rw [abs_of_nonneg hnn]
    have hc := strictConcaveOn_sin_Icc.2 (Set.mem_Icc.mpr ⟨hx.le, hle⟩)
      (Set.mem_Icc.mpr ⟨le_refl (0 : ℝ), hpi.le⟩) hx.ne' hs (sub_pos.mpr hs1)
      (by ring : s + (1 - s) = 1)
    simp only [smul_eq_mul, Real.sin_zero, mul_zero, add_zero] at hc
    rwa [mul_div_cancel₀ a hs.ne'] at hc
  · have h1 : s * |Real.sin (a / s)| ≤ s :=
      mul_le_of_le_one_right hs.le (Real.abs_sin_le_one _)
    have h2 : s * Real.pi < a := by
      have := (lt_div_iff₀ hs).mp hgt
      linarith
    have h3 := Real.mul_le_sin ha.le ha2
    have h4 : s < 2 / Real.pi * a := by
      rw [div_mul_eq_mul_div, lt_div_iff₀ hpi]
      linarith
    linarith

/-- C22 fails for every row off the equator. With the real sine, cosine,
arcsine and square root, 0 < TileWidth <= 2 Radius and
0 < TileHeight <= 2 Radius, for the coarse tile the first loop of the upper
half builds at loop variables `st` with 0 < sin(theta) < 1: the chord from its
near-left corner P1 to its far-left corner P4 has length TileHeight, but the
chord between its two near corners P1 = PolarToCartesian(r, theta, az) and
P2 = PolarToCartesian(r, theta, az + 2 asin(TileWidth/(2r)) / sin(theta)) has
length 2 r sin(theta) |sin(asin(TileWidth/(2r)) / sin(theta))|, which is
strictly less than TileWidth. -/
theorem cap_tile_narrower_off_equator {σo : Type} (m : MathLib ℝ) (s : SphereCap ℝ)
    (overrun : ℝ) (st : SphereState ℝ σo)
    (hSin : m.Sin = Real.sin) (hCos : m.Cos = Real.cos) (hAsin : m.Asin = Real.arcsin)
    (hSqrt : m.Sqrt = Real.sqrt) (hTW : 0 < s.TileWidth) (hTWR : s.TileWidth ≤ 2 * s.Radius)
    (hTH : 0 < s.TileHeight) (hTHR : s.TileHeight ≤ 2 * s.Radius)
    (hrow : 0 < Real.sin st.theta) (hoff : Real.sin st.theta < 1) :
    ThreeDistance m (s.specTopLeft m overrun st).p1.1 (s.specTopLeft m overrun st).p4.1
      (s.specTopLeft m overrun st).p1.2.1 (s.specTopLeft m overrun st).p4.2.1
      (s.specTopLeft m overrun st).p1.2.2 (s.specTopLeft m overrun st).p4.2.2 = s.TileHeight ∧
    ThreeDistance m (s.specTopLeft m overrun st).p1.1 (s.specTopLeft m overrun st).p2.1
      (s.specTopLeft m overrun st).p1.2.1 (s.specTopLeft m overrun st).p2.2.1
      (s.specTopLeft m overrun st).p1.2.2 (s.specTopLeft m overrun st).p2.2.2 =
        2 * s.Radius * Real.sin st.theta *
          |Real.sin (Real.arcsin (s.TileWidth / (2 * s.Radius)) / Real.sin st.theta)| ∧
    ThreeDistance m (s.specTopLeft m overrun st).p1.1 (s.specTopLeft m overrun st).p2.1
      (s.specTopLeft m overrun st).p1.2.1 (s.specTopLeft m overrun st).p2.2.1
      (s.specTopLeft m overrun st).p1.2.2 (s.specTopLeft m overrun st).p2.2.2 < s.TileWidth := by
  have hr0 : 0 < s.Radius := by linarith
  have hw1 : s.TileWidth / (2 * s.Radius) ≤ 1 := by
    rw [div_le_one (by linarith)]
    exact hTWR
  have hw0 : 0 < s.TileWidth / (2 * s.Radius) := by positivity
  have hh1 : s.TileHeight / (2 * s.Radius) ≤ 1 := by
    rw [div_le_one (by linarith)]
    exact hTHR
  have hh0 : 0 < s.TileHeight / (2 * s.Radius) := by positivity
  have hsw : Real.sin (Real.arcsin (s.TileWidth / (2 * s.Radius))) = s.TileWidth / (2 * s.Radius) :=
    Real.sin_arcsin (by linarith) hw1
  have hsh : Real.sin (Real.arcsin (s.TileHeight / (2 * s.Radius))) =
      s.TileHeight / (2 * s.Radius) := Real.sin_arcsin (by linarith) hh1
  have hwidth : ThreeDistance m (s.specTopLeft m overrun st).p1.1 (s.specTopLeft m overrun st).p2.1
      (s.specTopLeft m overrun st).p1.2.1 (s.specTopLeft m overrun st).p2.2.1
      (s.specTopLeft m overrun st).p1.2.2 (s.specTopLeft m overrun st).p2.2.2 =
        2 * s.Radius * Real.sin st.theta *
          |Real.sin (Real.arcsin (s.TileWidth / (2 * s.Radius)) / Real.sin st.theta)| := by
    simp only [SphereCap.specTopLeft, PolarToCartesian, ThreeDistance, SphereCap.rowInc,
      SphereCap.azimuthInc, SphereCap.thetaInc, hSin, hCos, hAsin, hSqrt, sub_add_cancel]
    rw [parallel_chord_sq, Real.sqrt_sq_eq_abs, mul_div_assoc, mul_div_cancel_left₀ _ (two_ne_zero),
      abs_mul, abs_of_pos (by positivity : 0 < 2 * s.Radius * Real.sin st.theta)]
  refine ⟨?_, hwidth, ?_⟩
  · simp only [SphereCap.specTopLeft, PolarToCartesian, ThreeDistance, SphereCap.thetaInc, hSin,
      hCos, hAsin, hSqrt, sub_add_cancel]
    rw [meridian_chord_sq, mul_div_cancel_left₀ _ (two_ne_zero), hsh, Real.sqrt_sq_eq_abs,
      abs_of_pos (by positivity)]
    field_simp
  · rw [hwidth]
    have ha : 0 < Real.arcsin (s.TileWidth / (2 * s.Radius)) := Real.arcsin_pos.mpr hw0
    have hlt := scaled_sine_lt _ _ ha (Real.arcsin_le_pi_div_two _) hrow hoff
    rw [hsw] at hlt
    have h2 : 2 * s.Radius * (Real.sin st.theta *
        |Real.sin (Real.arcsin (s.TileWidth / (2 * s.Radius)) / Real.sin st.theta)|) <
        2 * s.Radius * (s.TileWidth / (2 * s.Radius)) :=
      mul_lt_mul_of_pos_left hlt (by positivity)
    have h3 : 2 * s.Radius * (s.TileWidth / (2 * s.Radius)) = s.TileWidth := by
      field_simp
    linarith

/-- Witness of C22: the cap of radius 2 with unit tiles at the inclination
pi/6, whose sine is 1/2. -/
theorem cap_tile_narrower_off_equator_witness :
    (0 : ℝ) < Real.sin (Real.pi / 6) ∧ Real.sin (Real.pi / 6) < 1 ∧
    ThreeDistance (⟨Real.pi, Real.sin, Real.cos, Real.arcsin, Real.sqrt⟩ : MathLib ℝ)
      (SphereCap.specTopLeft ⟨Real.pi, Real.sin, Real.cos, Real.arcsin, Real.sqrt⟩
        (⟨1, 1, 2, 1, 1 / 2, 8, 8⟩ : SphereCap ℝ) 1
        (⟨(), [], 1, Real.pi / 6, 0, 0, 1 / 2, 1 / 2, 1 / 2, 0, 0, []⟩ : SphereState ℝ Unit)).p1.1
      (SphereCap.specTopLeft ⟨Real.pi, Real.sin, Real.cos, Real.arcsin, Real.sqrt⟩
        (⟨1, 1, 2, 1, 1 / 2, 8, 8⟩ : SphereCap ℝ) 1
        (⟨(), [], 1, Real.pi / 6, 0, 0, 1 / 2, 1 / 2, 1 / 2, 0, 0, []⟩ : SphereState ℝ Unit)).p2.1
      (SphereCap.specTopLeft ⟨Real.pi, Real.sin, Real.cos, Real.arcsin, Real.sqrt⟩
        (⟨1, 1, 2, 1, 1 / 2, 8, 8⟩ : SphereCap ℝ) 1
        (⟨(), [], 1, Real.pi / 6, 0, 0, 1 / 2, 1 / 2, 1 / 2, 0, 0, []⟩ : SphereState ℝ Unit)).p1.2.1
      (SphereCap.specTopLeft ⟨Real.pi, Real.sin, Real.cos, Real.arcsin, Real.sqrt⟩
        (⟨1, 1, 2, 1, 1 / 2, 8, 8⟩ : SphereCap ℝ) 1
        (⟨(), [], 1, Real.pi / 6, 0, 0, 1 / 2, 1 / 2, 1 / 2, 0, 0, []⟩ : SphereState ℝ Unit)).p2.2.1
      (SphereCap.specTopLeft ⟨Real.pi, Real.sin, Real.cos, Real.arcsin, Real.sqrt⟩
        (⟨1, 1, 2, 1, 1 / 2, 8, 8⟩ : SphereCap ℝ) 1
        (⟨(), [], 1, Real.pi / 6, 0, 0, 1 / 2, 1 / 2, 1 / 2, 0, 0, []⟩ : SphereState ℝ Unit)).p1.2.2
      (SphereCap.specTopLeft ⟨Real.pi, Real.sin, Real.cos, Real.arcsin, Real.sqrt⟩
        (⟨1, 1, 2, 1, 1 / 2, 8, 8⟩ : SphereCap ℝ) 1
        (⟨(), [], 1, Real.pi / 6, 0, 0, 1 / 2, 1 / 2, 1 / 2, 0, 0, []⟩ : SphereState ℝ Unit)).p2.2.2
      < 1 :=
  ⟨by rw [Real.sin_pi_div_six]; norm_num, by rw [Real.sin_pi_div_six]; norm_num,
    (cap_tile_narrower_off_equator ⟨Real.pi, Real.sin, Real.cos, Real.arcsin, Real.sqrt⟩
      ⟨1, 1, 2, 1, 1 / 2, 8, 8⟩ 1 ⟨(), [], 1, Real.pi / 6, 0, 0, 1 / 2, 1 / 2, 1 / 2, 0, 0, []⟩
      rfl rfl rfl rfl (by norm_num) (by norm_num) (by norm_num) (by norm_num)
      (by rw [Real.sin_pi_div_six]; norm_num) (by rw [Real.sin_pi_div_six]; norm_num)).2.2⟩

/-- C26. With the real square root, `ThreeDistance` of the points
(x1, y1, z1) and (x2, y2, z2) is their distance in Euclidean 3-space; it is
non-negative, it does not change when the two points are exchanged, and it
is zero exactly when the two points are equal. -/
theorem three_distance_euclidean (m : MathLib ℝ) (hSqrt : m.Sqrt = Real.sqrt)
    (x1 x2 y1 y2 z1 z2 : ℝ) :
    ThreeDistance m x1 x2 y1 y2 z1 z2 = dist ((WithLp.equiv 2 (Fin 3 → ℝ)).symm ![x1, y1, z1])
        ((WithLp.equiv 2 (Fin 3 → ℝ)).symm ![x2, y2, z2]) ∧
    0 ≤ ThreeDistance m x1 x2 y1 y2 z1 z2 ∧
    ThreeDistance m x1 x2 y1 y2 z1 z2 = ThreeDistance m x2 x1 y2 y1 z2 z1 ∧
    (ThreeDistance m x1 x2 y1 y2 z1 z2 = 0 ↔ x1 = x2 ∧ y1 = y2 ∧ z1 = z2) := by
  have hnn : 0 ≤ (x1 - x2) ^ 2 + (y1 - y2) ^ 2 + (z1 - z2) ^ 2 := by positivity
  refine ⟨?_, ?_, ?_, ?_⟩
  · simp only [ThreeDistance, hSqrt]
    rw [EuclideanSpace.dist_eq, Fin.sum_univ_three]
    simp [Real.dist_eq, sq_abs]
  · simp only [ThreeDistance, hSqrt]
    exact Real.sqrt_nonneg _
  · simp only [ThreeDistance, hSqrt]
    congr 1
    ring
  · simp only [ThreeDistance, hSqrt]
    rw [Real.sqrt_eq_zero hnn]
    constructor
    · intro h
      have hx : (x1 - x2) ^ 2 = 0 := by nlinarith [sq_nonneg (x1 - x2), sq_nonneg (y1 - y2), sq_nonneg (z1 - z2)]
      have hy : (y1 - y2) ^ 2 = 0 := by nlinarith [sq_nonneg (x1 - x2), sq_nonneg (y1 - y2), sq_nonneg (z1 - z2)]
      have hz : (z1 - z2) ^ 2 = 0 := by nlinarith [sq_nonneg (x1 - x2), sq_nonneg (y1 - y2), sq_nonneg (z1 - z2)]
      exact ⟨sub_eq_zero.mp (pow_eq_zero_iff (two_ne_zero)|>.mp hx),
        sub_eq_zero.mp (pow_eq_zero_iff (two_ne_zero)|>.mp hy),
        sub_eq_zero.mp (pow_eq_zero_iff (two_ne_zero)|>.mp hz)⟩
    · rintro ⟨rfl, rfl, rfl⟩
      simp

/-- Witness of C26: the points (0, 0, 0) and (3, 4, 0). -/
theorem three_distance_euclidean_witness :
    Real.sqrt = Real.sqrt ∧
    ThreeDistance (⟨Real.pi, Real.sin, Real.cos, Real.arcsin, Real.sqrt⟩ : MathLib ℝ) 0 3 0 4 0 0 =
      ThreeDistance (⟨Real.pi, Real.sin, Real.cos, Real.arcsin, Real.sqrt⟩ : MathLib ℝ) 3 0 4 0 0 0 :=
  ⟨rfl, (three_distance_euclidean ⟨Real.pi, Real.sin, Real.cos, Real.arcsin, Real.sqrt⟩ rfl
    0 3 0 4 0 0).2.2.1⟩

/-- Witness of C30: the real sine and cosine at r = 2, theta = 1, phi = 3. -/
theorem polar_conversions_agree_witness :
    (∀ x : ℝ, Real.sin x ^ 2 + Real.cos x ^ 2 = 1) ∧
    (PolarToCartesian (⟨Real.pi, Real.sin, Real.cos, Real.arcsin, Real.sqrt⟩ : MathLib ℝ)
        2 1 3).1 ^ 2 +
      (PolarToCartesian (⟨Real.pi, Real.sin, Real.cos, Real.arcsin, Real.sqrt⟩ : MathLib ℝ)
        2 1 3).2.1 ^ 2 +
      (PolarToCartesian (⟨Real.pi, Real.sin, Real.cos, Real.arcsin, Real.sqrt⟩ : MathLib ℝ)
        2 1 3).2.2 ^ 2 = 2 ^ 2 :=
  ⟨Real.sin_sq_add_cos_sq,
    (polar_conversions_agree ⟨Real.pi, Real.sin, Real.cos, Real.arcsin, Real.sqrt⟩ 2 1 3
      Real.sin_sq_add_cos_sq).2⟩

end RealClaims

end Tsig
